import Mathlib

/-! GServer-v2 session and protocol core: a shallow embedding.

The development embeds the property codec (`TPlayer::getProp`, `TPlayer::setProps`),
the unknown-opcode handler (`TPlayer::msgPLI_NULL`), the warp entry point
(`TPlayer::warp`) and the level-scoped router (`TServer::sendPacketToLevel`) of
`server/src/TPlayerProps.cpp`, `server/src/TPlayer.cpp` and `server/src/TServer.cpp`.

Conventions.
* A `CString` value is the list of its bytes (`Bytes`); the packet being decoded is
  represented by its unread part (the bytes from the read cursor on).
* C++ `float` fields are rationals: every value the modelled paths compute is a dyadic
  rational that a `float` holds exactly (halves and sixteenths of small integers).
* Pointers are natural numbers; a nullable pointer is an `Option Nat`.
* Effects on collaborators (outbound queues, broadcasts, level items) are appended to an
  event log, in program order.
* A null dereference is undefined behaviour and is reported as `none`.
-/

namespace GServer

/-- The bytes of a `CString`. -/
abbrev Bytes := List Nat

/-- Bytes of a string literal. -/
def str (s : String) : Bytes := s.toList.map Char.toNat

/-- Conversion to `unsigned char`. -/
def toU8 (v : Int) : Nat := (v % 256).toNat

/-- Conversion to `unsigned short`. -/
def toU16 (v : Int) : Nat := (v % 65536).toNat

/-- Conversion to `unsigned int`. -/
def toU32 (v : Int) : Nat := (v % 4294967296).toNat

/-- Conversion of an unsigned 32-bit value to `int`. -/
def toS32 (v : Nat) : Int :=
  if v % 4294967296 < 2147483648 then ((v % 4294967296 : Nat) : Int)
  else ((v % 4294967296 : Nat) : Int) - 4294967296

/-- Conversion of a `float` to an integer type: truncation toward zero. -/
def ftoi (q : ℚ) : Int := Int.tdiv q.num (q.den : Int)

/-- Modelled from the spec: `clip` of `IUtil.h` (not under src/), the clamp of a value
into `[lo, hi]` behind the "documented clamps" of the property codec. -/
def clip {α : Type} [LT α] [DecidableRel (fun (a b : α) => a < b)] (v lo hi : α) : α :=
  if v < lo then lo else if hi < v then hi else v

/-- Modelled from the spec: `inrange` of `IUtil.h` (not under src/). -/
def inrange {α : Type} [LE α] [DecidableRel (fun (a b : α) => a ≤ b)] (a lo hi : α) : Bool :=
  decide (lo ≤ a) && decide (a ≤ hi)

/-! ## Wire codec (`CString` of the gs2lib dependency) -/

/-- Modelled from the spec: `CString::writeGChar` (class `CString` is not under src/).
A field byte is stored biased by +32, so one wire byte carries 0..223; a larger value
saturates at 223. -/
def writeGChar (v : Int) : Bytes := [min (toU8 v) 223 + 32]

/-- Modelled from the spec: `CString::writeGShort`, two wire bytes of seven bits each,
both biased by +32; the largest value carried is 28767. -/
def writeGShort (v : Int) : Bytes :=
  let t := min (toU16 v) 28767
  let b0 := min (t / 128) 223
  [b0 + 32, (t - b0 * 128) + 32]

/-- Modelled from the spec: `CString::writeGInt`, three biased wire bytes. -/
def writeGInt (v : Int) : Bytes :=
  let t := min (toU32 v) 3682399
  let b0 := min (t / 16384) 223
  let t1 := t - b0 * 16384
  let b1 := min (t1 / 128) 223
  [b0 + 32, b1 + 32, (t1 - b1 * 128) + 32]

/-- Modelled from the spec: `CString::writeGInt5`, five biased wire bytes. -/
def writeGInt5 (v : Int) : Bytes :=
  let t := min (v % 18446744073709551616).toNat 4294967295
  let b0 := min (t / 268435456) 223
  let t1 := t - b0 * 268435456
  let b1 := min (t1 / 2097152) 223
  let t2 := t1 - b1 * 2097152
  let b2 := min (t2 / 16384) 223
  let t3 := t2 - b2 * 16384
  let b3 := min (t3 / 128) 223
  [b0 + 32, b1 + 32, b2 + 32, b3 + 32, (t3 - b3 * 128) + 32]

/-- Modelled from the spec: `CString::readChar`; "reading past the end must yield a
well-defined empty/zero value". -/
def readChar (pk : Bytes) : Nat × Bytes := (pk.headD 0 % 256, pk.tail)

/-- Modelled from the spec: `CString::readChars`, at most `n` bytes. -/
def readChars (n : Nat) (pk : Bytes) : Bytes × Bytes := (pk.take n, pk.drop n)

/-- Modelled from the spec: `CString::readGUChar`, one wire byte with the bias removed. -/
def readGUChar (pk : Bytes) : Nat × Bytes := (((readChar pk).1 + 224) % 256, (readChar pk).2)

/-- Modelled from the spec: `CString::readGUShort`. -/
def readGUShort (pk : Bytes) : Nat × Bytes :=
  let r0 := readChar pk
  let r1 := readChar r0.2
  (toU16 ((r0.1 : Int) * 128 + (r1.1 : Int) - 4128), r1.2)

/-- Modelled from the spec: `CString::readGInt`. -/
def readGInt (pk : Bytes) : Int × Bytes :=
  let r0 := readChar pk
  let r1 := readChar r0.2
  let r2 := readChar r1.2
  ((r0.1 : Int) * 16384 + (r1.1 : Int) * 128 + (r2.1 : Int) - 528416, r2.2)

/-- Modelled from the spec: `CString::readGUInt`. -/
def readGUInt (pk : Bytes) : Nat × Bytes := (toU32 (readGInt pk).1, (readGInt pk).2)

/-- Modelled from the spec: `CString::readGInt4`. -/
def readGInt4 (pk : Bytes) : Int × Bytes :=
  let r0 := readChar pk
  let r1 := readChar r0.2
  let r2 := readChar r1.2
  let r3 := readChar r2.2
  ((r0.1 : Int) * 2097152 + (r1.1 : Int) * 16384 + (r2.1 : Int) * 128 + (r3.1 : Int) - 67637280,
    r3.2)

/-- Modelled from the spec: `CString::readGInt5`. -/
def readGInt5 (pk : Bytes) : Int × Bytes :=
  let r0 := readChar pk
  let r1 := readChar r0.2
  let r2 := readChar r1.2
  let r3 := readChar r2.2
  let r4 := readChar r3.2
  ((r0.1 : Int) * 268435456 + (r1.1 : Int) * 2097152 + (r2.1 : Int) * 16384
      + (r3.1 : Int) * 128 + (r4.1 : Int) - 8657571872, r4.2)

/-! ## Protocol constants

The enumerations live in `IEnums.h`, which is not under src/; the values below are the
protocol's numbering, which the tables `__attrPackets` and `__sendLocal` of
`TPlayer.cpp` are indexed by. -/

/-- Session role bits (`PLTYPE_*`); the awaiting-login role is the all-ones pattern. -/
abbrev PLTYPE_AWAIT : Nat := 4294967295
abbrev PLTYPE_CLIENT : Nat := 1
abbrev PLTYPE_RC : Nat := 2
abbrev PLTYPE_NPCSERVER : Nat := 4
abbrev PLTYPE_NC : Nat := 8
abbrev PLTYPE_CLIENT2 : Nat := 16
abbrev PLTYPE_CLIENT3 : Nat := 32
abbrev PLTYPE_RC2 : Nat := 64
abbrev PLTYPE_ANYCLIENT : Nat := 49

/-- Status bits (`PLSTATUS_*`). -/
abbrev PLSTATUS_PAUSED : Nat := 1
abbrev PLSTATUS_DEAD : Nat := 8

/-- Map kinds (`MAPTYPE_*`). -/
abbrev MAPTYPE_BIGMAP : Nat := 0
abbrev MAPTYPE_GMAP : Nat := 1

/-- Property ids (`PLPROP_*`) that the code below names outside a `case` label. -/
abbrev PLPROP_CURPOWER : Nat := 2
abbrev PLPROP_RUPEESCOUNT : Nat := 3
abbrev PLPROP_ARROWSCOUNT : Nat := 4
abbrev PLPROP_BOMBSCOUNT : Nat := 5
abbrev PLPROP_GLOVEPOWER : Nat := 6
abbrev PLPROP_BOMBPOWER : Nat := 7
abbrev PLPROP_MAXPOWER : Nat := 1
abbrev PLPROP_X : Nat := 15
abbrev PLPROP_Y : Nat := 16
abbrev PLPROP_STATUS : Nat := 18
abbrev PLPROP_CARRYNPC : Nat := 24
abbrev PLPROP_APCOUNTER : Nat := 25
abbrev PLPROP_MAGICPOINTS : Nat := 26
abbrev PLPROP_UDPPORT : Nat := 31
abbrev PLPROP_ALIGNMENT : Nat := 32
abbrev PLPROP_ATTACHNPC : Nat := 42
abbrev PLPROP_GMAPLEVELX : Nat := 43
abbrev PLPROP_GMAPLEVELY : Nat := 44
abbrev PLPROP_Z : Nat := 45
abbrev PLPROP_PSTATUSMSG : Nat := 53
abbrev PLPROP_X2 : Nat := 78
abbrev PLPROP_Y2 : Nat := 79
abbrev PLPROP_Z2 : Nat := 80

/-- Outbound and inbound opcodes (`PLO_*`, `PLI_*`) used by the modelled paths. -/
abbrev PLO_OTHERPLPROPS : Nat := 8
abbrev PLO_PLAYERPROPS : Nat := 9
abbrev PLO_ISLEADER : Nat := 10
abbrev PLO_DISCMESSAGE : Nat := 16
abbrev PLO_ITEMADD : Nat := 22
abbrev PLO_HITOBJECTS : Nat := 46
abbrev PLO_NPCDEL2 : Nat := 150
abbrev PLO_SAY2 : Nat := 153
abbrev PLI_ITEMADD : Nat := 12

/-- The table `__sendLocal` of `TPlayer.cpp` (83 entries). -/
def __sendLocal : List Bool :=
  [ false, false, true,  false, false, false,
    false, false, true,  true,  true,  true,
    true,  true,  false, true,  true,  true,
    true,  true,  true,  true,  false, false,
    true,  true,  false, false, false, false,
    true,  true,  true,  false, true,  true,
    true,  true,  true,  true,  true,  true,
    false, true,  true,  true,  true,  true,
    true,  true,  true,  false, false, true,
    true,  true,  true,  true,  true,  true,
    true,  true,  true,  true,  true,  true,
    true,  true,  true,  true,  true,  true,
    true,  true,  true,  false, false, false,
    true,  true,  true,  false, true ]

/-- The table `__attrPackets` of `TPlayer.cpp`. -/
def __attrPackets : List Nat :=
  [37, 38, 39, 40, 41, 46, 47, 48, 49, 54, 55, 56, 57, 58, 59, 60, 61, 62, 63, 64, 65, 66, 67,
   68, 69, 70, 71, 72, 73, 74]

/-! ## Data model -/

/-- Modelled from the spec: a level sign (`TLevelSign` is not under src/): its position
and its text as shown to the client. -/
structure TLevelSign where
  x : Int
  y : Int
  uText : Bytes

/-- Modelled from the spec: the part of `TLevel` (not under src/) the session code
touches. The occupant list holds session pointers, the first entry being the leader. -/
structure TLevel where
  levelName : Bytes
  actualLevelName : Bytes
  levelPlayerList : List Nat
  sparringZone : Bool
  singleplayer : Bool
  levelSigns : List TLevelSign

/-- Modelled from the spec: the part of `TMap` (not under src/) the session code reads. -/
structure TMap where
  type : Nat
  groupMap : Bool
  mapName : Bytes
  getLevelX : Bytes → Int
  getLevelY : Bytes → Int
  getLevelAt : Int → Int → Bytes

/-- A session: the fields of `TPlayer` and of its base `TAccount` that the modelled
functions read or write. `ptr` is the identity of the object. -/
structure TPlayer where
  ptr : Nat
  id : Int
  type : Nat
  versionID : Nat
  loaded : Bool
  isExternal : Bool
  invalidPackets : Int
  level : Option Nat
  pmap : Option Nat
  levelGroup : Bytes
  cachedLevels : List (Nat × Int)
  accountName : Bytes
  nickName : Bytes
  guild : Bytes
  communityName : Bytes
  language : Bytes
  os : Bytes
  codepage : Int
  levelName : Bytes
  maxPower : Int
  power : ℚ
  gralatc : Int
  arrowc : Int
  bombc : Int
  glovePower : Int
  bombPower : Int
  swordPower : Int
  swordImg : Bytes
  shieldPower : Int
  shieldImg : Bytes
  bowPower : Int
  bowImage : Bytes
  gani : Bytes
  headImg : Bytes
  bodyImg : Bytes
  horseImg : Bytes
  horsec : Int
  chatMsg : Bytes
  lastChat : Int
  colors : List Nat
  x : ℚ
  y : ℚ
  z : ℚ
  x2 : Int
  y2 : Int
  z2 : Int
  gmaplevelx : Int
  gmaplevely : Int
  sprite : Int
  status : Nat
  carrySprite : Int
  carryNpcId : Nat
  attachNPC : Nat
  apCounter : Int
  ap : Int
  mp : Int
  kills : Int
  deaths : Int
  onlineTime : Int
  accountIp : Nat
  udpport : Int
  additionalFlags : Int
  rating : ℚ
  deviation : ℚ
  statusMsg : Nat
  attrList : List Bytes
  lastMovement : Int
  grMovementUpdated : Bool

/-- An effect on a collaborator, in program order. -/
inductive Event where
  /-- A packet appended to the outbound queue of a session (`fileQueue.addPacket`). -/
  | queued (session : Nat) (pkt : Bytes)
  /-- The call `TServer::sendPacketToAll(pkt, pPlayer)`. -/
  | toAll (pkt : Bytes) (pPlayer : Option Nat)
  /-- The call `TServer::sendPacketTo(who, pkt, pPlayer)`. -/
  | toType (who : Nat) (pkt : Bytes) (pPlayer : Option Nat)
  /-- The call `TServer::sendPacketToLevel(pkt, pMap, pLevel, pPlayer, onlyGmap)`. -/
  | toLevel (pkt : Bytes) (pMap : Option Nat) (pLevel : Option Nat) (pPlayer : Option Nat)
      (onlyGmap : Bool)
  /-- The call `TServer::sendPacketToLevel(pkt, pMap, pPlayer, sendToSelf, onlyGmap)`. -/
  | toLevelOf (pkt : Bytes) (pMap : Option Nat) (pPlayer : Nat) (sendToSelf onlyGmap : Bool)
  /-- The call `TLevel::addItem`. -/
  | addItem (level : Nat) (x y : ℚ) (item : Nat)
  /-- The call `TLevel::removeNPC(server->getNPC(id))`. -/
  | removeNPC (level : Nat) (npcId : Nat)
  /-- The call `TLevel::sendChatToLevel`. -/
  | chatToLevel (level : Nat) (player : Nat) (msg : Bytes)
  /-- The call `TLevel::testTouch` followed by the queued touch actions. -/
  | touchTest (level : Nat) (x y : Int) (player : Nat)
  /-- A line written to the server log. -/
  | serverlog (text : Bytes)
  /-- The call `TServer::deletePlayer`. -/
  | deletePlayer (player : Nat)

/-- The mutable state a session method runs in: the session itself, the level objects
(by pointer), the other sessions of the server's player list, the event log and the
number of `rand()` calls made so far. -/
structure World where
  self : TPlayer
  levels : Nat → TLevel
  playerList : List TPlayer
  out : List Event
  randc : Nat

/-- Result of the word filter (`CWordFilter::apply`, not under src/): the action bits the
caller tests and the text as the filter left it. -/
structure FilterResult where
  warn : Bool
  replace : Bool
  text : Bytes

/-- The collaborators of the session code that are not under src/ (settings, clock, maps,
word filter, `TAccount` setters, enum values of client versions), and the session
methods the modelled paths call but whose bodies these paths do not depend on. -/
structure Env where
  now : Int
  rand : Nat → Nat
  v8npcserver : Bool
  CLVER_2_1 : Nat
  CLVER_2_3 : Nat
  maps : Nat → TMap
  statusListSize : Nat
  swordlimit : Int
  shieldlimit : Int
  normaladminscanchangegralats : Bool
  duplicatecanbecarried : Bool
  serverside : Bool
  dropitemsdead : Bool
  mindeathgralats : Int
  maxdeathgralats : Int
  unstickmelevel : Bytes
  unstickmex : ℚ
  unstickmey : ℚ
  serverName : Bytes
  getExtension : Bytes → Bytes
  wordFilterNick : TPlayer → Bytes → FilterResult
  wordFilterChat : TPlayer → Bytes → FilterResult
  isStaff : TPlayer → Bool
  hasRightSetRights : TPlayer → Bool
  isLoggedIn : TPlayer → Bool
  setPower : ℚ → TPlayer → TPlayer
  setMaxPower : Int → TPlayer → TPlayer
  setSwordPower : Int → TPlayer → TPlayer
  setShieldPower : Int → TPlayer → TPlayer
  setSwordImage : Bytes → World → World
  setShieldImage : Bytes → World → World
  setHeadImage : Bytes → World → World
  setBodyImage : Bytes → World → World
  setGani : Bytes → TPlayer → TPlayer
  setNick : Bytes → Bool → World → World
  processChat : Bytes → World → Bool × World
  findLevel : Bytes → World → Option Nat
  getMap : Option Nat → Option Nat
  leaveLevel : World → World
  setLevel : Bytes → Int → World → Bool × World

/-- The inline test `TPlayer::isClient`: any of the three client role bits. -/
def TPlayer.isClient (p : TPlayer) : Bool := p.type &&& PLTYPE_ANYCLIENT != 0

/-- The inline accessor `TPlayer::isLoaded`. -/
def TPlayer.isLoaded (p : TPlayer) : Bool := p.loaded

/-- Modelled from the spec: `TLevel::getPlayer(i)`, the i-th occupant or null. -/
def TLevel.getPlayer (l : TLevel) (i : Nat) : Option Nat := l.levelPlayerList.get? i

/-- Modelled from the spec: `TLevel::removePlayer`; the session leaves the occupant list. -/
def TLevel.removePlayer (l : TLevel) (p : Nat) : TLevel :=
  { l with levelPlayerList := l.levelPlayerList.filter (fun q => q != p) }

/-- Modelled from the spec: `TLevel::addPlayer`; the session joins at the end of the
occupant list. -/
def TLevel.addPlayer (l : TLevel) (p : Nat) : TLevel :=
  { l with levelPlayerList := l.levelPlayerList ++ [p] }

/-- Appends events to the log. -/
def World.emit (w : World) (es : List Event) : World := { w with out := w.out ++ es }

/-- The method `TPlayer::sendPacket(pPacket, appendNL)` on session `p`: an empty packet
is dropped, otherwise the packet is queued, newline-terminated when asked. -/
def sendPacket (p : Nat) (pPacket : Bytes) (appendNL : Bool) : List Event :=
  if pPacket.isEmpty then []
  else if appendNL && pPacket.getLast? != some 10 then [Event.queued p (pPacket ++ [10])]
  else [Event.queued p pPacket]

/-! ## `TPlayer::getProp` (TPlayerProps.cpp 19-310) -/

/-- Index into `attrList` of a property id of the `__attrPackets` table. -/
def attrIndex (pPropId : Nat) : Option Nat :=
  let i := __attrPackets.indexOf pPropId
  if i < __attrPackets.length then some i else none

/-- The sign-magnitude short of a precise coordinate: `abs(c) << 1`, bit 0 set when
`c < 0` (`getProp`, cases `PLPROP_X2`, `PLPROP_Y2`, `PLPROP_Z2`). -/
def encodeCoord2 (c : Int) : Nat :=
  let val := toU16 ((c.natAbs : Int) * 2)
  if c < 0 then val ||| 1 else val

/-- The bytes `TPlayer::getProp(buffer, pPropId)` appends to `buffer`. -/
def getProp (env : Env) (levels : Nat → TLevel) (p : TPlayer) (pPropId : Nat) : Bytes :=
  match pPropId with
  | 0 => writeGChar p.nickName.length ++ p.nickName
  | 1 => writeGChar p.maxPower
  | 2 => writeGChar (ftoi (p.power * 2))
  | 3 => writeGInt p.gralatc
  | 4 => writeGChar p.arrowc
  | 5 => writeGChar p.bombc
  | 6 => writeGChar p.glovePower
  | 7 => writeGChar p.bombPower
  | 8 => writeGChar (p.swordPower + 30) ++ writeGChar p.swordImg.length ++ p.swordImg
  | 9 => writeGChar (p.shieldPower + 10) ++ writeGChar p.shieldImg.length ++ p.shieldImg
  | 10 =>
    if p.isClient && p.versionID < env.CLVER_2_1 then
      if !p.bowImage.isEmpty then writeGChar (10 + p.bowImage.length) ++ p.bowImage
      else writeGChar p.bowPower
    else writeGChar p.gani.length ++ p.gani
  | 11 => writeGChar (p.headImg.length + 100) ++ p.headImg
  | 12 => writeGChar p.chatMsg.length ++ p.chatMsg
  | 13 =>
    writeGChar (p.colors.getD 0 0) ++ writeGChar (p.colors.getD 1 0)
      ++ writeGChar (p.colors.getD 2 0) ++ writeGChar (p.colors.getD 3 0)
      ++ writeGChar (p.colors.getD 4 0)
  | 14 => writeGShort p.id
  | 15 => writeGChar (ftoi (p.x * 2))
  | 16 => writeGChar (ftoi (p.y * 2))
  | 45 => writeGChar (ftoi ((p.z + 1 / 2) + 50))
  | 17 => writeGChar p.sprite
  | 18 => writeGChar p.status
  | 19 => writeGChar p.carrySprite
  | 20 =>
    if p.isClient then
      match p.pmap with
      | some m =>
        if (env.maps m).type == MAPTYPE_GMAP then
          writeGChar (env.maps m).mapName.length ++ (env.maps m).mapName
        else if p.level.isSome && (p.level.map (fun l => (levels l).singleplayer)) == some true
        then writeGChar (p.levelName.length + 13) ++ p.levelName ++ str ".singleplayer"
        else writeGChar p.levelName.length ++ p.levelName
      | none =>
        if p.level.isSome && (p.level.map (fun l => (levels l).singleplayer)) == some true
        then writeGChar (p.levelName.length + 13) ++ p.levelName ++ str ".singleplayer"
        else writeGChar p.levelName.length ++ p.levelName
    else writeGChar 1 ++ str " "
  | 21 => writeGChar p.horseImg.length ++ p.horseImg
  | 22 => writeGChar p.horsec
  | 23 => writeGChar 0
  | 24 => writeGInt p.carryNpcId
  | 25 => writeGShort (p.apCounter + 1)
  | 26 => writeGChar p.mp
  | 27 => writeGInt p.kills
  | 28 => writeGInt p.deaths
  | 29 => writeGInt p.onlineTime
  | 30 => writeGInt5 p.accountIp
  | 31 => writeGInt p.udpport
  | 32 => writeGChar p.ap
  | 33 => writeGChar p.additionalFlags
  | 34 => writeGChar p.accountName.length ++ p.accountName
  | 35 => writeGChar p.bodyImg.length ++ p.bodyImg
  | 36 =>
    writeGInt ((((toU32 (ftoi p.rating)) &&& 4095) <<< 9 ||| ((toU32 (ftoi p.deviation)) &&& 511)
      : Nat) : Int)
  | 42 => writeGChar 0 ++ writeGInt p.attachNPC
  | 50 => writeGChar 1
  | 51 => []
  | 52 => writeGChar p.language.length ++ p.language
  | 53 =>
    if 1 ≤ env.statusListSize ∧ p.statusMsg > env.statusListSize - 1 then writeGChar 0
    else writeGChar p.statusMsg
  | 75 => writeGChar p.os.length ++ p.os
  | 76 => writeGInt p.codepage
  | 78 => writeGShort (encodeCoord2 p.x2)
  | 79 => writeGShort (encodeCoord2 p.y2)
  | 80 => writeGShort (encodeCoord2 p.z2)
  | 43 => writeGChar p.gmaplevelx
  | 44 => writeGChar p.gmaplevely
  | 81 => []
  | 82 => writeGChar p.communityName.length ++ p.communityName
  | _ =>
    match attrIndex pPropId with
    | some i =>
      let len := min (p.attrList.getD i []).length 223
      writeGChar len ++ (p.attrList.getD i []).take len
    | none => []

/-! ## `TPlayer::setProps` (TPlayerProps.cpp 312-1013)

The function is embedded as a state-passing program over its local variables
(`Locals`), the unread part of `pPacket` and the bytes appended to its four buffers. -/

/-- The locals of `setProps` that outlive one loop iteration and are read again, with the
world. (`len` is assigned before every use and so is a local of each case.) -/
structure Locals where
  w : World
  doSignCheck : Bool
  doTouchTest : Bool
  sentInvalid : Bool

/-- The four outgoing buffers of `setProps`. The loop only ever appends to them; they are
read once, behind the loop. -/
structure Bufs where
  globalBuff : Bytes
  levelBuff : Bytes
  levelBuff2 : Bytes
  selfBuff : Bytes

/-- The empty buffers. -/
def Bufs.empty : Bufs := { globalBuff := [], levelBuff := [], levelBuff2 := [], selfBuff := [] }

/-- Buffer-wise concatenation. -/
def Bufs.append (a b : Bufs) : Bufs :=
  { globalBuff := a.globalBuff ++ b.globalBuff
    levelBuff := a.levelBuff ++ b.levelBuff
    levelBuff2 := a.levelBuff2 ++ b.levelBuff2
    selfBuff := a.selfBuff ++ b.selfBuff }

/-- A step of `setProps`: from the locals and the unread packet to a result, the new
locals, the new unread packet and the bytes appended to the buffers; `none` is undefined
behaviour. -/
def PM (α : Type) : Type := Locals → Bytes → Option (α × Locals × Bytes × Bufs)

/-- Sequencing of steps. -/
def PM.bind {α β : Type} (m : PM α) (f : α → PM β) : PM β := fun s pk =>
  match m s pk with
  | none => none
  | some (a, s1, pk1, o1) =>
    match f a s1 pk1 with
    | none => none
    | some (b, s2, pk2, o2) => some (b, s2, pk2, o1.append o2)

/-- A step that only returns a value. -/
def PM.pure {α : Type} (a : α) : PM α := fun s pk => some (a, s, pk, Bufs.empty)

instance : Monad PM where
  pure := PM.pure
  bind := PM.bind

/-- A read on `pPacket`. -/
def PM.read {α : Type} (r : Bytes → α × Bytes) : PM α :=
  fun s pk => some ((r pk).1, s, (r pk).2, Bufs.empty)

/-- The call `pPacket.bytesLeft()`. -/
def PM.bytesLeft : PM Nat := fun s pk => some (pk.length, s, pk, Bufs.empty)

/-- The current locals. -/
def PM.get : PM Locals := fun s pk => some (s, s, pk, Bufs.empty)

/-- An update of the locals. -/
def PM.modify (f : Locals → Locals) : PM Unit := fun s pk => some ((), f s, pk, Bufs.empty)

/-- An append to the buffers. -/
def PM.write (o : Bufs) : PM Unit := fun s pk => some ((), s, pk, o)

/-- Undefined behaviour. -/
def PM.fault {α : Type} : PM α := fun _ _ => none

/-- The session `this`. -/
def getSelf : PM TPlayer := do
  let s ← PM.get
  pure s.w.self

/-- The world. -/
def getWorld : PM World := do
  let s ← PM.get
  pure s.w

/-- An update of the world. -/
def modWorld (f : World → World) : PM Unit := PM.modify (fun s => { s with w := f s.w })

/-- An update of the fields of `this`. -/
def modSelf (f : TPlayer → TPlayer) : PM Unit :=
  PM.modify (fun s => { s with w := { s.w with self := f s.w.self } })

/-- Effects on collaborators. -/
def emit (es : List Event) : PM Unit := modWorld (fun w => w.emit es)

/-- The level `this->level` points to; dereferencing a null pointer is undefined. -/
def derefLevel : PM (Nat × TLevel) := do
  let w ← getWorld
  match w.self.level with
  | some l => pure (l, w.levels l)
  | none => PM.fault

/-- The bytes of `getProp(propId)` on `this`, in the current state. -/
def propBytes (env : Env) (propId : Nat) : PM Bytes := do
  let w ← getWorld
  pure (getProp env w.levels w.self propId)

/-- The statement `globalBuff >> (char)propId << getProp(propId)`. -/
def toGlobalBuff (env : Env) (propId : Nat) : PM Unit := do
  let b ← propBytes env propId
  PM.write { Bufs.empty with globalBuff := writeGChar propId ++ b }

/-- The statement `levelBuff >> (char)propId << getProp(propId)`. -/
def toLevelBuff (env : Env) (propId : Nat) : PM Unit := do
  let b ← propBytes env propId
  PM.write { Bufs.empty with levelBuff := writeGChar propId ++ b }

/-- The statement `levelBuff2 >> (char)propId << getProp(propId)`. -/
def toLevelBuff2 (env : Env) (propId : Nat) : PM Unit := do
  let b ← propBytes env propId
  PM.write { Bufs.empty with levelBuff2 := writeGChar propId ++ b }

/-- The statement `selfBuff >> (char)propId << getProp(propId)`. -/
def toSelfBuff (env : Env) (propId : Nat) : PM Unit := do
  let b ← propBytes env propId
  PM.write { Bufs.empty with selfBuff := writeGChar propId ++ b }

/-- How a `case` of the decode switch leaves: `break` (on to the forwarding code after the
switch), `continue` (next iteration at once) or `return` (out of `setProps`). -/
inductive Flow where
  | brk
  | cont
  | ret
  deriving DecidableEq

/-- Clears the bits of `mask` in `v` (`v &= ~mask`). -/
def clearBits (v mask : Nat) : Nat := v ^^^ (v &&& mask)

/-- The text `CString(n)` of an integer. -/
def intText (n : Int) : Bytes := str (toString n)

/-- The image-name fix-up shared by the image properties: a non-empty name without
extension gets ".gif" for clients older than 2.1. -/
def addGif (env : Env) (versionID : Nat) (img : Bytes) : Bytes :=
  if !img.isEmpty && decide (versionID < env.CLVER_2_1) && (env.getExtension img).isEmpty
  then img ++ str ".gif" else img

/-- The suffix `(versionID < CLVER_2_1 ? ".gif" : ".png")`. -/
def defaultExt (env : Env) (versionID : Nat) : Bytes :=
  if versionID < env.CLVER_2_1 then str ".gif" else str ".png"

/-- The C string starting at a byte sequence (`pPacket.text() + 1`): up to the first NUL. -/
def cstr (b : Bytes) : Bytes := b.takeWhile (fun c => c != 0)

/-- The call `replaceAll("\n", "#b")` on a text. -/
def replaceNewlines (b : Bytes) : Bytes :=
  b.flatMap (fun c => if c = 10 then [35, 98] else [c])

/-! ## Session methods called from `setProps` (TPlayer.cpp) -/

/-- The handler `TPlayer::msgPLI_ITEMADD(pPacket)` (TPlayer.cpp 2543-2551), entered with
the read cursor behind the opcode byte. -/
def msgPLI_ITEMADD (w : World) (pPacket : Bytes) : Option (Bool × World) :=
  let r0 := readGUChar pPacket.tail
  let r1 := readGUChar r0.2
  let r2 := readGUChar r1.2
  match w.self.level with
  | none => none
  | some l =>
    some (true, w.emit
      [ Event.addItem l ((r0.1 : ℚ) / 2) ((r1.1 : ℚ) / 2) r2.1,
        Event.toLevel (writeGChar PLO_ITEMADD ++ cstr pPacket.tail) none (some l)
          (some w.self.ptr) false ])

/-- One dropped item of `dropItemsOnDeath`: a random spot near the session, the
synthesized item-add packet handed to `msgPLI_ITEMADD`, and the echo to the session. -/
def dropOne (env : Env) (item : Nat) (w : World) : Option World :=
  let pX : ℚ := w.self.x + 3 / 2 + ((env.rand w.randc % 8 : Nat) : ℚ) - 2
  let pY : ℚ := w.self.y + 2 + ((env.rand (w.randc + 1) % 8 : Nat) : ℚ) - 2
  let packet := writeGChar PLI_ITEMADD ++ writeGChar (ftoi (pX * 2)) ++ writeGChar (ftoi (pY * 2))
    ++ writeGChar item
  match msgPLI_ITEMADD { w with randc := w.randc + 2 } packet with
  | none => none
  | some (_, w1) =>
    some (w1.emit (sendPacket w1.self.ptr (writeGChar PLO_ITEMADD ++ packet.drop 1) true))

/-- The denomination loop `while (drop_gralats != 0)` of `dropItemsOnDeath`; `none` when
the fuel does not reach `drop_gralats = 0`. -/
def dropGralats (env : Env) : Nat → Int → World → Option World
  | 0, drop_gralats, w => if drop_gralats = 0 then some w else none
  | fuel + 1, drop_gralats, w =>
    if drop_gralats = 0 then some w
    else
      let next : Int × Nat :=
        if Int.tmod drop_gralats 100 ≠ drop_gralats then (drop_gralats - 100, 19)
        else if Int.tmod drop_gralats 30 ≠ drop_gralats then (drop_gralats - 30, 2)
        else if Int.tmod drop_gralats 5 ≠ drop_gralats then (drop_gralats - 5, 1)
        else (drop_gralats - 1, 0)
      match dropOne env next.2 w with
      | none => none
      | some w1 => dropGralats env fuel next.1 w1

/-- A counted loop `for (i = 0; i < n; ++i)` dropping one item per round. -/
def dropMany (env : Env) (item : Nat) : Nat → World → Option World
  | 0, w => some w
  | n + 1, w =>
    match dropOne env item w with
    | none => none
    | some w1 => dropMany env item n w1

/-- The three loops at the end of `dropItemsOnDeath` (lines 886-943): gralats, then
arrows (item 4), then bombs (item 3) are added to the level. -/
def dropToLevel (env : Env) (drop_gralats drop_arrows drop_bombs : Int) (w : World) :
    Option World :=
  match dropGralats env drop_gralats.toNat drop_gralats w with
  | none => none
  | some w3 =>
    match dropMany env 4 drop_arrows.toNat w3 with
    | none => none
    | some w4 => dropMany env 3 drop_bombs.toNat w4

/-- The method `TPlayer::dropItemsOnDeath` (TPlayer.cpp 857-944). -/
def dropItemsOnDeath (env : Env) (w : World) : Option World :=
  if !env.dropitemsdead then some w
  else
    let g : Int × World :=
      if env.maxdeathgralats > 0 then
        let d := Int.tmod (env.rand w.randc : Int) env.maxdeathgralats
        (if d > w.self.gralatc then w.self.gralatc else d, { w with randc := w.randc + 1 })
      else (0, w)
    let drop_gralats := g.1
    let w1 := g.2
    let ra : Int := ((env.rand w1.randc % 4 : Nat) : Int)
    let rb : Int := ((env.rand (w1.randc + 1) % 4 : Nat) : Int)
    let drop_arrows : Int := if ra * 5 > w1.self.arrowc then Int.tdiv w1.self.arrowc 5 else ra
    let drop_bombs : Int := if rb * 5 > w1.self.bombc then Int.tdiv w1.self.bombc 5 else rb
    let self1 : TPlayer :=
      { w1.self with
        gralatc := w1.self.gralatc - drop_gralats
        arrowc := w1.self.arrowc - drop_arrows * 5
        bombc := w1.self.bombc - drop_bombs * 5 }
    let w2 : World := ({ w1 with self := self1, randc := w1.randc + 2 }).emit
      (sendPacket self1.ptr
        (writeGChar PLO_PLAYERPROPS ++ writeGChar PLPROP_RUPEESCOUNT ++ writeGInt self1.gralatc
          ++ writeGChar PLPROP_ARROWSCOUNT ++ writeGChar self1.arrowc
          ++ writeGChar PLPROP_BOMBSCOUNT ++ writeGChar self1.bombc) true)
    dropToLevel env drop_gralats drop_arrows drop_bombs w2

/-- The method `TPlayer::testSign` (TPlayer.cpp 821-840); its result is always `true`. -/
def testSign (env : Env) (w : World) : Option World :=
  if !env.serverside then some w
  else if Int.tmod w.self.sprite 4 = 0 then
    match w.self.level with
    | none => none
    | some l =>
      some (w.emit ((w.levels l).levelSigns.flatMap (fun sign =>
        if w.self.y = (sign.y : ℚ)
            ∧ inrange w.self.x ((sign.x : ℚ) - 3 / 2) ((sign.x : ℚ) + 1 / 2) = true
        then sendPacket w.self.ptr (writeGChar PLO_SAY2 ++ replaceNewlines sign.uText) true
        else [])))
  else some w

/-- The method `TPlayer::testTouch` (TPlayer.cpp 842-855), whose body is compiled only
with the script engine. -/
def testTouch (env : Env) (w : World) : Option World :=
  if !env.v8npcserver then some w
  else
    let dir := Int.tmod w.self.sprite 4
    if dir < 0 then none
    else
      match w.self.level with
      | none => none
      | some l =>
        some (w.emit [Event.touchTest l
          (w.self.x2 + ([24, 8, 0, 32, 24, 56, 24, 16] : List Int).getD (dir.toNat * 2) 0)
          (w.self.y2 + ([24, 8, 0, 32, 24, 56, 24, 16] : List Int).getD (dir.toNat * 2 + 1) 0)
          w.self.ptr])

/-! ### The cases of the decode switch -/

/-- A world transformer that may be undefined, as a step. -/
def liftW (f : World → Option World) : PM Unit := fun s pk =>
  match f s.w with
  | none => none
  | some w1 => some ((), { s with w := w1 }, pk, Bufs.empty)

/-- Assignment to `attrList[i]` (an array of 30 strings). -/
def setAttr (l : List Bytes) (i : Nat) (v : Bytes) : List Bytes :=
  (l ++ List.replicate (30 - l.length) []).set i v

/-- Case `PLPROP_NICKNAME` (lines 327-348). -/
def casePLPROP_NICKNAME (env : Env) (pForwardToSelf : Bool) (rc : Option TPlayer) : PM Flow := do
  let n ← PM.read readGUChar
  let nick ← PM.read (readChars n)
  let self ← getSelf
  let filter := env.wordFilterNick self nick
  if filter.warn then
    if self.nickName.isEmpty then modWorld (env.setNick (str "unknown") false)
    else pure ()
  else modWorld (env.setNick filter.text rc.isSome)
  toGlobalBuff env 0
  if !pForwardToSelf then toSelfBuff env 0 else pure ()
  pure Flow.brk

/-- Case `PLPROP_MAXPOWER` (lines 350-363). -/
def casePLPROP_MAXPOWER (env : Env) : PM Flow := do
  let newMaxPower ← PM.read readGUChar
  modSelf (env.setMaxPower newMaxPower)
  modSelf (fun p => env.setPower (p.maxPower : ℚ) p)
  if env.v8npcserver then do
    toLevelBuff env PLPROP_MAXPOWER
    toSelfBuff env PLPROP_MAXPOWER
  else pure ()
  toLevelBuff env PLPROP_CURPOWER
  toSelfBuff env PLPROP_CURPOWER
  pure Flow.brk

/-- Case `PLPROP_CURPOWER` (lines 365-373). -/
def casePLPROP_CURPOWER (env : Env) : PM Flow := do
  let b ← PM.read readGUChar
  let p : ℚ := (b : ℚ) / 2
  let self ← getSelf
  if self.ap < 40 ∧ p > self.power then pure Flow.brk
  else do
    modSelf (env.setPower p)
    pure Flow.brk

/-- Case `PLPROP_RUPEESCOUNT` (lines 375-392). -/
def casePLPROP_RUPEESCOUNT (env : Env) (rc : Option TPlayer) : PM Flow := do
  let v ← PM.read readGUInt
  match rc with
  | some r =>
    if env.normaladminscanchangegralats || (env.isStaff r && env.hasRightSetRights r) then
      modSelf (fun p => { p with gralatc := clip (toS32 v) 0 9999999 })
    else pure ()
  | none => modSelf (fun p => { p with gralatc := clip (toS32 v) 0 9999999 })
  pure Flow.brk

/-- Case `PLPROP_ARROWSCOUNT` (lines 394-397). -/
def casePLPROP_ARROWSCOUNT : PM Flow := do
  let v ← PM.read readGUChar
  modSelf (fun p => { p with arrowc := clip (v : Int) 0 99 })
  pure Flow.brk

/-- Case `PLPROP_BOMBSCOUNT` (lines 399-402). -/
def casePLPROP_BOMBSCOUNT : PM Flow := do
  let v ← PM.read readGUChar
  modSelf (fun p => { p with bombc := clip (v : Int) 0 99 })
  pure Flow.brk

/-- Case `PLPROP_GLOVEPOWER` (lines 404-407). -/
def casePLPROP_GLOVEPOWER : PM Flow := do
  let v ← PM.read readGUChar
  modSelf (fun p => { p with glovePower := clip (v : Int) 0 3 })
  pure Flow.brk

/-- Case `PLPROP_BOMBPOWER` (lines 409-412). -/
def casePLPROP_BOMBPOWER : PM Flow := do
  let v ← PM.read readGUChar
  modSelf (fun p => { p with bombPower := clip (v : Int) 0 3 })
  pure Flow.brk

/-- The custom image name read by the sword and shield cases: `len`, then `len` bytes. -/
def readCustomImage (env : Env) (versionID : Nat) : PM Bytes := do
  let len ← PM.read readGUChar
  if len > 0 then do
    let img ← PM.read (readChars len)
    pure (addGif env versionID img)
  else pure []

/-- Case `PLPROP_SWORDPOWER` (lines 414-440). -/
def casePLPROP_SWORDPOWER (env : Env) : PM Flow := do
  let sp ← PM.read readGUChar
  let self ← getSelf
  if sp ≤ 4 then do
    let sp1 := clip (sp : Int) 0 env.swordlimit
    let img := str "sword" ++ intText sp1 ++ defaultExt env self.versionID
    modSelf (env.setSwordPower sp1)
    modWorld (env.setSwordImage img)
    pure Flow.brk
  else do
    let img ← readCustomImage env self.versionID
    modSelf (env.setSwordPower ((sp : Int) - 30))
    modWorld (env.setSwordImage img)
    pure Flow.brk

/-- The custom-image branch of case `PLPROP_SHIELDPOWER` (lines 460-470), entered with
`sp - 10` not negative. -/
def shieldCustom (env : Env) (sp : Nat) (versionID : Nat) : PM Flow := do
  let img ← readCustomImage env versionID
  modSelf (env.setShieldPower ((sp : Int) - 10))
  modWorld (env.setShieldImage img)
  pure Flow.brk

/-- Case `PLPROP_SHIELDPOWER` (lines 442-472). -/
def casePLPROP_SHIELDPOWER (env : Env) : PM Flow := do
  let sp ← PM.read readGUChar
  let self ← getSelf
  if sp ≤ 3 then do
    let sp1 := clip (sp : Int) 0 env.shieldlimit
    let img := str "shield" ++ intText sp1 ++ defaultExt env self.versionID
    modSelf (env.setShieldPower sp1)
    modWorld (env.setShieldImage img)
    pure Flow.brk
  else do
    let left ← PM.bytesLeft
    if left = 0 then pure Flow.cont
    else if (sp : Int) - 10 < 0 then pure Flow.brk
    else shieldCustom env sp self.versionID

/-- Case `PLPROP_GANI` (lines 474-509). -/
def casePLPROP_GANI (env : Env) : PM Flow := do
  let self ← getSelf
  if self.isClient && decide (self.versionID < env.CLVER_2_1) then do
    let sp ← PM.read readGUChar
    if sp < 10 then do
      modSelf (fun p => { p with bowPower := sp, bowImage := [] })
      pure Flow.brk
    else do
      modSelf (fun p => { p with bowPower := 10 })
      if (sp : Int) - 10 < 0 then pure Flow.brk
      else do
        let img ← PM.read (readChars (sp - 10))
        modSelf (fun p => { p with bowImage := addGif env p.versionID img })
        pure Flow.brk
  else do
    let n ← PM.read readGUChar
    let g ← PM.read (readChars n)
    modSelf (env.setGani g)
    let self ← getSelf
    if self.gani = str "spin" then do
      let nPacket := writeGChar PLO_HITOBJECTS ++ writeGShort self.id ++ writeGChar self.swordPower
      let hx := ftoi ((self.x + 3 / 2) * 2)
      let hy := ftoi ((self.y + 2) * 2)
      emit
        [ Event.toLevel (nPacket ++ writeGChar hx ++ writeGChar (hy - 4)) none self.level
            (some self.ptr) false,
          Event.toLevel (nPacket ++ writeGChar hx ++ writeGChar (hy + 4)) none self.level
            (some self.ptr) false,
          Event.toLevel (nPacket ++ writeGChar (hx - 4) ++ writeGChar hy) none self.level
            (some self.ptr) false,
          Event.toLevel (nPacket ++ writeGChar (hx + 4) ++ writeGChar hy) none self.level
            (some self.ptr) false ]
      pure Flow.brk
    else pure Flow.brk

/-- Case `PLPROP_HEADGIF` (lines 511-540). -/
def casePLPROP_HEADGIF (env : Env) : PM Flow := do
  let len ← PM.read readGUChar
  let self ← getSelf
  if len < 100 then do
    modWorld (env.setHeadImage (str "head" ++ intText len ++ defaultExt env self.versionID))
    toGlobalBuff env 11
    pure Flow.brk
  else if len > 100 then do
    let img ← PM.read (readChars (len - 100))
    let check := img.indexOf 10
    let img1 := if 0 < check ∧ check < img.length then img.take check else img
    modWorld (env.setHeadImage (addGif env self.versionID img1))
    toGlobalBuff env 11
    pure Flow.brk
  else pure Flow.brk

/-- Case `PLPROP_CURCHAT` (lines 542-565). -/
def casePLPROP_CURCHAT (env : Env) (pForwardToSelf : Bool) (rc : Option TPlayer) : PM Flow := do
  let len ← PM.read readGUChar
  let msg ← PM.read (readChars (min len 223))
  modSelf (fun p => { p with chatMsg := msg, lastChat := env.now })
  let w ← getWorld
  modWorld (fun _ => (env.processChat msg w).2)
  if !(env.processChat msg w).1 then do
    let self ← getSelf
    let found := env.wordFilterChat self self.chatMsg
    modSelf (fun p => { p with chatMsg := found.text })
    if !pForwardToSelf && (found.replace || found.warn) then toSelfBuff env 12 else pure ()
  else pure ()
  let self ← getSelf
  if env.v8npcserver && rc.isNone && !self.chatMsg.isEmpty then
    match self.level with
    | some l => emit [Event.chatToLevel l self.ptr self.chatMsg]
    | none => pure ()
  else pure ()
  pure Flow.brk

/-- Case `PLPROP_COLORS` (lines 567-570). -/
def casePLPROP_COLORS : PM Flow := do
  let c0 ← PM.read readGUChar
  let c1 ← PM.read readGUChar
  let c2 ← PM.read readGUChar
  let c3 ← PM.read readGUChar
  let c4 ← PM.read readGUChar
  modSelf (fun p => { p with colors := [c0, c1, c2, c3, c4] })
  pure Flow.brk

/-- Case `PLPROP_ID` (lines 572-574). -/
def casePLPROP_ID : PM Flow := do
  let _ ← PM.read readGUShort
  pure Flow.brk

/-- Case `PLPROP_X` (lines 576-586). -/
def casePLPROP_X (env : Env) : PM Flow := do
  let b ← PM.read readGUChar
  modSelf (fun p => { p with
    x := (b : ℚ) / 2
    status := clearBits p.status PLSTATUS_PAUSED
    lastMovement := env.now
    grMovementUpdated := true })
  PM.modify (fun s => { s with doTouchTest := true })
  modSelf (fun p => { p with x2 := ftoi (p.x * 16) })
  toLevelBuff2 env PLPROP_X2
  pure Flow.brk

/-- Case `PLPROP_Y` (lines 588-601). -/
def casePLPROP_Y (env : Env) : PM Flow := do
  let b ← PM.read readGUChar
  modSelf (fun p => { p with
    y := (b : ℚ) / 2
    status := clearBits p.status PLSTATUS_PAUSED
    lastMovement := env.now
    grMovementUpdated := true })
  PM.modify (fun s => { s with doTouchTest := true })
  modSelf (fun p => { p with y2 := ftoi (p.y * 16) })
  toLevelBuff2 env PLPROP_Y2
  PM.modify (fun s => { s with doSignCheck := true })
  pure Flow.brk

/-- Case `PLPROP_Z` (lines 603-613). -/
def casePLPROP_Z (env : Env) : PM Flow := do
  let b ← PM.read readGUChar
  modSelf (fun p => { p with
    z := (b : ℚ) - 50
    status := clearBits p.status PLSTATUS_PAUSED
    lastMovement := env.now
    grMovementUpdated := true })
  PM.modify (fun s => { s with doTouchTest := true })
  modSelf (fun p => { p with z2 := ftoi (p.z * 16) })
  toLevelBuff2 env PLPROP_Z2
  pure Flow.brk

/-- Case `PLPROP_SPRITE` (lines 615-620). -/
def casePLPROP_SPRITE : PM Flow := do
  let v ← PM.read readGUChar
  modSelf (fun p => { p with sprite := v })
  PM.modify (fun s => { s with doSignCheck := true })
  pure Flow.brk

/-- The respawn block of case `PLPROP_STATUS` (lines 632-646): "When they come back to
life, give them hearts." -/
def statusRespawn (env : Env) : PM Unit := do
  let self ← getSelf
  let base : ℚ := if self.ap < 20 then 3 else if self.ap < 40 then 5 else (self.maxPower : ℚ)
  modSelf (env.setPower (clip base (1 / 2) (self.maxPower : ℚ)))
  let self ← getSelf
  PM.write { Bufs.empty with
    selfBuff := writeGChar PLPROP_CURPOWER ++ writeGChar (ftoi (self.power * 2))
    levelBuff := writeGChar PLPROP_CURPOWER ++ writeGChar (ftoi (self.power * 2)) }
  let w ← getWorld
  match self.level with
  | some l =>
    if (w.levels l).getPlayer 0 = some self.ptr then
      emit (sendPacket self.ptr (writeGChar PLO_ISLEADER) true)
    else pure ()
  | none => pure ()

/-- The leader demotion of case `PLPROP_STATUS` (lines 658-665): a dead leader with
company goes to the end of the occupant list and the new leader is told. -/
def demoteLeader : PM Unit := do
  let self ← getSelf
  let lv ← derefLevel
  if lv.2.getPlayer 0 = some self.ptr ∧ lv.2.getPlayer 1 ≠ none then do
    let lv1 := (lv.2.removePlayer self.ptr).addPlayer self.ptr
    modWorld (fun w => { w with levels := Function.update w.levels lv.1 lv1 })
    match lv1.getPlayer 0 with
    | some leader => emit (sendPacket leader (writeGChar PLO_ISLEADER) true)
    | none => PM.fault
  else pure ()

/-- The death block of case `PLPROP_STATUS` (lines 651-666): "When they die, increase
deaths and make somebody else level leader." -/
def statusDeath (env : Env) : PM Unit := do
  let lv ← derefLevel
  if lv.2.sparringZone = false then do
    modSelf (fun p => { p with deaths := p.deaths + 1 })
    liftW (dropItemsOnDeath env)
  else pure ()
  demoteLeader

/-- Case `PLPROP_STATUS` (lines 622-668). -/
def casePLPROP_STATUS (env : Env) : PM Flow := do
  let self0 ← getSelf
  let oldStatus := self0.status
  let v ← PM.read readGUChar
  modSelf (fun p => { p with status := v })
  if self0.id = -1 then pure Flow.brk
  else do
    if (oldStatus &&& PLSTATUS_DEAD) > 0 ∧ (v &&& PLSTATUS_DEAD) = 0 then statusRespawn env
    else pure ()
    if (oldStatus &&& PLSTATUS_DEAD) = 0 ∧ (v &&& PLSTATUS_DEAD) > 0 then statusDeath env
    else pure ()
    pure Flow.brk

/-- Case `PLPROP_CARRYSPRITE` (lines 670-672). -/
def casePLPROP_CARRYSPRITE : PM Flow := do
  let v ← PM.read readGUChar
  modSelf (fun p => { p with carrySprite := v })
  pure Flow.brk

/-- Case `PLPROP_CURLEVEL` (lines 674-677). -/
def casePLPROP_CURLEVEL : PM Flow := do
  let len ← PM.read readGUChar
  let name ← PM.read (readChars len)
  modSelf (fun p => { p with levelName := name })
  pure Flow.brk

/-- Case `PLPROP_HORSEGIF` (lines 679-684). -/
def casePLPROP_HORSEGIF (env : Env) : PM Flow := do
  let len ← PM.read readGUChar
  let img ← PM.read (readChars (min len 219))
  modSelf (fun p => { p with horseImg := addGif env p.versionID img })
  pure Flow.brk

/-- Case `PLPROP_HORSEBUSHES` (lines 686-688). -/
def casePLPROP_HORSEBUSHES : PM Flow := do
  let v ← PM.read readGUChar
  modSelf (fun p => { p with horsec := v })
  pure Flow.brk

/-- Case `PLPROP_EFFECTCOLORS` (lines 690-694). -/
def casePLPROP_EFFECTCOLORS : PM Flow := do
  let len ← PM.read readGUChar
  if len > 0 then do
    let _ ← PM.read readGInt4
    pure Flow.brk
  else pure Flow.brk

/-- Case `PLPROP_CARRYNPC` (lines 696-732). -/
def casePLPROP_CARRYNPC (env : Env) : PM Flow := do
  let v ← PM.read readGUInt
  modSelf (fun p => { p with carryNpcId := v })
  if env.duplicatecanbecarried = false then do
    let w ← getWorld
    match w.playerList.find? (fun other => other.ptr != w.self.ptr
        && (readGUInt (getProp env w.levels other PLPROP_CARRYNPC)).1 == w.self.carryNpcId) with
    | some _ =>
      -- Somebody else got this NPC first.
      modSelf (fun p => { p with carryNpcId := 0 })
      emit (sendPacket w.self.ptr
        (writeGChar PLO_PLAYERPROPS ++ writeGChar PLPROP_CARRYNPC ++ writeGInt 0) true)
      let lv ← derefLevel
      emit (sendPacket w.self.ptr
        (writeGChar PLO_NPCDEL2 ++ writeGChar lv.2.levelName.length ++ lv.2.levelName
          ++ writeGInt 0) true)
      emit [Event.toLevelOf
        (writeGChar PLO_OTHERPLPROPS ++ writeGShort w.self.id ++ writeGChar PLPROP_CARRYNPC
          ++ writeGInt 0) w.self.pmap w.self.ptr false false]
      pure Flow.brk
    | none =>
      -- We own this NPC now so remove it from the level and have everybody else delete it.
      let lv ← derefLevel
      emit [Event.removeNPC lv.1 w.self.carryNpcId]
      emit [Event.toAll
        (writeGChar PLO_NPCDEL2 ++ writeGChar lv.2.levelName.length ++ lv.2.levelName
          ++ writeGInt w.self.carryNpcId) none]
      pure Flow.brk
  else pure Flow.brk

/-- Case `PLPROP_APCOUNTER` (lines 734-736). -/
def casePLPROP_APCOUNTER : PM Flow := do
  let v ← PM.read readGUShort
  modSelf (fun p => { p with apCounter := v })
  pure Flow.brk

/-- Case `PLPROP_MAGICPOINTS` (lines 738-741). -/
def casePLPROP_MAGICPOINTS : PM Flow := do
  let v ← PM.read readGUChar
  modSelf (fun p => { p with mp := clip (v : Int) 0 100 })
  pure Flow.brk

/-- Cases `PLPROP_KILLSCOUNT`, `PLPROP_DEATHSCOUNT`, `PLPROP_ONLINESECS`, `PLPROP_RATING`
(lines 743-753, 785-788): the value is read and dropped. -/
def caseSkipGInt : PM Flow := do
  let _ ← PM.read readGInt
  pure Flow.brk

/-- Case `PLPROP_IPADDR` (lines 755-757). -/
def casePLPROP_IPADDR : PM Flow := do
  let _ ← PM.read readGInt5
  pure Flow.brk

/-- Case `PLPROP_UDPPORT` (lines 759-764). -/
def casePLPROP_UDPPORT : PM Flow := do
  let v ← PM.read readGInt
  modSelf (fun p => { p with udpport := v })
  let self ← getSelf
  if self.id ≠ -1 ∧ self.loaded = true then do
    emit [Event.toType PLTYPE_ANYCLIENT
      (writeGChar PLO_OTHERPLPROPS ++ writeGShort self.id ++ writeGChar PLPROP_UDPPORT
        ++ writeGInt self.udpport) (some self.ptr)]
    pure Flow.brk
  else pure Flow.brk

/-- Case `PLPROP_ALIGNMENT` (lines 766-769). -/
def casePLPROP_ALIGNMENT : PM Flow := do
  let v ← PM.read readGUChar
  modSelf (fun p => { p with ap := clip (v : Int) 0 100 })
  pure Flow.brk

/-- Case `PLPROP_ADDITFLAGS` (lines 771-773). -/
def casePLPROP_ADDITFLAGS : PM Flow := do
  let v ← PM.read readGUChar
  modSelf (fun p => { p with additionalFlags := v })
  pure Flow.brk

/-- Cases `PLPROP_ACCOUNTNAME` and `PLPROP_COMMUNITYNAME` (lines 775-778, 947-949): a
length-prefixed text is read and dropped. -/
def caseSkipText : PM Flow := do
  let len ← PM.read readGUChar
  let _ ← PM.read (readChars len)
  pure Flow.brk

/-- Case `PLPROP_BODYIMG` (lines 780-783). -/
def casePLPROP_BODYIMG (env : Env) : PM Flow := do
  let len ← PM.read readGUChar
  let img ← PM.read (readChars len)
  modWorld (env.setBodyImage img)
  pure Flow.brk

/-- Case `PLPROP_ATTACHNPC` (lines 790-798). -/
def casePLPROP_ATTACHNPC (env : Env) : PM Flow := do
  let _ ← PM.read readGUChar
  let npcID ← PM.read readGUInt
  modSelf (fun p => { p with attachNPC := npcID })
  toLevelBuff env PLPROP_ATTACHNPC
  pure Flow.brk

/-- The tail shared by the cases `PLPROP_GMAPLEVELX` and `PLPROP_GMAPLEVELY`: on a map,
the session moves to the level at its grid coordinates. -/
def gmapLevelChanged (env : Env) : PM Flow := do
  let self ← getSelf
  match self.pmap with
  | some m =>
    modSelf (fun p =>
      { p with levelName := (env.maps m).getLevelAt p.gmaplevelx p.gmaplevely })
    modWorld env.leaveLevel
    let self ← getSelf
    modWorld (fun w => (env.setLevel self.levelName (-1) w).2)
    pure Flow.brk
  | none => pure Flow.brk

/-- Case `PLPROP_GMAPLEVELX` (lines 800-813). -/
def casePLPROP_GMAPLEVELX (env : Env) : PM Flow := do
  let v ← PM.read readGUChar
  modSelf (fun p => { p with gmaplevelx := v })
  gmapLevelChanged env

/-- Case `PLPROP_GMAPLEVELY` (lines 815-828). -/
def casePLPROP_GMAPLEVELY (env : Env) : PM Flow := do
  let v ← PM.read readGUChar
  modSelf (fun p => { p with gmaplevely := v })
  gmapLevelChanged env

/-- Case `PLPROP_PLANGUAGE` (lines 837-840). -/
def casePLPROP_PLANGUAGE : PM Flow := do
  let len ← PM.read readGUChar
  let text ← PM.read (readChars len)
  modSelf (fun p => { p with language := text })
  pure Flow.brk

/-- Case `PLPROP_PSTATUSMSG` (lines 842-848). -/
def casePLPROP_PSTATUSMSG : PM Flow := do
  let v ← PM.read readGUChar
  modSelf (fun p => { p with statusMsg := v })
  let self ← getSelf
  if self.id = -1 ∨ self.loaded = false then pure Flow.brk
  else do
    emit [Event.toAll
      (writeGChar PLO_OTHERPLPROPS ++ writeGShort self.id ++ writeGChar PLPROP_PSTATUSMSG
        ++ writeGChar self.statusMsg) (some self.ptr)]
    pure Flow.brk

/-- Cases `PLPROP_GATTRIB1` .. `PLPROP_GATTRIB30` (lines 850-879). -/
def casePLPROP_GATTRIB (i : Nat) : PM Flow := do
  let len ← PM.read readGUChar
  let text ← PM.read (readChars len)
  modSelf (fun p => { p with attrList := setAttr p.attrList i text })
  pure Flow.brk

/-- Case `PLPROP_OSTYPE` (lines 883-885). -/
def casePLPROP_OSTYPE : PM Flow := do
  let len ← PM.read readGUChar
  let text ← PM.read (readChars len)
  modSelf (fun p => { p with os := text })
  pure Flow.brk

/-- Case `PLPROP_TEXTCODEPAGE` (lines 889-891). -/
def casePLPROP_TEXTCODEPAGE : PM Flow := do
  let v ← PM.read readGInt
  modSelf (fun p => { p with codepage := v })
  pure Flow.brk

/-- The precise coordinate a sign-magnitude short stands for: the value shifted right by
one, negated when bit 0 is set (cases `PLPROP_X2`, `PLPROP_Y2`, `PLPROP_Z2`). -/
def decodeCoord2 (len : Nat) : Int :=
  if len &&& 1 ≠ 0 then -((len >>> 1 : Nat) : Int) else ((len >>> 1 : Nat) : Int)

/-- Case `PLPROP_X2` (lines 896-910). -/
def casePLPROP_X2 (env : Env) : PM Flow := do
  let len ← PM.read readGUShort
  modSelf (fun p => { p with
    x2 := decodeCoord2 len
    status := clearBits p.status PLSTATUS_PAUSED
    lastMovement := env.now
    grMovementUpdated := true })
  PM.modify (fun s => { s with doTouchTest := true })
  modSelf (fun p => { p with x := (p.x2 : ℚ) / 16 })
  toLevelBuff2 env PLPROP_X
  pure Flow.brk

/-- Case `PLPROP_Y2` (lines 912-929). -/
def casePLPROP_Y2 (env : Env) : PM Flow := do
  let len ← PM.read readGUShort
  modSelf (fun p => { p with
    y2 := decodeCoord2 len
    status := clearBits p.status PLSTATUS_PAUSED
    lastMovement := env.now
    grMovementUpdated := true })
  PM.modify (fun s => { s with doTouchTest := true })
  modSelf (fun p => { p with y := (p.y2 : ℚ) / 16 })
  toLevelBuff2 env PLPROP_Y
  PM.modify (fun s => { s with doSignCheck := true })
  pure Flow.brk

/-- Case `PLPROP_Z2` (lines 931-945). -/
def casePLPROP_Z2 (env : Env) : PM Flow := do
  let len ← PM.read readGUShort
  modSelf (fun p => { p with
    z2 := decodeCoord2 len
    status := clearBits p.status PLSTATUS_PAUSED
    lastMovement := env.now
    grMovementUpdated := true })
  PM.modify (fun s => { s with doTouchTest := true })
  modSelf (fun p => { p with z := ((ftoi ((p.z2 : ℚ) / 16 + 1 / 2) : Int) : ℚ) })
  toLevelBuff2 env PLPROP_Z
  pure Flow.brk

/-- The `default` case (lines 951-961): the flag is raised and `setProps` returns. -/
def caseDefault : PM Flow := do
  PM.modify (fun s => { s with sentInvalid := true })
  pure Flow.ret

/-- The decode switch of `setProps` (line 325). Ids 50, 77, 81 and every id from 83 on
have no `case` and reach `default`. -/
def propCase (env : Env) (pForwardToSelf : Bool) (rc : Option TPlayer) (propId : Nat) : PM Flow :=
  match propId with
  | 0 => casePLPROP_NICKNAME env pForwardToSelf rc
  | 1 => casePLPROP_MAXPOWER env
  | 2 => casePLPROP_CURPOWER env
  | 3 => casePLPROP_RUPEESCOUNT env rc
  | 4 => casePLPROP_ARROWSCOUNT
  | 5 => casePLPROP_BOMBSCOUNT
  | 6 => casePLPROP_GLOVEPOWER
  | 7 => casePLPROP_BOMBPOWER
  | 8 => casePLPROP_SWORDPOWER env
  | 9 => casePLPROP_SHIELDPOWER env
  | 10 => casePLPROP_GANI env
  | 11 => casePLPROP_HEADGIF env
  | 12 => casePLPROP_CURCHAT env pForwardToSelf rc
  | 13 => casePLPROP_COLORS
  | 14 => casePLPROP_ID
  | 15 => casePLPROP_X env
  | 16 => casePLPROP_Y env
  | 45 => casePLPROP_Z env
  | 17 => casePLPROP_SPRITE
  | 18 => casePLPROP_STATUS env
  | 19 => casePLPROP_CARRYSPRITE
  | 20 => casePLPROP_CURLEVEL
  | 21 => casePLPROP_HORSEGIF env
  | 22 => casePLPROP_HORSEBUSHES
  | 23 => casePLPROP_EFFECTCOLORS
  | 24 => casePLPROP_CARRYNPC env
  | 25 => casePLPROP_APCOUNTER
  | 26 => casePLPROP_MAGICPOINTS
  | 27 => caseSkipGInt
  | 28 => caseSkipGInt
  | 29 => caseSkipGInt
  | 30 => casePLPROP_IPADDR
  | 31 => casePLPROP_UDPPORT
  | 32 => casePLPROP_ALIGNMENT
  | 33 => casePLPROP_ADDITFLAGS
  | 34 => caseSkipText
  | 35 => casePLPROP_BODYIMG env
  | 36 => caseSkipGInt
  | 42 => casePLPROP_ATTACHNPC env
  | 43 => casePLPROP_GMAPLEVELX env
  | 44 => casePLPROP_GMAPLEVELY env
  | 51 => pure Flow.brk
  | 52 => casePLPROP_PLANGUAGE
  | 53 => casePLPROP_PSTATUSMSG
  | 75 => casePLPROP_OSTYPE
  | 76 => casePLPROP_TEXTCODEPAGE
  | 78 => casePLPROP_X2 env
  | 79 => casePLPROP_Y2 env
  | 80 => casePLPROP_Z2 env
  | 82 => caseSkipText
  | _ =>
    match attrIndex propId with
    | some i => casePLPROP_GATTRIB i
    | none => caseDefault

/-- The forwarding code behind the switch (lines 964-968), reached on `break`. -/
def forwardProp (env : Env) (pForward pForwardToSelf : Bool) (propId : Nat) : PM Unit := do
  if pForward && __sendLocal.getD propId false then toLevelBuff env propId else pure ()
  if pForwardToSelf then toSelfBuff env propId else pure ()

/-- One iteration of the decode loop (lines 323-968). -/
def setPropsIter (env : Env) (pForward pForwardToSelf : Bool) (rc : Option TPlayer) : PM Flow := do
  let propId ← PM.read readGUChar
  let flow ← propCase env pForwardToSelf rc propId
  match flow with
  | Flow.brk => do
    forwardProp env pForward pForwardToSelf propId
    pure Flow.brk
  | Flow.cont => pure Flow.cont
  | Flow.ret => pure Flow.ret

/-- How the decode loop ends: the packet is used up (with the buffers filled so far), the
`default` case returned, or the fuel of the model ran out. -/
inductive LoopEnd where
  | exhausted (s : Locals) (o : Bufs)
  | returned (s : Locals)
  | outOfFuel

/-- The decode loop `while (pPacket.bytesLeft() > 0)` (line 321). -/
def setPropsLoop (env : Env) (pForward pForwardToSelf : Bool) (rc : Option TPlayer) :
    Nat → Locals → Bufs → Bytes → Option LoopEnd
  | fuel, s, o, pk =>
    if pk.length > 0 then
      match fuel with
      | 0 => some LoopEnd.outOfFuel
      | fuel1 + 1 =>
        match setPropsIter env pForward pForwardToSelf rc s pk with
        | none => none
        | some (Flow.ret, s1, _, _) => some (LoopEnd.returned s1)
        | some (_, s1, pk1, o1) =>
          setPropsLoop env pForward pForwardToSelf rc fuel1 s1 (o.append o1) pk1
    else some (LoopEnd.exhausted s o)

/-- The three sends of the block "Send Buffers Out" (lines 974-987): the global, the
level and the self buffer, each as one packet when it is not empty. -/
def flushBuffers (env : Env) (s : Locals) (o : Bufs) : World :=
  let self := s.w.self
  let w1 := if o.globalBuff.length > 0 then
      s.w.emit [Event.toAll (writeGChar PLO_OTHERPLPROPS ++ writeGShort self.id ++ o.globalBuff)
        (some self.ptr)]
    else s.w
  let MOVE_PRECISE : Bool := decide (self.versionID ≥ env.CLVER_2_3)
  let w2 := if o.levelBuff.length > 0 then
      w1.emit [Event.toLevelOf
        (writeGChar PLO_OTHERPLPROPS ++ writeGShort self.id
          ++ (if !MOVE_PRECISE then o.levelBuff else o.levelBuff2)
          ++ (if !MOVE_PRECISE then o.levelBuff2 else o.levelBuff))
        self.pmap self.ptr false false]
    else w1
  if o.selfBuff.length > 0 then
    w2.emit (sendPacket self.ptr (writeGChar PLO_PLAYERPROPS ++ o.selfBuff) true)
  else w2

/-- The movement check of the block "Send Buffers Out" (lines 989-999). -/
def movementCheck (env : Env) (s : Locals) (w : World) : Option World :=
  match (if s.doSignCheck then testSign env w else some w) with
  | none => none
  | some w1 => if s.doTouchTest then testTouch env w1 else some w1

/-- The block "Send Buffers Out" (lines 971-1000). -/
def sendBuffersOut (env : Env) (rc : Option TPlayer) (s : Locals) (o : Bufs) : Option World :=
  if env.isLoggedIn s.w.self && s.w.self.isLoaded then
    if rc.isNone then movementCheck env s (flushBuffers env s o)
    else some (flushBuffers env s o)
  else some s.w

/-- The block behind `if (sentInvalid)` (lines 1002-1012). -/
def countInvalid (env : Env) (sentInvalid : Bool) (w : World) : World :=
  if sentInvalid then
    let w1 := { w with self := { w.self with invalidPackets := w.self.invalidPackets + 1 } }
    if w1.self.invalidPackets > 5 then
      w1.emit
        ([Event.serverlog (str "[" ++ env.serverName ++ str "] Player " ++ w1.self.nickName
            ++ str " is sending invalid packets.\n")]
          ++ sendPacket w1.self.ptr
            (writeGChar PLO_DISCMESSAGE ++ str "Disconnected for sending invalid packets.") true
          ++ [Event.deletePlayer w1.self.ptr])
    else w1
  else w

/-- The locals at the entry of `setProps` (lines 314-319). -/
def Locals.start (w : World) : Locals :=
  { w := w, doSignCheck := false, doTouchTest := false, sentInvalid := false }

/-- The method `TPlayer::setProps(pPacket, pForward, pForwardToSelf, rc)`
(TPlayerProps.cpp 312-1013). The loop is given one unit of fuel per byte of the packet. -/
def setProps (env : Env) (w : World) (pPacket : Bytes) (pForward pForwardToSelf : Bool)
    (rc : Option TPlayer) : Option World :=
  match setPropsLoop env pForward pForwardToSelf rc pPacket.length (Locals.start w)
      Bufs.empty pPacket with
  | none => none
  | some LoopEnd.outOfFuel => none
  | some (LoopEnd.returned s) => some s.w
  | some (LoopEnd.exhausted s o) =>
    match sendBuffersOut env rc s o with
    | none => none
    | some w1 => some (countInvalid env s.sentInvalid w1)

/-! ## `TPlayer::msgPLI_NULL` and `TPlayer::warp` (TPlayer.cpp) -/

/-- The handler `TPlayer::msgPLI_NULL` (TPlayer.cpp 2156-2172); the console dump of the
packet is not part of the state. -/
def msgPLI_NULL (env : Env) (w : World) (_pPacket : Bytes) : Bool × World :=
  let w1 := { w with self := { w.self with invalidPackets := w.self.invalidPackets + 1 } }
  if w1.self.invalidPackets > 5 then
    (false, w1.emit
      ([Event.serverlog (str "[" ++ env.serverName ++ str "] Player " ++ w1.self.nickName
          ++ str " is sending invalid packets.\n")]
        ++ sendPacket w1.self.ptr
          (writeGChar PLO_DISCMESSAGE ++ str "Disconnected for sending invalid packets.") true))
  else (true, w1)

/-- The method `TPlayer::warp(pLevelName, pX, pY, modTime)` (TPlayer.cpp 1426-1488). -/
def warp (env : Env) (w : World) (pLevelName : Bytes) (pX pY : ℚ) (modTime : Int) :
    Option (Bool × World) :=
  let currentLevel := w.self.level
  let newLevel := env.findLevel pLevelName w
  -- If we are warping to the same level, just update the player's location.
  if currentLevel ≠ none ∧ newLevel = currentLevel then
    match setProps env w
        (writeGChar PLPROP_X ++ writeGChar (ftoi (pX * 2)) ++ writeGChar PLPROP_Y
          ++ writeGChar (ftoi (pY * 2))) true true none with
    | none => none
    | some w1 => some (true, w1)
  else
    let unstickLevel := env.findLevel env.unstickmelevel w
    let w1 := env.leaveLevel w
    let oldX := w1.self.x
    let oldY := w1.self.y
    let w2 := { w1 with self := { w1.self with pmap := env.getMap newLevel, x := pX, y := pY } }
    let r := env.setLevel pLevelName modTime w2
    if !r.1 then
      let back : Bool × World :=
        match currentLevel with
        | none => (false, r.2)
        | some c =>
          env.setLevel (r.2.levels c).levelName 0
            { r.2 with self := { r.2.self with x := oldX, y := oldY, pmap := env.getMap (some c) } }
      if !back.1 then
        match unstickLevel with
        | none => some (false, back.2)
        | some u =>
          let r3 := env.setLevel (back.2.levels u).levelName 0
            { back.2 with self := { back.2.self with
                x := env.unstickmex, y := env.unstickmey, pmap := env.getMap (some u) } }
          if !r3.1 then some (false, r3.2) else some (r.1, r3.2)
      else some (r.1, back.2)
    else some (r.1, r.2)

/-! ## Routers of `TServer` (TServer.cpp 1627-1745)

A router is embedded as the list of queueing events it causes, in player-list order.
`pPlayer`, when given, is the origin session (compared by identity). -/

/-- The inline test `TPlayer::isNPCServer`. -/
def TPlayer.isNPCServer (p : TPlayer) : Bool := p.type &&& PLTYPE_NPCSERVER != 0

/-- The router `TServer::sendPacketToAll` (TServer.cpp 1627-1635). -/
def sendPacketToAll (playerList : List TPlayer) (pPacket : Bytes) (pPlayer : Option Nat) :
    List Event :=
  playerList.flatMap (fun player =>
    if some player.ptr = pPlayer ∨ player.isNPCServer = true then []
    else sendPacket player.ptr pPacket true)

/-- The router `TServer::sendPacketTo` (TServer.cpp 1737-1745). -/
def sendPacketTo (playerList : List TPlayer) (who : Nat) (pPacket : Bytes)
    (pPlayer : Option Nat) : List Event :=
  playerList.flatMap (fun player =>
    if some player.ptr = pPlayer then []
    else if player.type &&& who ≠ 0 then sendPacket player.ptr pPacket true
    else [])

/-- The adjacency test of both level routers:
`abs(ogmap[0] - sgmap[0]) < 2 && abs(ogmap[1] - sgmap[1]) < 2`. -/
def gmapAdjacent (ogmap sgmap : Int × Int) : Bool :=
  decide ((ogmap.1 - sgmap.1).natAbs < 2) && decide ((ogmap.2 - sgmap.2).natAbs < 2)

/-- The grid coordinate a session reports: `getProp(propId).readGUChar()`. -/
def gmapCoord (env : Env) (levels : Nat → TLevel) (p : TPlayer) (propId : Nat) : Int :=
  ((readGUChar (getProp env levels p propId)).1 : Int)

/-- The level overload `TServer::sendPacketToLevel(pPacket, pMap, pLevel, pPlayer,
onlyGmap)` (TServer.cpp 1637-1679). -/
def sendPacketToLevel (env : Env) (levels : Nat → TLevel) (playerList : List TPlayer)
    (pPacket : Bytes) (pMap : Option Nat) (pLevel : Option Nat) (pPlayer : Option TPlayer)
    (onlyGmap : Bool) : Option (List Event) :=
  let isOrigin : TPlayer → Bool := fun p =>
    match pPlayer with
    | some origin => p.ptr == origin.ptr
    | none => false
  let sameLevelOnly : List Event :=
    playerList.flatMap (fun p =>
      if isOrigin p = true ∨ p.isClient = false then []
      else if p.level = pLevel then sendPacket p.ptr pPacket true else [])
  match pMap with
  | none => some sameLevelOnly
  | some m =>
    if onlyGmap && (env.maps m).type == MAPTYPE_BIGMAP then some sameLevelOnly
    else
      match pLevel with
      | none => some []
      | some lvl =>
        let groupMap : Option Bool :=
          match pPlayer with
          | none => some false
          | some origin =>
            match origin.pmap with
            | none => none
            | some om => some (env.maps om).groupMap
        match groupMap with
        | none => none
        | some _groupMap =>
          some (playerList.flatMap (fun other =>
            if other.isClient = false ∨ isOrigin other = true ∨ other.level = none then []
            else if _groupMap && (match pPlayer with
                | some origin => origin.levelGroup != other.levelGroup
                | none => false) then []
            else if other.pmap = some m then
              let sgmap : Int × Int :=
                ((env.maps m).getLevelX (levels lvl).actualLevelName,
                 (env.maps m).getLevelY (levels lvl).actualLevelName)
              let ogmap : Int × Int :=
                if (env.maps m).type = MAPTYPE_GMAP then
                  (gmapCoord env levels other PLPROP_GMAPLEVELX,
                   gmapCoord env levels other PLPROP_GMAPLEVELY)
                else
                  ((env.maps m).getLevelX (levels (other.level.getD 0)).actualLevelName,
                   (env.maps m).getLevelY (levels (other.level.getD 0)).actualLevelName)
              if gmapAdjacent ogmap sgmap then sendPacket other.ptr pPacket true else []
            else []))

/-- The player overload `TServer::sendPacketToLevel(pPacket, pMap, pPlayer, sendToSelf,
onlyGmap)` (TServer.cpp 1681-1735). -/
def sendPacketToLevelOf (env : Env) (levels : Nat → TLevel) (playerList : List TPlayer)
    (pPacket : Bytes) (pMap : Option Nat) (pPlayer : TPlayer) (sendToSelf onlyGmap : Bool) :
    Option (List Event) :=
  match pPlayer.level with
  | none => some []
  | some level =>
    let sameLevelOnly : List Event :=
      playerList.flatMap (fun p =>
        if (p.ptr = pPlayer.ptr ∧ sendToSelf = false) ∨ p.isClient = false then []
        else if p.level = some level then sendPacket p.ptr pPacket true else [])
    match pMap with
    | none => some sameLevelOnly
    | some m =>
      if (onlyGmap && (env.maps m).type == MAPTYPE_BIGMAP) || (levels level).singleplayer then
        some sameLevelOnly
      else
        match pPlayer.pmap with
        | none => none
        | some om =>
          let _groupMap := (env.maps om).groupMap
          some (playerList.flatMap (fun player =>
            if player.isClient = false then []
            else if player.ptr = pPlayer.ptr then
              (if sendToSelf then sendPacket pPlayer.ptr pPacket true else [])
            else if player.level = none then []
            else if _groupMap = true ∧ pPlayer.levelGroup ≠ player.levelGroup then []
            else if player.pmap = some m then
              let ogmap : Int × Int :=
                if (env.maps m).type = MAPTYPE_GMAP then
                  (gmapCoord env levels player PLPROP_GMAPLEVELX,
                   gmapCoord env levels player PLPROP_GMAPLEVELY)
                else
                  ((env.maps m).getLevelX (levels (player.level.getD 0)).actualLevelName,
                   (env.maps m).getLevelY (levels (player.level.getD 0)).actualLevelName)
              let sgmap : Int × Int :=
                if (env.maps m).type = MAPTYPE_GMAP then
                  (gmapCoord env levels pPlayer PLPROP_GMAPLEVELX,
                   gmapCoord env levels pPlayer PLPROP_GMAPLEVELY)
                else
                  ((env.maps m).getLevelX (levels level).actualLevelName,
                   (env.maps m).getLevelY (levels level).actualLevelName)
              if gmapAdjacent ogmap sgmap then sendPacket player.ptr pPacket true else []
            else []))

/-! ## Vocabulary of the statements -/

/-- A property id the decode switch of `setProps` has no `case` for. -/
def unhandled (propId : Nat) : Bool :=
  propId == 50 || propId == 77 || propId == 81 || decide (83 ≤ propId)

/-- The world after `n` consecutive unknown-opcode packets `pk 0, .., pk (n - 1)`, each
handed to `msgPLI_NULL`, with no minute reset in between. -/
def nullAfter (env : Env) (w : World) (pk : Nat → Bytes) : Nat → World
  | 0 => w
  | n + 1 => (msgPLI_NULL env (nullAfter env w pk n) (pk n)).2

/-- The first `n` iterations of the decode loop of `setProps`, none of which leaves
through `return`: the locals and the unread bytes behind them. -/
def decodeN (env : Env) (pForward pForwardToSelf : Bool) (rc : Option TPlayer) :
    Nat → Locals → Bytes → Option (Locals × Bytes)
  | 0, s, pk => some (s, pk)
  | n + 1, s, pk =>
    if pk.length > 0 then
      match setPropsIter env pForward pForwardToSelf rc s pk with
      | none => none
      | some (Flow.ret, _, _, _) => none
      | some (_, s1, pk1, _) => decodeN env pForward pForwardToSelf rc n s1 pk1
    else none

/-- A reader is local when a read that leaves bytes behind has looked only at the bytes
it consumed. -/
def RLocal {α : Type} (r : Bytes → α × Bytes) : Prop :=
  ∀ pk, (r pk).2 ≠ [] → ∃ used, pk = used ++ (r pk).2 ∧ ∀ sfx, r (used ++ sfx) = ((r pk).1, sfx)

/-- A step is local when a run that leaves bytes behind has looked only at the bytes it
consumed: on the consumed bytes followed by anything else it does the same. -/
def Local {α : Type} (m : PM α) : Prop :=
  ∀ s pk a s1 rem o, m s pk = some (a, s1, rem, o) → rem ≠ [] →
    ∃ used, pk = used ++ rem ∧ ∀ sfx, m s (used ++ sfx) = some (a, s1, sfx, o)

/-- A step that does not touch the packet. -/
def Still {α : Type} (m : PM α) : Prop :=
  ∀ s pk, m s pk = (match m s [] with
    | none => none
    | some (a, s1, _, o) => some (a, s1, pk, o))

/-- A case of the switch is local up to its buffers and up to `break` against `continue`:
on the consumed bytes followed by anything else it leaves the same locals, and it
returns from `setProps` in both runs or in neither. -/
def CaseLocal (m : PM Flow) : Prop :=
  ∀ s pk f s1 rem o, m s pk = some (f, s1, rem, o) → rem ≠ [] →
    ∃ used, pk = used ++ rem ∧ ∀ sfx, ∃ f1 o1, m s (used ++ sfx) = some (f1, s1, sfx, o1)
      ∧ (f1 = Flow.ret ↔ f = Flow.ret)

/-- A step that leaves the flag `sentInvalid` as it found it. -/
def Keeps {α : Type} (m : PM α) : Prop :=
  ∀ s pk a s1 rem o, m s pk = some (a, s1, rem, o) → s1.sentInvalid = s.sentInvalid

/-- A case that leaves the flag `sentInvalid` as it found it unless it returns from
`setProps`. -/
def KeepsF (m : PM Flow) : Prop :=
  ∀ s pk f s1 rem o, m s pk = some (f, s1, rem, o) → f ≠ Flow.ret →
    s1.sentInvalid = s.sentInvalid

/-- The byte the cast `(char)(v * 2)` puts on the wire, decoded again. -/
def coordByte (v : ℚ) : Nat := min (toU8 (ftoi (v * 2))) 223

/-- The locals behind a packet of the two coarse coordinates `cx` and `cy`, as the cases
`PLPROP_X` and `PLPROP_Y` leave them. -/
def afterXY (env : Env) (w : World) (cx cy : Nat) : Locals :=
  { w := { w with self := { w.self with
      x := (cx : ℚ) / 2
      y := (cy : ℚ) / 2
      status := clearBits (clearBits w.self.status PLSTATUS_PAUSED) PLSTATUS_PAUSED
      lastMovement := env.now
      grMovementUpdated := true
      x2 := ftoi ((cx : ℚ) / 2 * 16)
      y2 := ftoi ((cy : ℚ) / 2 * 16) } }
    doSignCheck := true
    doTouchTest := true
    sentInvalid := false }

/-! ## Sample data -/

/-- A sample environment: no script engine, client-side signs, setters that store
their argument (the power clamped into `[0, maxPower]`). -/
def sampleEnv : Env :=
  { now := 1000
    rand := fun n => n * 7 + 3
    v8npcserver := false
    CLVER_2_1 := 25
    CLVER_2_3 := 30
    maps := fun _ =>
      { type := MAPTYPE_GMAP, groupMap := false, mapName := str "world.gmap",
        getLevelX := fun _ => 0, getLevelY := fun _ => 0, getLevelAt := fun _ _ => [] }
    statusListSize := 4
    swordlimit := 3
    shieldlimit := 3
    normaladminscanchangegralats := true
    duplicatecanbecarried := false
    serverside := false
    dropitemsdead := true
    mindeathgralats := 1
    maxdeathgralats := 50
    unstickmelevel := str "onlinestartlocal.nw"
    unstickmex := 30
    unstickmey := 35
    serverName := str "srv"
    getExtension := fun _ => []
    wordFilterNick := fun _ t => { warn := false, replace := false, text := t }
    wordFilterChat := fun _ t => { warn := false, replace := false, text := t }
    isStaff := fun _ => false
    hasRightSetRights := fun _ => false
    isLoggedIn := fun p => p.type != PLTYPE_AWAIT && decide (p.id > 0)
    setPower := fun q p => { p with power := clip q 0 (p.maxPower : ℚ) }
    setMaxPower := fun v p => { p with maxPower := v }
    setSwordPower := fun v p => { p with swordPower := v }
    setShieldPower := fun v p => { p with shieldPower := v }
    setSwordImage := fun b w => { w with self := { w.self with swordImg := b } }
    setShieldImage := fun b w => { w with self := { w.self with shieldImg := b } }
    setHeadImage := fun b w => { w with self := { w.self with headImg := b } }
    setBodyImage := fun b w => { w with self := { w.self with bodyImg := b } }
    setGani := fun b p => { p with gani := b }
    setNick := fun b _ w => { w with self := { w.self with nickName := b } }
    processChat := fun _ w => (false, w)
    findLevel := fun _ _ => some 1
    getMap := fun _ => none
    leaveLevel := fun w => w
    setLevel := fun _ _ w => (true, w) }

/-- A sample client session: id 2, alive, at (30, 30) of level 1, alignment 50. -/
def samplePlayer : TPlayer :=
  { ptr := 7, id := 2, type := PLTYPE_CLIENT, versionID := 40, loaded := true,
    isExternal := false, invalidPackets := 0, level := some 1, pmap := none, levelGroup := [],
    cachedLevels := [], accountName := str "acc", nickName := str "nick", guild := [],
    communityName := [], language := [], os := [], codepage := 1252, levelName := str "a.nw",
    maxPower := 3, power := 3, gralatc := 10, arrowc := 5, bombc := 5, glovePower := 1,
    bombPower := 1, swordPower := 1, swordImg := [], shieldPower := 1, shieldImg := [],
    bowPower := 1, bowImage := [], gani := [], headImg := [], bodyImg := [], horseImg := [],
    horsec := 0, chatMsg := [], lastChat := 0, colors := [0, 0, 0, 0, 0], x := 30, y := 30,
    z := 0, x2 := 480, y2 := 480, z2 := 0, gmaplevelx := 3, gmaplevely := 3, sprite := 2,
    status := 0, carrySprite := 0, carryNpcId := 0, attachNPC := 0, apCounter := 0, ap := 50,
    mp := 0, kills := 0, deaths := 0, onlineTime := 0, accountIp := 0, udpport := 0,
    additionalFlags := 0, rating := 1500, deviation := 350, statusMsg := 0, attrList := [],
    lastMovement := 0, grMovementUpdated := false }

/-- A sample level led by the sample session, with a second occupant. -/
def sampleLevel : TLevel :=
  { levelName := str "a.nw", actualLevelName := str "a.nw", levelPlayerList := [7, 8],
    sparringZone := false, singleplayer := false, levelSigns := [] }

/-- A sample world around the sample session. -/
def sampleWorld : World :=
  { self := samplePlayer, levels := fun _ => sampleLevel, playerList := [], out := [],
    randc := 0 }

/-- The sample session on grid-map 0, at grid position (3, 3). -/
def sampleOrigin : TPlayer := { samplePlayer with pmap := some 0 }

/-- A second client on grid-map 0, at grid position (4, 4). -/
def sampleNear : TPlayer :=
  { samplePlayer with ptr := 8, id := 3, pmap := some 0, gmaplevelx := 4, gmaplevely := 4 }

/-- A third client on grid-map 0, at grid position (5, 5). -/
def sampleFar : TPlayer :=
  { samplePlayer with ptr := 9, id := 4, pmap := some 0, gmaplevelx := 5, gmaplevely := 5 }

/-- The grid coordinate a session reports for the stored coordinate `c`: the one wire byte
of `getProp` carries the low byte of `c`, capped at 223. -/
def wireCoord (c : Int) : Int := ((min (toU8 c) 223 : Nat) : Int)

/-- The sample session on grid-map 0, at grid position (223, 3). -/
def sampleEdge : TPlayer := { samplePlayer with pmap := some 0, gmaplevelx := 223 }

/-- A second client on grid-map 0 whose stored grid position is (250, 3). -/
def sampleBeyond : TPlayer :=
  { samplePlayer with ptr := 8, id := 3, pmap := some 0, gmaplevelx := 250 }

/-- A remote-control session on grid-map 0, at grid position (3, 3). -/
def sampleRC : TPlayer :=
  { samplePlayer with ptr := 10, id := 5, type := PLTYPE_RC, pmap := some 0 }

/-- The sample environment with every map group-instanced. -/
def sampleGroupEnv : Env :=
  { sampleEnv with
    maps := fun _ =>
      { type := MAPTYPE_GMAP, groupMap := true, mapName := str "world.gmap",
        getLevelX := fun _ => 0, getLevelY := fun _ => 0, getLevelAt := fun _ _ => [] } }

/-- A client of another group on grid-map 0, at grid position (4, 4). -/
def sampleStranger : TPlayer := { sampleNear with ptr := 11, id := 6, levelGroup := str "g2" }

/-! ## The session registry of `TServer` (TServer.cpp)

`TServer.h` is not under src/; the registry is the three containers the functions below
touch, with the `id` field of every session object and the collaborators they call. -/

/-- The registry part of a `TServer` object. `playerIds` is the id table
(`std::vector<TPlayer*>`, `none` for `nullptr`), `playerList` the player list,
`deletedPlayers` the set of sessions marked for deletion (its elements in iteration
order), `idOf` the field `id` of the session object behind a pointer, `scriptReferenced`
whether that session has a script object that is still referenced, `listNotified` the
calls `getServerList()->deletePlayer` and `unregistered` the calls
`sockManager.unregisterSocket`, both in program order. -/
structure TServer where
  playerIds : List (Option Nat)
  playerList : List Nat
  deletedPlayers : List Nat
  idOf : Nat → Int
  scriptReferenced : Nat → Bool
  listNotified : List Nat
  unregistered : List Nat

/-- The registry of a server object before `init`, and behind `TServer::cleanup`
(lines 296-301), with no deletion pending. -/
def TServer.fresh : TServer :=
  { playerIds := [], playerList := [], deletedPlayers := [], idOf := fun _ => 0,
    scriptReferenced := fun _ => false, listNotified := [], unregistered := [] }

/-- The call `playerIds.resize(n)`: cut to `n` slots or filled up with `nullptr`. -/
def resizeIds (l : List (Option Nat)) (n : Nat) : List (Option Nat) :=
  l.take n ++ List.replicate (n - l.length) none

/-- The loop `for (unsigned int i = 2; i < playerIds.size(); ++i)` of
`getFreePlayerId` (lines 1456-1463) from the state `(i, newId)`; a hit stores `i` and
jumps behind the table. -/
def freeIdLoop (playerIds : List (Option Nat)) : Nat → Nat → Nat → Nat
  | 0, _, newId => newId
  | fuel + 1, i, newId =>
    if i < playerIds.length then
      if playerIds.getD i none = none then freeIdLoop playerIds fuel (playerIds.length + 1) i
      else freeIdLoop playerIds fuel (i + 1) newId
    else newId

/-- The method `TServer::getFreePlayerId` (TServer.cpp 1453-1471). -/
def getFreePlayerId (s : TServer) : Nat × TServer :=
  let newId := freeIdLoop s.playerIds s.playerIds.length 2 0
  if newId = 0 then (s.playerIds.length, { s with playerIds := s.playerIds ++ [none] })
  else (newId, s)

/-- The method `TServer::addPlayer(player, id)` (TServer.cpp 1473-1496); `id = none` is
the default argument `UINT_MAX`. -/
def addPlayer (s : TServer) (player : Nat) (id : Option Nat) : Bool × TServer :=
  let r : Option (Nat × TServer) :=
    match id with
    | none => some (getFreePlayerId s)
    | some i =>
      if s.playerIds.length ≤ i then some (i, { s with playerIds := resizeIds s.playerIds (i + 10) })
      else if s.playerIds.getD i none ≠ none then none
      else some (i, s)
  match r with
  | none => (false, s)
  | some (i, s1) =>
    (true, { s1 with
      idOf := Function.update s1.idOf player (i : Int)
      playerIds := s1.playerIds.set i (some player)
      playerList := s1.playerList ++ [player] })

/-- The part of `TServer::init` that touches the registry (lines 84 and 152-167): the id
table gets its two reserved slots, and a server built with the script engine registers
its NPC-server session `npcServer`. -/
def TServer.init (env : Env) (s : TServer) (npcServer : Nat) : TServer :=
  let s1 := { s with playerIds := resizeIds s.playerIds 2 }
  if env.v8npcserver then (addPlayer s1 npcServer none).2 else s1

/-- The method `TServer::deletePlayer` (TServer.cpp 1498-1511); `none` is `nullptr`. -/
def deletePlayer (s : TServer) (player : Option Nat) : Bool × TServer :=
  match player with
  | none => (true, s)
  | some p =>
    if p ∈ s.deletedPlayers then (true, s)
    else (true, { s with
      deletedPlayers := s.deletedPlayers ++ [p]
      listNotified := s.listNotified ++ [p] })

/-- One round of the loop of `cleanupDeletedPlayers` (lines 209-267) on the marked
session `p`. With the script engine a session whose script object is still referenced
stays marked (its last script events, lines 220-238, touch the session and the NPC
queues only). Otherwise its id slot is cleared, every occurrence in the player list is
unregistered and erased, and the mark is dropped; an id outside the table is undefined
behaviour. -/
def cleanupOne (env : Env) (s : TServer) (p : Nat) : Option TServer :=
  if env.v8npcserver && s.scriptReferenced p then some s
  else if 0 ≤ s.idOf p ∧ (s.idOf p).toNat < s.playerIds.length then
    some { s with
      playerIds := s.playerIds.set (s.idOf p).toNat none
      unregistered := s.unregistered ++ s.playerList.filter (fun q => q == p)
      playerList := s.playerList.filter (fun q => q != p)
      deletedPlayers := s.deletedPlayers.filter (fun q => q != p) }
  else none

/-- The loop of `cleanupDeletedPlayers` over the marked sessions. -/
def cleanupLoop (env : Env) : List Nat → TServer → Option TServer
  | [], s => some s
  | p :: rest, s =>
    match cleanupOne env s p with
    | none => none
    | some s1 => cleanupLoop env rest s1

/-- The method `TServer::cleanupDeletedPlayers` (TServer.cpp 204-270). The set holds no
`nullptr`, which `deletePlayer` never inserts. -/
def cleanupDeletedPlayers (env : Env) (s : TServer) : Option TServer :=
  cleanupLoop env s.deletedPlayers s

/-- A registry event: a new session object is accepted and added with the default id, a
session of the list asks for its deletion, or the server loop runs the cleanup. -/
inductive ServerOp where
  | add (player : Nat)
  | del (player : Nat)
  | tick

/-- What the callers guarantee: `add` is given a new object (line 501), `del` a session
of the player list. -/
def ServerOp.ok (s : TServer) : ServerOp → Prop
  | ServerOp.add p => p ∉ s.playerList
  | ServerOp.del p => p ∈ s.playerList
  | ServerOp.tick => True

/-- The effect of one registry event. -/
def applyOp (env : Env) (s : TServer) : ServerOp → Option TServer
  | ServerOp.add p => some (addPlayer s p none).2
  | ServerOp.del p => some (deletePlayer s (some p)).2
  | ServerOp.tick => cleanupDeletedPlayers env s

/-- The effect of a sequence of registry events. -/
def runOps (env : Env) : TServer → List ServerOp → Option TServer
  | s, [] => some s
  | s, op :: rest =>
    match applyOp env s op with
    | none => none
    | some s1 => runOps env s1 rest

/-- Every event of the sequence meets `ServerOp.ok` in the state it is applied to. -/
def OpsOk (env : Env) : TServer → List ServerOp → Prop
  | _, [] => True
  | s, op :: rest =>
    op.ok s ∧ (match applyOp env s op with
      | none => True
      | some s1 => OpsOk env s1 rest)

/-- The registry invariant: the table has its two reserved slots, which are empty; a slot
holds a listed session whose id is the slot index; every listed session sits in the slot
of its id; the list and the marks have no duplicates, and only listed sessions are
marked. -/
def RegInv (s : TServer) : Prop :=
  2 ≤ s.playerIds.length
  ∧ s.playerIds.getD 0 none = none ∧ s.playerIds.getD 1 none = none
  ∧ (∀ i p, s.playerIds.getD i none = some p → s.idOf p = (i : Int) ∧ p ∈ s.playerList)
  ∧ (∀ p ∈ s.playerList, 0 ≤ s.idOf p ∧ s.playerIds.getD (s.idOf p).toNat none = some p)
  ∧ s.playerList.Nodup
  ∧ s.deletedPlayers.Nodup
  ∧ (∀ p ∈ s.deletedPlayers, p ∈ s.playerList)

/-- Whether a round of the cleanup loop holds the marked session `q` back: only a server
built with the script engine does, while the script object of `q` is referenced. -/
def heldBack (env : Env) (s : TServer) (q : Nat) : Bool :=
  env.v8npcserver && s.scriptReferenced q

/-- A registry with sessions 7 (id 2) and 8 (id 3), session 7 marked for deletion while
its script object is still referenced. -/
def sampleServer : TServer :=
  { playerIds := [none, none, some 7, some 8], playerList := [7, 8], deletedPlayers := [7],
    idOf := fun p => if p = 7 then 2 else if p = 8 then 3 else 0,
    scriptReferenced := fun p => p == 7, listNotified := [7], unregistered := [] }

/-- The sample environment built with the script engine. -/
def sampleScriptEnv : Env := { sampleEnv with v8npcserver := true }

/-! ## The receive path of a session (TPlayer.cpp 450-705, 2174-2332, 3948-3953)

The classes `CString`, `CEncryption` and `CFileQueue` and the enumerations of `IEnums.h`
are not under src/. -/

/-- Role masks and inbound opcodes of the protocol's numbering (`IEnums.h`). -/
abbrev PLTYPE_ANYRC : Nat := 66
abbrev PLTYPE_ANYNC : Nat := 8
abbrev PLI_LEVELWARP : Nat := 0
abbrev PLI_LEVELWARPMOD : Nat := 30
abbrev PLI_RAWDATA : Nat := 50

/-- The inline test `TPlayer::isRC`: any of the two remote-control role bits. -/
def TPlayer.isRC (p : TPlayer) : Bool := p.type &&& PLTYPE_ANYRC != 0

/-- The inline test `TPlayer::isNC`. -/
def TPlayer.isNC (p : TPlayer) : Bool := p.type &&& PLTYPE_ANYNC != 0

/-- Conversion of a byte to `char` (signed). -/
def toS8 (v : Nat) : Int := if v % 256 < 128 then ((v % 256 : Nat) : Int) else ((v % 256 : Nat) : Int) - 256

/-- Modelled from the spec: `CString::readGChar`, one wire byte with the bias removed, as
a signed `char`. -/
def readGChar (pk : Bytes) : Int × Bytes := (toS8 (readGUChar pk).1, (readGUChar pk).2)

/-- Modelled from the spec: `CString::readShort`, the "2-byte length prefix" of a frame,
high byte first. -/
def readShort (pk : Bytes) : Nat × Bytes :=
  ((readChar pk).1 * 256 + (readChar (readChar pk).2).1, (readChar (readChar pk).2).2)

/-- Modelled from the spec: `CString::readString(delim)` for the delimiters the
modelled code passes: `"\n"` reads a "newline-delimited" record and skips the newline,
`"="` likewise reads up to the first `=`, `""` reads the rest. -/
def readString (delim : Bytes) (pk : Bytes) : Bytes × Bytes :=
  match delim with
  | [] => (pk, [])
  | d :: _ => (pk.takeWhile (fun b => b != d), (pk.dropWhile (fun b => b != d)).tail)

/-- Modelled from the spec: `CString::readGUInt5`. -/
def readGUInt5 (pk : Bytes) : Nat × Bytes := (toU32 (readGInt5 pk).1, (readGInt5 pk).2)

/-- Modelled from the spec: the "per-session cipher state" of the codec layer
(`CEncryption`): the generation (1 to 5, `ENCRYPT_GEN_n` being `n`), the negotiated key,
the position of the keystream and its limit. -/
structure CEncryption where
  gen : Nat
  key : Nat
  iterator : Nat
  limit : Int

/-- The connection state of a session next to its `World`: inbound codec, iterator key,
version text, remote address text, raw-block state, packet counter, time of the last
data, pending `-gr_movement` packets, the codec handed to the outbound queue
(`fileQueue.setCodec`) and the packets sent to the server list. -/
structure Conn where
  w : World
  in_codec : CEncryption
  key : Nat
  version : Bytes
  accountIpStr : Bytes
  nextIsRaw : Bool
  rawPacketSize : Nat
  packetCount : Nat
  lastData : Int
  grMovementPackets : Bytes
  fileQueueCodec : Option (Nat × Nat)
  toServerList : List Bytes

/-- A packet handler: the record (opcode byte first, read cursor behind it) and the
connection; `false` tears the session down. -/
abbrev Handler : Type := Bytes → Conn → Option (Bool × Conn)

/-- The collaborators of the receive path that are not under src/: enum values, the
decompressors, the cipher, `CString::tokenize`, the socket, the version tables, the
settings, the ban list, the allowed versions (an entry with a ':' split and trimmed by
`versionRange`) and the server list; and the handlers of the table `TPLFunc` that are not
modelled (`unassigned` tells the slots `createFunctions` leaves at `msgPLI_NULL`). -/
structure NetEnv where
  RCVER_1_1 : Nat
  CLVER_UNKNOWN : Nat
  PLI_RC_FILEBROWSER_UP : Nat
  COMPRESS_UNCOMPRESSED : Int
  COMPRESS_ZLIB : Int
  COMPRESS_BZ2 : Int
  SVO_VERIACC2 : Int
  zuncompress : Bytes → Bytes
  bzuncompress : Bytes → Bytes
  decrypt : CEncryption → Bytes → Bytes × Nat × Int
  limitFromType : Int → CEncryption → Int
  resetIterator : Nat → Nat
  tokenize : Bytes → List Bytes
  remoteIp : Bytes
  inet_addr : Bytes → Nat
  getVersionID : Bytes → Nat
  getNCVersionID : Bytes → Nat
  getRCVersionID : Bytes → Nat
  getVersionString : Bytes → Nat → Bytes
  playerCount : Nat
  maxplayers : Int
  isIpBanned : Bytes → Bool
  hasRightModifyStaff : TPlayer → Bool
  allowedVersions : List Bytes
  versionRange : Bytes → Option (Bytes × Bytes)
  allowedVersionString : Bytes
  serverListConnected : Bool
  unassigned : Nat → Bool
  otherHandler : Nat → Handler

/-- The call `in_codec.decrypt(pPacket)`. -/
def Conn.decrypt (net : NetEnv) (c : Conn) (pPacket : Bytes) : Bytes × Conn :=
  ((net.decrypt c.in_codec pPacket).1,
    { c with in_codec := { c.in_codec with
        iterator := (net.decrypt c.in_codec pPacket).2.1
        limit := (net.decrypt c.in_codec pPacket).2.2 } })

/-- The call `in_codec.limitFromType(t)`. -/
def Conn.limitFromType (net : NetEnv) (t : Int) (c : Conn) : Conn :=
  { c with in_codec := { c.in_codec with limit := net.limitFromType t c.in_codec } }

/-- A line of the server log and packets queued to the session. -/
def Conn.emit (c : Conn) (es : List Event) : Conn := { c with w := c.w.emit es }

/-- The method `TPlayer::decryptPacket` (TPlayer.cpp 660-704). -/
def decryptPacket (env : Env) (net : NetEnv) (c : Conn) (pPacket : Bytes) : Bytes × Conn :=
  if c.in_codec.gen = 3 then
    if !c.w.self.isClient then (pPacket, c) else c.decrypt net pPacket
  else if c.in_codec.gen = 4 then
    let r := (c.limitFromType net net.COMPRESS_BZ2).decrypt net pPacket
    (net.bzuncompress r.1, r.2)
  else if c.in_codec.gen ≥ 5 then
    let pType : Int := toS8 (readChar pPacket).1
    let r := (c.limitFromType net pType).decrypt net (pPacket.drop 1)
    if pType = net.COMPRESS_ZLIB then (net.zuncompress r.1, r.2)
    else if pType = net.COMPRESS_BZ2 then (net.bzuncompress r.1, r.2)
    else if pType ≠ net.COMPRESS_UNCOMPRESSED then
      (r.1, r.2.emit [Event.serverlog (str "[" ++ env.serverName
        ++ str "] ** [ERROR] Client gave incorrect packet compression type! ["
        ++ intText pType ++ str "]\n")])
    else (r.1, r.2)
  else (pPacket, c)

/-- The handler `TPlayer::msgPLI_RAWDATA` (TPlayer.cpp 3948-3953). -/
def msgPLI_RAWDATA : Handler := fun pPacket c =>
  some (true, { c with nextIsRaw := true, rawPacketSize := (readGUInt pPacket.tail).1 })

/-- The handler `TPlayer::msgPLI_LEVELWARP` (TPlayer.cpp 2320-2332), entered with the read
cursor behind the opcode byte; the result of `warp` is not looked at. -/
def msgPLI_LEVELWARP (env : Env) (w : World) (pPacket : Bytes) : Option (Bool × World) :=
  let body := pPacket.tail
  let r0 : Int × Bytes :=
    if toS8 (pPacket.headD 0) - 32 = (PLI_LEVELWARPMOD : Int)
    then (((readGUInt5 body).1 : Int), (readGUInt5 body).2) else (0, body)
  let modTime := r0.1
  let r1 := readGChar r0.2
  let r2 := readGChar r1.2
  let newLevel := (readString [] r2.2).1
  match warp env w newLevel ((r1.1 : ℚ) / 2) ((r2.1 : ℚ) / 2) modTime with
  | none => none
  | some (_, w1) => some (true, w1)

/-- A handler that works on the `World` of the connection. -/
def onWorld (h : World → Option (Bool × World)) : Conn → Option (Bool × Conn) := fun c =>
  match h c.w with
  | none => none
  | some (b, w1) => some (b, { c with w := w1 })

/-- The table `TPLFunc` behind `createFunctions` (TPlayer.cpp 162-295): the handlers
modelled here, `msgPLI_NULL` in the slots never assigned, a collaborator elsewhere. -/
def TPLFunc (env : Env) (net : NetEnv) (id : Nat) : Handler := fun pPacket c =>
  if id = PLI_RAWDATA then msgPLI_RAWDATA pPacket c
  else if id = PLI_LEVELWARP ∨ id = PLI_LEVELWARPMOD then
    onWorld (fun w => msgPLI_LEVELWARP env w pPacket) c
  else if id = PLI_ITEMADD then onWorld (fun w => msgPLI_ITEMADD w pPacket) c
  else if net.unassigned id then onWorld (fun w => some (msgPLI_NULL env w pPacket)) c
  else net.otherHandler id pPacket c

/-- The expression `1 << n` on a 32-bit `int`: defined when the count is not negative and
the result fits, that is for 0..30. -/
def shl1 (n : Int) : Option Nat := if 0 ≤ n ∧ n < 31 then some (2 ^ n.toNat) else none

/-- The `switch (type)` of `msgPLI_LOGIN` (lines 2190-2227): the generation, the log text
and `getKey` of a known role. -/
def loginRole (type : Nat) : Option (Nat × Bytes × Bool) :=
  if type = PLTYPE_CLIENT then some (3, str "Client\n", false)
  else if type = PLTYPE_RC then some (3, str "RC\n", false)
  else if type = PLTYPE_NPCSERVER then some (3, str "NPCSERVER\n", false)
  else if type = PLTYPE_NC then some (3, str "NC\n", false)
  else if type = PLTYPE_CLIENT2 then some (4, str "New Client (2.19 - 2.21, 3 - 3.01)\n", false)
  else if type = PLTYPE_CLIENT3 then some (5, str "New Client (2.22+)\n", false)
  else if type = PLTYPE_RC2 then some (5, str "New RC (2.22+)\n", true)
  else none

/-- The loop over the allowed versions of `msgPLI_LOGIN` (lines 2274-2296). -/
def versionAllowed (net : NetEnv) (versionID : Nat) : Bool :=
  net.allowedVersions.any (fun ver =>
    match net.versionRange ver with
    | some (ver1, ver2) =>
      decide (versionID ≥ net.getVersionID ver1) && decide (versionID ≤ net.getVersionID ver2)
    | none => versionID == net.getVersionID ver)

/-- A disconnect message to the session: `sendPacket(CString() >> (char)PLO_DISCMESSAGE
<< text)`. -/
def discMessage (c : Conn) (text : Bytes) : Conn :=
  c.emit (sendPacket c.w.self.ptr (writeGChar PLO_DISCMESSAGE ++ text) true)

/-- The checks of `msgPLI_LOGIN` behind the account name (lines 2255-2317). -/
def loginChecks (net : NetEnv) (c : Conn) (password : Bytes) : Bool × Conn :=
  if net.playerCount ≥ toU32 net.maxplayers then
    (false, discMessage c (str "This server has reached its player limit."))
  else if net.isIpBanned net.remoteIp && !net.hasRightModifyStaff c.w.self then
    (false, discMessage c (str "You have been banned from this server."))
  else if c.w.self.isClient && !versionAllowed net c.w.self.versionID then
    (false, discMessage c (str "Your client version is not allowed on this server.\rAllowed: "
      ++ net.allowedVersionString))
  else if !net.serverListConnected then
    (false, discMessage c (str "The login server is offline.  Try again later."))
  else
    (true, { c with toServerList := c.toServerList ++
      [writeGChar net.SVO_VERIACC2 ++ writeGChar c.w.self.accountName.length
        ++ c.w.self.accountName ++ writeGChar password.length ++ password
        ++ writeGShort c.w.self.id ++ writeGChar c.w.self.type] })

/-- The handler `TPlayer::msgPLI_LOGIN` (TPlayer.cpp 2174-2318) on the login record. -/
def msgPLI_LOGIN (env : Env) (net : NetEnv) (c : Conn) (pPacket : Bytes) :
    Option (Bool × Conn) :=
  let c0 : Conn :=
    ({ c with
      accountIpStr := net.remoteIp
      w := { c.w with self := { c.w.self with accountIp := net.inet_addr net.remoteIp } } }).emit
      [Event.serverlog (str "[" ++ env.serverName ++ str "] :: New login:\t")]
  let r := readGChar pPacket
  match shl1 r.1 with
  | none => none
  | some type =>
    let c1 : Conn := { c0 with w := { c0.w with self := { c0.w.self with type := type } } }
    match loginRole type with
    | none =>
      some (false, discMessage (c1.emit [Event.serverlog (str "Unknown (" ++ intText (toS32 type)
          ++ str ")\n")])
        (str "Your client type is unknown.  Please inform the Graal Reborn staff.  Type: "
          ++ intText (toS32 type) ++ str "."))
    | some (gen, text, getKey) =>
      let c2 : Conn :=
        ({ c1 with in_codec := { c1.in_codec with gen := gen } }).emit [Event.serverlog text]
      let keyed : Bytes × Conn :=
        if c2.w.self.isClient || (c2.w.self.isRC && decide (gen > 3)) || getKey then
          let k := toU8 (readGChar r.2).1
          ((readGChar r.2).2,
            { c2 with
              key := k
              in_codec := { c2.in_codec with key := k, iterator := net.resetIterator k }
              fileQueueCodec := if gen > 3 then some (gen, k) else c2.fileQueueCodec })
        else (r.2, c2)
      let rv := readChars 8 keyed.1
      let versionID : Nat :=
        if keyed.2.w.self.isClient then net.getVersionID rv.1
        else if keyed.2.w.self.isNC then net.getNCVersionID rv.1
        else if keyed.2.w.self.isRC then net.getRCVersionID rv.1
        else net.CLVER_UNKNOWN
      let ra := readChars (readGUChar rv.2).1 (readGUChar rv.2).2
      let rp := readChars (readGUChar ra.2).1 (readGUChar ra.2).2
      let c3 : Conn :=
        ({ keyed.2 with
          version := rv.1
          w := { keyed.2.w with
            self := { keyed.2.w.self with versionID := versionID, accountName := ra.1 } } }).emit
          [ Event.serverlog (str "[" ++ env.serverName ++ str "]    Version:\t" ++ rv.1
              ++ str " (" ++ net.getVersionString rv.1 type ++ str ")\n"),
            Event.serverlog (str "[" ++ env.serverName ++ str "]    Account:\t" ++ ra.1
              ++ str "\n") ]
      some (loginChecks net c3 rp.1)

/-- The step "Generation 3 encrypts individual packets so decrypt it now" of
`parsePacket` (lines 633-635). -/
def decryptRecord (env : Env) (net : NetEnv) (c : Conn) (curPacket : Bytes) : Bytes × Conn :=
  if c.in_codec.gen = 3 then decryptPacket env net c curPacket else (curPacket, c)

/-- The test of `parsePacket` (line 642) for a file upload of RC version 1.1. -/
def uploadRC11 (net : NetEnv) (p : TPlayer) (id : Nat) : Bool :=
  p.isRC && decide (p.versionID = net.RCVER_1_1) && decide (id = net.PLI_RC_FILEBROWSER_UP)

/-- The second half of the body of the loop of `parsePacket` (lines 633-656), on the
record `curPacket` cut out of a frame of which `rest` is still unread: per-record
decryption, opcode, the file-upload rule of RC 1.1 (the record loses its last byte, one
more byte of the frame is read out), packet count and the call of the handler. -/
def dispatch (env : Env) (net : NetEnv) (tbl : Nat → Handler) (c : Conn)
    (curPacket rest : Bytes) : Option (Bool × Conn × Bytes) :=
  let dec := decryptRecord env net c curPacket
  let id := (readGUChar dec.1).1
  let upload := uploadRC11 net dec.2.w.self id
  match tbl id (if upload then dec.1.dropLast else dec.1)
      { dec.2 with packetCount := dec.2.packetCount + 1 } with
  | none => none
  | some (b, c3) => some (b, c3, if upload then (readChar rest).2 else rest)

/-- The body of the loop of `parsePacket` (lines 614-656) on the unread bytes `pPacket`
of the frame: the record cut out, its dispatch through the table `tbl`, and the unread
bytes behind. Looking at the last byte of an empty raw record is undefined. -/
def parseOne (env : Env) (net : NetEnv) (tbl : Nat → Handler) (c : Conn) (pPacket : Bytes) :
    Option (Bool × Conn × Bytes) :=
  if c.nextIsRaw then
    let raw := readChars c.rawPacketSize pPacket
    let c1 := { c with nextIsRaw := false }
    if c.w.self.isClient || (c.w.self.isRC && decide (c.w.self.versionID > net.RCVER_1_1)) then
      match raw.1.getLast? with
      | none => none
      | some last =>
        dispatch env net tbl c1 (if last = 10 then raw.1.dropLast else raw.1) raw.2
    else dispatch env net tbl c1 raw.1 raw.2
  else dispatch env net tbl c (readString [10] pPacket).1 (readString [10] pPacket).2

/-- The loop `while (pPacket.bytesLeft() > 0)` of `parsePacket`. -/
def parseLoop (env : Env) (net : NetEnv) (tbl : Nat → Handler) :
    Nat → Conn → Bytes → Option (Bool × Conn)
  | fuel, c, pPacket =>
    if pPacket.length > 0 then
      match fuel with
      | 0 => none
      | fuel1 + 1 =>
        match parseOne env net tbl c pPacket with
        | none => none
        | some (false, c1, _) => some (false, c1)
        | some (true, c1, rest) => parseLoop env net tbl fuel1 c1 rest
    else some (true, c)

/-- The method `TPlayer::parsePacket` (TPlayer.cpp 604-658) with the handler table `tbl`.
Only a raw record of size 0 consumes no byte, and the raw mode is left by then, so two
units of fuel per byte are enough. -/
def parsePacket (env : Env) (net : NetEnv) (tbl : Nat → Handler) (c : Conn) (pPacket : Bytes) :
    Option (Bool × Conn) :=
  if c.w.self.type = PLTYPE_AWAIT then
    match msgPLI_LOGIN env net { c with packetCount := c.packetCount + 1 }
        (readString [10] pPacket).1 with
    | none => none
    | some (false, c1) => some (false, c1)
    | some (true, c1) =>
      parseLoop env net tbl (2 * pPacket.length + 2) c1 (readString [10] pPacket).2
  else parseLoop env net tbl (2 * pPacket.length + 2) c pPacket

/-- The `switch (in_codec.getGen())` of `doMain` (lines 471-487) on a frame. -/
def decodeFrame (env : Env) (net : NetEnv) (c : Conn) (unBuffer : Bytes) : Bytes × Conn :=
  if c.in_codec.gen = 1 then (unBuffer, c)
  else if c.in_codec.gen = 2 ∨ c.in_codec.gen = 3 then (net.zuncompress unBuffer, c)
  else decryptPacket env net c unBuffer

/-- The loop `while (rBuffer.length() > 1)` of `doMain` (lines 457-492) on the receive
buffer, with the parse step `parse`: whether no parse step failed, the receive buffer
and the connection behind the loop. Modelled from the spec: the frame reader "pops" the
prefix and the payload, so every round reads at the front of the buffer. -/
def doMainLoop (env : Env) (net : NetEnv) (parse : Conn → Bytes → Option (Bool × Conn)) :
    Nat → Bytes → Conn → Option (Bool × Bytes × Conn)
  | fuel, rBuffer, c =>
    if rBuffer.length > 1 then
      match fuel with
      | 0 => none
      | fuel1 + 1 =>
        let c1 := { c with lastData := env.now }
        let len := (readShort rBuffer).1 % 65536
        if len > rBuffer.length - 2 then some (true, rBuffer, c1)
        else
          let unBuffer := (readChars len (readShort rBuffer).2).1
          let rBuffer1 := rBuffer.drop (len + 2)
          let d := decodeFrame env net c1 unBuffer
          match parse d.2 d.1 with
          | none => none
          | some (false, c2) => some (false, rBuffer1, c2)
          | some (true, c2) => doMainLoop env net parse fuel1 rBuffer1 c2
    else some (true, rBuffer, c)

/-- The loop `for (auto & i : pack) setProps(i, true, false);` of `doMain`. -/
def setPropsAll (env : Env) : List Bytes → World → Option World
  | [], w => some w
  | i :: rest, w =>
    match setProps env w i true false none with
    | none => none
    | some w1 => setPropsAll env rest w1

/-- The block "Update the -gr_movement packets" of `doMain` (lines 494-507). -/
def grMovementFlush (env : Env) (net : NetEnv) (c : Conn) : Option Conn :=
  let moved : Option World :=
    if !c.grMovementPackets.isEmpty && !c.w.self.grMovementUpdated then
      setPropsAll env (net.tokenize c.grMovementPackets) c.w
    else some c.w
  match moved with
  | none => none
  | some w1 =>
    some { c with
      grMovementPackets := []
      w := { w1 with self := { w1.self with grMovementUpdated := false } } }

/-- The method `TPlayer::doMain` (TPlayer.cpp 450-511) on the receive buffer `rBuffer`,
with the parse step `parse`; the update of the socket manager is not part of the state. -/
def doMainWith (env : Env) (net : NetEnv) (parse : Conn → Bytes → Option (Bool × Conn))
    (rBuffer : Bytes) (c : Conn) : Option (Bool × Bytes × Conn) :=
  match doMainLoop env net parse rBuffer.length rBuffer c with
  | none => none
  | some (false, rBuffer1, c1) => some (false, rBuffer1, c1)
  | some (true, rBuffer1, c1) =>
    match grMovementFlush env net c1 with
    | none => none
    | some c2 => some (true, rBuffer1, c2)

/-- The method `TPlayer::doMain` with `TPlayer::parsePacket` and the table `TPLFunc`. -/
def doMain (env : Env) (net : NetEnv) (rBuffer : Bytes) (c : Conn) :
    Option (Bool × Bytes × Conn) :=
  doMainWith env net (fun c1 frame => parsePacket env net (TPLFunc env net) c1 frame) rBuffer c

/-! ### Vocabulary of the framing and login statements -/

/-- The bytes of a list of frames, each a prefix and a payload. -/
def wire : List (Bytes × Bytes) → Bytes
  | [] => []
  | f :: fs => f.1 ++ f.2 ++ wire fs

/-- A complete frame: a 2-byte prefix that holds the length of the payload. -/
def IsFrame (f : Bytes × Bytes) : Prop := f.1.length = 2 ∧ (readShort f.1).1 = f.2.length

/-- An incomplete frame: less than a prefix, or a prefix that announces more bytes than
follow it. -/
def Incomplete (inc : Bytes) : Prop :=
  inc.length ≤ 1 ∨ (readShort inc).1 > inc.length - 2

/-- Follows the spec's words: the payloads of the complete frames are handed "in order,
to the decode/parse step", and the feeding "stops early with false as soon as
parsePacket returns false". The number is that of the frames used up. -/
def feedFrames (env : Env) (net : NetEnv) (parse : Conn → Bytes → Option (Bool × Conn)) :
    List Bytes → Conn → Option (Bool × Nat × Conn)
  | [], c => some (true, 0, c)
  | payload :: rest, c =>
    match parse (decodeFrame env net { c with lastData := env.now } payload).2
        (decodeFrame env net { c with lastData := env.now } payload).1 with
    | none => none
    | some (false, c1) => some (false, 1, c1)
    | some (true, c1) =>
      match feedFrames env net parse rest c1 with
      | none => none
      | some (b, j, c2) => some (b, j + 1, c2)

/-- A disconnect message with a reason text was queued to the session between `w` and
`w1`. -/
def DiscQueued (w w1 : World) : Prop :=
  ∃ es reason, w1.out = w.out ++ es ∧ reason ≠ [] ∧
    (Event.queued w.self.ptr (writeGChar PLO_DISCMESSAGE ++ reason) ∈ es
      ∨ Event.queued w.self.ptr (writeGChar PLO_DISCMESSAGE ++ reason ++ [10]) ∈ es)

/-- The seven concrete roles of the `switch` of `msgPLI_LOGIN`. -/
def concreteRoles : List Nat :=
  [PLTYPE_CLIENT, PLTYPE_RC, PLTYPE_NPCSERVER, PLTYPE_NC, PLTYPE_CLIENT2, PLTYPE_CLIENT3,
    PLTYPE_RC2]

/-- Follows the spec's words: of a raw block "only a newline in the last position is
stripped, and only for client senders and RC senders newer than 1.1". -/
def rawRecord (net : NetEnv) (p : TPlayer) (raw : Bytes) : Bytes :=
  if (p.isClient || (p.isRC && decide (p.versionID > net.RCVER_1_1)))
      && raw.getLast? == some 10 then raw.dropLast
  else raw

/-- A handler table that only notes the records it is handed, in `toServerList`, behind
the raw-data handler. -/
def recordingTable : Nat → Handler := fun id curPacket c =>
  if id = PLI_RAWDATA then msgPLI_RAWDATA curPacket c
  else some (true, { c with toServerList := c.toServerList ++ [curPacket] })

/-! ### Sample data of the receive path -/

/-- A sample of the collaborators: identity decompressors and cipher, file-upload opcode
93, RC version 1.1 numbered 1, a connected server list, 128 slots. -/
def sampleNet : NetEnv :=
  { RCVER_1_1 := 1
    CLVER_UNKNOWN := 0
    PLI_RC_FILEBROWSER_UP := 93
    COMPRESS_UNCOMPRESSED := 2
    COMPRESS_ZLIB := 4
    COMPRESS_BZ2 := 6
    SVO_VERIACC2 := 28
    zuncompress := fun b => b
    bzuncompress := fun b => b
    decrypt := fun e b => (b, e.iterator, e.limit)
    limitFromType := fun _ e => e.limit
    resetIterator := fun k => k
    tokenize := fun b => [b]
    remoteIp := str "10.0.0.1"
    inet_addr := fun _ => 167772161
    getVersionID := fun _ => 40
    getNCVersionID := fun _ => 2
    getRCVersionID := fun _ => 1
    getVersionString := fun v _ => v
    playerCount := 3
    maxplayers := 128
    isIpBanned := fun _ => false
    hasRightModifyStaff := fun _ => false
    allowedVersions := [str "GNW03014"]
    versionRange := fun _ => none
    allowedVersionString := str "2.1"
    serverListConnected := true
    unassigned := fun id => decide (id > 200)
    otherHandler := fun _ _ c => some (true, c) }

/-- A sample connection of the sample client, generation 1, nothing pending. -/
def sampleConn : Conn :=
  { w := sampleWorld
    in_codec := { gen := 1, key := 0, iterator := 0, limit := -1 }
    key := 0
    version := []
    accountIpStr := []
    nextIsRaw := false
    rawPacketSize := 0
    packetCount := 0
    lastData := 0
    grMovementPackets := []
    fileQueueCodec := none
    toServerList := [] }

/-- A sample connection that waits for its login record. -/
def sampleAwait : Conn :=
  { sampleConn with w := { sampleWorld with self := { samplePlayer with type := PLTYPE_AWAIT } } }

/-- A sample RC 1.1 connection. -/
def sampleRC11 : Conn :=
  { sampleConn with
    w := { sampleWorld with self := { samplePlayer with type := PLTYPE_RC, versionID := 1 } } }

/-- The sample client connection after the announcement of a raw block of 3 bytes. -/
def sampleRawConn : Conn := { sampleConn with nextIsRaw := true, rawPacketSize := 3 }

/-- A sample frame: a raw-data record that announces 3 bytes, the 3 bytes (a file upload
by opcode, 93 + 32), and one more record. -/
def sampleUploadFrame : Bytes := [82, 32, 32, 35, 10] ++ [125, 65, 66] ++ [67, 10]

/-- Two sample frames: a raw-data record that announces 3 bytes, and the 3 bytes with a
newline among them. -/
def sampleFrames : List (Bytes × Bytes) :=
  [([0, 5], [82, 32, 32, 35, 10]), ([0, 3], [65, 10, 66])]

/-- A sample login record: role byte of a client, key byte, version text, account name
and password. -/
def sampleLogin : Bytes :=
  [32, 40] ++ str "GNW03014" ++ [35] ++ str "abc" ++ [34] ++ str "pw"

/-- The sample world after five invalid packets. -/
def sampleNoisyWorld : World :=
  { sampleWorld with self := { samplePlayer with invalidPackets := 5 } }

/-- A sample server on which no level can be entered: no level is found and `setLevel`
fails. -/
def sampleStuckEnv : Env :=
  { sampleEnv with findLevel := fun _ _ => none, setLevel := fun _ _ w => (false, w) }

/-- A disconnect message that carries the reason `text` was queued to the session between
`w` and `w1`: the packet is the opcode and the text, with the newline that ends a record
(`sendPacket` appends it unless the text ends with one). -/
def DiscText (w w1 : World) (text : Bytes) : Prop :=
  ∃ es, w1.out = w.out ++ es ∧
    (Event.queued w.self.ptr (writeGChar PLO_DISCMESSAGE ++ text) ∈ es
      ∨ Event.queued w.self.ptr (writeGChar PLO_DISCMESSAGE ++ text ++ [10]) ∈ es)

/-- The reason texts of the five fatal paths of `msgPLI_LOGIN` (lines 2224, 2257, 2264,
2299 and 2308), in the order of the code, for the role `type` of the record: unknown
client type, server full, IP banned, client version not allowed, login server offline. -/
def loginReasons (net : NetEnv) (type : Nat) : List Bytes :=
  [str "Your client type is unknown.  Please inform the Graal Reborn staff.  Type: "
      ++ intText (toS32 type) ++ str ".",
    str "This server has reached its player limit.",
    str "You have been banned from this server.",
    str "Your client version is not allowed on this server.\rAllowed: "
      ++ net.allowedVersionString,
    str "The login server is offline.  Try again later."]

/-- The reason text of the fatal path of `msgPLI_NULL` (line 2167). -/
def nullReason : Bytes := str "Disconnected for sending invalid packets."

/-! ## Level transitions and timed maintenance (TPlayer.cpp 513-596, 1490-1875,
TPlayerProps.cpp 1032-1069)

`TLevel`, `TMap` and the settings are not under src/. -/

/-- More outbound opcodes and property ids of the protocol's numbering (`IEnums.h`). -/
abbrev PLO_LEVELBOARD : Nat := 0
abbrev PLO_LEVELNAME : Nat := 6
abbrev PLO_PLAYERWARP : Nat := 14
abbrev PLO_WARPFAILED : Nat := 15
abbrev PLO_LEVELMODTIME : Nat := 39
abbrev PLO_NEWWORLDTIME : Nat := 42
abbrev PLO_PLAYERWARP2 : Nat := 49
abbrev PLO_RAWDATA : Nat := 100
abbrev PLO_SETACTIVELEVEL : Nat := 156
abbrev PLO_GHOSTICON : Nat := 174
abbrev PLPROP_NICKNAME : Nat := 0
abbrev PLPROP_CURLEVEL : Nat := 20
abbrev PLPROP_JOINLEAVELVL : Nat := 50

/-- Modelled from the spec: `CString::writeGInt4`, four biased wire bytes. -/
def writeGInt4 (v : Int) : Bytes :=
  let t := min (toU32 v) 471347295
  let b0 := min (t / 2097152) 223
  let t1 := t - b0 * 2097152
  let b1 := min (t1 / 16384) 223
  let t2 := t1 - b1 * 16384
  let b2 := min (t2 / 128) 223
  [b0 + 32, b1 + 32, b2 + 32, (t2 - b2 * 128) + 32]

/-- The table `__getLogin` (TPlayer.cpp 66-82). -/
def __getLogin : List Bool :=
  [true,  false, false, false, false, false,
   false, false, true,  true,  true,  true,
   true,  true,  false, true,  true,  true,
   true,  true,  true,  true,  false, false,
   true,  false, false, false, false, false,
   true,  true,  true,  false, true,  true,
   true,  true,  true,  true,  true,  true,
   false, true,  true,  true,  true,  true,
   true,  true,  true,  false, false, true,
   true,  true,  true,  true,  true,  true,
   true,  true,  true,  true,  true,  true,
   true,  true,  true,  true,  true,  true,
   true,  true,  true,  false, false, false,
   true,  true,  true,  false, true]

/-- The method `TPlayer::getProps(pProps, pCount)` (TPlayerProps.cpp 1032-1069); the
call `getProps(0, 0)` is `getProps [] 0`. -/
def getProps (env : Env) (levels : Nat → TLevel) (p : TPlayer) (pProps : List Bool)
    (pCount : Nat) : Bytes :=
  let start := writeGChar PLO_OTHERPLPROPS ++ writeGShort p.id
  let props : Bytes :=
    if pCount > 0 then
      let join : Bytes :=
        if p.isClient && pProps.getD PLPROP_JOINLEAVELVL false
        then writeGChar PLPROP_JOINLEAVELVL ++ writeGChar 1 else []
      let count := if p.isClient && decide (p.versionID < env.CLVER_2_1) then 37 else pCount
      join ++ (List.range count).flatMap (fun i =>
        if i = PLPROP_JOINLEAVELVL then []
        else
          (if i = PLPROP_ATTACHNPC ∧ p.attachNPC ≠ 0
            then writeGChar i ++ getProp env levels p i else [])
          ++ (if pProps.getD i false then writeGChar i ++ getProp env levels p i else []))
    else []
  start ++ props ++ (if p.isExternal then writeGChar 81 ++ str "!" else [])

/-- The method `TPlayer::getCachedLevelModTime` (TPlayer.cpp 1853-1862): the time of the
first cache entry of the level, 0 without one. -/
def getCachedLevelModTime (p : TPlayer) (level : Nat) : Int :=
  match p.cachedLevels.find? (fun cl => cl.1 == level) with
  | some cl => cl.2
  | none => 0

/-- The loop of `leaveLevel` and of `resetLevelCache` over the cache: the first entry of
the level gets the time `t`; whether there was one. -/
def touchCache (level : Nat) (t : Int) : List (Nat × Int) → List (Nat × Int) × Bool
  | [] => ([], false)
  | cl :: rest =>
    if cl.1 = level then ((cl.1, t) :: rest, true)
    else ((cl :: (touchCache level t rest).1), (touchCache level t rest).2)

/-- The method `TPlayer::resetLevelCache` (TPlayer.cpp 1864-1875). -/
def resetLevelCache (p : TPlayer) (level : Nat) : TPlayer :=
  { p with cachedLevels := (touchCache level 0 p.cachedLevels).1 }

/-- The method `TPlayer::leaveLevel(resetCache)` (TPlayer.cpp 1805-1851). -/
def leaveLevel (env : Env) (resetCache : Bool) (w : World) : Bool × World :=
  match w.self.level with
  | none => (true, w)
  | some l =>
    let touched := touchCache l (if resetCache then 0 else env.now) w.self.cachedLevels
    let cache := if touched.2 then touched.1 else w.self.cachedLevels ++ [(l, env.now)]
    let lv := (w.levels l).removePlayer w.self.ptr
    let w1 : World :=
      { w with
        self := { w.self with cachedLevels := cache }
        levels := Function.update w.levels l lv }
    let toLeader : List Event :=
      match lv.getPlayer 0 with
      | some leader => sendPacket leader (writeGChar PLO_ISLEADER) true
      | none => []
    let left : List Event :=
      [Event.toLevel (getProps env w1.levels w1.self [] 0 ++ writeGChar PLPROP_JOINLEAVELVL
        ++ writeGChar 0) none (some l) (some w1.self.ptr) false]
    let others : List Event :=
      w1.playerList.flatMap (fun player =>
        if player.ptr = w1.self.ptr then []
        else if player.level ≠ some l then []
        else sendPacket w1.self.ptr (getProps env w1.levels player [] 0
          ++ writeGChar PLPROP_JOINLEAVELVL ++ writeGChar 0) true)
    let w2 := w1.emit (toLeader ++ left ++ others)
    (true, { w2 with self := { w2.self with level := none } })

/-- The methods of `TLevel` and of the server (not under src/) that the level sync reads:
the packets of a level by its pointer, the world time, the server-wide lookup of a level
by name (`TLevel::findLevel`) and the data of a clone (`TLevel::clone`). -/
structure LevelEnv where
  nwTime : Int
  getModTime : Nat → Int
  getBoardPacket : Nat → Bytes
  getLinksPacket : Nat → Bytes
  getSignsPacket : Nat → TPlayer → Bytes
  getBoardChangesPacket : Nat → Int → Bytes
  getBoardChangesPacket2 : Nat → Int → Bytes
  getChestPacket : Nat → TPlayer → Bytes
  getHorsePacket : Nat → Bytes
  getBaddyPacket : Nat → Nat → Bytes
  getNpcsPacket : Nat → Int → Nat → Bytes
  findLevel : Bytes → Option Nat
  cloneLevel : TLevel → TLevel

/-- The session and the server around a level transition: the world, the flag
`firstLevel`, the singleplayer clones of the session by level name (`spLevels`), the
clones of the groups by group tag and level name (`groupLevels`), and the pointer the
next level object gets. -/
structure Placement where
  w : World
  firstLevel : Bool
  spLevels : List (Bytes × Nat)
  groupLevels : List ((Bytes × Bytes) × Nat)
  nextLevel : Nat

/-- Packets queued to the session itself. -/
def Placement.send (st : Placement) (pkts : List Bytes) : Placement :=
  { st with w := st.w.emit (pkts.flatMap (fun pkt => sendPacket st.w.self.ptr pkt true)) }

/-- The session object behind a pointer of an occupant list. -/
def World.player (w : World) (ptr : Nat) : Option TPlayer :=
  if ptr = w.self.ptr then some w.self else w.playerList.find? (fun p => p.ptr == ptr)

/-- The login props of the occupants of the session's level, sent to the session
(`sendLevel` lines 1709-1716, `sendLevel141` lines 1792-1799); `l` is `this->level`. -/
def levelProps (env : Env) (w : World) (l : Nat) : Option (List Event) :=
  let each : List (Option (List Event)) :=
    (w.levels l).levelPlayerList.map (fun q =>
      if q = w.self.ptr then some []
      else
        match w.player q with
        | none => none
        | some player =>
          some (sendPacket w.self.ptr (getProps env w.levels player __getLogin 83) true))
  if each.all Option.isSome then
    some ([Event.toLevel (getProps env w.levels w.self __getLogin 83) none (some l)
        (some w.self.ptr) false] ++ each.flatMap (fun e => e.getD []))
  else none

/-- The login props of the sessions near the session on its map, sent to the session
(`sendLevel` lines 1680-1706); `pLevel` is the level being sent. -/
def mapProps (env : Env) (w : World) (m : Nat) (pLevel : Nat) : List Event :=
  [Event.toLevelOf (getProps env w.levels w.self __getLogin 83) (some m) w.self.ptr false false]
  ++ w.playerList.flatMap (fun player =>
    if player.ptr = w.self.ptr ∨ player.pmap ≠ some m then []
    else if (env.maps m).groupMap = true ∧ w.self.levelGroup ≠ player.levelGroup then []
    else if (env.maps m).type = MAPTYPE_GMAP then
      if gmapAdjacent (gmapCoord env w.levels player PLPROP_GMAPLEVELX,
            gmapCoord env w.levels player PLPROP_GMAPLEVELY)
          (w.self.gmaplevelx, w.self.gmaplevely)
      then sendPacket w.self.ptr (getProps env w.levels player __getLogin 83) true
      else []
    else if (env.maps m).type = MAPTYPE_BIGMAP then
      match player.level with
      | none => []
      | some pl =>
        if gmapAdjacent ((env.maps m).getLevelX (w.levels pl).actualLevelName,
              (env.maps m).getLevelY (w.levels pl).actualLevelName)
            ((env.maps m).getLevelX (w.levels pLevel).actualLevelName,
              (env.maps m).getLevelY (w.levels pLevel).actualLevelName)
        then sendPacket w.self.ptr (getProps env w.levels player __getLogin 83) true
        else []
    else [])

/-- The full-sync items of `sendLevel` (lines 1607-1619), sent when the session has no
cached time for the level: the board when the client's time is not the level's, then
the modification time, the links and the signs. -/
def fullSync (lenv : LevelEnv) (self : TPlayer) (pLevel : Nat) (modTime : Int) : List Bytes :=
  (if modTime ≠ lenv.getModTime pLevel
    then [writeGChar PLO_RAWDATA ++ writeGInt 8194, lenv.getBoardPacket pLevel] else [])
  ++ [writeGChar PLO_LEVELMODTIME ++ writeGInt5 (lenv.getModTime pLevel),
      lenv.getLinksPacket pLevel, lenv.getSignsPacket pLevel self]

/-- The method `TPlayer::sendLevel(pLevel, modTime, fromAdjacent)` (TPlayer.cpp
1598-1721). -/
def sendLevel (env : Env) (lenv : LevelEnv) (st : Placement) (pLevel : Option Nat)
    (modTime : Int) (fromAdjacent : Bool) : Option (Bool × Placement) :=
  match pLevel with
  | none => some (false, st)
  | some pl =>
    let self := st.w.self
    let lvl := st.w.levels pl
    let l_time := getCachedLevelModTime self pl
    let modTime1 := if modTime = -1 then lenv.getModTime pl else modTime
    let onGmap : Bool :=
      match self.pmap with
      | some m => (env.maps m).type == MAPTYPE_GMAP
      | none => false
    let mapName : Bytes :=
      match self.pmap with
      | some m => (env.maps m).mapName
      | none => []
    let pkts : List Bytes :=
      [writeGChar PLO_LEVELNAME ++ lvl.levelName]
      ++ (if l_time = 0 then fullSync lenv self pl modTime1 else [])
      ++ (if !fromAdjacent then
          [lenv.getBoardChangesPacket pl l_time, lenv.getChestPacket pl self,
            lenv.getHorsePacket pl, lenv.getBaddyPacket pl self.versionID]
        else [])
      ++ (if onGmap then [writeGChar PLO_LEVELNAME ++ mapName] else [])
      ++ [writeGChar PLO_GHOSTICON ++ writeGChar 0]
      ++ (if (!fromAdjacent || self.pmap.isSome)
            && (decide (lvl.getPlayer 0 = some self.ptr) || lvl.singleplayer)
          then [writeGChar PLO_ISLEADER] else [])
      ++ [writeGChar PLO_NEWWORLDTIME ++ writeGInt4 lenv.nwTime]
      ++ (if !fromAdjacent || self.pmap.isSome then
          (if onGmap then
            [writeGChar PLO_SETACTIVELEVEL ++ mapName,
              lenv.getNpcsPacket pl l_time self.versionID]
          else
            [writeGChar PLO_SETACTIVELEVEL ++ lvl.levelName,
              lenv.getNpcsPacket pl l_time self.versionID])
        else [])
    let st1 := st.send pkts
    match self.level with
    | none => none
    | some l =>
      if !(st1.w.levels l).singleplayer then
        match self.pmap with
        | some m => some (true, { st1 with w := st1.w.emit (mapProps env st1.w m pl) })
        | none =>
          match levelProps env st1.w l with
          | none => none
          | some es => some (true, { st1 with w := st1.w.emit es })
      else some (true, st1)

/-- The method `TPlayer::sendLevel141(pLevel, modTime, fromAdjacent)` (TPlayer.cpp
1723-1803), the sync for clients older than 2.1. -/
def sendLevel141 (env : Env) (lenv : LevelEnv) (st : Placement) (pLevel : Option Nat)
    (modTime : Int) (fromAdjacent : Bool) : Option (Bool × Placement) :=
  match pLevel with
  | none => some (false, st)
  | some pl =>
    let self := st.w.self
    let lvl := st.w.levels pl
    let l_time := getCachedLevelModTime self pl
    let modTime1 := if modTime = -1 then lenv.getModTime pl else modTime
    let first : List Bytes :=
      if l_time ≠ 0 then [lenv.getBoardChangesPacket pl l_time]
      else
        (if modTime1 ≠ lenv.getModTime pl then
          [writeGChar PLO_RAWDATA ++ writeGInt 8194, lenv.getBoardPacket pl]
          ++ (if st.firstLevel then [writeGChar PLO_LEVELNAME ++ lvl.levelName] else [])
          ++ (if !env.serverside
              then [lenv.getLinksPacket pl, lenv.getSignsPacket pl self] else [])
          ++ [writeGChar PLO_LEVELMODTIME ++ writeGInt5 (lenv.getModTime pl)]
        else [writeGChar PLO_LEVELBOARD])
        ++ (if !fromAdjacent
            then [lenv.getBoardChangesPacket2 pl l_time, lenv.getChestPacket pl self] else [])
    let firstLevel1 :=
      if l_time = 0 ∧ modTime1 ≠ lenv.getModTime pl then false else st.firstLevel
    let pkts : List Bytes :=
      first
      ++ (if !fromAdjacent
          then [lenv.getHorsePacket pl, lenv.getBaddyPacket pl self.versionID] else [])
      ++ (if !fromAdjacent && (decide (lvl.getPlayer 0 = some self.ptr) || lvl.singleplayer)
          then [writeGChar PLO_ISLEADER] else [])
      ++ [writeGChar PLO_NEWWORLDTIME ++ writeGInt4 lenv.nwTime]
      ++ (if !fromAdjacent then [lenv.getNpcsPacket pl l_time self.versionID] else [])
    let st1 := { st with firstLevel := firstLevel1 }.send pkts
    match self.level with
    | none => none
    | some l =>
      if !(st1.w.levels l).singleplayer && !fromAdjacent then
        match levelProps env st1.w l with
        | none => none
        | some es => some (true, { st1 with w := st1.w.emit es })
      else some (true, st1)

/-- Lookup in a `std::map` kept as an association list; an entry holds a non-null
pointer. -/
def mapFind {κ : Type} [BEq κ] (m : List (κ × Nat)) (k : κ) : Option Nat :=
  (m.find? (fun e => e.1 == k)).map Prod.snd

/-- Assignment `m[k] = v` on a `std::map` kept as an association list. -/
def mapSet {κ : Type} [BEq κ] (m : List (κ × Nat)) (k : κ) (v : Nat) : List (κ × Nat) :=
  (k, v) :: m.filter (fun e => !(e.1 == k))

/-- The statement `level = level->clone()`: a new level object, at the next free
pointer, with the data `TLevel::clone` gives it. -/
def Placement.clone (lenv : LevelEnv) (st : Placement) (l : Nat) : Nat × Placement :=
  (st.nextLevel,
    { st with
      w := { st.w with
        levels := Function.update st.w.levels st.nextLevel (lenv.cloneLevel (st.w.levels l)) }
      nextLevel := st.nextLevel + 1 })

/-- The resolution of the level object in `setLevel` (lines 1500-1538) from the level
`found` that `TLevel::findLevel` returned: the session's own clone of a singleplayer
level, then the group's clone on a group map; a missing clone is made and registered.
The packets that un-cache the occupants of the level on a group map are queued on the
way; an occupant without a session object is a dangling pointer. -/
def resolveLevel (env : Env) (lenv : LevelEnv) (st : Placement) (found : Nat) :
    Option (Nat × Placement) :=
  let sp : Nat × Placement :=
    if (st.w.levels found).singleplayer then
      match mapFind st.spLevels (st.w.levels found).levelName with
      | none =>
        let c := st.clone lenv found
        (c.1, { c.2 with spLevels := mapSet c.2.spLevels (c.2.w.levels c.1).levelName c.1 })
      | some nl => (nl, st)
    else (found, st)
  let self := sp.2.w.self
  let onGroupMap : Bool :=
    match self.pmap with
    | some m => (env.maps m).groupMap
    | none => false
  if onGroupMap && !self.levelGroup.isEmpty then
    let lvl := sp.2.w.levels sp.1
    let each : List (Option Bytes) :=
      lvl.levelPlayerList.map (fun q =>
        (sp.2.w.player q).map (fun p =>
          getProps env sp.2.w.levels p [] 0 ++ writeGChar PLPROP_CURLEVEL
            ++ writeGChar (lvl.levelName.length + 1 + 7) ++ lvl.levelName ++ str ".unknown"
            ++ writeGChar PLPROP_X ++ getProp env sp.2.w.levels p PLPROP_X
            ++ writeGChar PLPROP_Y ++ getProp env sp.2.w.levels p PLPROP_Y))
    if each.all Option.isSome then
      let st1 := sp.2.send (each.map (fun e => e.getD []))
      match mapFind st1.groupLevels (self.levelGroup, lvl.levelName) with
      | none =>
        let c := st1.clone lenv sp.1
        some (c.1, { c.2 with
          groupLevels := mapSet c.2.groupLevels
            (self.levelGroup, (c.2.w.levels c.1).levelName) c.1 })
      | some nl => some (nl, st1)
    else none
  else some sp

/-- The packet "Tell the client their new level" of `setLevel` (lines 1545-1558). -/
def warpPacket (env : Env) (st : Placement) (modTime : Int) : Placement :=
  let self := st.w.self
  if modTime = 0 ∨ self.versionID < env.CLVER_2_1 then
    match self.pmap with
    | some m =>
      if (env.maps m).type = MAPTYPE_GMAP ∧ self.versionID ≥ env.CLVER_2_1 then
        let gx := (env.maps m).getLevelX self.levelName
        let gy := (env.maps m).getLevelY self.levelName
        ({ st with w := { st.w with self := { self with gmaplevelx := gx, gmaplevely := gy } } }).send
          [writeGChar PLO_PLAYERWARP2 ++ writeGChar (ftoi (self.x * 2))
            ++ writeGChar (ftoi (self.y * 2)) ++ writeGChar (ftoi (self.z + 50))
            ++ writeGChar gx ++ writeGChar gy ++ (env.maps m).mapName]
      else
        st.send [writeGChar PLO_PLAYERWARP ++ writeGChar (ftoi (self.x * 2))
          ++ writeGChar (ftoi (self.y * 2)) ++ self.levelName]
    | none =>
      st.send [writeGChar PLO_PLAYERWARP ++ writeGChar (ftoi (self.x * 2))
        ++ writeGChar (ftoi (self.y * 2)) ++ self.levelName]
  else st

/-- The end of `setLevel` (lines 1581-1592): "Inform everybody as to the client's new
location." -/
def minimap (env : Env) (w : World) : List Event :=
  let pkt := getProps env w.levels w.self [] 0
    ++ writeGChar PLPROP_CURLEVEL ++ getProp env w.levels w.self PLPROP_CURLEVEL
    ++ writeGChar PLPROP_X ++ getProp env w.levels w.self PLPROP_X
    ++ writeGChar PLPROP_Y ++ getProp env w.levels w.self PLPROP_Y
  let onGroupMap : Bool :=
    match w.self.pmap with
    | some m => (env.maps m).groupMap
    | none => false
  w.playerList.flatMap (fun p =>
    if p.ptr = w.self.ptr then []
    else if onGroupMap = true ∧ w.self.levelGroup ≠ p.levelGroup then []
    else sendPacket p.ptr pkt true)

/-- The method `TPlayer::setLevel(pLevelName, modTime)` (TPlayer.cpp 1490-1596). -/
def setLevel (env : Env) (lenv : LevelEnv) (st : Placement) (pLevelName : Bytes)
    (modTime : Int) : Option (Bool × Placement) :=
  match lenv.findLevel pLevelName with
  | none =>
    some (false,
      ({ st with w := { st.w with self := { st.w.self with level := none } } }).send
        [writeGChar PLO_WARPFAILED ++ pLevelName])
  | some found =>
    match resolveLevel env lenv st found with
    | none => none
    | some (l, st1) =>
      let lvl := (st1.w.levels l).addPlayer st1.w.self.ptr
      let st2 : Placement :=
        { st1 with w := { st1.w with
            levels := Function.update st1.w.levels l lvl
            self := { st1.w.self with level := some l, levelName := lvl.levelName } } }
      let st3 := warpPacket env st2 modTime
      let sent :=
        if st3.w.self.versionID ≥ env.CLVER_2_1 then sendLevel env lenv st3 (some l) modTime false
        else sendLevel141 env lenv st3 (some l) modTime false
      match sent with
      | none => none
      | some (false, st4) => some (false, st4.send [writeGChar PLO_WARPFAILED ++ pLevelName])
      | some (true, st4) =>
        let spar : Option World :=
          if (st4.w.levels l).sparringZone ∧ st4.w.self.ap = 100 then
            setProps env { st4.w with self := { st4.w.self with ap := 99, apCounter := 1 } }
              (writeGChar PLPROP_ALIGNMENT ++ writeGChar 99) true true none
          else some st4.w
        match spar with
        | none => none
        | some w5 => some (true, { st4 with w := w5.emit (minimap env w5) })

/-! ### Timed maintenance -/

/-- The settings `doTimedEvents` reads, and the two calls whose bodies are not under
src/: `TLevel::doTimedEvents` on each singleplayer clone of the session, and
`TAccount::saveAccount`. -/
structure TimedEnv where
  disconnectifnotmoved : Bool
  maxnomovement : Int
  apsystem : Bool
  aptime0 : Int
  aptime1 : Int
  aptime2 : Int
  aptime3 : Int
  aptime4 : Int
  spLevelsTimedEvents : World → World
  saveAccount : World → World

/-- The fields of the session that only `doTimedEvents` touches: whether the socket is
there and not disconnected, the time of the last save, the minute mark, the load-only
flag. -/
structure Timers where
  sockAlive : Bool
  lastSave : Int
  last1m : Int
  isLoadOnly : Bool

/-- The block "Increase player AP" of `doTimedEvents` (lines 550-569). -/
def apTick (env : Env) (tenv : TimedEnv) (w : World) : Option World :=
  match w.self.level with
  | none => some w
  | some l =>
    if tenv.apsystem then
      let w1 : World :=
        if w.self.status &&& PLSTATUS_PAUSED = 0 ∧ (w.levels l).sparringZone = false
        then { w with self := { w.self with apCounter := w.self.apCounter - 1 } } else w
      if w1.self.apCounter ≤ 0 then
        let w2 : Option World :=
          if w1.self.ap < 100 then
            setProps env { w1 with self := { w1.self with ap := w1.self.ap + 1 } }
              (writeGChar PLPROP_ALIGNMENT ++ writeGChar (w1.self.ap + 1)) true true none
          else some w1
        match w2 with
        | none => none
        | some w3 =>
          some { w3 with self := { w3.self with apCounter :=
            if w3.self.ap < 20 then tenv.aptime0
            else if w3.self.ap < 40 then tenv.aptime1
            else if w3.self.ap < 60 then tenv.aptime2
            else if w3.self.ap < 80 then tenv.aptime3
            else tenv.aptime4 } }
      else some w1
    else some w

/-- The method `TPlayer::doTimedEvents` (TPlayer.cpp 513-596), called once a second;
`difftime` is the difference of the two times in seconds. -/
def doTimedEvents (env : Env) (tenv : TimedEnv) (c : Conn) (t : Timers) :
    Option (Bool × Conn × Timers) :=
  let currTime := env.now
  if !t.sockAlive then some (false, c.emit [Event.deletePlayer c.w.self.ptr], t)
  else if !c.w.self.isClient then some (true, c, t)
  else
    let c1 : Conn :=
      { c with w := { c.w with self := { c.w.self with onlineTime := c.w.self.onlineTime + 1 } } }
    if tenv.disconnectifnotmoved ∧ currTime - c1.w.self.lastMovement > tenv.maxnomovement
        ∧ currTime - c1.w.self.lastChat > tenv.maxnomovement then
      some (false,
        discMessage (c1.emit [Event.serverlog (str "[" ++ env.serverName ++ str "] Client "
            ++ c1.w.self.accountName ++ str " has been disconnected due to inactivity.\n")])
          (str "You have been disconnected due to inactivity."), t)
    else if currTime - c1.lastData > 300 then
      some (false,
        c1.emit [Event.serverlog (str "[" ++ env.serverName ++ str "] Client "
          ++ c1.w.self.accountName ++ str " has timed out.\n")], t)
    else
      match apTick env tenv c1.w with
      | none => none
      | some w2 =>
        let w3 := tenv.spLevelsTimedEvents w2
        let saving : Bool := decide (currTime - t.lastSave > 300)
        let w4 :=
          if saving && w3.self.isClient && w3.self.loaded && !t.isLoadOnly
          then tenv.saveAccount w3 else w3
        let minute : Bool := decide (currTime - t.last1m > 60)
        let w5 : World :=
          if minute then { w4 with self := { w4.self with invalidPackets := 0 } } else w4
        some (true, { c1 with w := w5 },
          { t with
            lastSave := if saving then currTime else t.lastSave
            last1m := if minute then currTime else t.last1m })

/-! ### Vocabulary and sample data of the level and status statements -/

/-- A sample word filter that warns about every nickname. -/
def sampleStrictEnv : Env :=
  { sampleEnv with wordFilterNick := fun _ t => { warn := true, replace := false, text := t } }

/-- A sample server that checks signs itself. -/
def sampleSignEnv : Env := { sampleEnv with serverside := true }

/-- The sample world with a sign "hi" where the sample session stands. -/
def sampleSignWorld : World :=
  { sampleWorld with
    levels := fun _ =>
      { sampleLevel with levelSigns := [{ x := 30, y := 30, uText := str "hi" }] } }

/-- One visit of a level: the session, placed on level `l`, leaves it at the time of
`env`. -/
def visit (env : Env) (resetCache : Bool) (l : Nat) (w : World) : World :=
  (leaveLevel env resetCache { w with self := { w.self with level := some l } }).2

/-- A run of visits, each with its clock, its flag `resetCache` and its level. -/
def visits : List (Env × Bool × Nat) → World → World
  | [], w => w
  | v :: rest, w => visits rest (visit v.1 v.2.1 v.2.2 w)

/-- The keys of the level cache. -/
def cacheKeys (p : TPlayer) : List Nat := p.cachedLevels.map Prod.fst

/-- The packets queued to the session `ptr`, in order, among the events `es`. -/
def queuedTo (ptr : Nat) (es : List Event) : List Bytes :=
  es.filterMap (fun e =>
    match e with
    | Event.queued q pkt => if q = ptr then some pkt else none
    | _ => none)

/-- Sample settings of the timed maintenance: no inactivity check, no alignment system. -/
def sampleTimedEnv : TimedEnv :=
  { disconnectifnotmoved := false, maxnomovement := 1200, apsystem := false, aptime0 := 30,
    aptime1 := 90, aptime2 := 300, aptime3 := 600, aptime4 := 1200,
    spLevelsTimedEvents := fun w => w, saveAccount := fun w => w }

/-- Sample settings with the inactivity check and the alignment system. -/
def sampleBusyTimedEnv : TimedEnv :=
  { sampleTimedEnv with disconnectifnotmoved := true, apsystem := true }

/-- Sample timers: a live socket, saved and marked at time 0. -/
def sampleTimers : Timers := { sockAlive := true, lastSave := 0, last1m := 0, isLoadOnly := false }

/-- A sample RC connection with three invalid packets counted. -/
def sampleNoisyRC : Conn :=
  { sampleConn with
    w := { sampleWorld with self := { samplePlayer with type := PLTYPE_RC, invalidPackets := 3 } } }

/-- A sample client connection with five invalid packets counted, whose last data came
ten seconds before the sample time. -/
def sampleNoisyConn : Conn := { sampleConn with w := sampleNoisyWorld, lastData := 990 }

/-- A sample client connection of generation 5. -/
def sampleGen5 : Conn :=
  { sampleConn with in_codec := { gen := 5, key := 0, iterator := 0, limit := -1 } }

/-- Sample level data: a level modified at time 900. -/
def sampleLevelEnv : LevelEnv :=
  { nwTime := 0
    getModTime := fun _ => 900
    getBoardPacket := fun _ => str "board"
    getLinksPacket := fun _ => str "links"
    getSignsPacket := fun _ _ => str "signs"
    getBoardChangesPacket := fun _ _ => str "changes"
    getBoardChangesPacket2 := fun _ _ => str "changes2"
    getChestPacket := fun _ _ => str "chests"
    getHorsePacket := fun _ => str "horses"
    getBaddyPacket := fun _ _ => str "baddies"
    getNpcsPacket := fun _ _ _ => str "npcs"
    findLevel := fun _ => some 1
    cloneLevel := fun l => l }

/-- The sample session alone on its singleplayer level, which it left before at time
500. -/
def sampleVisited : Placement :=
  { w := { sampleWorld with
      self := { samplePlayer with cachedLevels := [(1, 500)] }
      levels := fun _ => { sampleLevel with levelPlayerList := [7], singleplayer := true } }
    firstLevel := false
    spLevels := []
    groupLevels := []
    nextLevel := 10 }

/-- The sample session alone on its singleplayer level, with an empty cache. -/
def sampleUnvisited : Placement :=
  { sampleVisited with
    w := { sampleVisited.w with self := { samplePlayer with cachedLevels := [] } } }

/-- A sample world with the singleplayer level "a.nw" (object 1) and the session's own
clone of it (object 5), on which the session stands alone. -/
def sampleCloneWorld : World :=
  { sampleWorld with
    self := { samplePlayer with level := some 5 }
    levels := fun l =>
      { sampleLevel with singleplayer := true, levelPlayerList := if l = 5 then [7] else [] } }

/-- The session's registry of clones in the sample clone world. -/
def sampleClonePlacement (w : World) : Placement :=
  { w := w, firstLevel := false, spLevels := [(str "a.nw", 5)], groupLevels := [],
    nextLevel := 10 }

/-- A sample server for the sample clone world: the lookup by name finds the level
object 1, and leaving and entering a level are the methods `leaveLevel` and `setLevel`. -/
def sampleCloneEnv : Env :=
  { sampleEnv with
    findLevel := fun _ _ => some 1
    getMap := fun _ => none
    leaveLevel := fun w => (leaveLevel sampleEnv false w).2
    setLevel := fun n t w =>
      match setLevel sampleEnv sampleLevelEnv (sampleClonePlacement w) n t with
      | some r => (r.1, r.2.w)
      | none => (false, w) }

/-- The session as `warp` hands it to `setLevel` (TPlayer.cpp 1449-1459): its level left,
the map of the level found, the new position. -/
def placed (env : Env) (w : World) (newLevel : Option Nat) (pX pY : ℚ) : World :=
  { env.leaveLevel w with
    self := { (env.leaveLevel w).self with pmap := env.getMap newLevel, x := pX, y := pY } }

/-- The index that the newline check of `parsePacket` (line 626) reads in the raw record
cut out of the unread bytes `pPacket`: `curPacket.length() - 1`. -/
def rawCheckIndex (rawPacketSize : Nat) (pPacket : Bytes) : Int :=
  ((readChars rawPacketSize pPacket).1.length : Int) - 1

/-- The items handed to `TLevel::addItem` among the events `es`, in order. -/
def itemsAdded (es : List Event) : List Nat :=
  es.filterMap (fun e =>
    match e with
    | Event.addItem _ _ _ item => some item
    | _ => none)

/-- The worth in gralats of the four gralat items of `dropItemsOnDeath`: item 19 stands
for 100, item 2 for 30, item 1 for 5 and item 0 for 1. -/
def gralatValue (item : Nat) : Nat :=
  if item = 19 then 100 else if item = 2 then 30 else if item = 1 then 5
  else if item = 0 then 1 else 0

/-- Follows the spec's words: the split of `g` gralats "taking the largest denomination
that fits at each step". -/
def greedyItems : Nat → Nat → List Nat
  | 0, _ => []
  | fuel + 1, g =>
    if g = 0 then []
    else if 100 ≤ g then 19 :: greedyItems fuel (g - 100)
    else if 30 ≤ g then 2 :: greedyItems fuel (g - 30)
    else if 5 ≤ g then 1 :: greedyItems fuel (g - 5)
    else 0 :: greedyItems fuel (g - 1)

/-- The sample client connection right after the announcement of a raw block of 0 bytes. -/
def sampleEmptyRaw : Conn := { sampleConn with nextIsRaw := true, rawPacketSize := 0 }

/-! ## File transfer (TPlayer.cpp 744-819)

`CFileSystem`, `CString::load` and `stat` are not under src/. -/

/-- More outbound opcodes of the protocol's numbering (`IEnums.h`). -/
abbrev PLO_FLAGSET : Nat := 28
abbrev PLO_FILESENDFAILED : Nat := 30
abbrev PLO_FLAGDEL : Nat := 31
abbrev PLO_LARGEFILESTART : Nat := 68
abbrev PLO_LARGEFILEEND : Nat := 69
abbrev PLO_LARGEFILESIZE : Nat := 84
abbrev PLO_FILE : Nat := 102

/-- The collaborators of `sendFile`: the server path, the content `CString::load` gives
for a file path (empty for a file that is not there), the modification time `stat` gives
when it succeeds, and the version constant `CLVER_2_14`. -/
structure FileEnv where
  serverPath : Bytes
  load : Bytes → Bytes
  mtime : Bytes → Option Int
  CLVER_2_14 : Nat

/-- The loop `while (fileData.length() != 0)` of `sendFile` (lines 794-813): per round a
raw-data announcement and a file packet with the next chunk; `none` when the fuel does
not reach the end of the file. -/
def sendFileLoop (env : Env) (fenv : FileEnv) (self : TPlayer) (pFile : Bytes)
    (modTime packetLength : Int) : Nat → Bytes → Option (List Event)
  | fuel, fileData =>
    if fileData.length ≠ 0 then
      match fuel with
      | 0 => none
      | fuel1 + 1 =>
        let sendSize : Int :=
          if self.isClient && decide (self.versionID < fenv.CLVER_2_14)
          then (fileData.length : Int)
          else clip 32000 0 (fileData.length : Int)
        let sent : List Event :=
          if self.isClient && decide (self.versionID < env.CLVER_2_1) then
            sendPacket self.ptr
              (writeGChar PLO_RAWDATA ++ writeGInt (packetLength - 1 + sendSize)) true
            ++ sendPacket self.ptr
              (writeGChar PLO_FILE ++ writeGChar pFile.length ++ pFile
                ++ fileData.take sendSize.toNat) false
          else
            sendPacket self.ptr
              (writeGChar PLO_RAWDATA ++ writeGInt (packetLength + sendSize)) true
            ++ sendPacket self.ptr
              (writeGChar PLO_FILE ++ writeGInt5 modTime ++ writeGChar pFile.length ++ pFile
                ++ fileData.take sendSize.toNat ++ str "\n") false
        match sendFileLoop env fenv self pFile modTime packetLength fuel1
            (fileData.drop sendSize.toNat) with
        | none => none
        | some es => some (sent ++ es)
    else some []

/-- The method `TPlayer::sendFile(pPath, pFile)` (TPlayer.cpp 744-819). -/
def sendFile (env : Env) (fenv : FileEnv) (w : World) (pPath pFile : Bytes) :
    Option (Bool × World) :=
  let self := w.self
  let filepath := fenv.serverPath ++ pPath ++ pFile
  let fileData := fenv.load filepath
  let modTime : Int := (fenv.mtime filepath).getD 0
  if fileData.length = 0 then
    some (false, w.emit (sendPacket self.ptr (writeGChar PLO_FILESENDFAILED ++ pFile) true))
  else
    let w1 : World :=
      if fileData.length > 3145728 then
        w.emit [Event.serverlog (str "[" ++ env.serverName
          ++ str "] [WARNING] Sending a large file (over 3MB): " ++ pFile ++ str "\n")]
      else w
    let old : Bool := self.isClient && decide (self.versionID < fenv.CLVER_2_14)
    let packetLength : Int :=
      1 + 5 + 1 + (pFile.length : Int) + 1
        - (if old && decide (self.versionID < env.CLVER_2_1) then 5 else 0)
    if old && decide (fileData.length > 64000) then
      some (false,
        w1.emit (sendPacket self.ptr (writeGChar PLO_FILESENDFAILED ++ pFile) true))
    else
      let isBigFile : Bool := !old && decide (fileData.length > 32000)
      let start : List Event :=
        if isBigFile then
          sendPacket self.ptr (writeGChar PLO_LARGEFILESTART ++ pFile) true
          ++ sendPacket self.ptr
            (writeGChar PLO_LARGEFILESIZE ++ writeGInt5 (fileData.length : Int)) true
        else []
      match sendFileLoop env fenv self pFile modTime packetLength fileData.length fileData with
      | none => none
      | some es =>
        some (true, w1.emit (start ++ es
          ++ (if isBigFile then
              sendPacket self.ptr (writeGChar PLO_LARGEFILEEND ++ pFile) true
            else [])))

/-- Follows the spec's words: the file packet of a chunk, "opcode, 5-byte modification
time unless the client is older than 2.1, 1-byte name length, name, chunk, and the
trailing newline unless the client is older than 2.1". -/
def filePacket (env : Env) (self : TPlayer) (modTime : Int) (pFile chunk : Bytes) : Bytes :=
  let older : Bool := self.isClient && decide (self.versionID < env.CLVER_2_1)
  writeGChar PLO_FILE ++ (if older then [] else writeGInt5 modTime)
    ++ writeGChar pFile.length ++ pFile ++ chunk ++ (if older then [] else [10])

/-- Follows the spec's words: the two packets queued per chunk, the raw-data
announcement that "carries exactly the byte length of the file packet queued right after
it", and that file packet. -/
def announced (env : Env) (self : TPlayer) (modTime : Int) (pFile chunk : Bytes) :
    List Event :=
  [Event.queued self.ptr (writeGChar PLO_RAWDATA
      ++ writeGInt ((filePacket env self modTime pFile chunk).length : Int) ++ [10]),
    Event.queued self.ptr (filePacket env self modTime pFile chunk)]

/-- Sample files: "a.txt" holds five bytes and was modified at time 77. -/
def sampleFileEnv : FileEnv :=
  { serverPath := str "srv/"
    load := fun path => if path = str "srv/files/a.txt" then str "hello" else []
    mtime := fun path => if path = str "srv/files/a.txt" then some 77 else none
    CLVER_2_14 := 27 }

/-! ## Text helpers of `CString` and `std::string` (not under src/) -/

/-- Modelled from the spec: whether the first text is a beginning of the second. -/
def startsWith : Bytes → Bytes → Bool
  | [], _ => true
  | _ :: _, [] => false
  | a :: as, b :: bs => a == b && startsWith as bs

/-- Modelled from the spec: the test `find(needle) != -1` of `CString` and
`find(needle) != npos` of `std::string`: whether the text `needle` occurs in the
second text. -/
def hasSub (needle : Bytes) : Bytes → Bool
  | [] => needle.isEmpty
  | b :: rest => startsWith needle (b :: rest) || hasSub needle rest

/-- Modelled from the spec: `CString::find(c, start)`, the index of the first byte `c` at
or behind `start`, -1 without one. -/
def findChar (c : Nat) (s : Bytes) (start : Nat) : Int :=
  if (s.drop start).indexOf c < (s.drop start).length
  then ((start + (s.drop start).indexOf c : Nat) : Int) else -1

/-- A byte that `CString::trim` strips: a blank or a control character. -/
def isBlank (b : Nat) : Bool := decide (b ≤ 32)

/-- Modelled from the spec: `CString::trim`, the text without the blanks at its two
ends. -/
def trim (s : Bytes) : Bytes := ((s.dropWhile isBlank).reverse.dropWhile isBlank).reverse

/-- Modelled from the spec: `CString::subString(start, length)`; a negative length takes
the rest. -/
def subString (s : Bytes) (start len : Int) : Bytes :=
  if len < 0 then s.drop start.toNat else (s.drop start.toNat).take len.toNat

/-! ## `TPlayer::setNick` (TPlayer.cpp 1882-2004)

The guild files and the settings are not under src/. -/

/-- The collaborators of `setNick`: the guild file system (`guildFS.load`), the
case-insensitive search `CString::findi` (-1 without a match), `CString::tokenize` by a
separator, the settings `globalguilds` and `allowedglobalguilds`, and the opcode of the
guild verification. -/
structure GuildEnv where
  load : Bytes → Bytes
  findi : Bytes → Bytes → Int
  tokenize : Bytes → Bytes → List Bytes
  globalguilds : Bool
  allowedglobalguilds : Bytes
  SVO_VERIGUILD : Int

/-- The separation of the nickname from the guild at the head of `setNick` (lines
1890-1913): the nick and the guild, both trimmed. The test `guild[guild.length() - 1]`
on an empty guild reads index -1 and is undefined. -/
def splitNick (pNickName : Bytes) : Option (Bytes × Bytes) :=
  let guild_start := findChar 40 pNickName 0
  if guild_start = -1 then some (trim pNickName, [])
  else
    let guild_end0 := findChar 41 pNickName guild_start.toNat
    let guild_end : Int := if guild_end0 = -1 then (pNickName.length : Int) else guild_end0
    let nick := trim (subString pNickName 0 guild_start)
    let guild := trim (subString pNickName (guild_start + 1) (guild_end - guild_start - 1))
    match guild.getLast? with
    | none => none
    | some last => some (nick, if last = 41 then guild.dropLast else guild)

/-- The method `TPlayer::setNick(pNickName, force)` (TPlayer.cpp 1882-2004): the session
and the packets sent to the server list. -/
def setNick (genv : GuildEnv) (p : TPlayer) (pNickName0 : Bytes) (force : Bool) :
    Option (TPlayer × List Bytes) :=
  let pNickName := if pNickName0.length > 223 then subString pNickName0 0 223 else pNickName0
  match splitNick pNickName with
  | none => none
  | some (nick0, guild) =>
    if force || (guild == str "RC" && p.isRC) then
      some ({ p with nickName := pNickName, guild := guild }, [])
    else
      let nick1 := nick0.dropWhile (fun b => b == 42)
      let nick := if nick1.isEmpty then str "unknown" else nick1
      let newNick := (if nick = p.accountName then str "*" else []) ++ nick
      let external : TPlayer → TPlayer := fun q =>
        if q.isExternal then { q with nickName := pNickName } else q
      if guild.length ≠ 0 then
        let stored : TPlayer :=
          { p with nickName := newNick ++ str " (" ++ guild ++ str ")", guild := guild }
        let guildList0 := genv.load (str "guild" ++ guild ++ str ".txt")
        let guildList :=
          if guildList0.isEmpty
          then genv.load (str "guild" ++ guild.map (fun b => if b = 32 then 95 else b)
            ++ str ".txt")
          else guildList0
        let pos := genv.findi guildList p.accountName
        let listed : Option (Bool × TPlayer) :=
          if pos ≠ -1 then
            let line := ((guildList.drop pos.toNat).takeWhile (fun b => b != 10)).filter
              (fun b => b != 13)
            if hasSub (str ":") line then
              match (genv.tokenize line (str ":")).get? 1 with
              | none => none
              | some tok0 =>
                let tok := if tok0.head? = some 42 then tok0.tail else tok0
                if tok = nick then some (true, stored) else some (false, p)
            else some (true, stored)
          else some (false, { p with nickName := newNick })
        match listed with
        | none => none
        | some (true, p1) => some (p1, [])
        | some (false, p1) =>
          let askGlobal : Bool :=
            genv.globalguilds
              || (genv.tokenize genv.allowedglobalguilds (str ",")).contains guild
          some (external p1,
            if askGlobal then
              [writeGChar genv.SVO_VERIGUILD ++ writeGShort p.id
                ++ writeGChar p.accountName.length ++ p.accountName
                ++ writeGChar newNick.length ++ newNick
                ++ writeGChar guild.length ++ guild]
            else [])
      else some (external { p with nickName := newNick, guild := [] }, [])

/-- Follows the spec's words: the nick part of a submitted nickname, the "text before the
guild parenthesis, trimmed, with all leading '*' removed, or "unknown" when empty"; the
submitted text counts up to its 223rd byte. -/
def nickPart (pNickName : Bytes) : Bytes :=
  let before := (pNickName.take 223).takeWhile (fun b => b != 40)
  let t := (trim before).dropWhile (fun b => b == 42)
  if t.isEmpty then str "unknown" else t

/-- Sample guild settings: no guild files, global guilds asked. -/
def sampleGuildEnv : GuildEnv :=
  { load := fun _ => [], findi := fun _ _ => -1, tokenize := fun t _ => [t],
    globalguilds := true, allowedglobalguilds := [], SVO_VERIGUILD := 5 }

/-! ## Flags (TPlayer.cpp 2129-2150, 2711-2813, TServer.cpp 1574-1622)

`TAccount` and the headers with the default arguments are not under src/. -/

/-- The settings and collaborators of the flag handlers: three settings, the version
constant `CLVER_2_31`, the defaults of `pSendToPlayers` of `TServer::deleteFlag` and of
`TServer::setFlag` and of `sendToPlayer` of `TPlayer::deleteFlag`, `atof`, and the flag
table methods of `TAccount`. -/
structure FlagEnv where
  dontaddserverflags : Bool
  cropflags : Bool
  flaghack_movement : Bool
  CLVER_2_31 : Nat
  serverDeleteDefault : Bool
  serverSetDefault : Bool
  playerDeleteDefault : Bool
  atof : Bytes → ℚ
  accountSetFlag : Bytes → Bytes → List (Bytes × Bytes) → List (Bytes × Bytes)
  accountDeleteFlag : Bytes → List (Bytes × Bytes) → List (Bytes × Bytes)

/-- A connection with the flag table of its account and the flag table of the server
(`mServerFlags`). -/
structure Flagged where
  c : Conn
  flags : List (Bytes × Bytes)
  serverFlags : List (Bytes × Bytes)

/-- Events appended to the log of the connection. -/
def Flagged.emit (st : Flagged) (es : List Event) : Flagged := { st with c := st.c.emit es }

/-- The method `TServer::deleteFlag(pFlagName, pSendToPlayers)` (TServer.cpp 1574-1589). -/
def TServer.deleteFlag (fenv : FlagEnv) (pFlagName : Bytes) (pSendToPlayers : Bool)
    (st : Flagged) : Bool × Flagged :=
  if fenv.dontaddserverflags then (false, st)
  else if st.serverFlags.any (fun e => e.1 == pFlagName) then
    let st1 := { st with serverFlags := st.serverFlags.filter (fun e => !(e.1 == pFlagName)) }
    (true,
      if pSendToPlayers then st1.emit [Event.toAll (writeGChar PLO_FLAGDEL ++ pFlagName) none]
      else st1)
  else (false, st)

/-- The method `TServer::setFlag(pFlagName, pFlagValue, pSendToPlayers)` (TServer.cpp
1598-1622). -/
def TServer.setFlag (fenv : FlagEnv) (pFlagName pFlagValue : Bytes) (pSendToPlayers : Bool)
    (st : Flagged) : Bool × Flagged :=
  if fenv.dontaddserverflags then (false, st)
  else if pFlagValue.isEmpty then TServer.deleteFlag fenv pFlagName fenv.serverDeleteDefault st
  else if (st.serverFlags.find? (fun e => e.1 == pFlagName)).map Prod.snd = some pFlagValue
  then (true, st)
  else
    let value :=
      if fenv.cropflags then subString pFlagValue 0 (223 - 1 - (pFlagName.length : Int))
      else pFlagValue
    let st1 := { st with
      serverFlags := (pFlagName, value)
        :: st.serverFlags.filter (fun e => !(e.1 == pFlagName)) }
    (true,
      if pSendToPlayers then
        st1.emit [Event.toAll (writeGChar PLO_FLAGSET ++ pFlagName ++ str "=" ++ pFlagValue)
          none]
      else st1)

/-- The method `TPlayer::deleteFlag(pFlagName, sendToPlayer)` (TPlayer.cpp 2129-2136). -/
def TPlayer.deleteFlag (fenv : FlagEnv) (pFlagName : Bytes) (sendToPlayer : Bool)
    (st : Flagged) : Flagged :=
  let st1 := { st with flags := fenv.accountDeleteFlag pFlagName st.flags }
  if sendToPlayer then
    st1.emit (sendPacket st1.c.w.self.ptr (writeGChar PLO_FLAGDEL ++ pFlagName) true)
  else st1

/-- The method `TPlayer::setFlag(pFlagName, pFlagValue, sendToPlayer)` (TPlayer.cpp
2138-2150). -/
def TPlayer.setFlag (fenv : FlagEnv) (pFlagName pFlagValue : Bytes) (sendToPlayer : Bool)
    (st : Flagged) : Flagged :=
  let st1 := { st with flags := fenv.accountSetFlag pFlagName pFlagValue st.flags }
  if sendToPlayer then
    if pFlagValue.isEmpty then
      st1.emit (sendPacket st1.c.w.self.ptr (writeGChar PLO_FLAGSET ++ pFlagName) true)
    else
      st1.emit (sendPacket st1.c.w.self.ptr
        (writeGChar PLO_FLAGSET ++ pFlagName ++ str "=" ++ pFlagValue) true)
  else st1

/-- The flag name `msgPLI_FLAGDEL` works with (lines 2789-2794), a `std::string`: the
text in front of the "=", trimmed, or the whole text without one. -/
def flagNameDel (flagPacket : Bytes) : Bytes :=
  if hasSub (str "=") flagPacket then cstr (trim (readString (str "=") flagPacket).1)
  else cstr flagPacket

/-- The handler `TPlayer::msgPLI_FLAGDEL` (TPlayer.cpp 2787-2813), entered with the read
cursor behind the opcode byte. -/
def msgPLI_FLAGDEL (fenv : FlagEnv) (pPacket : Bytes) (st : Flagged) : Bool × Flagged :=
  let flagName := flagNameDel pPacket.tail
  if hasSub (str "this.") flagName then (true, st)
  else if hasSub (str "clientr.") flagName then (true, st)
  else if hasSub (str "serverr.") flagName then (true, st)
  else if hasSub (str "server.") flagName then
    (true, (TServer.deleteFlag fenv flagName fenv.serverDeleteDefault st).2)
  else (true, TPlayer.deleteFlag fenv flagName fenv.playerDeleteDefault st)

/-- The flag name and the flag value `msgPLI_FLAGSET` reads (lines 2714-2730). -/
def flagNameSet (flagPacket : Bytes) : Bytes × Bytes :=
  if hasSub (str "=") flagPacket
  then ((readString (str "=") flagPacket).1,
    (readString [] (readString (str "=") flagPacket).2).1)
  else (flagPacket, [])

/-- The hack "for our special gr.strings" of `msgPLI_FLAGSET` (lines 2733-2769): the
result when the handler returns from inside it. The cast of the float to `char` is
taken as the truncation. -/
def grHack (env : Env) (fenv : FlagEnv) (flagName flagValue : Bytes) (st : Flagged) :
    Option (Bool × Flagged) :=
  let self := st.c.w.self
  let pos : ℚ := fenv.atof (cstr flagValue)
  let push : Bytes → Flagged := fun b =>
    { st with c := { st.c with grMovementPackets := st.c.grMovementPackets ++ b } }
  if hasSub (str "gr.") flagName then
    if flagName = str "gr.fileerror" ∨ flagName = str "gr.filedata" then some (true, st)
    else if fenv.flaghack_movement then
      if flagName = str "gr.x" then
        if self.versionID ≥ env.CLVER_2_3 then some (true, st)
        else if pos ≠ self.x then
          some (true, push (writeGChar PLPROP_X ++ writeGChar (ftoi (pos * 2)) ++ str "\n"))
        else some (true, st)
      else if flagName = str "gr.y" then
        if self.versionID ≥ env.CLVER_2_3 then some (true, st)
        else if pos ≠ self.y then
          some (true, push (writeGChar PLPROP_Y ++ writeGChar (ftoi (pos * 2)) ++ str "\n"))
        else some (true, st)
      else if flagName = str "gr.z" then
        if self.versionID ≥ env.CLVER_2_3 then some (true, st)
        else if pos ≠ self.z then
          some (true,
            push (writeGChar PLPROP_Z ++ writeGChar (ftoi (pos + 1 / 2 + 50)) ++ str "\n"))
        else some (true, st)
      else none
    else none
  else none

/-- The handler `TPlayer::msgPLI_FLAGSET` (TPlayer.cpp 2711-2785), entered with the read
cursor behind the opcode byte. -/
def msgPLI_FLAGSET (env : Env) (fenv : FlagEnv) (pPacket : Bytes) (st : Flagged) :
    Bool × Flagged :=
  let flagPacket := pPacket.tail
  let flagName := (flagNameSet flagPacket).1
  let flagValue := (flagNameSet flagPacket).2
  if hasSub (str "=") flagPacket ∧ flagValue.isEmpty = true then msgPLI_FLAGDEL fenv pPacket st
  else
    match grHack env fenv flagName flagValue st with
    | some r => r
    | none =>
      if hasSub (str "this.") flagName then (true, st)
      else if hasSub (str "clientr.") flagName then (true, st)
      else if hasSub (str "serverr.") flagName then (true, st)
      else if hasSub (str "server.") flagName then
        (true, (TServer.setFlag fenv (cstr flagName) flagValue fenv.serverSetDefault st).2)
      else
        (true, TPlayer.setFlag fenv (cstr flagName) flagValue
          (decide (st.c.w.self.versionID > fenv.CLVER_2_31)) st)

/-- Sample flag settings: flags are added, cropped and sent on, and the flag table of
the account is an association list. -/
def sampleFlagEnv : FlagEnv :=
  { dontaddserverflags := false, cropflags := true, flaghack_movement := true,
    CLVER_2_31 := 35, serverDeleteDefault := true, serverSetDefault := true,
    playerDeleteDefault := true,
    atof := fun _ => 0,
    accountSetFlag := fun n v t => (n, v) :: t.filter (fun e => !(e.1 == n)),
    accountDeleteFlag := fun n t => t.filter (fun e => !(e.1 == n)) }

/-- The sample connection with the flag "a" in its table. -/
def sampleFlagged : Flagged :=
  { c := sampleConn, flags := [(str "a", str "1")], serverFlags := [] }

theorem readGUChar_cons (b : Nat) (pk : Bytes) :
    readGUChar (b :: pk) = ((b % 256 + 224) % 256, pk) := rfl

theorem PM.bind_some {α β : Type} (m : PM α) (f : α → PM β) (s : Locals) (pk : Bytes)
    (a : α) (s1 : Locals) (pk1 : Bytes) (o1 : Bufs) (h : m s pk = some (a, s1, pk1, o1)) :
    (m >>= f) s pk = (match f a s1 pk1 with
      | none => none
      | some (b, s2, pk2, o2) => some (b, s2, pk2, o1.append o2)) := by
  show PM.bind m f s pk = _
  unfold PM.bind
  rw [h]

theorem PM.bind_none {α β : Type} (m : PM α) (f : α → PM β) (s : Locals) (pk : Bytes)
    (h : m s pk = none) : (m >>= f) s pk = none := by
  show PM.bind m f s pk = _
  unfold PM.bind
  rw [h]

theorem forwardProp_ok (env : Env) (fwd fts : Bool) (id : Nat) (s : Locals) (pk : Bytes) :
    ∃ o, forwardProp env fwd fts id s pk = some ((), s, pk, o) := by
  unfold forwardProp
  by_cases c1 : (fwd && __sendLocal.getD id false) = true <;> by_cases c2 : fts = true <;>
    simp only [c1, c2, if_true, if_false] <;> exact ⟨_, rfl⟩

/-- One iteration on a packet whose head case breaks. -/
theorem setPropsIter_brk (env : Env) (fwd fts : Bool) (rc : Option TPlayer) (s s1 : Locals)
    (pk pk1 : Bytes) (o1 : Bufs)
    (h : propCase env fts rc (readGUChar pk).1 s (readGUChar pk).2 = some (Flow.brk, s1, pk1, o1)) :
    ∃ o, setPropsIter env fwd fts rc s pk = some (Flow.brk, s1, pk1, o) := by
  obtain ⟨o2, h2⟩ := forwardProp_ok env fwd fts (readGUChar pk).1 s1 pk1
  unfold setPropsIter
  rw [PM.bind_some _ _ _ _ _ _ _ _ (rfl : PM.read readGUChar s pk = some (_, s, _, Bufs.empty))]
  rw [PM.bind_some _ _ _ _ _ _ _ _ h]
  simp only []
  rw [PM.bind_some _ _ _ _ _ _ _ _ h2]
  exact ⟨_, rfl⟩

theorem setPropsIter_cont (env : Env) (fwd fts : Bool) (rc : Option TPlayer) (s s1 : Locals)
    (pk pk1 : Bytes) (o1 : Bufs)
    (h : propCase env fts rc (readGUChar pk).1 s (readGUChar pk).2 = some (Flow.cont, s1, pk1, o1)) :
    ∃ o, setPropsIter env fwd fts rc s pk = some (Flow.cont, s1, pk1, o) := by
  unfold setPropsIter
  rw [PM.bind_some _ _ _ _ _ _ _ _ (rfl : PM.read readGUChar s pk = some (_, s, _, Bufs.empty))]
  rw [PM.bind_some _ _ _ _ _ _ _ _ h]
  exact ⟨_, rfl⟩

theorem setPropsIter_ret (env : Env) (fwd fts : Bool) (rc : Option TPlayer) (s s1 : Locals)
    (pk pk1 : Bytes) (o1 : Bufs)
    (h : propCase env fts rc (readGUChar pk).1 s (readGUChar pk).2 = some (Flow.ret, s1, pk1, o1)) :
    ∃ o, setPropsIter env fwd fts rc s pk = some (Flow.ret, s1, pk1, o) := by
  unfold setPropsIter
  rw [PM.bind_some _ _ _ _ _ _ _ _ (rfl : PM.read readGUChar s pk = some (_, s, _, Bufs.empty))]
  rw [PM.bind_some _ _ _ _ _ _ _ _ h]
  exact ⟨_, rfl⟩

theorem setPropsIter_none (env : Env) (fwd fts : Bool) (rc : Option TPlayer) (s : Locals)
    (pk : Bytes)
    (h : propCase env fts rc (readGUChar pk).1 s (readGUChar pk).2 = none) :
    setPropsIter env fwd fts rc s pk = none := by
  unfold setPropsIter
  rw [PM.bind_some _ _ _ _ _ _ _ _ (rfl : PM.read readGUChar s pk = some (_, s, _, Bufs.empty))]
  rw [PM.bind_none _ _ _ _ h]


/-! ### Effects that only extend the event log -/

theorem World.emit_emit (w : World) (a b : List Event) : (w.emit a).emit b = w.emit (a ++ b) := by
  simp [World.emit, List.append_assoc]

theorem World.emit_nil (w : World) : w.emit [] = w := by
  simp [World.emit]

theorem testSign_emit (env : Env) (w w1 : World) (h : testSign env w = some w1) :
    ∃ es, w1 = w.emit es := by
  unfold testSign at h
  split at h
  · exact ⟨[], by simp [World.emit_nil] at *; exact h.symm⟩
  · split at h
    · split at h
      · exact absurd h (by simp)
      · exact ⟨_, (Option.some.inj h).symm⟩
    · exact ⟨[], by simp [World.emit_nil] at *; exact h.symm⟩

theorem testTouch_emit (env : Env) (w w1 : World) (h : testTouch env w = some w1) :
    ∃ es, w1 = w.emit es := by
  unfold testTouch at h
  split at h
  · exact ⟨[], by simp [World.emit_nil] at *; exact h.symm⟩
  · simp only [] at h
    split at h
    · exact absurd h (by simp)
    · split at h
      · exact absurd h (by simp)
      · exact ⟨_, (Option.some.inj h).symm⟩

theorem testSign_defined (env : Env) (w : World) (h : w.self.level ≠ none) :
    ∃ w1, testSign env w = some w1 := by
  unfold testSign
  split
  · exact ⟨_, rfl⟩
  · split
    · split
      · rename_i hl; exact absurd hl h
      · exact ⟨_, rfl⟩
    · exact ⟨_, rfl⟩

theorem testTouch_defined (env : Env) (w : World) (h : w.self.level ≠ none)
    (hs : 0 ≤ w.self.sprite) : ∃ w1, testTouch env w = some w1 := by
  unfold testTouch
  split
  · exact ⟨_, rfl⟩
  · simp only []
    split
    · rename_i hd
      exfalso
      have : 0 ≤ Int.tmod w.self.sprite 4 := Int.tmod_nonneg 4 hs
      omega
    · split
      · rename_i hl; exact absurd hl h
      · exact ⟨_, rfl⟩

theorem flushBuffers_emit (env : Env) (s : Locals) (o : Bufs) :
    ∃ es, flushBuffers env s o = s.w.emit es := by
  unfold flushBuffers
  simp only []
  split <;> split <;> split <;>
    first
      | exact ⟨_, by rw [World.emit_emit, World.emit_emit]⟩
      | exact ⟨_, by rw [World.emit_emit]⟩
      | exact ⟨_, rfl⟩
      | exact ⟨[], (World.emit_nil _).symm⟩

theorem movementCheck_emit (env : Env) (s : Locals) (w w1 : World)
    (h : movementCheck env s w = some w1) : ∃ es, w1 = w.emit es := by
  unfold movementCheck at h
  split at h
  · exact absurd h (by simp)
  · rename_i w2 h2
    have e2 : ∃ es, w2 = w.emit es := by
      split at h2
      · exact testSign_emit env w w2 h2
      · exact ⟨[], by rw [World.emit_nil]; exact (Option.some.inj h2).symm⟩
    obtain ⟨es2, rfl⟩ := e2
    split at h
    · obtain ⟨es3, rfl⟩ := testTouch_emit env _ w1 h
      exact ⟨_, World.emit_emit _ _ _⟩
    · exact ⟨es2, (Option.some.inj h).symm⟩

theorem movementCheck_quiet (env : Env) (s : Locals) (w : World)
    (h1 : s.doSignCheck = false) (h2 : s.doTouchTest = false) :
    movementCheck env s w = some w := by
  simp [movementCheck, h1, h2]

theorem sendBuffersOut_emit (env : Env) (rc : Option TPlayer) (s : Locals) (o : Bufs)
    (w1 : World) (h : sendBuffersOut env rc s o = some w1) : ∃ es, w1 = s.w.emit es := by
  obtain ⟨es0, h0⟩ := flushBuffers_emit env s o
  unfold sendBuffersOut at h
  split at h
  · split at h
    · obtain ⟨es1, rfl⟩ := movementCheck_emit env s _ w1 h
      exact ⟨_, by rw [h0, World.emit_emit]⟩
    · exact ⟨es0, by rw [← h0]; exact (Option.some.inj h).symm⟩
  · exact ⟨[], by rw [World.emit_nil]; exact (Option.some.inj h).symm⟩

theorem sendBuffersOut_quiet (env : Env) (rc : Option TPlayer) (s : Locals) (o : Bufs)
    (h1 : s.doSignCheck = false) (h2 : s.doTouchTest = false) :
    ∃ es, sendBuffersOut env rc s o = some (s.w.emit es) := by
  obtain ⟨es0, h0⟩ := flushBuffers_emit env s o
  unfold sendBuffersOut
  split
  · split
    · rw [movementCheck_quiet env s _ h1 h2, h0]; exact ⟨_, rfl⟩
    · rw [h0]; exact ⟨_, rfl⟩
  · exact ⟨[], by rw [World.emit_nil]⟩

/-! ### The decode loop -/

theorem setPropsLoop_nil (env : Env) (fwd fts : Bool) (rc : Option TPlayer) (fuel : Nat)
    (s : Locals) (o : Bufs) :
    setPropsLoop env fwd fts rc fuel s o [] = some (LoopEnd.exhausted s o) := by
  unfold setPropsLoop
  simp

theorem setPropsLoop_ret (env : Env) (fwd fts : Bool) (rc : Option TPlayer) (fuel : Nat)
    (s s1 : Locals) (o o1 : Bufs) (pk pk1 : Bytes) (hpk : pk ≠ [])
    (h : setPropsIter env fwd fts rc s pk = some (Flow.ret, s1, pk1, o1)) :
    setPropsLoop env fwd fts rc (fuel + 1) s o pk = some (LoopEnd.returned s1) := by
  have hl : pk.length > 0 := List.length_pos.mpr hpk
  unfold setPropsLoop
  simp only [hl, if_true, h]

theorem setPropsLoop_next (env : Env) (fwd fts : Bool) (rc : Option TPlayer) (fuel : Nat)
    (s s1 : Locals) (o o1 : Bufs) (pk pk1 : Bytes) (f : Flow) (hpk : pk ≠ []) (hf : f ≠ Flow.ret)
    (h : setPropsIter env fwd fts rc s pk = some (f, s1, pk1, o1)) :
    setPropsLoop env fwd fts rc (fuel + 1) s o pk
      = setPropsLoop env fwd fts rc fuel s1 (o.append o1) pk1 := by
  have hl : pk.length > 0 := List.length_pos.mpr hpk
  cases f
  · conv_lhs => unfold setPropsLoop
    simp only [hl, if_true, h]
  · conv_lhs => unfold setPropsLoop
    simp only [hl, if_true, h]
  · exact absurd rfl hf

theorem setPropsLoop_none (env : Env) (fwd fts : Bool) (rc : Option TPlayer) (fuel : Nat)
    (s : Locals) (o : Bufs) (pk : Bytes) (hpk : pk ≠ [])
    (h : setPropsIter env fwd fts rc s pk = none) :
    setPropsLoop env fwd fts rc (fuel + 1) s o pk = none := by
  have hl : pk.length > 0 := List.length_pos.mpr hpk
  unfold setPropsLoop
  simp only [hl, if_true, h]

/-- The locals `setProps` starts from. -/
theorem countInvalid_false (env : Env) (w : World) : countInvalid env false w = w := by
  simp [countInvalid]

theorem attrIndex_none (u : Nat) (h : unhandled u = true) : attrIndex u = none := by
  simp only [unhandled, Bool.or_eq_true, beq_iff_eq, decide_eq_true_eq] at h
  unfold attrIndex
  have : u ∉ __attrPackets := by
    simp [__attrPackets]
    omega
  have h2 : __attrPackets.indexOf u = __attrPackets.length := List.indexOf_eq_length.mpr this
  simp [h2]

theorem propCase_ge (env : Env) (fts : Bool) (rc : Option TPlayer) (n : Nat) :
    propCase env fts rc (n + 83) = (match attrIndex (n + 83) with
      | some i => casePLPROP_GATTRIB i
      | none => caseDefault) := rfl

theorem propCase_unhandled (env : Env) (fts : Bool) (rc : Option TPlayer) (u : Nat)
    (h : unhandled u = true) : propCase env fts rc u = caseDefault := by
  have ha := attrIndex_none u h
  simp only [unhandled, Bool.or_eq_true, beq_iff_eq, decide_eq_true_eq] at h
  rcases h with ((rfl | rfl) | rfl) | h
  · rfl
  · rfl
  · rfl
  · obtain ⟨n, rfl⟩ : ∃ n, u = n + 83 := ⟨u - 83, by omega⟩
    rw [propCase_ge, ha]


/-! ### `setProps` on a packet of one property -/

theorem setProps_one_brk (env : Env) (w : World) (pk : Bytes) (fwd fts : Bool)
    (rc : Option TPlayer) (s1 : Locals) (o1 : Bufs) (hpk : pk ≠ [])
    (h : propCase env fts rc (readGUChar pk).1 (Locals.start w) (readGUChar pk).2
      = some (Flow.brk, s1, [], o1)) :
    ∃ o, setProps env w pk fwd fts rc = (match sendBuffersOut env rc s1 o with
      | none => none
      | some w1 => some (countInvalid env s1.sentInvalid w1)) := by
  obtain ⟨o, hi⟩ := setPropsIter_brk env fwd fts rc _ _ _ _ _ h
  obtain ⟨n, hn⟩ : ∃ n, pk.length = n + 1 :=
    ⟨pk.length - 1, by have := List.length_pos.mpr hpk; omega⟩
  refine ⟨Bufs.empty.append o, ?_⟩
  unfold setProps
  rw [hn, setPropsLoop_next env fwd fts rc n _ _ _ _ pk [] Flow.brk hpk (by simp) hi,
    setPropsLoop_nil]

theorem setProps_ret (env : Env) (w : World) (pk : Bytes) (fwd fts : Bool)
    (rc : Option TPlayer) (s1 : Locals) (pk1 : Bytes) (o1 : Bufs) (hpk : pk ≠ [])
    (h : propCase env fts rc (readGUChar pk).1 (Locals.start w) (readGUChar pk).2
      = some (Flow.ret, s1, pk1, o1)) :
    setProps env w pk fwd fts rc = some s1.w := by
  obtain ⟨o, hi⟩ := setPropsIter_ret env fwd fts rc _ _ _ _ _ h
  obtain ⟨n, hn⟩ : ∃ n, pk.length = n + 1 :=
    ⟨pk.length - 1, by have := List.length_pos.mpr hpk; omega⟩
  unfold setProps
  rw [hn, setPropsLoop_ret env fwd fts rc n _ _ _ _ pk _ hpk hi]

/-- A one-property packet whose case breaks with both check flags down: the call returns
the world of the case with events appended. -/
theorem setProps_one_quiet (env : Env) (w : World) (pk : Bytes) (fwd fts : Bool)
    (rc : Option TPlayer) (s1 : Locals) (o1 : Bufs) (hpk : pk ≠ [])
    (h : propCase env fts rc (readGUChar pk).1 (Locals.start w) (readGUChar pk).2
      = some (Flow.brk, s1, [], o1))
    (h1 : s1.doSignCheck = false) (h2 : s1.doTouchTest = false) (h3 : s1.sentInvalid = false) :
    ∃ es, setProps env w pk fwd fts rc = some (s1.w.emit es) := by
  obtain ⟨o, ho⟩ := setProps_one_brk env w pk fwd fts rc s1 o1 hpk h
  obtain ⟨es, he⟩ := sendBuffersOut_quiet env rc s1 o h1 h2
  refine ⟨es, ?_⟩
  rw [ho, he, h3]
  simp [countInvalid_false]

/-! ### Wire bytes -/

theorem toU8_natCast (v : Nat) (hv : v ≤ 255) : toU8 (v : Int) = v := by
  unfold toU8
  omega

theorem writeGChar_small (v : Nat) (hv : v ≤ 223) : writeGChar (v : Int) = [v + 32] := by
  unfold writeGChar
  rw [toU8_natCast v (by omega)]
  simp [Nat.min_eq_left hv]

theorem readGUChar_writeGChar (v : Nat) (hv : v ≤ 223) :
    (readGUChar (writeGChar (v : Int))).1 = v := by
  rw [writeGChar_small v hv, readGUChar_cons]
  show (((v + 32) % 256 + 224) % 256) = v
  omega

theorem clip_natCast (v : Nat) (hi : Nat) : clip (v : Int) 0 (hi : Int) = ((min v hi : Nat) : Int) := by
  unfold clip
  split
  · omega
  · split <;> omega

/-! ## Invalid-packet counter -/

theorem msgPLI_NULL_counter (env : Env) (w : World) (pk : Bytes) :
    (msgPLI_NULL env w pk).2.self.invalidPackets = w.self.invalidPackets + 1 := by
  unfold msgPLI_NULL
  simp only []
  split <;> rfl

theorem msgPLI_NULL_result (env : Env) (w : World) (pk : Bytes) :
    (msgPLI_NULL env w pk).1 = !decide (w.self.invalidPackets + 1 > 5) := by
  unfold msgPLI_NULL
  simp only []
  split
  · rename_i h; simp [h]
  · rename_i h; simp [h]

theorem nullAfter_counter (env : Env) (w : World) (pk : Nat → Bytes)
    (h0 : w.self.invalidPackets = 0) (n : Nat) :
    (nullAfter env w pk n).self.invalidPackets = (n : Int) := by
  induction n with
  | zero => simpa [nullAfter] using h0
  | succ k ih =>
    simp only [nullAfter]
    rw [msgPLI_NULL_counter, ih]
    push_cast
    rfl

/-- C1. Starting from an invalid-packet counter of 0 and with no reset in between, after `n`
unknown-opcode packets the counter is `n`; the next call of `msgPLI_NULL` returns `false`
exactly when the counter after incrementing exceeds 5, that is, it returns `true` on each
of the first five calls and `false` on the sixth. -/
theorem msgPLI_NULL_threshold (env : Env) (w : World) (pk : Nat → Bytes)
    (h0 : w.self.invalidPackets = 0) (n : Nat) :
    (nullAfter env w pk n).self.invalidPackets = (n : Int)
    ∧ ((msgPLI_NULL env (nullAfter env w pk n) (pk n)).1 = false
        ↔ (msgPLI_NULL env (nullAfter env w pk n) (pk n)).2.self.invalidPackets > 5)
    ∧ ((msgPLI_NULL env (nullAfter env w pk n) (pk n)).1 = true ↔ n < 5) := by
  have hc := nullAfter_counter env w pk h0 n
  refine ⟨hc, ?_, ?_⟩
  · rw [msgPLI_NULL_result, msgPLI_NULL_counter]
    simp
  · rw [msgPLI_NULL_result, hc]
    simp
    omega

/-- Witness of C1: on the sample session the fifth unknown packet keeps the session, the
sixth tears it down. -/
theorem msgPLI_NULL_threshold_witness :
    sampleWorld.self.invalidPackets = 0
    ∧ (msgPLI_NULL sampleEnv (nullAfter sampleEnv sampleWorld (fun _ => [32]) 4) [32]).1 = true
    ∧ (msgPLI_NULL sampleEnv (nullAfter sampleEnv sampleWorld (fun _ => [32]) 5) [32]).1 = false :=
  ⟨rfl,
   (msgPLI_NULL_threshold sampleEnv sampleWorld (fun _ => [32]) rfl 4).2.2.mpr (by decide),
   by
    have h := (msgPLI_NULL_threshold sampleEnv sampleWorld (fun _ => [32]) rfl 5).2.2
    cases hr : (msgPLI_NULL sampleEnv (nullAfter sampleEnv sampleWorld (fun _ => [32]) 5) [32]).1
    · rfl
    · exact absurd (h.mp hr) (by decide)⟩

/-- C2 (code evaluated at the failing input). A property packet that starts with an id the
decoder does not handle (here id 100) leaves the whole world as it was: the
invalid-packet counter is not increased and nothing is queued or logged, because the
`default` case returns before the counting block behind the loop. -/
theorem setProps_unknown_id_uncounted (env : Env) (w : World) (rest : Bytes)
    (fwd fts : Bool) (rc : Option TPlayer) :
    setProps env w (writeGChar 100 ++ rest) fwd fts rc = some w
    ∧ (countInvalid env true w).self.invalidPackets = w.self.invalidPackets + 1 := by
  constructor
  · have hw : writeGChar 100 = [132] := by decide
    have hc : propCase env fts rc 100 = caseDefault := propCase_unhandled env fts rc 100 (by decide)
    rw [hw]
    refine setProps_ret env w _ fwd fts rc { Locals.start w with sentInvalid := true } rest
      Bufs.empty (by simp) ?_
    have e1 : readGUChar ([132] ++ rest) = (100, rest) := by
      simp [readGUChar, readChar]
    rw [e1, hc]
    rfl
  · unfold countInvalid
    simp only [if_true]
    split <;> rfl

/-! ## Clamped byte properties -/

theorem setProps_byte_case (env : Env) (w : World) (id v : Nat) (hid : id ≤ 223) (hv : v ≤ 223)
    (fwd fts : Bool) (rc : Option TPlayer) (f : TPlayer → TPlayer)
    (h : ∀ pk, propCase env fts rc id (Locals.start w) ((v + 32) :: pk)
      = some (Flow.brk, { Locals.start w with w := { w with self := f w.self } }, pk,
          Bufs.empty.append (Bufs.empty.append Bufs.empty))) :
    ∃ es, setProps env w (writeGChar id ++ writeGChar v) fwd fts rc
      = some (({ w with self := f w.self } : World).emit es) := by
  rw [writeGChar_small id hid, writeGChar_small v hv]
  have hd : (readGUChar ([id + 32] ++ [v + 32])).1 = id := by
    show (((id + 32) % 256 + 224) % 256) = id
    omega
  have h' : propCase env fts rc (readGUChar ([id + 32] ++ [v + 32])).1 (Locals.start w)
      (readGUChar ([id + 32] ++ [v + 32])).2
      = some (Flow.brk, { Locals.start w with w := { w with self := f w.self } }, [],
          Bufs.empty.append (Bufs.empty.append Bufs.empty)) := by
    rw [hd]
    exact h []
  exact setProps_one_quiet env w _ fwd fts rc _ _ (by simp) h' rfl rfl rfl

theorem readGUChar_biased (v : Nat) (pk : Bytes) (hv : v ≤ 223) :
    readGUChar ((v + 32) :: pk) = (v, pk) := by
  rw [readGUChar_cons]
  congr 1
  omega

theorem getProp_emit_byte (env : Env) (w : World) (es : List Event) (id : Nat) :
    getProp env (w.emit es).levels (w.emit es).self id = getProp env w.levels w.self id := rfl

/-- C5. Alignment clamp: for every decoded byte value `v` in 0..223 written through
`setProps` as the alignment property, the call returns and a following `getProp` for
alignment encodes `min v 100` (so writing 150 makes the encoder return 100). -/
theorem alignment_clamp (env : Env) (w : World) (v : Nat) (hv : v ≤ 223) (fwd fts : Bool)
    (rc : Option TPlayer) :
    ∃ w1, setProps env w (writeGChar PLPROP_ALIGNMENT ++ writeGChar v) fwd fts rc = some w1
      ∧ w1.self.ap = ((min v 100 : Nat) : Int)
      ∧ getProp env w1.levels w1.self PLPROP_ALIGNMENT = writeGChar ((min v 100 : Nat) : Int)
      ∧ (readGUChar (getProp env w1.levels w1.self PLPROP_ALIGNMENT)).1 = min v 100 := by
  obtain ⟨es, h⟩ := setProps_byte_case env w PLPROP_ALIGNMENT v (by decide) hv fwd fts rc
    (fun p => { p with ap := ((min v 100 : Nat) : Int) }) (by
      intro pk
      have e : propCase env fts rc PLPROP_ALIGNMENT (Locals.start w) ((v + 32) :: pk)
          = some (Flow.brk, { Locals.start w with w := { w with self :=
              { w.self with ap := clip (((readGUChar ((v + 32) :: pk)).1 : Nat) : Int) 0 100 } } },
            pk, Bufs.empty.append (Bufs.empty.append Bufs.empty)) := rfl
      rw [e, readGUChar_biased v pk hv]
      simp only []
      rw [show (100 : Int) = ((100 : Nat) : Int) from rfl, clip_natCast])
  refine ⟨_, h, rfl, rfl, ?_⟩
  rw [getProp_emit_byte]
  exact readGUChar_writeGChar (min v 100) (by omega)

/-- Witness of C5: writing alignment 150 on the sample session makes the encoder
return 100. -/
theorem alignment_clamp_witness :
    150 ≤ 223 ∧ ∃ w1, setProps sampleEnv sampleWorld
        (writeGChar PLPROP_ALIGNMENT ++ writeGChar ((150 : Nat) : Int)) true false none = some w1
      ∧ (readGUChar (getProp sampleEnv w1.levels w1.self PLPROP_ALIGNMENT)).1 = 100 :=
  ⟨by decide, by
    obtain ⟨w1, h1, _, _, h4⟩ :=
      alignment_clamp sampleEnv sampleWorld 150 (by decide) true false none
    exact ⟨w1, h1, h4⟩⟩

theorem byte_roundtrip (env : Env) (w : World) (v : Nat) (hv : v ≤ 223) (fwd fts : Bool)
    (rc : Option TPlayer) (id limit : Nat) (hid : id ≤ 223) (hl : limit ≤ 223)
    (f : Int → TPlayer → TPlayer)
    (hcase : ∀ pk, propCase env fts rc id (Locals.start w) ((v + 32) :: pk)
      = some (Flow.brk,
          { Locals.start w with
            w := { w with
              self := f (clip (((readGUChar ((v + 32) :: pk)).1 : Nat) : Int) 0 (limit : Int))
                w.self } },
          pk, Bufs.empty.append (Bufs.empty.append Bufs.empty)))
    (hget : ∀ (p : TPlayer) (x : Int) (lv : Nat → TLevel), getProp env lv (f x p) id = writeGChar x) :
    ∃ w1, setProps env w (writeGChar id ++ writeGChar v) fwd fts rc = some w1
      ∧ getProp env w1.levels w1.self id = writeGChar ((min v limit : Nat) : Int)
      ∧ (readGUChar (getProp env w1.levels w1.self id)).1 = min v limit
      ∧ (readGUChar (getProp env w1.levels w1.self id)).1 = (if v ≤ limit then v else limit) := by
  obtain ⟨es, h⟩ := setProps_byte_case env w id v hid hv fwd fts rc
    (f ((min v limit : Nat) : Int)) (by
      intro pk
      rw [hcase pk, readGUChar_biased v pk hv]
      simp only []
      rw [clip_natCast])
  have hg : getProp env (({ w with self := f ((min v limit : Nat) : Int) w.self } : World).emit es).levels
      (({ w with self := f ((min v limit : Nat) : Int) w.self } : World).emit es).self id
      = writeGChar ((min v limit : Nat) : Int) := hget _ _ _
  have hr := readGUChar_writeGChar (min v limit) (by omega)
  refine ⟨_, h, hg, ?_, ?_⟩
  · rw [hg]; exact hr
  · rw [hg, hr]
    split <;> omega

/-- C6. Clamped round trip of the byte-valued counters: for arrows (limit 99), bombs (99),
glove power (3), bomb power (3) and magic points (100) and every decoded byte value `v`
in 0..223, decoding `v` with `setProps` and then encoding the same id with `getProp`
yields `min v limit`, which is `v` itself whenever `v` is within the limit. -/
theorem counters_clamped_roundtrip (env : Env) (w : World) (v : Nat) (hv : v ≤ 223)
    (fwd fts : Bool) (rc : Option TPlayer) (id limit : Nat)
    (hid : (id, limit) ∈ [(PLPROP_ARROWSCOUNT, 99), (PLPROP_BOMBSCOUNT, 99),
      (PLPROP_GLOVEPOWER, 3), (PLPROP_BOMBPOWER, 3), (PLPROP_MAGICPOINTS, 100)]) :
    ∃ w1, setProps env w (writeGChar id ++ writeGChar v) fwd fts rc = some w1
      ∧ getProp env w1.levels w1.self id = writeGChar ((min v limit : Nat) : Int)
      ∧ (readGUChar (getProp env w1.levels w1.self id)).1 = min v limit
      ∧ (readGUChar (getProp env w1.levels w1.self id)).1 = (if v ≤ limit then v else limit) := by
  simp only [List.mem_cons, Prod.mk.injEq, List.mem_singleton, List.mem_nil_iff, or_false] at hid
  rcases hid with ⟨rfl, rfl⟩ | ⟨rfl, rfl⟩ | ⟨rfl, rfl⟩ | ⟨rfl, rfl⟩ | ⟨rfl, rfl⟩
  · exact byte_roundtrip env w v hv fwd fts rc _ _ (by decide) (by decide)
      (fun x p => { p with arrowc := x }) (fun _ => rfl) (fun _ _ _ => rfl)
  · exact byte_roundtrip env w v hv fwd fts rc _ _ (by decide) (by decide)
      (fun x p => { p with bombc := x }) (fun _ => rfl) (fun _ _ _ => rfl)
  · exact byte_roundtrip env w v hv fwd fts rc _ _ (by decide) (by decide)
      (fun x p => { p with glovePower := x }) (fun _ => rfl) (fun _ _ _ => rfl)
  · exact byte_roundtrip env w v hv fwd fts rc _ _ (by decide) (by decide)
      (fun x p => { p with bombPower := x }) (fun _ => rfl) (fun _ _ _ => rfl)
  · exact byte_roundtrip env w v hv fwd fts rc _ _ (by decide) (by decide)
      (fun x p => { p with mp := x }) (fun _ => rfl) (fun _ _ _ => rfl)

/-- Witness of C6: 150 arrows written on the sample session are encoded as 99. -/
theorem counters_clamped_roundtrip_witness :
    150 ≤ 223 ∧ ∃ w1, setProps sampleEnv sampleWorld
        (writeGChar PLPROP_ARROWSCOUNT ++ writeGChar ((150 : Nat) : Int)) true false none = some w1
      ∧ (readGUChar (getProp sampleEnv w1.levels w1.self PLPROP_ARROWSCOUNT)).1 = 99 :=
  ⟨by decide, by
    obtain ⟨w1, h1, _, h3, _⟩ := counters_clamped_roundtrip sampleEnv sampleWorld 150
      (by decide) true false none PLPROP_ARROWSCOUNT 99 (by simp)
    exact ⟨w1, h1, h3⟩⟩

/-! ### Evaluation of steps -/

theorem run_bind {α β : Type} (m : PM α) (f : α → PM β) (s : Locals) (pk : Bytes) :
    (m >>= f) s pk = (match m s pk with
      | none => none
      | some (a, s1, pk1, o1) =>
        match f a s1 pk1 with
        | none => none
        | some (b, s2, pk2, o2) => some (b, s2, pk2, o1.append o2)) := rfl

theorem run_pure {α : Type} (a : α) (s : Locals) (pk : Bytes) :
    (pure a : PM α) s pk = some (a, s, pk, Bufs.empty) := rfl

theorem run_ite {α : Type} (c : Prop) [Decidable c] (m1 m2 : PM α) (s : Locals) (pk : Bytes) :
    (if c then m1 else m2) s pk = if c then m1 s pk else m2 s pk := by
  split <;> rfl

theorem Bufs.empty_append (o : Bufs) : Bufs.empty.append o = o := rfl

theorem Bufs.append_empty (o : Bufs) : o.append Bufs.empty = o := by
  cases o; simp [Bufs.append, Bufs.empty]

theorem readGUChar_prop (id : Nat) (payload : Bytes) (hid : id ≤ 223) :
    readGUChar (writeGChar id ++ payload) = (id, payload) := by
  rw [writeGChar_small id hid]
  exact readGUChar_biased id payload hid

theorem propCase_at (env : Env) (fts : Bool) (rc : Option TPlayer) (id : Nat) (payload : Bytes)
    (hid : id ≤ 223) (s : Locals) (r : Option (Flow × Locals × Bytes × Bufs))
    (h : propCase env fts rc id s payload = r) :
    propCase env fts rc (readGUChar (writeGChar id ++ payload)).1 s
      (readGUChar (writeGChar id ++ payload)).2 = r := by
  rw [readGUChar_prop id payload hid]
  exact h

theorem writeGChar_append_ne_nil (id : Int) (payload : Bytes) : writeGChar id ++ payload ≠ [] := by
  simp [writeGChar]

/-- A packet of one property whose case breaks with both check flags down. -/
theorem setProps_prop_quiet (env : Env) (w : World) (id : Nat) (payload : Bytes) (hid : id ≤ 223)
    (fwd fts : Bool) (rc : Option TPlayer) (s1 : Locals) (o1 : Bufs)
    (h : propCase env fts rc id (Locals.start w) payload = some (Flow.brk, s1, [], o1))
    (h1 : s1.doSignCheck = false) (h2 : s1.doTouchTest = false) (h3 : s1.sentInvalid = false) :
    ∃ es, setProps env w (writeGChar id ++ payload) fwd fts rc = some (s1.w.emit es) :=
  setProps_one_quiet env w _ fwd fts rc _ _ (writeGChar_append_ne_nil _ _)
    (propCase_at env fts rc id payload hid _ _ h) h1 h2 h3

/-! ## Current power -/

theorem case_curpower (env : Env) (s : Locals) (pk : Bytes) :
    casePLPROP_CURPOWER env s pk
      = some (Flow.brk,
          (if s.w.self.ap < 40 ∧ ((readGUChar pk).1 : ℚ) / 2 > s.w.self.power then s
           else { s with
             w := { s.w with self := env.setPower (((readGUChar pk).1 : ℚ) / 2) s.w.self } }),
          (readGUChar pk).2, Bufs.empty) := by
  unfold casePLPROP_CURPOWER
  simp only [run_bind, PM.read, getSelf, PM.get, run_pure, run_ite, modSelf, PM.modify,
    Bufs.empty_append, Bufs.append_empty]
  split_ifs <;> rfl

/-- C8. Current-power anti-cheat: a current-power write with decoded byte `b` (new value
`b / 2`) returns; when the alignment is below 40 and `b / 2` is strictly greater than the
current power the session is left as it was (so its power is unchanged), and otherwise
the session is exactly what `setPower (b / 2)` makes of it. In both cases only events are
added to the log. -/
theorem curpower_anticheat (env : Env) (w : World) (b : Nat) (hb : b ≤ 223) (fwd fts : Bool)
    (rc : Option TPlayer) :
    ∃ es, setProps env w (writeGChar PLPROP_CURPOWER ++ writeGChar b) fwd fts rc
      = some ((if w.self.ap < 40 ∧ (b : ℚ) / 2 > w.self.power then w
          else { w with self := env.setPower ((b : ℚ) / 2) w.self }).emit es) := by
  have hc : propCase env fts rc PLPROP_CURPOWER (Locals.start w) [b + 32]
      = casePLPROP_CURPOWER env (Locals.start w) [b + 32] := rfl
  rw [case_curpower, readGUChar_biased b [] hb] at hc
  by_cases c : w.self.ap < 40 ∧ (b : ℚ) / 2 > w.self.power
  · have hc' : propCase env fts rc PLPROP_CURPOWER (Locals.start w) [b + 32]
        = some (Flow.brk, Locals.start w, [], Bufs.empty) := by
      rw [hc]; simp only [Locals.start]; rw [if_pos c]
    obtain ⟨es, h⟩ := setProps_prop_quiet env w PLPROP_CURPOWER [b + 32] (by decide) fwd fts rc
      _ _ hc' rfl rfl rfl
    exact ⟨es, by rw [writeGChar_small b hb, h, if_pos c]; rfl⟩
  · have hc' : propCase env fts rc PLPROP_CURPOWER (Locals.start w) [b + 32]
        = some (Flow.brk, { Locals.start w with
            w := { w with self := env.setPower ((b : ℚ) / 2) w.self } }, [], Bufs.empty) := by
      rw [hc]; simp only [Locals.start]; rw [if_neg c]
    obtain ⟨es, h⟩ := setProps_prop_quiet env w PLPROP_CURPOWER [b + 32] (by decide) fwd fts rc
      _ _ hc' rfl rfl rfl
    exact ⟨es, by rw [writeGChar_small b hb, h, if_neg c]⟩

/-- Witness of C8: on the sample session with alignment 30 and power 1, a write of power 3
(byte 6) is dropped. -/
theorem curpower_anticheat_witness :
    6 ≤ 223 ∧ ∃ w1, setProps sampleEnv
        { sampleWorld with self := { samplePlayer with ap := 30, power := 1 } }
        (writeGChar PLPROP_CURPOWER ++ writeGChar ((6 : Nat) : Int)) true false none = some w1
      ∧ w1.self.power = 1 :=
  ⟨by decide, by
    obtain ⟨es, h⟩ := curpower_anticheat sampleEnv
      { sampleWorld with self := { samplePlayer with ap := 30, power := 1 } } 6 (by decide)
      true false none
    rw [if_pos (by constructor <;> norm_num)] at h
    exact ⟨_, h, rfl⟩⟩

/-! ## Positions -/

theorem movementCheck_placed (env : Env) (s : Locals) (w : World) (hl : w.self.level ≠ none)
    (hs : 0 ≤ w.self.sprite) : ∃ es, movementCheck env s w = some (w.emit es) := by
  obtain ⟨w1, hw1⟩ := testSign_defined env w hl
  obtain ⟨es1, rfl⟩ := testSign_emit env w w1 hw1
  obtain ⟨w2, hw2⟩ := testTouch_defined env (w.emit es1) hl hs
  obtain ⟨es2, rfl⟩ := testTouch_emit env _ w2 hw2
  obtain ⟨w3, hw3⟩ := testTouch_defined env w hl hs
  obtain ⟨es3, rfl⟩ := testTouch_emit env _ w3 hw3
  unfold movementCheck
  cases h1 : s.doSignCheck <;> cases h2 : s.doTouchTest <;>
    simp only [Bool.false_eq_true, if_false, if_true, hw1, hw2, hw3]
  · exact ⟨[], by rw [World.emit_nil]⟩
  · exact ⟨_, rfl⟩
  · exact ⟨_, rfl⟩
  · exact ⟨_, by rw [World.emit_emit]⟩

theorem sendBuffersOut_placed (env : Env) (rc : Option TPlayer) (s : Locals) (o : Bufs)
    (hl : s.w.self.level ≠ none) (hs : 0 ≤ s.w.self.sprite) :
    ∃ es, sendBuffersOut env rc s o = some (s.w.emit es) := by
  obtain ⟨es0, h0⟩ := flushBuffers_emit env s o
  unfold sendBuffersOut
  split
  · split
    · rw [h0]
      obtain ⟨es1, h1⟩ := movementCheck_placed env s (s.w.emit es0) hl hs
      rw [h1, World.emit_emit]
      exact ⟨_, rfl⟩
    · rw [h0]; exact ⟨_, rfl⟩
  · exact ⟨[], by rw [World.emit_nil]⟩

theorem setProps_one_placed (env : Env) (w : World) (pk : Bytes) (fwd fts : Bool)
    (rc : Option TPlayer) (s1 : Locals) (o1 : Bufs) (hpk : pk ≠ [])
    (h : propCase env fts rc (readGUChar pk).1 (Locals.start w) (readGUChar pk).2
      = some (Flow.brk, s1, [], o1))
    (h3 : s1.sentInvalid = false) (hl : s1.w.self.level ≠ none) (hs : 0 ≤ s1.w.self.sprite) :
    ∃ es, setProps env w pk fwd fts rc = some (s1.w.emit es) := by
  obtain ⟨o, ho⟩ := setProps_one_brk env w pk fwd fts rc s1 o1 hpk h
  obtain ⟨es, he⟩ := sendBuffersOut_placed env rc s1 o hl hs
  refine ⟨es, ?_⟩
  rw [ho, he, h3]
  simp [countInvalid_false]

/-- A packet of one property whose case breaks, for a session placed in a level. -/
theorem setProps_prop_placed (env : Env) (w : World) (id : Nat) (payload : Bytes)
    (hid : id ≤ 223) (fwd fts : Bool) (rc : Option TPlayer) (s1 : Locals) (o1 : Bufs)
    (h : propCase env fts rc id (Locals.start w) payload = some (Flow.brk, s1, [], o1))
    (h3 : s1.sentInvalid = false) (hl : s1.w.self.level ≠ none) (hs : 0 ≤ s1.w.self.sprite) :
    ∃ es, setProps env w (writeGChar id ++ payload) fwd fts rc = some (s1.w.emit es) :=
  setProps_one_placed env w _ fwd fts rc _ _ (writeGChar_append_ne_nil _ _)
    (propCase_at env fts rc id payload hid _ _ h) h3 hl hs

theorem ftoi_intCast (k : Int) : ftoi (k : ℚ) = k := by
  simp [ftoi]

theorem ftoi_half_mul16 (b : Nat) : ftoi ((b : ℚ) / 2 * 16) = 8 * (b : Int) := by
  have : (b : ℚ) / 2 * 16 = ((8 * (b : Int) : Int) : ℚ) := by push_cast; ring
  rw [this, ftoi_intCast]

theorem decodeCoord2_eq (len : Nat) :
    decodeCoord2 len
      = if len % 2 = 1 then -((len / 2 : Nat) : Int) else ((len / 2 : Nat) : Int) := by
  unfold decodeCoord2
  have h1 : len &&& 1 = len % 2 := Nat.and_one_is_mod len
  have h2 : len >>> 1 = len / 2 := by simp [Nat.shiftRight_eq_div_pow]
  rw [h1, h2]
  by_cases h : len % 2 = 1
  · simp [h]
  · have : len % 2 = 0 := by omega
    simp [this]

theorem case_X (env : Env) (s : Locals) (pk : Bytes) :
    ∃ o, casePLPROP_X env s pk = some (Flow.brk,
      { s with
        w := { s.w with self := { s.w.self with
          x := ((readGUChar pk).1 : ℚ) / 2
          status := clearBits s.w.self.status PLSTATUS_PAUSED
          lastMovement := env.now
          grMovementUpdated := true
          x2 := ftoi (((readGUChar pk).1 : ℚ) / 2 * 16) } }
        doTouchTest := true }, (readGUChar pk).2, o) := ⟨_, rfl⟩

theorem case_Y (env : Env) (s : Locals) (pk : Bytes) :
    ∃ o, casePLPROP_Y env s pk = some (Flow.brk,
      { s with
        w := { s.w with self := { s.w.self with
          y := ((readGUChar pk).1 : ℚ) / 2
          status := clearBits s.w.self.status PLSTATUS_PAUSED
          lastMovement := env.now
          grMovementUpdated := true
          y2 := ftoi (((readGUChar pk).1 : ℚ) / 2 * 16) } }
        doTouchTest := true
        doSignCheck := true }, (readGUChar pk).2, o) := ⟨_, rfl⟩

theorem case_X2 (env : Env) (s : Locals) (pk : Bytes) :
    ∃ o, casePLPROP_X2 env s pk = some (Flow.brk,
      { s with
        w := { s.w with self := { s.w.self with
          x2 := decodeCoord2 (readGUShort pk).1
          status := clearBits s.w.self.status PLSTATUS_PAUSED
          lastMovement := env.now
          grMovementUpdated := true
          x := (decodeCoord2 (readGUShort pk).1 : ℚ) / 16 } }
        doTouchTest := true }, (readGUShort pk).2, o) := ⟨_, rfl⟩

theorem case_Y2 (env : Env) (s : Locals) (pk : Bytes) :
    ∃ o, casePLPROP_Y2 env s pk = some (Flow.brk,
      { s with
        w := { s.w with self := { s.w.self with
          y2 := decodeCoord2 (readGUShort pk).1
          status := clearBits s.w.self.status PLSTATUS_PAUSED
          lastMovement := env.now
          grMovementUpdated := true
          y := (decodeCoord2 (readGUShort pk).1 : ℚ) / 16 } }
        doTouchTest := true
        doSignCheck := true }, (readGUShort pk).2, o) := ⟨_, rfl⟩

/-- C7. Position representations stay in sync. For a session placed in a level (with a
non-negative sprite, so that the movement check behind the decode loop is defined):
decoding the legacy X property with byte value `b` in 0..223 leaves `x = b / 2` and
`x2 = 8 * b`; decoding the precise X2 property with wire bytes `b0 b1`, of raw value
`r = readGUShort [b0, b1]`, leaves `x2 = r / 2` negated when bit 0 of `r` is set, and
`x = x2 / 16`; after either write `x2 = 16 * x`. The same holds for Y and Y2. -/
theorem position_sync (env : Env) (w : World) (hl : w.self.level ≠ none)
    (hs : 0 ≤ w.self.sprite) (fwd fts : Bool) (rc : Option TPlayer) (b : Nat) (hb : b ≤ 223)
    (b0 b1 : Nat) :
    (∃ w1, setProps env w (writeGChar PLPROP_X ++ writeGChar b) fwd fts rc = some w1
      ∧ w1.self.x = (b : ℚ) / 2 ∧ w1.self.x2 = 8 * (b : Int)
      ∧ (w1.self.x2 : ℚ) = 16 * w1.self.x)
    ∧ (∃ w1, setProps env w (writeGChar PLPROP_Y ++ writeGChar b) fwd fts rc = some w1
      ∧ w1.self.y = (b : ℚ) / 2 ∧ w1.self.y2 = 8 * (b : Int)
      ∧ (w1.self.y2 : ℚ) = 16 * w1.self.y)
    ∧ (∃ w1, setProps env w (writeGChar PLPROP_X2 ++ [b0, b1]) fwd fts rc = some w1
      ∧ w1.self.x2 = (if (readGUShort [b0, b1]).1 % 2 = 1
          then -(((readGUShort [b0, b1]).1 / 2 : Nat) : Int)
          else (((readGUShort [b0, b1]).1 / 2 : Nat) : Int))
      ∧ w1.self.x = (w1.self.x2 : ℚ) / 16
      ∧ (w1.self.x2 : ℚ) = 16 * w1.self.x)
    ∧ (∃ w1, setProps env w (writeGChar PLPROP_Y2 ++ [b0, b1]) fwd fts rc = some w1
      ∧ w1.self.y2 = (if (readGUShort [b0, b1]).1 % 2 = 1
          then -(((readGUShort [b0, b1]).1 / 2 : Nat) : Int)
          else (((readGUShort [b0, b1]).1 / 2 : Nat) : Int))
      ∧ w1.self.y = (w1.self.y2 : ℚ) / 16
      ∧ (w1.self.y2 : ℚ) = 16 * w1.self.y) := by
  have hbw : writeGChar (b : Int) = [b + 32] := writeGChar_small b hb
  have hdec : ∀ pk, (readGUChar ((b + 32) :: pk)).1 = b := fun pk => by
    rw [readGUChar_biased b pk hb]
  rw [hbw]
  refine ⟨?_, ?_, ?_, ?_⟩
  · obtain ⟨o, ho⟩ := case_X env (Locals.start w) [b + 32]
    obtain ⟨es, he⟩ := setProps_prop_placed env w PLPROP_X [b + 32] (by decide) fwd fts rc
      _ _ ho rfl hl hs
    refine ⟨_, he, ?_, ?_, ?_⟩
    · show ((readGUChar [b + 32]).1 : ℚ) / 2 = _
      rw [hdec]
    · show ftoi (((readGUChar [b + 32]).1 : ℚ) / 2 * 16) = _
      rw [hdec, ftoi_half_mul16]
    · show ((ftoi (((readGUChar [b + 32]).1 : ℚ) / 2 * 16) : Int) : ℚ)
        = 16 * (((readGUChar [b + 32]).1 : ℚ) / 2)
      rw [hdec, ftoi_half_mul16]
      push_cast
      ring
  · obtain ⟨o, ho⟩ := case_Y env (Locals.start w) [b + 32]
    obtain ⟨es, he⟩ := setProps_prop_placed env w PLPROP_Y [b + 32] (by decide) fwd fts rc
      _ _ ho rfl hl hs
    refine ⟨_, he, ?_, ?_, ?_⟩
    · show ((readGUChar [b + 32]).1 : ℚ) / 2 = _
      rw [hdec]
    · show ftoi (((readGUChar [b + 32]).1 : ℚ) / 2 * 16) = _
      rw [hdec, ftoi_half_mul16]
    · show ((ftoi (((readGUChar [b + 32]).1 : ℚ) / 2 * 16) : Int) : ℚ)
        = 16 * (((readGUChar [b + 32]).1 : ℚ) / 2)
      rw [hdec, ftoi_half_mul16]
      push_cast
      ring
  · obtain ⟨o, ho⟩ := case_X2 env (Locals.start w) [b0, b1]
    obtain ⟨es, he⟩ := setProps_prop_placed env w PLPROP_X2 [b0, b1] (by decide) fwd fts rc
      _ _ ho rfl hl hs
    refine ⟨_, he, ?_, ?_, ?_⟩
    · exact decodeCoord2_eq _
    · rfl
    · show ((decodeCoord2 (readGUShort [b0, b1]).1 : Int) : ℚ)
        = 16 * (((decodeCoord2 (readGUShort [b0, b1]).1 : Int) : ℚ) / 16)
      ring
  · obtain ⟨o, ho⟩ := case_Y2 env (Locals.start w) [b0, b1]
    obtain ⟨es, he⟩ := setProps_prop_placed env w PLPROP_Y2 [b0, b1] (by decide) fwd fts rc
      _ _ ho rfl hl hs
    refine ⟨_, he, ?_, ?_, ?_⟩
    · exact decodeCoord2_eq _
    · rfl
    · show ((decodeCoord2 (readGUShort [b0, b1]).1 : Int) : ℚ)
        = 16 * (((decodeCoord2 (readGUShort [b0, b1]).1 : Int) : ℚ) / 16)
      ring

/-! ## Death: the item drop and the leader demotion -/

theorem dropOne_ok (env : Env) (item : Nat) (w : World) (l : Nat) (h : w.self.level = some l) :
    ∃ w1, dropOne env item w = some w1 ∧ w1.self = w.self ∧ w1.levels = w.levels
      ∧ w1.playerList = w.playerList := by
  unfold dropOne msgPLI_ITEMADD
  simp only [h]
  exact ⟨_, rfl, rfl, rfl, rfl⟩

theorem dropGralats_ok (env : Env) (l : Nat) :
    ∀ (fuel : Nat) (drop : Int) (w : World), 0 ≤ drop → drop.toNat ≤ fuel →
      w.self.level = some l →
      ∃ w1, dropGralats env fuel drop w = some w1 ∧ w1.self = w.self ∧ w1.levels = w.levels
        ∧ w1.playerList = w.playerList := by
  intro fuel
  induction fuel with
  | zero =>
    intro drop w h0 hf _
    have : drop = 0 := by omega
    subst this
    exact ⟨w, by simp [dropGralats], rfl, rfl, rfl⟩
  | succ n ih =>
    intro drop w h0 hf hl
    unfold dropGralats
    by_cases hz : drop = 0
    · simp only [hz, if_true]
      exact ⟨w, rfl, rfl, rfl, rfl⟩
    · simp only [hz, if_false]
      obtain ⟨w1, h1, hs1, hv1, hp1⟩ := dropOne_ok env
        (if Int.tmod drop 100 ≠ drop then (drop - 100, 19)
          else if Int.tmod drop 30 ≠ drop then (drop - 30, 2)
          else if Int.tmod drop 5 ≠ drop then (drop - 5, 1)
          else (drop - 1, (0 : Nat))).2 w l hl
      simp only [h1]
      have e100 : Int.tmod drop 100 = drop % 100 := Int.tmod_eq_emod h0 (by decide)
      have e30 : Int.tmod drop 30 = drop % 30 := Int.tmod_eq_emod h0 (by decide)
      have e5 : Int.tmod drop 5 = drop % 5 := Int.tmod_eq_emod h0 (by decide)
      have hn : 0 ≤ (if Int.tmod drop 100 ≠ drop then (drop - 100, 19)
          else if Int.tmod drop 30 ≠ drop then (drop - 30, 2)
          else if Int.tmod drop 5 ≠ drop then (drop - 5, 1)
          else (drop - 1, (0 : Nat))).1
          ∧ (if Int.tmod drop 100 ≠ drop then (drop - 100, 19)
          else if Int.tmod drop 30 ≠ drop then (drop - 30, 2)
          else if Int.tmod drop 5 ≠ drop then (drop - 5, 1)
          else (drop - 1, (0 : Nat))).1.toNat ≤ n := by
        rw [e100, e30, e5]
        split_ifs <;> simp only [] <;> omega
      obtain ⟨w2, h2, hs2, hv2, hp2⟩ := ih _ w1 hn.1 hn.2 (by rw [hs1]; exact hl)
      exact ⟨w2, h2, by rw [hs2, hs1], by rw [hv2, hv1], by rw [hp2, hp1]⟩

theorem dropMany_ok (env : Env) (item : Nat) (l : Nat) :
    ∀ (n : Nat) (w : World), w.self.level = some l →
      ∃ w1, dropMany env item n w = some w1 ∧ w1.self = w.self ∧ w1.levels = w.levels
        ∧ w1.playerList = w.playerList := by
  intro n
  induction n with
  | zero =>
    intro w _
    exact ⟨w, by simp [dropMany], rfl, rfl, rfl⟩
  | succ k ih =>
    intro w hl
    unfold dropMany
    obtain ⟨w1, h1, hs1, hv1, hp1⟩ := dropOne_ok env item w l hl
    simp only [h1]
    obtain ⟨w2, h2, hs2, hv2, hp2⟩ := ih w1 (by rw [hs1]; exact hl)
    exact ⟨w2, h2, by rw [hs2, hs1], by rw [hv2, hv1], by rw [hp2, hp1]⟩

theorem dropToLevel_ok (env : Env) (l : Nat) (w : World) (D A B : Int) (hD : 0 ≤ D)
    (hl : w.self.level = some l) :
    ∃ w1, dropToLevel env D A B w = some w1 ∧ w1.self = w.self ∧ w1.levels = w.levels
      ∧ w1.playerList = w.playerList := by
  unfold dropToLevel
  obtain ⟨w1, h1, hs1, hv1, hp1⟩ := dropGralats_ok env l D.toNat D w hD (le_refl _) hl
  obtain ⟨w2, h2, hs2, hv2, hp2⟩ := dropMany_ok env 4 l A.toNat w1 (by rw [hs1]; exact hl)
  obtain ⟨w3, h3, hs3, hv3, hp3⟩ := dropMany_ok env 3 l B.toNat w2 (by rw [hs2, hs1]; exact hl)
  simp only [h1, h2, h3]
  exact ⟨w3, rfl, by rw [hs3, hs2, hs1], by rw [hv3, hv2, hv1], by rw [hp3, hp2, hp1]⟩

/-- The item drop returns on a session placed in a level whose gralat count is not
negative, and changes at most the three counters of the session, the random position
and the log. -/
theorem dropItemsOnDeath_ok (env : Env) (w : World) (l : Nat) (hl : w.self.level = some l)
    (hg : 0 ≤ w.self.gralatc) :
    ∃ wd, dropItemsOnDeath env w = some wd
      ∧ wd.self = { w.self with gralatc := wd.self.gralatc, arrowc := wd.self.arrowc,
                                bombc := wd.self.bombc }
      ∧ wd.levels = w.levels ∧ wd.playerList = w.playerList := by
  unfold dropItemsOnDeath
  by_cases hd : env.dropitemsdead = true
  · simp only [hd, Bool.not_true, Bool.false_eq_true, if_false]
    have key : ∀ (D A B : Int) (w2 : World), 0 ≤ D → w2.self.level = some l →
        w2.self = { w.self with gralatc := w2.self.gralatc, arrowc := w2.self.arrowc,
                                bombc := w2.self.bombc } →
        w2.levels = w.levels → w2.playerList = w.playerList →
        ∃ wd, dropToLevel env D A B w2 = some wd
          ∧ wd.self = { w.self with gralatc := wd.self.gralatc, arrowc := wd.self.arrowc,
                                    bombc := wd.self.bombc }
          ∧ wd.levels = w.levels ∧ wd.playerList = w.playerList := by
      intro D A B w2 hD hl2 hs2 hv2 hp2
      obtain ⟨w3, h3, hs3, hv3, hp3⟩ := dropToLevel_ok env l w2 D A B hD hl2
      exact ⟨w3, h3, by rw [hs3]; exact hs2, by rw [hv3, hv2], by rw [hp3, hp2]⟩
    apply key
    · have : 0 ≤ Int.tmod (env.rand w.randc : Int) env.maxdeathgralats :=
        Int.tmod_nonneg _ (Int.natCast_nonneg _)
      split_ifs <;> simp only [] <;> omega
    · first | exact hl | (split_ifs <;> exact hl)
    · first | rfl | (split_ifs <;> rfl)
    · first | rfl | (split_ifs <;> rfl)
    · first | rfl | (split_ifs <;> rfl)
  · simp only [Bool.not_eq_true] at hd
    simp only [hd, Bool.not_false, if_true]
    exact ⟨w, rfl, rfl, rfl, rfl⟩


theorem bind_ok {α β : Type} {m : PM α} {f : α → PM β} {s s1 s2 : Locals} {pk pk1 pk2 : Bytes}
    {a : α} {b : β} {o1 o2 : Bufs} (h1 : m s pk = some (a, s1, pk1, o1))
    (h2 : f a s1 pk1 = some (b, s2, pk2, o2)) :
    (m >>= f) s pk = some (b, s2, pk2, o1.append o2) := by
  rw [run_bind, h1]
  simp only [h2]

theorem run_derefLevel (s : Locals) (pk : Bytes) (l : Nat) (h : s.w.self.level = some l) :
    derefLevel s pk = some ((l, s.w.levels l), s, pk, Bufs.empty) := by
  unfold derefLevel
  simp only [run_bind, getWorld, PM.get, run_pure, h, Bufs.empty_append]

theorem demoteLeader_ok (s : Locals) (pk : Bytes) (l : Nat) (hl : s.w.self.level = some l) :
    ∃ s1 o, demoteLeader s pk = some ((), s1, pk, o)
      ∧ s1.w.self = s.w.self ∧ s1.w.randc = s.w.randc ∧ s1.w.playerList = s.w.playerList
      ∧ s1.doSignCheck = s.doSignCheck ∧ s1.doTouchTest = s.doTouchTest
      ∧ s1.sentInvalid = s.sentInvalid
      ∧ (∀ l1, l1 ≠ l → s1.w.levels l1 = s.w.levels l1)
      ∧ (s1.w.levels l).levelPlayerList
          = (if (s.w.levels l).getPlayer 0 = some s.w.self.ptr ∧ (s.w.levels l).getPlayer 1 ≠ none
              then (s.w.levels l).levelPlayerList.filter (fun q => q != s.w.self.ptr)
                ++ [s.w.self.ptr]
              else (s.w.levels l).levelPlayerList) := by
  unfold demoteLeader
  simp only [run_bind, getSelf, PM.get, run_pure, run_derefLevel s pk l hl, Bufs.empty_append,
    Bufs.append_empty, run_ite]
  by_cases c : (s.w.levels l).getPlayer 0 = some s.w.self.ptr ∧ (s.w.levels l).getPlayer 1 ≠ none
  · simp only [c, and_self, if_true, modWorld, PM.modify, ne_eq, not_false_eq_true]
    have hne : ∃ q, (((s.w.levels l).removePlayer s.w.self.ptr).addPlayer s.w.self.ptr).getPlayer 0
        = some q := by
      simp only [TLevel.getPlayer, TLevel.addPlayer, TLevel.removePlayer]
      cases hf : (s.w.levels l).levelPlayerList.filter (fun q => q != s.w.self.ptr) with
      | nil => exact ⟨_, rfl⟩
      | cons x xs => exact ⟨x, rfl⟩
    obtain ⟨q, hq⟩ := hne
    simp only [hq, emit, modWorld, PM.modify, Bufs.empty_append, Bufs.append_empty]
    refine ⟨_, _, rfl, rfl, rfl, rfl, rfl, rfl, rfl, ?_, ?_⟩
    · intro l1 h1
      simp [World.emit, Function.update_noteq h1]
    · simp [World.emit, TLevel.addPlayer, TLevel.removePlayer]
  · simp only [c, if_false]
    exact ⟨_, _, rfl, rfl, rfl, rfl, rfl, rfl, rfl, fun _ _ => rfl, rfl⟩

theorem run_liftW (f : World → Option World) (s : Locals) (pk : Bytes) (w1 : World)
    (h : f s.w = some w1) : liftW f s pk = some ((), { s with w := w1 }, pk, Bufs.empty) := by
  unfold liftW
  rw [h]


theorem statusDeath_ok (env : Env) (s : Locals) (pk : Bytes) (l : Nat)
    (hl : s.w.self.level = some l) (hspar : (s.w.levels l).sparringZone = false)
    (hg : 0 ≤ s.w.self.gralatc) :
    ∃ wd s1 o, dropItemsOnDeath env
          { s.w with self := { s.w.self with deaths := s.w.self.deaths + 1 } } = some wd
      ∧ statusDeath env s pk = some ((), s1, pk, o)
      ∧ s1.w.self = wd.self ∧ s1.w.randc = wd.randc
      ∧ s1.w.self = { s.w.self with deaths := s.w.self.deaths + 1, gralatc := s1.w.self.gralatc,
                                    arrowc := s1.w.self.arrowc, bombc := s1.w.self.bombc }
      ∧ s1.w.playerList = s.w.playerList
      ∧ s1.doSignCheck = s.doSignCheck ∧ s1.doTouchTest = s.doTouchTest
      ∧ s1.sentInvalid = s.sentInvalid
      ∧ (∀ l1, l1 ≠ l → s1.w.levels l1 = s.w.levels l1)
      ∧ (s1.w.levels l).levelPlayerList
          = (if (s.w.levels l).getPlayer 0 = some s.w.self.ptr ∧ (s.w.levels l).getPlayer 1 ≠ none
              then (s.w.levels l).levelPlayerList.filter (fun q => q != s.w.self.ptr)
                ++ [s.w.self.ptr]
              else (s.w.levels l).levelPlayerList) := by
  obtain ⟨wd, hdrop, hds, hdl, hdp⟩ := dropItemsOnDeath_ok env
    { s.w with self := { s.w.self with deaths := s.w.self.deaths + 1 } } l hl hg
  have hwl : ({ s with w := wd } : Locals).w.self.level = some l := by
    show wd.self.level = some l
    rw [hds]; exact hl
  obtain ⟨s1, o, hD, h1, h2, h3, h4, h5, h6, h7, h8⟩ := demoteLeader_ok { s with w := wd } pk l hwl
  apply Exists.intro wd
  apply Exists.intro s1
  apply Exists.intro
  refine ⟨hdrop, ?_, h1, h2, ?_, ?_, h4, h5, h6, ?_, ?_⟩
  · unfold statusDeath
    apply bind_ok (run_derefLevel s pk l hl)
    simp only [hspar, if_true]
    apply bind_ok
    · exact rfl
    exact bind_ok (run_liftW _ _ _ _ hdrop) hD
  · rw [h1]; exact hds
  · rw [h3]; exact hdp
  · intro l1 hne
    rw [h7 l1 hne]
    show wd.levels l1 = _
    rw [hdl]
  · rw [h8]
    show (if (wd.levels l).getPlayer 0 = some wd.self.ptr ∧ (wd.levels l).getPlayer 1 ≠ none
      then (wd.levels l).levelPlayerList.filter (fun q => q != wd.self.ptr) ++ [wd.self.ptr]
      else (wd.levels l).levelPlayerList) = _
    have hp : wd.self.ptr = s.w.self.ptr := by rw [hds]
    rw [hdl, hp]

/-- Case `PLPROP_STATUS` on a dead session told dead again: only the status byte is
stored. -/
theorem case_status_same (env : Env) (s : Locals) (pk : Bytes)
    (hold : s.w.self.status &&& PLSTATUS_DEAD ≠ 0)
    (hnew : (readGUChar pk).1 &&& PLSTATUS_DEAD ≠ 0) :
    casePLPROP_STATUS env s pk = some (Flow.brk,
      { s with w := { s.w with self := { s.w.self with status := (readGUChar pk).1 } } },
      (readGUChar pk).2, Bufs.empty) := by
  have h1 : ¬ (s.w.self.status &&& PLSTATUS_DEAD = 0) := hold
  have h2 : ¬ ((readGUChar pk).1 &&& PLSTATUS_DEAD = 0) := hnew
  unfold casePLPROP_STATUS
  simp only [run_bind, PM.read, getSelf, PM.get, run_pure, run_ite, modSelf, PM.modify,
    Bufs.empty_append, Bufs.append_empty, h1, h2, and_false, false_and, if_false]
  split_ifs <;> rfl

/-- Case `PLPROP_STATUS` on a live session told dead, outside a sparring zone. -/
theorem case_status_die (env : Env) (s : Locals) (pk : Bytes) (l : Nat)
    (hid : s.w.self.id ≠ -1)
    (halive : s.w.self.status &&& PLSTATUS_DEAD = 0)
    (hdead : (readGUChar pk).1 &&& PLSTATUS_DEAD ≠ 0)
    (hl : s.w.self.level = some l) (hspar : (s.w.levels l).sparringZone = false)
    (hg : 0 ≤ s.w.self.gralatc) :
    ∃ wd s1 o, dropItemsOnDeath env
          { s.w with self := { s.w.self with status := (readGUChar pk).1,
                                             deaths := s.w.self.deaths + 1 } } = some wd
      ∧ casePLPROP_STATUS env s pk = some (Flow.brk, s1, (readGUChar pk).2, o)
      ∧ s1.w.self = wd.self ∧ s1.w.randc = wd.randc
      ∧ s1.w.self = { s.w.self with status := (readGUChar pk).1, deaths := s.w.self.deaths + 1,
                                    gralatc := s1.w.self.gralatc, arrowc := s1.w.self.arrowc,
                                    bombc := s1.w.self.bombc }
      ∧ s1.w.playerList = s.w.playerList
      ∧ s1.doSignCheck = s.doSignCheck ∧ s1.doTouchTest = s.doTouchTest
      ∧ s1.sentInvalid = s.sentInvalid
      ∧ (∀ l1, l1 ≠ l → s1.w.levels l1 = s.w.levels l1)
      ∧ (s1.w.levels l).levelPlayerList
          = (if (s.w.levels l).getPlayer 0 = some s.w.self.ptr ∧ (s.w.levels l).getPlayer 1 ≠ none
              then (s.w.levels l).levelPlayerList.filter (fun q => q != s.w.self.ptr)
                ++ [s.w.self.ptr]
              else (s.w.levels l).levelPlayerList) := by
  have h3 : (readGUChar pk).1 &&& PLSTATUS_DEAD > 0 := Nat.pos_of_ne_zero hdead
  obtain ⟨wd, s1, o, hdrop, hD, h0, h00, h1, h2, h4, h5, h6, h7, h8⟩ := statusDeath_ok env
    { s with w := { s.w with self := { s.w.self with status := (readGUChar pk).1 } } }
    (readGUChar pk).2 l hl hspar hg
  apply Exists.intro wd
  apply Exists.intro s1
  apply Exists.intro
  refine ⟨hdrop, ?_, h0, h00, h1, h2, h4, h5, h6, h7, h8⟩
  unfold casePLPROP_STATUS
  apply bind_ok
  · exact rfl
  apply bind_ok
  · exact rfl
  apply bind_ok
  · exact rfl
  simp only [hid, if_false, halive, lt_irrefl, gt_iff_lt, false_and, h3, and_self, if_true]
  apply bind_ok
  · exact rfl
  exact bind_ok hD rfl

/-- C7 at the sample session: byte 20 on the coarse X property gives x = 10 and
x2 = 160. -/
theorem position_sync_witness :
    sampleWorld.self.level ≠ none ∧ 0 ≤ sampleWorld.self.sprite ∧ 20 ≤ 223
      ∧ ∃ w1, setProps sampleEnv sampleWorld (writeGChar PLPROP_X ++ writeGChar ((20 : Nat) : Int))
            true false none = some w1
          ∧ w1.self.x = 10 ∧ w1.self.x2 = 160 := by
  refine ⟨by decide, by decide, by decide, ?_⟩
  obtain ⟨⟨w1, h, hx, hx2, _⟩, _⟩ := position_sync sampleEnv sampleWorld (by decide) (by decide)
    true false none 20 (by decide) 32 37
  exact ⟨w1, h, by rw [hx]; norm_num, by rw [hx2]; norm_num⟩

/-! ## Status -/

/-- C4. Status idempotence: a live session with a real id, placed in level `l` that is
no sparring zone (gralat count not negative), is sent a status property whose decoded
byte has the dead bit set, twice in a row. The first write returns a world `w1` whose
session and random position are those of one run of the item drop on the session with
the new status and the death counter raised by one, and the level order is that of one
leader demotion; the second write returns `w1` with only the status byte replaced and
events appended: death counter, item counters, random position and every level, with its
player order, are those of `w1`. -/
theorem status_dead_twice (env : Env) (w : World) (l : Nat) (b1 b2 : Nat)
    (fwd fts : Bool) (rc : Option TPlayer)
    (hid : w.self.id ≠ -1) (halive : w.self.status &&& PLSTATUS_DEAD = 0)
    (hl : w.self.level = some l) (hspar : (w.levels l).sparringZone = false)
    (hg : 0 ≤ w.self.gralatc)
    (hd1 : (readGUChar [b1]).1 &&& PLSTATUS_DEAD ≠ 0)
    (hd2 : (readGUChar [b2]).1 &&& PLSTATUS_DEAD ≠ 0) :
    ∃ wd w1 es,
      dropItemsOnDeath env
          { w with self := { w.self with status := (readGUChar [b1]).1,
                                         deaths := w.self.deaths + 1 } } = some wd
      ∧ setProps env w (writeGChar PLPROP_STATUS ++ [b1]) fwd fts rc = some w1
      ∧ w1.self = wd.self ∧ w1.randc = wd.randc
      ∧ w1.self.deaths = w.self.deaths + 1
      ∧ (w1.levels l).levelPlayerList
          = (if (w.levels l).getPlayer 0 = some w.self.ptr ∧ (w.levels l).getPlayer 1 ≠ none
              then (w.levels l).levelPlayerList.filter (fun q => q != w.self.ptr) ++ [w.self.ptr]
              else (w.levels l).levelPlayerList)
      ∧ setProps env w1 (writeGChar PLPROP_STATUS ++ [b2]) fwd fts rc
          = some (({ w1 with self := { w1.self with status := (readGUChar [b2]).1 } }).emit es) := by
  obtain ⟨wd, s1, o, hdrop, hcase, h0, h00, h1, _, hf1, hf2, hf3, _, hord⟩ :=
    case_status_die env (Locals.start w) [b1] l hid halive hd1 hl hspar hg
  have hpk : ∀ b : Nat, (readGUChar [b]).2 = [] := fun b => by simp [readGUChar, readChar]
  rw [hpk] at hcase
  have hc : propCase env fts rc PLPROP_STATUS (Locals.start w) [b1]
      = casePLPROP_STATUS env (Locals.start w) [b1] := rfl
  obtain ⟨es1, he1⟩ := setProps_prop_quiet env w PLPROP_STATUS [b1] (by decide) fwd fts rc
    s1 o (hc.trans hcase) hf1 hf2 hf3
  have hold : (Locals.start (s1.w.emit es1)).w.self.status &&& PLSTATUS_DEAD ≠ 0 := by
    show s1.w.self.status &&& PLSTATUS_DEAD ≠ 0
    rw [h1]
    exact hd1
  have hsame := case_status_same env (Locals.start (s1.w.emit es1)) [b2] hold hd2
  rw [hpk] at hsame
  have hc2 : propCase env fts rc PLPROP_STATUS (Locals.start (s1.w.emit es1)) [b2]
      = casePLPROP_STATUS env (Locals.start (s1.w.emit es1)) [b2] := rfl
  obtain ⟨es2, he2⟩ := setProps_prop_quiet env (s1.w.emit es1) PLPROP_STATUS [b2] (by decide)
    fwd fts rc _ _ (hc2.trans hsame) rfl rfl rfl
  refine ⟨wd, s1.w.emit es1, es2, hdrop, he1, h0, h00, ?_, hord, he2⟩
  show s1.w.self.deaths = w.self.deaths + 1
  rw [h1]
  rfl

/-- C4 at the sample session, the level leader with company: status byte 8 twice. -/
theorem status_dead_twice_witness :
    ∃ w1 w2, setProps sampleEnv sampleWorld (writeGChar PLPROP_STATUS ++ [40]) true false none
        = some w1
      ∧ setProps sampleEnv w1 (writeGChar PLPROP_STATUS ++ [40]) true false none = some w2
      ∧ w1.self.deaths = 1 ∧ w2.self.deaths = 1
      ∧ (w1.levels 1).levelPlayerList = [8, 7]
      ∧ (w2.levels 1).levelPlayerList = [8, 7]
      ∧ w2.randc = w1.randc := by
  obtain ⟨wd, w1, es, _, h1, _, _, hdeaths, hord, h2⟩ := status_dead_twice sampleEnv sampleWorld 1
    40 40 true false none (by decide) (by decide) rfl rfl (by decide) (by decide) (by decide)
  refine ⟨w1, _, h1, h2, hdeaths, hdeaths, ?_, ?_, rfl⟩
  · rw [hord]; decide
  · show (w1.levels 1).levelPlayerList = [8, 7]
    rw [hord]; decide

/-! ## Warp to the level the session is in -/

theorem forwardProp_env (env : Env) (f : World → World) (g : Bytes → Int → World → Bool × World)
    (fwd fts : Bool) (id : Nat) :
    forwardProp { env with leaveLevel := f, setLevel := g } fwd fts id
      = forwardProp env fwd fts id := rfl

theorem sendBuffersOut_env (env : Env) (f : World → World)
    (g : Bytes → Int → World → Bool × World) (rc : Option TPlayer) (s : Locals) (o : Bufs) :
    sendBuffersOut { env with leaveLevel := f, setLevel := g } rc s o
      = sendBuffersOut env rc s o := rfl

theorem countInvalid_env (env : Env) (f : World → World)
    (g : Bytes → Int → World → Bool × World) (b : Bool) (w : World) :
    countInvalid { env with leaveLevel := f, setLevel := g } b w = countInvalid env b w := rfl

/-- An iteration whose case does not look at the level collaborators does not either. -/
theorem setPropsIter_env (env : Env) (f : World → World)
    (g : Bytes → Int → World → Bool × World) (fwd fts : Bool) (rc : Option TPlayer)
    (s : Locals) (pk : Bytes)
    (h : propCase { env with leaveLevel := f, setLevel := g } fts rc (readGUChar pk).1
      = propCase env fts rc (readGUChar pk).1) :
    setPropsIter { env with leaveLevel := f, setLevel := g } fwd fts rc s pk
      = setPropsIter env fwd fts rc s pk := by
  unfold setPropsIter
  rw [PM.bind_some _ _ _ _ _ _ _ _ (rfl : PM.read readGUChar s pk = some (_, s, _, Bufs.empty))]
  rw [PM.bind_some _ _ _ _ _ _ _ _ (rfl : PM.read readGUChar s pk = some (_, s, _, Bufs.empty))]
  rw [h]
  rfl

/-- A packet decoded in two iterations that both break. -/
theorem setProps_two (env : Env) (w : World) (pk pk1 : Bytes) (fwd fts : Bool)
    (rc : Option TPlayer) (s1 s2 : Locals) (o1 o2 : Bufs) (hlen : 2 ≤ pk.length)
    (hpk1 : pk1 ≠ [])
    (h1 : setPropsIter env fwd fts rc (Locals.start w) pk = some (Flow.brk, s1, pk1, o1))
    (h2 : setPropsIter env fwd fts rc s1 pk1 = some (Flow.brk, s2, [], o2)) :
    setProps env w pk fwd fts rc
      = (match sendBuffersOut env rc s2 ((Bufs.empty.append o1).append o2) with
        | none => none
        | some w1 => some (countInvalid env s2.sentInvalid w1)) := by
  obtain ⟨n, hn⟩ : ∃ n, pk.length = n + 1 + 1 := ⟨pk.length - 2, by omega⟩
  have hpk : pk ≠ [] := by
    intro h
    rw [h] at hlen
    simp at hlen
  unfold setProps
  rw [hn, setPropsLoop_next env fwd fts rc (n + 1) _ _ _ _ pk pk1 Flow.brk hpk (by simp) h1,
    setPropsLoop_next env fwd fts rc n _ _ _ _ pk1 [] Flow.brk hpk1 (by simp) h2,
    setPropsLoop_nil]

theorem iter_X (env : Env) (fwd fts : Bool) (rc : Option TPlayer) (s : Locals) (cx : Nat)
    (hcx : cx ≤ 223) (pk : Bytes) :
    ∃ o, setPropsIter env fwd fts rc s ((PLPROP_X + 32) :: (cx + 32) :: pk)
      = some (Flow.brk,
        { s with
          w := { s.w with self := { s.w.self with
            x := (cx : ℚ) / 2
            status := clearBits s.w.self.status PLSTATUS_PAUSED
            lastMovement := env.now
            grMovementUpdated := true
            x2 := ftoi ((cx : ℚ) / 2 * 16) } }
          doTouchTest := true }, pk, o) := by
  obtain ⟨o, h⟩ := case_X env s ((cx + 32) :: pk)
  rw [readGUChar_biased cx pk hcx] at h
  apply setPropsIter_brk env fwd fts rc s _ _ _ o
  rw [readGUChar_biased PLPROP_X _ (by decide)]
  exact h

theorem iter_Y (env : Env) (fwd fts : Bool) (rc : Option TPlayer) (s : Locals) (cy : Nat)
    (hcy : cy ≤ 223) (pk : Bytes) :
    ∃ o, setPropsIter env fwd fts rc s ((PLPROP_Y + 32) :: (cy + 32) :: pk)
      = some (Flow.brk,
        { s with
          w := { s.w with self := { s.w.self with
            y := (cy : ℚ) / 2
            status := clearBits s.w.self.status PLSTATUS_PAUSED
            lastMovement := env.now
            grMovementUpdated := true
            y2 := ftoi ((cy : ℚ) / 2 * 16) } }
          doTouchTest := true
          doSignCheck := true }, pk, o) := by
  obtain ⟨o, h⟩ := case_Y env s ((cy + 32) :: pk)
  rw [readGUChar_biased cy pk hcy] at h
  apply setPropsIter_brk env fwd fts rc s _ _ _ o
  rw [readGUChar_biased PLPROP_Y _ (by decide)]
  exact h


/-- The packet of the two coarse coordinates, decoded for a placed session: the call
returns the session moved, with events appended, whatever the level collaborators are. -/
theorem setProps_XY (env : Env) (w : World) (cx cy : Nat) (hcx : cx ≤ 223) (hcy : cy ≤ 223)
    (fwd fts : Bool) (rc : Option TPlayer) (hl : w.self.level ≠ none) (hs : 0 ≤ w.self.sprite) :
    (∃ es, setProps env w [PLPROP_X + 32, cx + 32, PLPROP_Y + 32, cy + 32] fwd fts rc
        = some ((afterXY env w cx cy).w.emit es))
    ∧ ∀ (f : World → World) (g : Bytes → Int → World → Bool × World),
        setProps { env with leaveLevel := f, setLevel := g } w
            [PLPROP_X + 32, cx + 32, PLPROP_Y + 32, cy + 32] fwd fts rc
          = setProps env w [PLPROP_X + 32, cx + 32, PLPROP_Y + 32, cy + 32] fwd fts rc := by
  obtain ⟨o1, h1⟩ := iter_X env fwd fts rc (Locals.start w) cx hcx [PLPROP_Y + 32, cy + 32]
  obtain ⟨o2, h2⟩ := iter_Y env fwd fts rc _ cy hcy []
  have hrun := setProps_two env w _ _ fwd fts rc _ _ o1 o2 (by simp) (by simp) h1 h2
  constructor
  · obtain ⟨es, he⟩ := sendBuffersOut_placed env rc (afterXY env w cx cy)
      ((Bufs.empty.append o1).append o2) hl hs
    refine ⟨es, ?_⟩
    rw [hrun]
    show (match sendBuffersOut env rc (afterXY env w cx cy) ((Bufs.empty.append o1).append o2) with
      | none => none
      | some w1 => some (countInvalid env false w1)) = _
    rw [he]
    simp only [countInvalid_false]
  · intro f g
    have h1e := (setPropsIter_env env f g fwd fts rc (Locals.start w)
      [PLPROP_X + 32, cx + 32, PLPROP_Y + 32, cy + 32]
      (by rw [readGUChar_biased PLPROP_X _ (by decide)]; rfl)).trans h1
    have h2e := (setPropsIter_env env f g fwd fts rc _ [PLPROP_Y + 32, cy + 32]
      (by rw [readGUChar_biased PLPROP_Y _ (by decide)]; rfl)).trans h2
    have hrun2 := setProps_two { env with leaveLevel := f, setLevel := g } w _ _ fwd fts rc _ _
      o1 o2 (by simp) (by simp) h1e h2e
    rw [hrun, hrun2]
    rfl

/-- C9. Warp same-level short-circuit: a session placed in level `L` (sprite not
negative) warps to a name that resolves to `L`. The call returns `true`; its world is that
of `setProps` on the packet of the two coarse coordinates `(char)(pX * 2)` and
`(char)(pY * 2)`, which is the session moved with events appended: level, map,
level-visit cache and every level are unchanged; and the result is the same whatever
`leaveLevel` and `setLevel` would do. -/
theorem warp_same_level (env : Env) (w : World) (pLevelName : Bytes) (pX pY : ℚ)
    (modTime : Int) (L : Nat) (hl : w.self.level = some L)
    (hf : env.findLevel pLevelName w = some L) (hs : 0 ≤ w.self.sprite) :
    (∃ w1 es, warp env w pLevelName pX pY modTime = some (true, w1)
      ∧ setProps env w (writeGChar PLPROP_X ++ writeGChar (ftoi (pX * 2))
          ++ writeGChar PLPROP_Y ++ writeGChar (ftoi (pY * 2))) true true none = some w1
      ∧ w1 = (afterXY env w (coordByte pX) (coordByte pY)).w.emit es
      ∧ w1.self.level = w.self.level ∧ w1.self.pmap = w.self.pmap
      ∧ w1.self.cachedLevels = w.self.cachedLevels ∧ w1.levels = w.levels
      ∧ w1.self.x = (coordByte pX : ℚ) / 2 ∧ w1.self.y = (coordByte pY : ℚ) / 2)
    ∧ ∀ (f : World → World) (g : Bytes → Int → World → Bool × World),
        warp { env with leaveLevel := f, setLevel := g } w pLevelName pX pY modTime
          = warp env w pLevelName pX pY modTime := by
  have hne : w.self.level ≠ none := by rw [hl]; simp
  have hcx : coordByte pX ≤ 223 := Nat.min_le_right _ _
  have hcy : coordByte pY ≤ 223 := Nat.min_le_right _ _
  obtain ⟨⟨es, he⟩, henv⟩ := setProps_XY env w (coordByte pX) (coordByte pY) hcx hcy true true
    none hne hs
  have hpkt : writeGChar PLPROP_X ++ writeGChar (ftoi (pX * 2)) ++ writeGChar PLPROP_Y
      ++ writeGChar (ftoi (pY * 2))
      = [PLPROP_X + 32, coordByte pX + 32, PLPROP_Y + 32, coordByte pY + 32] := rfl
  have hc : w.self.level ≠ none ∧ env.findLevel pLevelName w = w.self.level := ⟨hne, by rw [hf, hl]⟩
  constructor
  · refine ⟨_, es, ?_, by rw [hpkt]; exact he, rfl, rfl, rfl, rfl, rfl, rfl, rfl⟩
    unfold warp
    simp only [hc, and_self, if_true, ne_eq, not_false_eq_true]
    rw [hpkt, he]
  · intro f g
    have hc2 : w.self.level ≠ none
        ∧ ({ env with leaveLevel := f, setLevel := g } : Env).findLevel pLevelName w
          = w.self.level := hc
    unfold warp
    simp only [hc, hc2, and_self, if_true, ne_eq, not_false_eq_true]
    rw [hpkt, henv f g]

/-- C9 at the sample session, warped to (5, 5) of its own level: bytes 10 and 10. -/
theorem warp_same_level_witness :
    writeGChar PLPROP_X ++ writeGChar (ftoi ((5 : ℚ) * 2)) ++ writeGChar PLPROP_Y
        ++ writeGChar (ftoi ((5 : ℚ) * 2)) = [47, 42, 48, 42]
      ∧ ∃ w1, warp sampleEnv sampleWorld (str "a.nw") 5 5 0 = some (true, w1)
          ∧ w1.self.x = 5 ∧ w1.self.y = 5 ∧ w1.self.level = some 1 := by
  have hb : coordByte 5 = 10 := by
    unfold coordByte
    have : ftoi ((5 : ℚ) * 2) = 10 := by
      have h10 : (5 : ℚ) * 2 = ((10 : Int) : ℚ) := by norm_num
      rw [h10, ftoi_intCast]
    rw [this]
    decide
  have hpk : writeGChar PLPROP_X ++ writeGChar (ftoi ((5 : ℚ) * 2)) ++ writeGChar PLPROP_Y
      ++ writeGChar (ftoi ((5 : ℚ) * 2)) = [47, 42, 48, 42] := by
    show [PLPROP_X + 32, coordByte 5 + 32, PLPROP_Y + 32, coordByte 5 + 32] = _
    rw [hb]
  obtain ⟨⟨w1, es, h, _, _, hlv, _, _, _, hx, hy⟩, _⟩ := warp_same_level sampleEnv sampleWorld
    (str "a.nw") 5 5 0 1 rfl rfl (by decide)
  refine ⟨hpk, w1, h, ?_, ?_, hlv⟩
  · rw [hx, hb]; norm_num
  · rw [hy, hb]; norm_num

/-! ## Grid-map adjacency in the level routers -/

theorem sendPacket_mem (p : Nat) (pk : Bytes) (nl : Bool) (e : Event)
    (h : e ∈ sendPacket p pk nl) : ∃ q, e = Event.queued p q := by
  unfold sendPacket at h
  split_ifs at h
  · simp at h
  · exact ⟨_, List.mem_singleton.mp h⟩
  · exact ⟨_, List.mem_singleton.mp h⟩

theorem sendPacket_some (p : Nat) (pk : Bytes) (nl : Bool) (h : pk ≠ []) :
    ∃ q, Event.queued p q ∈ sendPacket p pk nl := by
  have he : pk.isEmpty = false := by
    cases pk with
    | nil => exact absurd rfl h
    | cons a t => rfl
  unfold sendPacket
  simp only [he, Bool.false_eq_true, if_false]
  split_ifs
  · exact ⟨_, List.mem_singleton.mpr rfl⟩
  · exact ⟨_, List.mem_singleton.mpr rfl⟩

/-- A grid coordinate that fits one wire byte is reported as stored. -/
theorem gmapCoord_x (env : Env) (levels : Nat → TLevel) (p : TPlayer)
    (h0 : 0 ≤ p.gmaplevelx) (h1 : p.gmaplevelx ≤ 223) :
    gmapCoord env levels p PLPROP_GMAPLEVELX = p.gmaplevelx := by
  obtain ⟨n, hn⟩ := Int.eq_ofNat_of_zero_le h0
  show ((readGUChar (writeGChar p.gmaplevelx)).1 : Int) = p.gmaplevelx
  rw [hn, readGUChar_writeGChar n (by omega)]

theorem gmapCoord_y (env : Env) (levels : Nat → TLevel) (p : TPlayer)
    (h0 : 0 ≤ p.gmaplevely) (h1 : p.gmaplevely ≤ 223) :
    gmapCoord env levels p PLPROP_GMAPLEVELY = p.gmaplevely := by
  obtain ⟨n, hn⟩ := Int.eq_ofNat_of_zero_le h0
  show ((readGUChar (writeGChar p.gmaplevely)).1 : Int) = p.gmaplevely
  rw [hn, readGUChar_writeGChar n (by omega)]

theorem gmapAdjacent_iff (o s : Int × Int) :
    gmapAdjacent o s = true ↔ |o.1 - s.1| < 2 ∧ |o.2 - s.2| < 2 := by
  unfold gmapAdjacent
  simp only [Bool.and_eq_true, decide_eq_true_eq]
  rw [Int.abs_eq_natAbs, Int.abs_eq_natAbs]
  constructor
  · rintro ⟨h1, h2⟩
    exact ⟨by exact_mod_cast h1, by exact_mod_cast h2⟩
  · rintro ⟨h1, h2⟩
    exact ⟨by exact_mod_cast h1, by exact_mod_cast h2⟩


/-- In a router that queues to each session only its own packets, what a session with a
unique identity receives is decided by its own round of the loop. -/
theorem flatMap_queued (l : List TPlayer) (F : TPlayer → List Event) (other : TPlayer)
    (hmem : other ∈ l) (hident : ∀ q ∈ l, q.ptr = other.ptr → q = other)
    (hF : ∀ q ∈ l, ∀ e ∈ F q, ∃ pkt, e = Event.queued q.ptr pkt) :
    (∃ pkt, Event.queued other.ptr pkt ∈ l.flatMap F)
      ↔ (∃ pkt, Event.queued other.ptr pkt ∈ F other) := by
  constructor
  · rintro ⟨pkt, h⟩
    obtain ⟨q, hq, he⟩ := List.mem_flatMap.mp h
    obtain ⟨pkt1, heq⟩ := hF q hq _ he
    have hp : q.ptr = other.ptr := by
      injection heq with h1 h2
      exact h1.symm
    rw [hident q hq hp] at he
    exact ⟨pkt, he⟩
  · rintro ⟨pkt, h⟩
    exact ⟨pkt, List.mem_flatMap.mpr ⟨other, hmem, h⟩⟩

theorem adjacent_queued (p : Nat) (pk : Bytes) (hpk : pk ≠ []) (o s : Int × Int) :
    (∃ pkt, Event.queued p pkt ∈ (if gmapAdjacent o s = true then sendPacket p pk true else []))
      ↔ |o.1 - s.1| < 2 ∧ |o.2 - s.2| < 2 := by
  rw [← gmapAdjacent_iff]
  by_cases h : gmapAdjacent o s = true
  · rw [if_pos h]
    exact ⟨fun _ => h, fun _ => sendPacket_some p pk true hpk⟩
  · rw [if_neg h]
    constructor
    · rintro ⟨pkt, hm⟩
      exact absurd hm (List.not_mem_nil _)
    · intro h1
      exact absurd h1 h

/-- The grid coordinate the routers read is the wire value of the stored coordinate. -/
theorem gmapCoord_wire_x (env : Env) (levels : Nat → TLevel) (p : TPlayer) :
    gmapCoord env levels p PLPROP_GMAPLEVELX = wireCoord p.gmaplevelx := by
  show ((readGUChar (writeGChar p.gmaplevelx)).1 : Int) = wireCoord p.gmaplevelx
  unfold writeGChar wireCoord
  rw [readGUChar_cons]
  show (((((min (toU8 p.gmaplevelx) 223 + 32) % 256 + 224) % 256 : Nat)) : Int) = _
  congr 1
  omega

theorem gmapCoord_wire_y (env : Env) (levels : Nat → TLevel) (p : TPlayer) :
    gmapCoord env levels p PLPROP_GMAPLEVELY = wireCoord p.gmaplevely := by
  show ((readGUChar (writeGChar p.gmaplevely)).1 : Int) = wireCoord p.gmaplevely
  unfold writeGChar wireCoord
  rw [readGUChar_cons]
  show (((((min (toU8 p.gmaplevely) 223 + 32) % 256 + 224) % 256 : Nat)) : Int) = _
  congr 1
  omega

theorem wireCoord_small (c : Int) (h0 : 0 ≤ c) (h1 : c ≤ 223) : wireCoord c = c := by
  unfold wireCoord toU8
  omega

theorem wireCoord_capped (c : Int) (h0 : 223 ≤ c) (h1 : c ≤ 255) : wireCoord c = 223 := by
  unfold wireCoord toU8
  omega

/-- C10 (as stated, evaluated). On the seamless sample grid-map the origin stands at the
stored grid position (223, 3) and another client of the same map and level group at the
stored position (250, 3): the player overload queues the packet to that client, although
the stored x coordinates are 27 apart. -/
theorem gmap_adjacency_saturates :
    (sampleEnv.maps 0).type = MAPTYPE_GMAP
    ∧ sampleBeyond.isClient = true ∧ sampleBeyond.pmap = some 0
    ∧ sampleBeyond.level = sampleEdge.level
    ∧ sampleBeyond.gmaplevelx = 250 ∧ sampleEdge.gmaplevelx = 223
    ∧ ¬ (|sampleBeyond.gmaplevelx - sampleEdge.gmaplevelx| < 2)
    ∧ sendPacketToLevelOf sampleEnv (fun _ => sampleLevel) [sampleEdge, sampleBeyond] [65]
        (some 0) sampleEdge false false = some [Event.queued sampleBeyond.ptr [65, 10]] := by
  refine ⟨rfl, rfl, rfl, rfl, rfl, rfl, ?_, rfl⟩
  show ¬ (|(250 : Int) - 223| < 2)
  norm_num

/-- C10 (amended). Grid-map adjacency: on a seamless grid-map `m`, with a non-empty
packet, let `other` be a client session of the player list with a unique identity, not
the origin, with a level, on map `m`, and of the origin's group when the origin's map is
group-instanced. Then both level routers return, and `other` is queued a packet if and
only if both coordinate deltas to the origin are below 2 in absolute value, where the
grid coordinate of a session is the one its one-byte property encoding reports
(`wireCoord`: the stored coordinate when it lies in 0..223, and 223 when it lies in
223..255): for the player overload the origin is the sending session with its reported
coordinates, for the level overload it is the position of the level `lvl` within the
map. -/
theorem gmap_adjacency (env : Env) (levels : Nat → TLevel) (playerList : List TPlayer)
    (pPacket : Bytes) (m : Nat) (origin other : TPlayer) (level om lvl : Nat)
    (sendToSelf onlyGmap : Bool)
    (hpk : pPacket ≠ [])
    (hgmap : (env.maps m).type = MAPTYPE_GMAP)
    (hlevel : origin.level = some level) (hsingle : (levels level).singleplayer = false)
    (hom : origin.pmap = some om)
    (hmem : other ∈ playerList) (hident : ∀ q ∈ playerList, q.ptr = other.ptr → q = other)
    (hclient : other.isClient = true) (hne : other.ptr ≠ origin.ptr)
    (holevel : other.level ≠ none) (homap : other.pmap = some m)
    (hgroup : (env.maps om).groupMap = true → origin.levelGroup = other.levelGroup) :
    (∃ evs, sendPacketToLevelOf env levels playerList pPacket (some m) origin sendToSelf onlyGmap
        = some evs
      ∧ ((∃ pkt, Event.queued other.ptr pkt ∈ evs)
        ↔ |wireCoord other.gmaplevelx - wireCoord origin.gmaplevelx| < 2
          ∧ |wireCoord other.gmaplevely - wireCoord origin.gmaplevely| < 2))
    ∧ (∃ evs, sendPacketToLevel env levels playerList pPacket (some m) (some lvl) (some origin)
          onlyGmap = some evs
      ∧ ((∃ pkt, Event.queued other.ptr pkt ∈ evs)
        ↔ |wireCoord other.gmaplevelx - (env.maps m).getLevelX (levels lvl).actualLevelName| < 2
          ∧ |wireCoord other.gmaplevely
              - (env.maps m).getLevelY (levels lvl).actualLevelName| < 2))
    ∧ (∀ c : Int, 0 ≤ c → c ≤ 223 → wireCoord c = c)
    ∧ (∀ c : Int, 223 ≤ c → c ≤ 255 → wireCoord c = 223) := by
  have hbig : (onlyGmap && (env.maps m).type == MAPTYPE_BIGMAP) = false := by
    rw [hgmap]
    cases onlyGmap <;> rfl
  have hcx := gmapCoord_wire_x env levels other
  have hcy := gmapCoord_wire_y env levels other
  have hsx1 := gmapCoord_wire_x env levels origin
  have hsy1 := gmapCoord_wire_y env levels origin
  have hng : ¬ ((env.maps om).groupMap = true ∧ origin.levelGroup ≠ other.levelGroup) :=
    fun h => h.2 (hgroup h.1)
  refine ⟨?_, ?_, wireCoord_small, wireCoord_capped⟩
  · unfold sendPacketToLevelOf
    simp only [hlevel, hbig, hsingle, Bool.or_false, Bool.false_eq_true, if_false, hom]
    refine ⟨_, rfl, ?_⟩
    rw [flatMap_queued playerList _ other hmem hident]
    · simp only [hclient, Bool.true_eq_false, if_false, hne, holevel, hng, homap, if_true, hgmap,
        hcx, hcy, hsx1, hsy1]
      exact adjacent_queued other.ptr pPacket hpk _ _
    · intro q _ e he
      simp only [] at he
      split_ifs at he with h1 h2 h3
      all_goals first
        | exact absurd he (List.not_mem_nil e)
        | exact sendPacket_mem _ _ _ e he
        | (rw [← h2] at he; exact sendPacket_mem _ _ _ e he)
  · unfold sendPacketToLevel
    simp only [hbig, Bool.false_eq_true, if_false, hom]
    refine ⟨_, rfl, ?_⟩
    rw [flatMap_queued playerList _ other hmem hident]
    · have hne2 : (other.ptr == origin.ptr) = false := by
        simp only [beq_eq_false_iff_ne, ne_eq]
        exact hne
      have hg2 : ((env.maps om).groupMap && (origin.levelGroup != other.levelGroup)) = false := by
        cases hgm : (env.maps om).groupMap
        · rfl
        · simp [hgroup hgm]
      simp only [hclient, Bool.true_eq_false, hne2, Bool.false_eq_true, holevel, or_self,
        if_false, hg2, homap, if_true, hgmap, hcx, hcy]
      exact adjacent_queued other.ptr pPacket hpk _ _
    · intro q _ e he
      simp only [] at he
      split_ifs at he
      all_goals first
        | exact absurd he (List.not_mem_nil e)
        | exact sendPacket_mem _ _ _ e he


/-- C10 at the sample sessions: from grid position (3, 3) the session at (4, 4) is
queued the packet and the session at (5, 5) is not. -/
theorem gmap_adjacency_witness :
    ∃ evs, sendPacketToLevelOf sampleEnv (fun _ => sampleLevel)
          [sampleOrigin, sampleNear, sampleFar] [65] (some 0) sampleOrigin false false = some evs
      ∧ (∃ pkt, Event.queued sampleNear.ptr pkt ∈ evs)
      ∧ ¬ (∃ pkt, Event.queued sampleFar.ptr pkt ∈ evs) := by
  have hid : ∀ (o : TPlayer), (o = sampleNear ∨ o = sampleFar) →
      ∀ q ∈ [sampleOrigin, sampleNear, sampleFar], q.ptr = o.ptr → q = o := by
    intro o ho q hq hp
    simp only [List.mem_cons, List.mem_singleton, List.not_mem_nil, or_false] at hq
    rcases ho with rfl | rfl <;> rcases hq with rfl | rfl | rfl <;>
      first | rfl | exact absurd hp (by decide)
  obtain ⟨⟨evs, h, hnear⟩, _⟩ := gmap_adjacency sampleEnv (fun _ => sampleLevel)
    [sampleOrigin, sampleNear, sampleFar] [65] 0 sampleOrigin sampleNear 1 0 1 false false
    (by simp) rfl rfl rfl rfl (by simp) (hid _ (Or.inl rfl)) (by decide) (by decide) (by decide)
    rfl (fun _ => rfl)
  obtain ⟨⟨evs2, h2, hfar⟩, _⟩ := gmap_adjacency sampleEnv (fun _ => sampleLevel)
    [sampleOrigin, sampleNear, sampleFar] [65] 0 sampleOrigin sampleFar 1 0 1 false false
    (by simp) rfl rfl rfl rfl (by simp) (hid _ (Or.inr rfl)) (by decide) (by decide) (by decide)
    rfl (fun _ => rfl)
  have he : evs2 = evs := Option.some.inj (h2.symm.trans h)
  rw [he] at hfar
  refine ⟨evs, h, hnear.mpr ?_, fun hq => ?_⟩
  · constructor <;> (show |(4 : Int) - 3| < 2; norm_num)
  · have hc := (hfar.mp hq).1
    have : ¬ |(5 : Int) - 3| < 2 := by norm_num
    exact this hc

theorem rlocal_readChar : RLocal readChar := by
  intro pk h
  cases pk with
  | nil => exact absurd rfl h
  | cons b t => exact ⟨[b], rfl, fun sfx => rfl⟩

theorem rlocal_readChars (n : Nat) : RLocal (readChars n) := by
  intro pk h
  have hlt : n < pk.length := by
    by_contra hc
    exact h (List.drop_eq_nil_of_le (by omega))
  refine ⟨pk.take n, (List.take_append_drop n pk).symm, fun sfx => ?_⟩
  have hl : (pk.take n).length = n := by rw [List.length_take]; omega
  show ((pk.take n ++ sfx).take n, (pk.take n ++ sfx).drop n) = (pk.take n, sfx)
  rw [List.take_left' hl, List.drop_left' hl]

theorem rlocal_readGUChar : RLocal readGUChar := by
  intro pk h
  cases pk with
  | nil => exact absurd rfl h
  | cons b t => exact ⟨[b], rfl, fun sfx => rfl⟩

theorem rlocal_readGUShort : RLocal readGUShort := by
  intro pk h
  rcases pk with _ | ⟨a, _ | ⟨b, t⟩⟩
  · exact absurd rfl h
  · exact absurd rfl h
  · exact ⟨[a, b], rfl, fun sfx => rfl⟩

theorem rlocal_readGInt : RLocal readGInt := by
  intro pk h
  rcases pk with _ | ⟨a, _ | ⟨b, _ | ⟨c, t⟩⟩⟩
  · exact absurd rfl h
  · exact absurd rfl h
  · exact absurd rfl h
  · exact ⟨[a, b, c], rfl, fun sfx => rfl⟩

theorem rlocal_readGUInt : RLocal readGUInt := by
  intro pk h
  rcases pk with _ | ⟨a, _ | ⟨b, _ | ⟨c, t⟩⟩⟩
  · exact absurd rfl h
  · exact absurd rfl h
  · exact absurd rfl h
  · exact ⟨[a, b, c], rfl, fun sfx => rfl⟩

theorem rlocal_readGInt4 : RLocal readGInt4 := by
  intro pk h
  rcases pk with _ | ⟨a, _ | ⟨b, _ | ⟨c, _ | ⟨d, t⟩⟩⟩⟩
  · exact absurd rfl h
  · exact absurd rfl h
  · exact absurd rfl h
  · exact absurd rfl h
  · exact ⟨[a, b, c, d], rfl, fun sfx => rfl⟩

theorem rlocal_readGInt5 : RLocal readGInt5 := by
  intro pk h
  rcases pk with _ | ⟨a, _ | ⟨b, _ | ⟨c, _ | ⟨d, _ | ⟨e, t⟩⟩⟩⟩⟩
  · exact absurd rfl h
  · exact absurd rfl h
  · exact absurd rfl h
  · exact absurd rfl h
  · exact absurd rfl h
  · exact ⟨[a, b, c, d, e], rfl, fun sfx => rfl⟩

/-! ### Steps -/

theorem local_of_still {α : Type} (m : PM α) (h : Still m) : Local m := by
  intro s pk a s1 rem o hrun _
  rw [h s pk] at hrun
  cases hm : m s [] with
  | none => rw [hm] at hrun; exact absurd hrun (by simp)
  | some r =>
    obtain ⟨a0, s0, p0, o0⟩ := r
    rw [hm] at hrun
    simp only [Option.some.injEq, Prod.mk.injEq] at hrun
    obtain ⟨rfl, rfl, rfl, rfl⟩ := hrun
    refine ⟨[], rfl, fun sfx => ?_⟩
    rw [h s ([] ++ sfx), hm]
    rfl

theorem local_read {α : Type} (r : Bytes → α × Bytes) (h : RLocal r) : Local (PM.read r) := by
  intro s pk a s1 rem o hrun hne
  have hrun1 : some ((r pk).1, s, (r pk).2, Bufs.empty) = some (a, s1, rem, o) := hrun
  simp only [Option.some.injEq, Prod.mk.injEq] at hrun1
  obtain ⟨rfl, rfl, rfl, rfl⟩ := hrun1
  obtain ⟨u, e, k⟩ := h pk hne
  refine ⟨u, e, fun sfx => ?_⟩
  show some ((r (u ++ sfx)).1, s, (r (u ++ sfx)).2, Bufs.empty) = _
  rw [k sfx]

theorem local_bind {α β : Type} (m : PM α) (f : α → PM β) (h1 : Local m)
    (h2 : ∀ a, Local (f a)) : Local (m >>= f) := by
  intro s pk b s2 rem o hrun hne
  rw [run_bind] at hrun
  cases hm : m s pk with
  | none => rw [hm] at hrun; exact absurd hrun (by simp)
  | some r =>
    obtain ⟨a, s1, pk1, o1⟩ := r
    rw [hm] at hrun
    simp only [] at hrun
    cases hf : f a s1 pk1 with
    | none => rw [hf] at hrun; exact absurd hrun (by simp)
    | some r2 =>
      obtain ⟨b0, s20, pk2, o2⟩ := r2
      rw [hf] at hrun
      simp only [Option.some.injEq, Prod.mk.injEq] at hrun
      obtain ⟨rfl, rfl, rfl, rfl⟩ := hrun
      obtain ⟨u2, e2, k2⟩ := h2 a s1 pk1 _ _ _ _ hf hne
      have hne1 : pk1 ≠ [] := by
        intro hc
        rw [hc] at e2
        have hl := congrArg List.length e2
        simp only [List.length_nil, List.length_append] at hl
        exact hne (List.length_eq_zero.mp (by omega))
      obtain ⟨u1, e1, k1⟩ := h1 s pk _ _ _ _ hm hne1
      refine ⟨u1 ++ u2, by rw [List.append_assoc, ← e2, ← e1], fun sfx => ?_⟩
      rw [run_bind, List.append_assoc, k1 (u2 ++ sfx)]
      simp only []
      rw [k2 sfx]

theorem still_pure {α : Type} (a : α) : Still (pure a : PM α) := fun _ _ => rfl

theorem local_pure {α : Type} (a : α) : Local (pure a : PM α) := local_of_still _ (still_pure a)

theorem local_ite {α : Type} (c : Prop) [Decidable c] (m1 m2 : PM α) (h1 : Local m1)
    (h2 : Local m2) : Local (if c then m1 else m2) := by
  split
  · exact h1
  · exact h2

theorem local_get : Local PM.get := local_of_still _ (fun _ _ => rfl)

theorem local_modify (f : Locals → Locals) : Local (PM.modify f) :=
  local_of_still _ (fun _ _ => rfl)

theorem local_write (o : Bufs) : Local (PM.write o) := local_of_still _ (fun _ _ => rfl)

theorem local_fault {α : Type} : Local (PM.fault : PM α) := local_of_still _ (fun _ _ => rfl)

theorem local_getSelf : Local getSelf := local_of_still _ (fun _ _ => rfl)

theorem local_getWorld : Local getWorld := local_of_still _ (fun _ _ => rfl)

theorem local_modWorld (f : World → World) : Local (modWorld f) :=
  local_of_still _ (fun _ _ => rfl)

theorem local_modSelf (f : TPlayer → TPlayer) : Local (modSelf f) :=
  local_of_still _ (fun _ _ => rfl)

theorem local_emit (es : List Event) : Local (emit es) := local_of_still _ (fun _ _ => rfl)

theorem local_liftW (f : World → Option World) : Local (liftW f) := by
  apply local_of_still
  intro s pk
  unfold liftW
  cases f s.w <;> rfl

theorem local_derefLevel : Local derefLevel := by
  apply local_of_still
  intro s pk
  unfold derefLevel
  simp only [run_bind, getWorld, PM.get, run_pure, Bufs.empty_append]
  cases s.w.self.level <;> rfl

theorem local_propBytes (env : Env) (id : Nat) : Local (propBytes env id) :=
  local_of_still _ (fun _ _ => rfl)

theorem local_toGlobalBuff (env : Env) (id : Nat) : Local (toGlobalBuff env id) :=
  local_of_still _ (fun _ _ => rfl)

theorem local_toLevelBuff (env : Env) (id : Nat) : Local (toLevelBuff env id) :=
  local_of_still _ (fun _ _ => rfl)

theorem local_toLevelBuff2 (env : Env) (id : Nat) : Local (toLevelBuff2 env id) :=
  local_of_still _ (fun _ _ => rfl)

theorem local_toSelfBuff (env : Env) (id : Nat) : Local (toSelfBuff env id) :=
  local_of_still _ (fun _ _ => rfl)

set_option maxHeartbeats 4000000 in
/-- Every case of the decode switch but the shield case is local. -/
theorem local_propCase (env : Env) (fts : Bool) (rc : Option TPlayer) (id : Nat)
    (h : id ≠ 9) : Local (propCase env fts rc id) := by
  unfold propCase
  split <;>
  first
  | exact absurd rfl h
  | (with_reducible repeat' first
    | apply local_pure
    | apply local_read _ rlocal_readGUChar
    | apply local_read _ rlocal_readGUShort
    | apply local_read _ rlocal_readGInt
    | apply local_read _ rlocal_readGUInt
    | apply local_read _ rlocal_readGInt4
    | apply local_read _ rlocal_readGInt5
    | apply local_read _ (rlocal_readChars _)
    | apply local_get
    | apply local_modify
    | apply local_write
    | apply local_fault
    | apply local_getSelf
    | apply local_getWorld
    | apply local_modWorld
    | apply local_modSelf
    | apply local_emit
    | apply local_liftW
    | apply local_derefLevel
    | apply local_propBytes
    | apply local_toGlobalBuff
    | apply local_toLevelBuff
    | apply local_toLevelBuff2
    | apply local_toSelfBuff
    | apply local_bind
    | intro _
    | simp only []
    | split
    | unfold casePLPROP_NICKNAME
    | unfold casePLPROP_MAXPOWER
    | unfold casePLPROP_CURPOWER
    | unfold casePLPROP_RUPEESCOUNT
    | unfold casePLPROP_ARROWSCOUNT
    | unfold casePLPROP_BOMBSCOUNT
    | unfold casePLPROP_GLOVEPOWER
    | unfold casePLPROP_BOMBPOWER
    | unfold readCustomImage
    | unfold shieldCustom
    | unfold casePLPROP_SWORDPOWER
    | unfold casePLPROP_GANI
    | unfold casePLPROP_HEADGIF
    | unfold casePLPROP_CURCHAT
    | unfold casePLPROP_COLORS
    | unfold casePLPROP_ID
    | unfold casePLPROP_X
    | unfold casePLPROP_Y
    | unfold casePLPROP_Z
    | unfold casePLPROP_SPRITE
    | unfold statusRespawn
    | unfold demoteLeader
    | unfold statusDeath
    | unfold casePLPROP_STATUS
    | unfold casePLPROP_CARRYSPRITE
    | unfold casePLPROP_CURLEVEL
    | unfold casePLPROP_HORSEGIF
    | unfold casePLPROP_HORSEBUSHES
    | unfold casePLPROP_EFFECTCOLORS
    | unfold casePLPROP_CARRYNPC
    | unfold casePLPROP_APCOUNTER
    | unfold casePLPROP_MAGICPOINTS
    | unfold caseSkipGInt
    | unfold casePLPROP_IPADDR
    | unfold casePLPROP_UDPPORT
    | unfold casePLPROP_ALIGNMENT
    | unfold casePLPROP_ADDITFLAGS
    | unfold caseSkipText
    | unfold casePLPROP_BODYIMG
    | unfold casePLPROP_ATTACHNPC
    | unfold gmapLevelChanged
    | unfold casePLPROP_GMAPLEVELX
    | unfold casePLPROP_GMAPLEVELY
    | unfold casePLPROP_PLANGUAGE
    | unfold casePLPROP_PSTATUSMSG
    | unfold casePLPROP_GATTRIB
    | unfold casePLPROP_OSTYPE
    | unfold casePLPROP_TEXTCODEPAGE
    | unfold casePLPROP_X2
    | unfold casePLPROP_Y2
    | unfold casePLPROP_Z2
    | unfold caseDefault)

/-! ### The shield case -/

theorem caseLocal_of_local (m : PM Flow) (h : Local m) : CaseLocal m := by
  intro s pk f s1 rem o hrun hne
  obtain ⟨u, e, k⟩ := h s pk f s1 rem o hrun hne
  exact ⟨u, e, fun sfx => ⟨f, o, k sfx, Iff.rfl⟩⟩

theorem caseLocal_bind {α : Type} (m : PM α) (f : α → PM Flow) (h1 : Local m)
    (h2 : ∀ a, CaseLocal (f a)) : CaseLocal (m >>= f) := by
  intro s pk b s2 rem o hrun hne
  rw [run_bind] at hrun
  cases hm : m s pk with
  | none => rw [hm] at hrun; exact absurd hrun (by simp)
  | some r =>
    obtain ⟨a, s1, pk1, o1⟩ := r
    rw [hm] at hrun
    simp only [] at hrun
    cases hf : f a s1 pk1 with
    | none => rw [hf] at hrun; exact absurd hrun (by simp)
    | some r2 =>
      obtain ⟨b0, s20, pk2, o2⟩ := r2
      rw [hf] at hrun
      simp only [Option.some.injEq, Prod.mk.injEq] at hrun
      obtain ⟨rfl, rfl, rfl, rfl⟩ := hrun
      obtain ⟨u2, e2, k2⟩ := h2 a s1 pk1 _ _ _ _ hf hne
      have hne1 : pk1 ≠ [] := by
        intro hc
        rw [hc] at e2
        have hl := congrArg List.length e2
        simp only [List.length_nil, List.length_append] at hl
        exact hne (List.length_eq_zero.mp (by omega))
      obtain ⟨u1, e1, k1⟩ := h1 s pk _ _ _ _ hm hne1
      refine ⟨u1 ++ u2, by rw [List.append_assoc, ← e2, ← e1], fun sfx => ?_⟩
      obtain ⟨f1, o3, k3, hiff⟩ := k2 sfx
      refine ⟨f1, o1.append o3, ?_, hiff⟩
      rw [run_bind, List.append_assoc, k1 (u2 ++ sfx)]
      simp only []
      rw [k3]

/-- The test `if (pPacket.bytesLeft() == 0) continue;` in front of a local step that
leaves the locals alone whenever it consumes nothing. -/
theorem caseLocal_guard (B : PM Flow) (hB : Local B)
    (hB2 : ∀ s pk f s1 o, B s pk = some (f, s1, pk, o) → pk ≠ [] → s1 = s ∧ f ≠ Flow.ret) :
    CaseLocal (PM.bytesLeft >>= fun left => if left = 0 then pure Flow.cont else B) := by
  intro s pk f s1 rem o hrun hne
  simp only [run_bind, PM.bytesLeft] at hrun
  by_cases hpk : pk.length = 0
  · rw [if_pos hpk] at hrun
    have hr : some (Flow.cont, s, pk, Bufs.empty.append Bufs.empty) = some (f, s1, rem, o) := hrun
    simp only [Option.some.injEq, Prod.mk.injEq] at hr
    exact absurd (List.length_eq_zero.mp (hr.2.2.1 ▸ hpk)) hne
  · rw [if_neg hpk] at hrun
    cases hb : B s pk with
    | none => rw [hb] at hrun; exact absurd hrun (by simp)
    | some r =>
      obtain ⟨f0, s0, rem0, o0⟩ := r
      rw [hb] at hrun
      simp only [Option.some.injEq, Prod.mk.injEq] at hrun
      obtain ⟨rfl, rfl, rfl, rfl⟩ := hrun
      obtain ⟨u, e, k⟩ := hB s pk _ _ _ _ hb hne
      refine ⟨u, e, fun sfx => ?_⟩
      simp only [run_bind, PM.bytesLeft]
      by_cases hq : (u ++ sfx).length = 0
      · have hnil : u ++ sfx = [] := List.length_eq_zero.mp hq
        have hu : u = [] := (List.append_eq_nil.mp hnil).1
        have hs : sfx = [] := (List.append_eq_nil.mp hnil).2
        subst hu hs
        have hpk2 : pk = rem0 := by simpa using e
        subst hpk2
        obtain ⟨h1, h2⟩ := hB2 s pk f0 s0 o0 hb hne
        subst h1
        refine ⟨Flow.cont, Bufs.empty.append Bufs.empty, ?_, ?_⟩
        · rw [if_pos hq]; rfl
        · constructor
          · intro hc; exact absurd hc (by simp)
          · intro hc; exact absurd hc h2
      · rw [if_neg hq, k sfx]
        exact ⟨f0, _, rfl, Iff.rfl⟩

theorem local_shieldCustom (env : Env) (sp vid : Nat) : Local (shieldCustom env sp vid) := by
  unfold shieldCustom readCustomImage
  with_reducible repeat' first
    | apply local_pure
    | apply local_read _ rlocal_readGUChar
    | apply local_read _ (rlocal_readChars _)
    | apply local_modWorld
    | apply local_modSelf
    | apply local_bind
    | intro _
    | simp only []
    | split

/-- The custom-image branch consumes at least the length byte. -/
theorem shieldCustom_eats (env : Env) (sp vid : Nat) (s s1 : Locals) (pk rem : Bytes)
    (f : Flow) (o : Bufs) (h : shieldCustom env sp vid s pk = some (f, s1, rem, o))
    (hpk : pk ≠ []) : rem.length < pk.length := by
  cases pk with
  | nil => exact absurd rfl hpk
  | cons c t =>
    unfold shieldCustom readCustomImage at h
    simp only [run_bind, PM.read, run_pure, run_ite, modSelf, modWorld, PM.modify,
      Bufs.empty_append, Bufs.append_empty] at h
    split_ifs at h
    · simp only [readGUChar, readChar, readChars, List.tail_cons, Option.some.injEq,
        Prod.mk.injEq] at h
      rw [← h.2.2.1]
      simp only [List.length_drop, List.length_cons]
      omega
    · simp only [readGUChar, readChar, List.tail_cons, Option.some.injEq, Prod.mk.injEq] at h
      rw [← h.2.2.1]
      simp


theorem caseLocal_shield (env : Env) : CaseLocal (casePLPROP_SHIELDPOWER env) := by
  unfold casePLPROP_SHIELDPOWER
  apply caseLocal_bind _ _ (local_read _ rlocal_readGUChar)
  intro sp
  apply caseLocal_bind _ _ local_getSelf
  intro self
  split
  · apply caseLocal_of_local
    with_reducible repeat' first
      | apply local_pure
      | apply local_modWorld
      | apply local_modSelf
      | apply local_bind
      | intro _
  · apply caseLocal_guard
    · split
      · exact local_pure _
      · exact local_shieldCustom env sp self.versionID
    · intro s pk f s1 o h hpk
      split_ifs at h
      · have hr : some (Flow.brk, s, pk, Bufs.empty) = some (f, s1, pk, o) := h
        simp only [Option.some.injEq, Prod.mk.injEq] at hr
        exact ⟨hr.2.1.symm, by rw [← hr.1]; simp⟩
      · exact absurd (shieldCustom_eats env sp self.versionID s s1 pk pk f o h hpk)
          (Nat.lt_irrefl _)

/-- Every case of the decode switch is local up to its buffers and up to `break`
against `continue`. -/
theorem caseLocal_propCase (env : Env) (fts : Bool) (rc : Option TPlayer) (id : Nat) :
    CaseLocal (propCase env fts rc id) := by
  by_cases h : id = 9
  · subst h
    exact caseLocal_shield env
  · exact caseLocal_of_local _ (local_propCase env fts rc id h)

/-- One iteration that leaves bytes behind has consumed at least the id byte and has
looked only at the bytes it consumed. -/
theorem setPropsIter_local (env : Env) (fwd fts : Bool) (rc : Option TPlayer) (s s1 : Locals)
    (pk rem : Bytes) (f : Flow) (o : Bufs)
    (hrun : setPropsIter env fwd fts rc s pk = some (f, s1, rem, o)) (hne : rem ≠ []) :
    ∃ used, used ≠ [] ∧ pk = used ++ rem ∧ ∀ sfx, ∃ f1 o1,
      setPropsIter env fwd fts rc s (used ++ sfx) = some (f1, s1, sfx, o1)
        ∧ (f1 = Flow.ret ↔ f = Flow.ret) := by
  cases hc : propCase env fts rc (readGUChar pk).1 s (readGUChar pk).2 with
  | none =>
    rw [setPropsIter_none env fwd fts rc s pk hc] at hrun
    exact absurd hrun (by simp)
  | some r =>
    obtain ⟨f0, s0, rem0, o0⟩ := r
    have hsame : f = f0 ∧ s1 = s0 ∧ rem = rem0 := by
      cases f0 with
      | brk =>
        obtain ⟨o2, h2⟩ := setPropsIter_brk env fwd fts rc s s0 pk rem0 o0 hc
        rw [h2] at hrun
        simp only [Option.some.injEq, Prod.mk.injEq] at hrun
        exact ⟨hrun.1.symm, hrun.2.1.symm, hrun.2.2.1.symm⟩
      | cont =>
        obtain ⟨o2, h2⟩ := setPropsIter_cont env fwd fts rc s s0 pk rem0 o0 hc
        rw [h2] at hrun
        simp only [Option.some.injEq, Prod.mk.injEq] at hrun
        exact ⟨hrun.1.symm, hrun.2.1.symm, hrun.2.2.1.symm⟩
      | ret =>
        obtain ⟨o2, h2⟩ := setPropsIter_ret env fwd fts rc s s0 pk rem0 o0 hc
        rw [h2] at hrun
        simp only [Option.some.injEq, Prod.mk.injEq] at hrun
        exact ⟨hrun.1.symm, hrun.2.1.symm, hrun.2.2.1.symm⟩
    obtain ⟨rfl, rfl, rfl⟩ := hsame
    obtain ⟨u, e, k⟩ := caseLocal_propCase env fts rc (readGUChar pk).1 s (readGUChar pk).2
      f s1 rem o0 hc hne
    cases pk with
    | nil =>
      have hnil : ([] : Bytes) = u ++ rem := e
      exact absurd (List.append_eq_nil.mp hnil.symm).2 hne
    | cons b t =>
      have et : t = u ++ rem := e
      refine ⟨b :: u, by simp, by rw [et]; rfl, fun sfx => ?_⟩
      obtain ⟨f1, o1, k1, hiff⟩ := k sfx
      have hk : propCase env fts rc (readGUChar (b :: u ++ sfx)).1 s (readGUChar (b :: u ++ sfx)).2
          = some (f1, s1, sfx, o1) := k1
      cases f1 with
      | brk =>
        obtain ⟨o2, h2⟩ := setPropsIter_brk env fwd fts rc s s1 _ sfx o1 hk
        exact ⟨Flow.brk, o2, h2, hiff⟩
      | cont =>
        obtain ⟨o2, h2⟩ := setPropsIter_cont env fwd fts rc s s1 _ sfx o1 hk
        exact ⟨Flow.cont, o2, h2, hiff⟩
      | ret =>
        obtain ⟨o2, h2⟩ := setPropsIter_ret env fwd fts rc s s1 _ sfx o1 hk
        exact ⟨Flow.ret, o2, h2, hiff⟩

/-! ### The flag `sentInvalid` -/

theorem keeps_bind {α β : Type} (m : PM α) (f : α → PM β) (h1 : Keeps m)
    (h2 : ∀ a, Keeps (f a)) : Keeps (m >>= f) := by
  intro s pk b s2 rem o hrun
  rw [run_bind] at hrun
  cases hm : m s pk with
  | none => rw [hm] at hrun; exact absurd hrun (by simp)
  | some r =>
    obtain ⟨a, s1, pk1, o1⟩ := r
    rw [hm] at hrun
    simp only [] at hrun
    cases hf : f a s1 pk1 with
    | none => rw [hf] at hrun; exact absurd hrun (by simp)
    | some r2 =>
      obtain ⟨b0, s20, pk2, o2⟩ := r2
      rw [hf] at hrun
      simp only [Option.some.injEq, Prod.mk.injEq] at hrun
      obtain ⟨rfl, rfl, rfl, rfl⟩ := hrun
      rw [h2 a s1 pk1 _ _ _ _ hf, h1 s pk _ _ _ _ hm]

theorem keeps_of_fixed {α : Type} (m : PM α)
    (h : ∀ s pk, m s pk = none ∨ ∃ a w1 rem o, m s pk = some (a, { s with w := w1 }, rem, o)) :
    Keeps m := by
  intro s pk a s1 rem o hrun
  rcases h s pk with h0 | ⟨a0, w1, rem0, o0, h1⟩
  · rw [h0] at hrun; exact absurd hrun (by simp)
  · rw [h1] at hrun
    simp only [Option.some.injEq, Prod.mk.injEq] at hrun
    rw [← hrun.2.1]

theorem keeps_pure {α : Type} (a : α) : Keeps (pure a : PM α) :=
  keeps_of_fixed _ (fun s pk => Or.inr ⟨a, s.w, pk, Bufs.empty, rfl⟩)

theorem keeps_read {α : Type} (r : Bytes → α × Bytes) : Keeps (PM.read r) :=
  keeps_of_fixed _ (fun s _ => Or.inr ⟨_, s.w, _, Bufs.empty, rfl⟩)

theorem keeps_bytesLeft : Keeps PM.bytesLeft :=
  keeps_of_fixed _ (fun s _ => Or.inr ⟨_, s.w, _, Bufs.empty, rfl⟩)

theorem keeps_get : Keeps PM.get :=
  keeps_of_fixed _ (fun s _ => Or.inr ⟨_, s.w, _, Bufs.empty, rfl⟩)

theorem keeps_modify (f : Locals → Locals) (h : ∀ s, (f s).sentInvalid = s.sentInvalid) :
    Keeps (PM.modify f) := by
  intro s pk a s1 rem o hrun
  have hr : some ((), f s, pk, Bufs.empty) = some (a, s1, rem, o) := hrun
  simp only [Option.some.injEq, Prod.mk.injEq] at hr
  rw [← hr.2.1, h]

theorem keeps_write (o : Bufs) : Keeps (PM.write o) :=
  keeps_of_fixed _ (fun s _ => Or.inr ⟨_, s.w, _, o, rfl⟩)

theorem keeps_fault {α : Type} : Keeps (PM.fault : PM α) :=
  keeps_of_fixed _ (fun _ _ => Or.inl rfl)

theorem keeps_getSelf : Keeps getSelf :=
  keeps_of_fixed _ (fun s _ => Or.inr ⟨_, s.w, _, _, rfl⟩)

theorem keeps_getWorld : Keeps getWorld :=
  keeps_of_fixed _ (fun s _ => Or.inr ⟨_, s.w, _, _, rfl⟩)

theorem keeps_modWorld (f : World → World) : Keeps (modWorld f) :=
  keeps_of_fixed _ (fun s _ => Or.inr ⟨_, f s.w, _, _, rfl⟩)

theorem keeps_modSelf (f : TPlayer → TPlayer) : Keeps (modSelf f) :=
  keeps_of_fixed _ (fun s _ => Or.inr ⟨_, { s.w with self := f s.w.self }, _, _, rfl⟩)

theorem keeps_emit (es : List Event) : Keeps (emit es) :=
  keeps_of_fixed _ (fun s _ => Or.inr ⟨_, s.w.emit es, _, _, rfl⟩)

theorem keeps_liftW (f : World → Option World) : Keeps (liftW f) := by
  apply keeps_of_fixed
  intro s pk
  unfold liftW
  cases h : f s.w with
  | none => exact Or.inl rfl
  | some w1 => exact Or.inr ⟨_, w1, _, _, rfl⟩

theorem keeps_derefLevel : Keeps derefLevel := by
  unfold derefLevel
  apply keeps_bind _ _ keeps_getWorld
  intro w
  split
  · exact keeps_pure _
  · exact keeps_fault

theorem keeps_propBytes (env : Env) (id : Nat) : Keeps (propBytes env id) :=
  keeps_of_fixed _ (fun s _ => Or.inr ⟨_, s.w, _, _, rfl⟩)

theorem keeps_toGlobalBuff (env : Env) (id : Nat) : Keeps (toGlobalBuff env id) :=
  keeps_of_fixed _ (fun s _ => Or.inr ⟨_, s.w, _, _, rfl⟩)

theorem keeps_toLevelBuff (env : Env) (id : Nat) : Keeps (toLevelBuff env id) :=
  keeps_of_fixed _ (fun s _ => Or.inr ⟨_, s.w, _, _, rfl⟩)

theorem keeps_toLevelBuff2 (env : Env) (id : Nat) : Keeps (toLevelBuff2 env id) :=
  keeps_of_fixed _ (fun s _ => Or.inr ⟨_, s.w, _, _, rfl⟩)

theorem keeps_toSelfBuff (env : Env) (id : Nat) : Keeps (toSelfBuff env id) :=
  keeps_of_fixed _ (fun s _ => Or.inr ⟨_, s.w, _, _, rfl⟩)

theorem keepsF_of_keeps (m : PM Flow) (h : Keeps m) : KeepsF m :=
  fun s pk f s1 rem o hrun _ => h s pk f s1 rem o hrun

theorem keepsF_default : KeepsF caseDefault := by
  intro s pk f s1 rem o hrun hf
  have hr : some (Flow.ret, { s with sentInvalid := true }, pk,
      Bufs.empty.append Bufs.empty) = some (f, s1, rem, o) := hrun
  simp only [Option.some.injEq, Prod.mk.injEq] at hr
  exact absurd hr.1.symm hf

set_option maxHeartbeats 4000000 in
/-- No case of the decode switch but `default` touches the flag `sentInvalid`. -/
theorem keepsF_propCase (env : Env) (fts : Bool) (rc : Option TPlayer) (id : Nat) :
    KeepsF (propCase env fts rc id) := by
  unfold propCase
  split <;>
  first
  | (split <;> first | exact keepsF_default | skip)
  | skip
  all_goals apply keepsF_of_keeps
  all_goals
    with_reducible repeat' first
    | apply keeps_pure
    | apply keeps_read
    | apply keeps_bytesLeft
    | apply keeps_get
    | (apply keeps_modify; intro _; rfl)
    | apply keeps_write
    | apply keeps_fault
    | apply keeps_getSelf
    | apply keeps_getWorld
    | apply keeps_modWorld
    | apply keeps_modSelf
    | apply keeps_emit
    | apply keeps_liftW
    | apply keeps_derefLevel
    | apply keeps_propBytes
    | apply keeps_toGlobalBuff
    | apply keeps_toLevelBuff
    | apply keeps_toLevelBuff2
    | apply keeps_toSelfBuff
    | apply keeps_bind
    | intro _
    | simp only []
    | split
    | unfold casePLPROP_NICKNAME
    | unfold casePLPROP_MAXPOWER
    | unfold casePLPROP_CURPOWER
    | unfold casePLPROP_RUPEESCOUNT
    | unfold casePLPROP_ARROWSCOUNT
    | unfold casePLPROP_BOMBSCOUNT
    | unfold casePLPROP_GLOVEPOWER
    | unfold casePLPROP_BOMBPOWER
    | unfold readCustomImage
    | unfold shieldCustom
    | unfold casePLPROP_SWORDPOWER
    | unfold casePLPROP_SHIELDPOWER
    | unfold casePLPROP_GANI
    | unfold casePLPROP_HEADGIF
    | unfold casePLPROP_CURCHAT
    | unfold casePLPROP_COLORS
    | unfold casePLPROP_ID
    | unfold casePLPROP_X
    | unfold casePLPROP_Y
    | unfold casePLPROP_Z
    | unfold casePLPROP_SPRITE
    | unfold statusRespawn
    | unfold demoteLeader
    | unfold statusDeath
    | unfold casePLPROP_STATUS
    | unfold casePLPROP_CARRYSPRITE
    | unfold casePLPROP_CURLEVEL
    | unfold casePLPROP_HORSEGIF
    | unfold casePLPROP_HORSEBUSHES
    | unfold casePLPROP_EFFECTCOLORS
    | unfold casePLPROP_CARRYNPC
    | unfold casePLPROP_APCOUNTER
    | unfold casePLPROP_MAGICPOINTS
    | unfold caseSkipGInt
    | unfold casePLPROP_IPADDR
    | unfold casePLPROP_UDPPORT
    | unfold casePLPROP_ALIGNMENT
    | unfold casePLPROP_ADDITFLAGS
    | unfold caseSkipText
    | unfold casePLPROP_BODYIMG
    | unfold casePLPROP_ATTACHNPC
    | unfold gmapLevelChanged
    | unfold casePLPROP_GMAPLEVELX
    | unfold casePLPROP_GMAPLEVELY
    | unfold casePLPROP_PLANGUAGE
    | unfold casePLPROP_PSTATUSMSG
    | unfold casePLPROP_GATTRIB
    | unfold casePLPROP_OSTYPE
    | unfold casePLPROP_TEXTCODEPAGE
    | unfold casePLPROP_X2
    | unfold casePLPROP_Y2
    | unfold casePLPROP_Z2

/-! ### The first iterations of the decode loop -/

theorem decodeN_step (env : Env) (fwd fts : Bool) (rc : Option TPlayer) (n : Nat)
    (s s1 : Locals) (pk pk1 : Bytes) (f : Flow) (o : Bufs) (hpk : pk ≠ [])
    (hf : f ≠ Flow.ret)
    (h : setPropsIter env fwd fts rc s pk = some (f, s1, pk1, o)) :
    decodeN env fwd fts rc (n + 1) s pk = decodeN env fwd fts rc n s1 pk1 := by
  have hl : pk.length > 0 := List.length_pos.mpr hpk
  cases f
  · conv_lhs => unfold decodeN
    simp only [hl, if_true, h]
  · conv_lhs => unfold decodeN
    simp only [hl, if_true, h]
  · exact absurd rfl hf

theorem decodeN_inv (env : Env) (fwd fts : Bool) (rc : Option TPlayer) (n : Nat)
    (s s2 : Locals) (pk rem : Bytes)
    (h : decodeN env fwd fts rc (n + 1) s pk = some (s2, rem)) :
    pk ≠ [] ∧ ∃ f s1 pk1 o, setPropsIter env fwd fts rc s pk = some (f, s1, pk1, o)
      ∧ f ≠ Flow.ret ∧ decodeN env fwd fts rc n s1 pk1 = some (s2, rem) := by
  have hpk : pk ≠ [] := by
    intro hc
    subst hc
    unfold decodeN at h
    simp at h
  refine ⟨hpk, ?_⟩
  cases hi : setPropsIter env fwd fts rc s pk with
  | none =>
    unfold decodeN at h
    simp only [List.length_pos.mpr hpk, if_true, hi] at h
    exact absurd h (by simp)
  | some r =>
    obtain ⟨f, s1, pk1, o⟩ := r
    have hf : f ≠ Flow.ret := by
      intro hc
      subst hc
      unfold decodeN at h
      simp only [List.length_pos.mpr hpk, if_true, hi] at h
      exact absurd h (by simp)
    refine ⟨f, s1, pk1, o, rfl, hf, ?_⟩
    rw [decodeN_step env fwd fts rc n s s1 pk pk1 f o hpk hf hi] at h
    exact h

/-- The iterations of `decodeN` are iterations of the decode loop. -/
theorem setPropsLoop_decodeN (env : Env) (fwd fts : Bool) (rc : Option TPlayer) (n : Nat) :
    ∀ (s s2 : Locals) (pk rem : Bytes) (o : Bufs) (fuel : Nat),
      decodeN env fwd fts rc n s pk = some (s2, rem) →
      ∃ o2, setPropsLoop env fwd fts rc (fuel + n) s o pk
        = setPropsLoop env fwd fts rc fuel s2 o2 rem := by
  induction n with
  | zero =>
    intro s s2 pk rem o fuel h
    have hr : some (s, pk) = some (s2, rem) := by
      unfold decodeN at h
      exact h
    simp only [Option.some.injEq, Prod.mk.injEq] at hr
    obtain ⟨rfl, rfl⟩ := hr
    exact ⟨o, rfl⟩
  | succ n ih =>
    intro s s2 pk rem o fuel h
    obtain ⟨hpk, f, s1, pk1, o1, hi, hf, hrest⟩ := decodeN_inv env fwd fts rc n s s2 pk rem h
    obtain ⟨o2, h2⟩ := ih s1 s2 pk1 rem (o.append o1) fuel hrest
    refine ⟨o2, ?_⟩
    rw [show fuel + (n + 1) = (fuel + n) + 1 from rfl,
      setPropsLoop_next env fwd fts rc (fuel + n) s s1 o o1 pk pk1 f hpk hf hi, h2]

/-- Iterations that leave bytes behind have consumed at least one byte each and have
looked only at the bytes they consumed. -/
theorem decodeN_local (env : Env) (fwd fts : Bool) (rc : Option TPlayer) (n : Nat) :
    ∀ (s s2 : Locals) (pk rem : Bytes), decodeN env fwd fts rc n s pk = some (s2, rem) →
      rem ≠ [] →
      ∃ used, pk = used ++ rem ∧ n ≤ used.length
        ∧ ∀ sfx, decodeN env fwd fts rc n s (used ++ sfx) = some (s2, sfx) := by
  induction n with
  | zero =>
    intro s s2 pk rem h _
    have hr : some (s, pk) = some (s2, rem) := by
      unfold decodeN at h
      exact h
    simp only [Option.some.injEq, Prod.mk.injEq] at hr
    obtain ⟨rfl, rfl⟩ := hr
    exact ⟨[], rfl, Nat.le_refl _, fun sfx => by unfold decodeN; rfl⟩
  | succ n ih =>
    intro s s2 pk rem h hne
    obtain ⟨hpk, f, s1, pk1, o1, hi, hf, hrest⟩ := decodeN_inv env fwd fts rc n s s2 pk rem h
    obtain ⟨u2, e2, hlen, k2⟩ := ih s1 s2 pk1 rem hrest hne
    have hne1 : pk1 ≠ [] := by
      intro hc
      rw [hc] at e2
      exact hne (List.append_eq_nil.mp e2.symm).2
    obtain ⟨u1, hu1, e1, k1⟩ := setPropsIter_local env fwd fts rc s s1 pk pk1 f o1 hi hne1
    refine ⟨u1 ++ u2, by rw [List.append_assoc, ← e2, ← e1], ?_, fun sfx => ?_⟩
    · have : 0 < u1.length := List.length_pos.mpr hu1
      rw [List.length_append]
      omega
    · obtain ⟨f1, o2, hrun, hiff⟩ := k1 (u2 ++ sfx)
      have hf1 : f1 ≠ Flow.ret := fun hc => hf (hiff.mp hc)
      rw [List.append_assoc, decodeN_step env fwd fts rc n s s1 (u1 ++ (u2 ++ sfx)) (u2 ++ sfx)
        f1 o2 (by simp [hu1]) hf1 hrun]
      exact k2 sfx

/-- Iterations that do not return leave the flag `sentInvalid` alone. -/
theorem decodeN_flag (env : Env) (fwd fts : Bool) (rc : Option TPlayer) (n : Nat) :
    ∀ (s s2 : Locals) (pk rem : Bytes), decodeN env fwd fts rc n s pk = some (s2, rem) →
      s2.sentInvalid = s.sentInvalid := by
  induction n with
  | zero =>
    intro s s2 pk rem h
    have hr : some (s, pk) = some (s2, rem) := by
      unfold decodeN at h
      exact h
    simp only [Option.some.injEq, Prod.mk.injEq] at hr
    rw [← hr.1]
  | succ n ih =>
    intro s s2 pk rem h
    obtain ⟨hpk, f, s1, pk1, o1, hi, hf, hrest⟩ := decodeN_inv env fwd fts rc n s s2 pk rem h
    rw [ih s1 s2 pk1 rem hrest]
    cases hc : propCase env fts rc (readGUChar pk).1 s (readGUChar pk).2 with
    | none =>
      rw [setPropsIter_none env fwd fts rc s pk hc] at hi
      exact absurd hi (by simp)
    | some r =>
      obtain ⟨f0, s0, rem0, o0⟩ := r
      have hsame : f = f0 ∧ s1 = s0 := by
        cases f0 with
        | brk =>
          obtain ⟨o2, h2⟩ := setPropsIter_brk env fwd fts rc s s0 pk rem0 o0 hc
          rw [h2] at hi
          simp only [Option.some.injEq, Prod.mk.injEq] at hi
          exact ⟨hi.1.symm, hi.2.1.symm⟩
        | cont =>
          obtain ⟨o2, h2⟩ := setPropsIter_cont env fwd fts rc s s0 pk rem0 o0 hc
          rw [h2] at hi
          simp only [Option.some.injEq, Prod.mk.injEq] at hi
          exact ⟨hi.1.symm, hi.2.1.symm⟩
        | ret =>
          obtain ⟨o2, h2⟩ := setPropsIter_ret env fwd fts rc s s0 pk rem0 o0 hc
          rw [h2] at hi
          simp only [Option.some.injEq, Prod.mk.injEq] at hi
          exact ⟨hi.1.symm, hi.2.1.symm⟩
      obtain ⟨rfl, rfl⟩ := hsame
      exact keepsF_propCase env fts rc _ s _ f s1 rem0 o0 hc hf

/-- An id byte the switch has no case for: the iteration returns from `setProps`. -/
theorem setPropsIter_unhandled (env : Env) (fwd fts : Bool) (rc : Option TPlayer) (s : Locals)
    (b : Nat) (rest : Bytes) (hu : unhandled (readGUChar [b]).1 = true) :
    ∃ o, setPropsIter env fwd fts rc s (b :: rest)
      = some (Flow.ret, { s with sentInvalid := true }, rest, o) := by
  apply setPropsIter_ret env fwd fts rc s _ (b :: rest) rest (Bufs.empty.append Bufs.empty)
  have hr : readGUChar (b :: rest) = ((readGUChar [b]).1, rest) := rfl
  rw [hr]
  simp only []
  rw [propCase_unhandled env fts rc _ hu]
  rfl

/-- C3. Unknown property id aborts the remainder of the packet. The packet is
`pre ++ [b] ++ rest`, where the first `n` iterations of the decode loop, none of which
returns, consume exactly `pre` (so `pre` is a sequence of `n` complete recognized
properties) and leave the locals `s`, and the byte `b` decodes to an id the switch has
no case for. Then `setProps` returns the world of `s`, and it returns that same world
whatever bytes stand in the place of `rest`; the decode loop on `pre` alone ends with
the same locals `s`; and whenever `setProps` on `pre` alone returns, its session fields
and levels are those of `s`. -/
theorem unknown_id_aborts (env : Env) (w : World) (fwd fts : Bool) (rc : Option TPlayer)
    (pre rest : Bytes) (b n : Nat) (s : Locals)
    (hu : unhandled (readGUChar [b]).1 = true)
    (hpre : decodeN env fwd fts rc n (Locals.start w) (pre ++ b :: rest) = some (s, b :: rest)) :
    setProps env w (pre ++ b :: rest) fwd fts rc = some s.w
    ∧ (∀ rest1, setProps env w (pre ++ b :: rest1) fwd fts rc = some s.w)
    ∧ (∃ o, setPropsLoop env fwd fts rc pre.length (Locals.start w) Bufs.empty pre
        = some (LoopEnd.exhausted s o))
    ∧ (∀ wp, setProps env w pre fwd fts rc = some wp →
        wp.self = s.w.self ∧ wp.levels = s.w.levels) := by
  obtain ⟨used, e, hlen, k⟩ := decodeN_local env fwd fts rc n _ _ _ _ hpre (by simp)
  have hused : pre = used := List.append_cancel_right e
  subst hused
  have hall : ∀ rest1, setProps env w (pre ++ b :: rest1) fwd fts rc = some s.w := by
    intro rest1
    obtain ⟨o2, h2⟩ := setPropsLoop_decodeN env fwd fts rc n _ _ _ _ Bufs.empty
      (pre.length - n + rest1.length + 1) (k (b :: rest1))
    obtain ⟨o3, h3⟩ := setPropsIter_unhandled env fwd fts rc s b rest1 hu
    have hfuel : (pre ++ b :: rest1).length = pre.length - n + rest1.length + 1 + n := by
      simp only [List.length_append, List.length_cons]
      omega
    unfold setProps
    rw [hfuel, h2, setPropsLoop_ret env fwd fts rc _ s _ o2 o3 (b :: rest1) rest1 (by simp) h3]
  have hloop : ∃ o, setPropsLoop env fwd fts rc pre.length (Locals.start w) Bufs.empty pre
      = some (LoopEnd.exhausted s o) := by
    have k0 := k []
    rw [List.append_nil] at k0
    obtain ⟨o2, h2⟩ := setPropsLoop_decodeN env fwd fts rc n _ _ _ _ Bufs.empty
      (pre.length - n) k0
    refine ⟨o2, ?_⟩
    rw [show pre.length = pre.length - n + n by omega, h2, setPropsLoop_nil]
  refine ⟨hall rest, hall, hloop, ?_⟩
  intro wp hwp
  obtain ⟨o, ho⟩ := hloop
  have hflag : s.sentInvalid = false := decodeN_flag env fwd fts rc n _ _ _ _ hpre
  unfold setProps at hwp
  rw [ho] at hwp
  simp only [] at hwp
  cases hsb : sendBuffersOut env rc s o with
  | none => rw [hsb] at hwp; exact absurd hwp (by simp)
  | some w1 =>
    rw [hsb, hflag] at hwp
    simp only [countInvalid_false, Option.some.injEq] at hwp
    obtain ⟨es, he⟩ := sendBuffersOut_emit env rc s o w1 hsb
    rw [← hwp, he]
    exact ⟨rfl, rfl⟩

/-- C3 at the sample session: arrows set to 5, then the unknown id 100, then bytes that
would set the arrows to 99. -/
theorem unknown_id_aborts_witness :
    ∃ w1, setProps sampleEnv sampleWorld ([36, 37] ++ 132 :: [36, 131]) true false none = some w1
      ∧ w1.self.arrowc = 5 ∧ w1.self.invalidPackets = 0 := by
  have h := unknown_id_aborts sampleEnv sampleWorld true false none [36, 37] [36, 131] 132 1
    { Locals.start sampleWorld with
      w := { sampleWorld with self := { samplePlayer with arrowc := 5 } } }
    (by decide) rfl
  exact ⟨_, h.1, rfl, rfl⟩

/-! ## Audience of the level routers -/

/-- C11. Level-scoped routing reaches clients only: whatever the player list, packet,
map, level, origin and flags are, every event either overload of
`TServer::sendPacketToLevel` causes is a packet queued to a session of the player list
whose role has a client bit; a session whose role is RC, NC, NPC-server or new RC has no
client bit, and when it is the only list entry with its identity it is queued nothing. -/
theorem level_routing_clients_only (env : Env) (levels : Nat → TLevel)
    (playerList : List TPlayer) (pPacket : Bytes) (pMap pLevel : Option Nat)
    (pPlayer : Option TPlayer) (origin : TPlayer) (sendToSelf onlyGmap : Bool)
    (evs : List Event)
    (hrun : sendPacketToLevel env levels playerList pPacket pMap pLevel pPlayer onlyGmap = some evs
      ∨ sendPacketToLevelOf env levels playerList pPacket pMap origin sendToSelf onlyGmap
          = some evs) :
    (∀ e ∈ evs, ∃ p ∈ playerList, p.isClient = true ∧ ∃ pkt, e = Event.queued p.ptr pkt)
    ∧ (∀ q : TPlayer, q.type = PLTYPE_RC ∨ q.type = PLTYPE_NC ∨ q.type = PLTYPE_NPCSERVER
        ∨ q.type = PLTYPE_RC2 → q.isClient = false)
    ∧ (∀ q ∈ playerList, q.isClient = false → (∀ p ∈ playerList, p.ptr = q.ptr → p = q) →
        ∀ pkt, Event.queued q.ptr pkt ∉ evs) := by
  have key : ∀ e ∈ evs, ∃ p ∈ playerList, p.isClient = true ∧ ∃ pkt, e = Event.queued p.ptr pkt := by
    intro e he
    rcases hrun with hrun | hrun
    · unfold sendPacketToLevel at hrun
      simp only [] at hrun
      split at hrun
      · rw [← Option.some.inj hrun] at he
        obtain ⟨p, hp, hmem⟩ := List.mem_flatMap.mp he
        split_ifs at hmem with h1 h2
        · exact absurd hmem (List.not_mem_nil e)
        · exact ⟨p, hp, by simpa using (not_or.mp h1).2, sendPacket_mem _ _ _ e hmem⟩
        · exact absurd hmem (List.not_mem_nil e)
      · split at hrun
        · rw [← Option.some.inj hrun] at he
          obtain ⟨p, hp, hmem⟩ := List.mem_flatMap.mp he
          split_ifs at hmem with h1 h2
          · exact absurd hmem (List.not_mem_nil e)
          · exact ⟨p, hp, by simpa using (not_or.mp h1).2, sendPacket_mem _ _ _ e hmem⟩
          · exact absurd hmem (List.not_mem_nil e)
        · split at hrun
          · rw [← Option.some.inj hrun] at he
            exact absurd he (List.not_mem_nil e)
          · split at hrun
            · exact absurd hrun (by simp)
            · rw [← Option.some.inj hrun] at he
              obtain ⟨p, hp, hmem⟩ := List.mem_flatMap.mp he
              split_ifs at hmem with h1
              all_goals first
                | exact absurd hmem (List.not_mem_nil e)
                | exact ⟨p, hp, by simpa using (not_or.mp h1).1, sendPacket_mem _ _ _ e hmem⟩
    · unfold sendPacketToLevelOf at hrun
      split at hrun
      · rw [← Option.some.inj hrun] at he
        exact absurd he (List.not_mem_nil e)
      · simp only [] at hrun
        split at hrun
        · rw [← Option.some.inj hrun] at he
          obtain ⟨p, hp, hmem⟩ := List.mem_flatMap.mp he
          split_ifs at hmem with h1 h2
          · exact absurd hmem (List.not_mem_nil e)
          · exact ⟨p, hp, by simpa using (not_or.mp h1).2, sendPacket_mem _ _ _ e hmem⟩
          · exact absurd hmem (List.not_mem_nil e)
        · split at hrun
          · rw [← Option.some.inj hrun] at he
            obtain ⟨p, hp, hmem⟩ := List.mem_flatMap.mp he
            split_ifs at hmem with h1 h2
            · exact absurd hmem (List.not_mem_nil e)
            · exact ⟨p, hp, by simpa using (not_or.mp h1).2, sendPacket_mem _ _ _ e hmem⟩
            · exact absurd hmem (List.not_mem_nil e)
          · split at hrun
            · exact absurd hrun (by simp)
            · rw [← Option.some.inj hrun] at he
              obtain ⟨p, hp, hmem⟩ := List.mem_flatMap.mp he
              split_ifs at hmem with h1 h2
              all_goals first
                | exact absurd hmem (List.not_mem_nil e)
                | exact ⟨p, hp, by simpa using h1, sendPacket_mem _ _ _ e hmem⟩
                | exact ⟨p, hp, by simpa using h1, by rw [h2]; exact sendPacket_mem _ _ _ e hmem⟩
  refine ⟨key, ?_, ?_⟩
  · intro q hq
    unfold TPlayer.isClient
    rcases hq with h | h | h | h <;> rw [h] <;> decide
  · intro q _ hq huniq pkt hmem
    obtain ⟨p, hp, hc, pkt1, heq⟩ := key _ hmem
    have hptr : p.ptr = q.ptr := by
      injection heq with h1 h2
      exact h1.symm
    rw [huniq p hp hptr, hq] at hc
    exact absurd hc (by simp)

/-- C11 at the sample sessions: the remote-control session next to the origin is queued
nothing, the client at (4, 4) is. -/
theorem level_routing_clients_only_witness :
    sendPacketToLevelOf sampleEnv (fun _ => sampleLevel) [sampleOrigin, sampleNear, sampleRC]
        [65] (some 0) sampleOrigin false false = some [Event.queued 8 [65, 10]]
      ∧ ∀ pkt, Event.queued sampleRC.ptr pkt ∉ [Event.queued 8 [65, 10]] := by
  have h : sendPacketToLevelOf sampleEnv (fun _ => sampleLevel)
      [sampleOrigin, sampleNear, sampleRC] [65] (some 0) sampleOrigin false false
        = some [Event.queued 8 [65, 10]] := by
    rfl
  refine ⟨h, ?_⟩
  refine (level_routing_clients_only sampleEnv (fun _ => sampleLevel)
    [sampleOrigin, sampleNear, sampleRC] [65] (some 0) none none sampleOrigin false false _
    (Or.inr h)).2.2 sampleRC (by simp) (by decide) ?_
  intro p hp hptr
  simp only [List.mem_cons, List.mem_singleton, List.not_mem_nil, or_false] at hp
  rcases hp with rfl | rfl | rfl
  · exact absurd hptr (by decide)
  · exact absurd hptr (by decide)
  · rfl

/-- C12. Group-instance isolation in routing: when either level router takes the
grid-map branch with an origin whose map is group-instanced, it returns, and every event
it causes is a packet queued to a session of the player list that is the origin itself or
carries the origin's group tag; no condition is put on coordinates. For the player
overload the branch is taken when the origin has a level that is not singleplayer, a map
is given and the call is not restricted to grid-maps on a bigmap; for the level overload
when a map and a level are given under the same restriction (there the origin itself is
never a recipient). -/
theorem group_isolation (env : Env) (levels : Nat → TLevel) (playerList : List TPlayer)
    (pPacket : Bytes) (m om level lvl : Nat) (origin : TPlayer) (sendToSelf onlyGmap : Bool)
    (hbranch : (onlyGmap && (env.maps m).type == MAPTYPE_BIGMAP) = false)
    (hom : origin.pmap = some om) (hgroup : (env.maps om).groupMap = true)
    (hlevel : origin.level = some level) (hsingle : (levels level).singleplayer = false) :
    (∃ evs, sendPacketToLevelOf env levels playerList pPacket (some m) origin sendToSelf
          onlyGmap = some evs
      ∧ ∀ e ∈ evs, ∃ p ∈ playerList, (∃ pkt, e = Event.queued p.ptr pkt)
          ∧ (p.ptr = origin.ptr ∨ p.levelGroup = origin.levelGroup))
    ∧ (∃ evs, sendPacketToLevel env levels playerList pPacket (some m) (some lvl)
          (some origin) onlyGmap = some evs
      ∧ ∀ e ∈ evs, ∃ p ∈ playerList, (∃ pkt, e = Event.queued p.ptr pkt)
          ∧ p.ptr ≠ origin.ptr ∧ p.levelGroup = origin.levelGroup) := by
  constructor
  · unfold sendPacketToLevelOf
    simp only [hlevel, hbranch, hsingle, Bool.or_false, Bool.false_eq_true, if_false, hom]
    refine ⟨_, rfl, ?_⟩
    intro e he
    obtain ⟨p, hp, hmem⟩ := List.mem_flatMap.mp he
    refine ⟨p, hp, ?_⟩
    simp only [hgroup, true_and] at hmem
    split_ifs at hmem with h1 h2 h3 h4 h5 h6 h7
    all_goals first
      | exact absurd hmem (List.not_mem_nil e)
      | exact ⟨by rw [h2]; exact sendPacket_mem _ _ _ e hmem, Or.inl h2⟩
      | exact ⟨sendPacket_mem _ _ _ e hmem, Or.inr (not_not.mp h5).symm⟩
  · unfold sendPacketToLevel
    simp only [hbranch, Bool.false_eq_true, if_false, hom]
    refine ⟨_, rfl, ?_⟩
    intro e he
    obtain ⟨p, hp, hmem⟩ := List.mem_flatMap.mp he
    refine ⟨p, hp, ?_⟩
    simp only [hgroup, Bool.true_and] at hmem
    split_ifs at hmem with h1 h2 h3 h4 h5
    all_goals first
      | exact absurd hmem (List.not_mem_nil e)
      | (refine ⟨sendPacket_mem _ _ _ e hmem, ?_, ?_⟩
         · intro hc
           exact h1 (Or.inr (Or.inl (by simpa using hc)))
         · have := h2
           simp only [bne_iff_ne, ne_eq, not_not] at this
           exact this.symm)

/-- C12 at the sample sessions on a group-instanced map: the neighbour of another group
is queued nothing. -/
theorem group_isolation_witness :
    ∃ evs, sendPacketToLevelOf sampleGroupEnv (fun _ => sampleLevel)
        [sampleOrigin, sampleNear, sampleStranger] [65] (some 0) sampleOrigin false false
          = some evs
      ∧ ∀ pkt, Event.queued sampleStranger.ptr pkt ∉ evs := by
  obtain ⟨⟨evs, h, hall⟩, _⟩ := group_isolation sampleGroupEnv (fun _ => sampleLevel)
    [sampleOrigin, sampleNear, sampleStranger] [65] 0 0 1 1 sampleOrigin false false
    rfl rfl rfl rfl rfl
  refine ⟨evs, h, ?_⟩
  intro pkt hmem
  obtain ⟨p, hp, ⟨pkt1, heq⟩, hor⟩ := hall _ hmem
  have hptr : p.ptr = 11 := by
    injection heq with h1 h2
    exact h1.symm
  simp only [List.mem_cons, List.mem_singleton, List.not_mem_nil, or_false] at hp
  rcases hp with rfl | rfl | rfl
  · exact absurd hptr (by decide)
  · exact absurd hptr (by decide)
  · rcases hor with h1 | h1
    · exact absurd h1 (by decide)
    · exact absurd h1 (by decide)

/-! ## The id table -/

theorem freeIdLoop_done (l : List (Option Nat)) (fuel i newId : Nat) (h : l.length ≤ i) :
    freeIdLoop l fuel i newId = newId := by
  cases fuel with
  | zero => rfl
  | succ n =>
    unfold freeIdLoop
    rw [if_neg (Nat.not_lt.mpr h)]

/-- The search loop with enough fuel: the first empty slot from `i` on, or 0. -/
theorem freeIdLoop_spec (l : List (Option Nat)) :
    ∀ fuel i, l.length ≤ i + fuel →
      (∀ k, i ≤ k → k < l.length → l.getD k none = none →
          (∀ j, i ≤ j → j < k → l.getD j none ≠ none) → freeIdLoop l fuel i 0 = k)
      ∧ ((∀ j, i ≤ j → j < l.length → l.getD j none ≠ none) → freeIdLoop l fuel i 0 = 0) := by
  intro fuel
  induction fuel with
  | zero =>
    intro i hlen
    exact ⟨fun k hk1 hk2 _ _ => by omega, fun _ => rfl⟩
  | succ n ih =>
    intro i hlen
    by_cases hi : i < l.length
    · by_cases hs : l.getD i none = none
      · have hrun : freeIdLoop l (n + 1) i 0 = i := by
          unfold freeIdLoop
          rw [if_pos hi, if_pos hs]
          exact freeIdLoop_done l n _ i (Nat.le_succ _)
        refine ⟨fun k hk1 hk2 hk3 hmin => ?_, fun hall => absurd hs (hall i (Nat.le_refl _) hi)⟩
        rw [hrun]
        by_contra hne
        exact hmin i (Nat.le_refl _) (by omega) hs
      · have hrun : freeIdLoop l (n + 1) i 0 = freeIdLoop l n (i + 1) 0 := by
          conv_lhs => unfold freeIdLoop
          rw [if_pos hi, if_neg hs]
        obtain ⟨ih1, ih2⟩ := ih (i + 1) (by omega)
        rw [hrun]
        refine ⟨fun k hk1 hk2 hk3 hmin => ?_, fun hall => ?_⟩
        · have hki : k ≠ i := fun hc => hs (hc ▸ hk3)
          exact ih1 k (by omega) hk2 hk3 (fun j hj1 hj2 => hmin j (by omega) hj2)
        · exact ih2 (fun j hj1 hj2 => hall j (by omega) hj2)
    · have hrun : freeIdLoop l (n + 1) i 0 = 0 := by
        unfold freeIdLoop
        rw [if_neg hi]
      rw [hrun]
      exact ⟨fun k hk1 hk2 _ _ => by omega, fun _ => rfl⟩

theorem getFreePlayerId_found (s : TServer) (k : Nat) (hk1 : 2 ≤ k)
    (hk2 : k < s.playerIds.length) (hk3 : s.playerIds.getD k none = none)
    (hmin : ∀ j, 2 ≤ j → j < k → s.playerIds.getD j none ≠ none) :
    getFreePlayerId s = (k, s) := by
  have h := (freeIdLoop_spec s.playerIds s.playerIds.length 2 (by omega)).1 k hk1 hk2 hk3 hmin
  unfold getFreePlayerId
  simp only [h]
  rw [if_neg (by omega)]

theorem getFreePlayerId_full (s : TServer)
    (hall : ∀ j, 2 ≤ j → j < s.playerIds.length → s.playerIds.getD j none ≠ none) :
    getFreePlayerId s = (s.playerIds.length, { s with playerIds := s.playerIds ++ [none] }) := by
  have h := (freeIdLoop_spec s.playerIds s.playerIds.length 2 (by omega)).2 hall
  unfold getFreePlayerId
  simp only [h, if_true]

/-- Below an empty slot there is a first empty slot. -/
theorem first_empty (l : List (Option Nat)) (j : Nat) (hj1 : 2 ≤ j) (hj3 : l.getD j none = none) :
    ∃ k, 2 ≤ k ∧ k ≤ j ∧ l.getD k none = none ∧ ∀ i, 2 ≤ i → i < k → l.getD i none ≠ none := by
  have hex : ∃ k, 2 ≤ k ∧ l.getD k none = none := ⟨j, hj1, hj3⟩
  refine ⟨Nat.find hex, (Nat.find_spec hex).1, Nat.find_min' hex ⟨hj1, hj3⟩,
    (Nat.find_spec hex).2, fun i hi1 hi2 hc => ?_⟩
  exact Nat.find_min hex hi2 ⟨hi1, hc⟩

/-- C14. Id reuse after disconnect: for an id table with at least 2 slots,
`getFreePlayerId` returns the smallest index from 2 on whose slot is empty and leaves the
table alone when there is such an index, and otherwise returns the old table size with
the table grown by one empty slot; the id is at least 2 either way. Hence with an empty
slot `j` the id handed out is at most `j`; in particular when `cleanupDeletedPlayers`
removes the one marked session `p` (not held back by a script reference), whose id is in
the table from 2 on, the next id handed out is at most the id of `p`. -/
theorem free_id_smallest (s : TServer) (hn : 2 ≤ s.playerIds.length) :
    (∀ k, 2 ≤ k → k < s.playerIds.length → s.playerIds.getD k none = none →
        (∀ j, 2 ≤ j → j < k → s.playerIds.getD j none ≠ none) → getFreePlayerId s = (k, s))
    ∧ ((∀ j, 2 ≤ j → j < s.playerIds.length → s.playerIds.getD j none ≠ none) →
        getFreePlayerId s
          = (s.playerIds.length, { s with playerIds := s.playerIds ++ [none] }))
    ∧ 2 ≤ (getFreePlayerId s).1
    ∧ (∀ j, 2 ≤ j → j < s.playerIds.length → s.playerIds.getD j none = none →
        (getFreePlayerId s).1 ≤ j ∧ (getFreePlayerId s).2 = s)
    ∧ (∀ (env : Env) (p : Nat), s.deletedPlayers = [p] →
        (env.v8npcserver && s.scriptReferenced p) = false → 2 ≤ s.idOf p →
        (s.idOf p).toNat < s.playerIds.length →
        ∃ s1, cleanupDeletedPlayers env s = some s1
          ∧ ((getFreePlayerId s1).1 : Int) ≤ s.idOf p ∧ (getFreePlayerId s1).2 = s1) := by
  have hlow : ∀ j, 2 ≤ j → j < s.playerIds.length → s.playerIds.getD j none = none →
      (getFreePlayerId s).1 ≤ j ∧ (getFreePlayerId s).2 = s ∧ 2 ≤ (getFreePlayerId s).1 := by
    intro j hj1 hj2 hj3
    obtain ⟨k, hk1, hk2, hk3, hmin⟩ := first_empty s.playerIds j hj1 hj3
    rw [getFreePlayerId_found s k hk1 (by omega) hk3 hmin]
    exact ⟨hk2, rfl, hk1⟩
  refine ⟨getFreePlayerId_found s, getFreePlayerId_full s, ?_,
    fun j hj1 hj2 hj3 => ⟨(hlow j hj1 hj2 hj3).1, (hlow j hj1 hj2 hj3).2.1⟩, ?_⟩
  · by_cases hex : ∃ j, 2 ≤ j ∧ j < s.playerIds.length ∧ s.playerIds.getD j none = none
    · obtain ⟨j, hj1, hj2, hj3⟩ := hex
      exact (hlow j hj1 hj2 hj3).2.2
    · rw [getFreePlayerId_full s (fun j hj1 hj2 hc => hex ⟨j, hj1, hj2, hc⟩)]
      exact hn
  · intro env p hdel href hid hlt
    have hid0 : 0 ≤ s.idOf p := by omega
    obtain ⟨s1, hone, hids⟩ : ∃ s1, cleanupOne env s p = some s1
        ∧ s1.playerIds = s.playerIds.set (s.idOf p).toNat none := by
      unfold cleanupOne
      rw [href]
      simp only [Bool.false_eq_true, if_false]
      rw [if_pos ⟨hid0, hlt⟩]
      exact ⟨_, rfl, rfl⟩
    refine ⟨s1, ?_, ?_⟩
    · unfold cleanupDeletedPlayers
      rw [hdel]
      unfold cleanupLoop
      rw [hone]
      rfl
    · have hslot : s1.playerIds.getD (s.idOf p).toNat none = none := by
        rw [hids]
        simp [List.getD_eq_getElem?_getD, List.getElem?_set, hlt]
      have hlen : s1.playerIds.length = s.playerIds.length := by rw [hids]; simp
      obtain ⟨k, hk1, hk2, hk3, hmin⟩ := first_empty s1.playerIds (s.idOf p).toNat
        (by omega) hslot
      rw [getFreePlayerId_found s1 k hk1 (by rw [hlen]; omega) hk3 hmin]
      exact ⟨by show (k : Int) ≤ s.idOf p; omega, rfl⟩

/-- C14 at the sample registry, session 7 released without the script engine: its id 2
is the next one handed out. -/
theorem free_id_smallest_witness :
    ∃ s1, cleanupDeletedPlayers sampleEnv sampleServer = some s1
      ∧ (getFreePlayerId s1).1 = 2 := by
  obtain ⟨_, _, hge, _, hrel⟩ := free_id_smallest sampleServer (by decide)
  obtain ⟨s1, h1, h2, _⟩ := hrel sampleEnv 7 rfl rfl (by decide) (by decide)
  have h3 := (free_id_smallest s1 (by
    have : s1 = _ := Option.some.inj (h1.symm.trans (rfl : cleanupDeletedPlayers sampleEnv sampleServer = some _))
    rw [this]
    decide)).2.2.1
  refine ⟨s1, h1, ?_⟩
  have h4 : ((getFreePlayerId s1).1 : Int) ≤ 2 := h2
  omega

/-! ## The registry invariant -/

theorem getD_set_ids (l : List (Option Nat)) (i j : Nat) (v : Option Nat) :
    (l.set i v).getD j none = if i = j ∧ i < l.length then v else l.getD j none := by
  simp only [List.getD_eq_getElem?_getD, List.getElem?_set]
  by_cases h : i = j
  · subst h
    by_cases h2 : i < l.length
    · simp [h2]
    · simp [h2, List.getElem?_eq_none (Nat.not_lt.mp h2)]
  · simp [h]

theorem getD_append_none (l : List (Option Nat)) (j : Nat) :
    (l ++ [none]).getD j none = l.getD j none := by
  simp only [List.getD_eq_getElem?_getD]
  by_cases h : j < l.length
  · rw [List.getElem?_append_left h]
  · rw [List.getElem?_append_right (Nat.not_lt.mp h), List.getElem?_eq_none (Nat.not_lt.mp h)]
    cases hj : j - l.length with
    | zero => rfl
    | succ n => rfl

theorem getD_some_lt (l : List (Option Nat)) (j p : Nat) (h : l.getD j none = some p) :
    j < l.length := by
  by_contra hc
  rw [List.getD_eq_getElem?_getD, List.getElem?_eq_none (Nat.not_lt.mp hc)] at h
  exact absurd h (by simp)

/-- What `getFreePlayerId` hands out on a table with its reserved slots: an id from 2 on
whose slot is in the table and empty; no slot changes its content. -/
theorem getFreePlayerId_ok (s : TServer) (hn : 2 ≤ s.playerIds.length) :
    2 ≤ (getFreePlayerId s).1
      ∧ (getFreePlayerId s).1 < (getFreePlayerId s).2.playerIds.length
      ∧ (getFreePlayerId s).2.playerIds.getD (getFreePlayerId s).1 none = none
      ∧ s.playerIds.getD (getFreePlayerId s).1 none = none
      ∧ (∀ i, (getFreePlayerId s).2.playerIds.getD i none = s.playerIds.getD i none)
      ∧ (getFreePlayerId s).2 = { s with playerIds := (getFreePlayerId s).2.playerIds } := by
  by_cases hex : ∃ j, 2 ≤ j ∧ j < s.playerIds.length ∧ s.playerIds.getD j none = none
  · obtain ⟨j, hj1, hj2, hj3⟩ := hex
    obtain ⟨k, hk1, hk2, hk3, hmin⟩ := first_empty s.playerIds j hj1 hj3
    rw [getFreePlayerId_found s k hk1 (by omega) hk3 hmin]
    exact ⟨hk1, by show k < s.playerIds.length; omega, hk3, hk3, fun _ => rfl, rfl⟩
  · rw [getFreePlayerId_full s (fun j hj1 hj2 hc => hex ⟨j, hj1, hj2, hc⟩)]
    refine ⟨hn, by simp, ?_, ?_, fun i => getD_append_none _ _, rfl⟩
    · show (s.playerIds ++ [none]).getD s.playerIds.length none = none
      rw [getD_append_none]
      simp [List.getD_eq_getElem?_getD]
    · simp [List.getD_eq_getElem?_getD]

theorem regInv_init (env : Env) (npc : Nat) : RegInv (TServer.init env TServer.fresh npc) := by
  cases hv : env.v8npcserver
  · have : TServer.init env TServer.fresh npc
        = { TServer.fresh with playerIds := [none, none] } := by
      unfold TServer.init
      simp only [hv, Bool.false_eq_true, if_false]
      rfl
    rw [this]
    refine ⟨Nat.le_refl 2, rfl, rfl, ?_, ?_, List.nodup_nil, List.nodup_nil, ?_⟩
    · intro i p h
      exfalso
      rcases i with _ | _ | i <;> simp [List.getD_eq_getElem?_getD] at h
    · intro p hp
      exact absurd hp (List.not_mem_nil p)
    · intro p hp
      exact absurd hp (List.not_mem_nil p)
  · have : TServer.init env TServer.fresh npc
        = { TServer.fresh with
            playerIds := [none, none, some npc]
            playerList := [npc]
            idOf := Function.update (fun _ => 0) npc 2 } := by
      unfold TServer.init
      simp only [hv, if_true]
      rfl
    rw [this]
    refine ⟨Nat.le_succ 2, rfl, rfl, ?_, ?_, List.nodup_singleton npc, List.nodup_nil, ?_⟩
    · intro i p h
      rcases i with _ | _ | _ | i
      · simp [List.getD_eq_getElem?_getD] at h
      · simp [List.getD_eq_getElem?_getD] at h
      · have hp : npc = p := by simpa [List.getD_eq_getElem?_getD] using h
        subst hp
        exact ⟨by simp, List.mem_singleton.mpr rfl⟩
      · simp [List.getD_eq_getElem?_getD] at h
    · intro p hp
      have : p = npc := List.mem_singleton.mp hp
      subst this
      simp [List.getD_eq_getElem?_getD]
    · intro p hp
      exact absurd hp (List.not_mem_nil p)

/-- Adding a new object with the default id keeps the invariant; the id it gets is from
2 on and named an empty slot. -/
theorem regInv_add (s : TServer) (p : Nat) (hinv : RegInv s) (hp : p ∉ s.playerList) :
    (addPlayer s p none).1 = true ∧ RegInv (addPlayer s p none).2
      ∧ (addPlayer s p none).2.idOf p = ((getFreePlayerId s).1 : Int)
      ∧ (addPlayer s p none).2.playerList = s.playerList ++ [p] := by
  obtain ⟨h1, h2, h3, h4, h5, h6, h7, h8⟩ := hinv
  obtain ⟨g1, g2, g3, g3b, g4, g5⟩ := getFreePlayerId_ok s h1
  have hadd : addPlayer s p none = (true, { (getFreePlayerId s).2 with
      idOf := Function.update (getFreePlayerId s).2.idOf p ((getFreePlayerId s).1 : Int)
      playerIds := (getFreePlayerId s).2.playerIds.set (getFreePlayerId s).1 (some p)
      playerList := (getFreePlayerId s).2.playerList ++ [p] }) := rfl
  have hid : (getFreePlayerId s).2.idOf = s.idOf := by rw [g5]
  have hlist : (getFreePlayerId s).2.playerList = s.playerList := by rw [g5]
  have hdel : (getFreePlayerId s).2.deletedPlayers = s.deletedPlayers := by rw [g5]
  rw [hadd]
  refine ⟨rfl, ?_, ?_, ?_⟩
  · refine ⟨?_, ?_, ?_, ?_, ?_, ?_, ?_, ?_⟩
    · show 2 ≤ ((getFreePlayerId s).2.playerIds.set _ _).length
      rw [List.length_set]
      omega
    · show ((getFreePlayerId s).2.playerIds.set _ _).getD 0 none = none
      rw [getD_set_ids, if_neg (by omega), g4]
      exact h2
    · show ((getFreePlayerId s).2.playerIds.set _ _).getD 1 none = none
      rw [getD_set_ids, if_neg (by omega), g4]
      exact h3
    · intro i q hq
      have hq1 : ((getFreePlayerId s).2.playerIds.set (getFreePlayerId s).1 (some p)).getD i none
          = some q := hq
      rw [getD_set_ids] at hq1
      show Function.update (getFreePlayerId s).2.idOf p ((getFreePlayerId s).1 : Int) q = (i : Int)
        ∧ q ∈ (getFreePlayerId s).2.playerList ++ [p]
      rw [hid, hlist]
      split_ifs at hq1 with hc
      · have hpq : p = q := Option.some.inj hq1
        subst hpq
        rw [Function.update_same, hc.1]
        exact ⟨rfl, List.mem_append_right _ (List.mem_singleton.mpr rfl)⟩
      · rw [g4] at hq1
        obtain ⟨e1, e2⟩ := h4 i q hq1
        have hne : q ≠ p := fun hc2 => hp (hc2 ▸ e2)
        rw [Function.update_noteq hne]
        exact ⟨e1, List.mem_append_left _ e2⟩
    · intro q hq
      have hq1 : q ∈ (getFreePlayerId s).2.playerList ++ [p] := hq
      rw [hlist] at hq1
      show 0 ≤ Function.update (getFreePlayerId s).2.idOf p ((getFreePlayerId s).1 : Int) q
        ∧ ((getFreePlayerId s).2.playerIds.set (getFreePlayerId s).1 (some p)).getD
            (Function.update (getFreePlayerId s).2.idOf p ((getFreePlayerId s).1 : Int) q).toNat
            none = some q
      rw [hid]
      by_cases hqp : q = p
      · subst hqp
        rw [Function.update_same, getD_set_ids]
        simp only [Int.toNat_ofNat, true_and]
        rw [if_pos g2]
        exact ⟨Int.natCast_nonneg _, rfl⟩
      · rw [Function.update_noteq hqp]
        have hql : q ∈ s.playerList := by
          rcases List.mem_append.mp hq1 with h | h
          · exact h
          · exact absurd (List.mem_singleton.mp h) hqp
        obtain ⟨e1, e2⟩ := h5 q hql
        refine ⟨e1, ?_⟩
        rw [getD_set_ids]
        have hne : ¬ ((getFreePlayerId s).1 = (s.idOf q).toNat
            ∧ (getFreePlayerId s).1 < (getFreePlayerId s).2.playerIds.length) := by
          intro hc
          rw [← hc.1, g3b] at e2
          exact absurd e2 (by simp)
        rw [if_neg hne, g4]
        exact e2
    · show ((getFreePlayerId s).2.playerList ++ [p]).Nodup
      rw [hlist]
      exact List.nodup_append.mpr ⟨h6, List.nodup_singleton p, by
        intro a ha hb
        exact hp ((List.mem_singleton.mp hb) ▸ ha)⟩
    · show (getFreePlayerId s).2.deletedPlayers.Nodup
      rw [hdel]
      exact h7
    · intro q hq
      have hq1 : q ∈ (getFreePlayerId s).2.deletedPlayers := hq
      rw [hdel] at hq1
      show q ∈ (getFreePlayerId s).2.playerList ++ [p]
      rw [hlist]
      exact List.mem_append_left _ (h8 q hq1)
  · show Function.update (getFreePlayerId s).2.idOf p ((getFreePlayerId s).1 : Int) p = _
    rw [Function.update_same]
  · show (getFreePlayerId s).2.playerList ++ [p] = _
    rw [hlist]

theorem regInv_del (s : TServer) (p : Nat) (hinv : RegInv s) (hp : p ∈ s.playerList) :
    RegInv (deletePlayer s (some p)).2 := by
  obtain ⟨h1, h2, h3, h4, h5, h6, h7, h8⟩ := hinv
  unfold deletePlayer
  simp only []
  split_ifs with hm
  · exact ⟨h1, h2, h3, h4, h5, h6, h7, h8⟩
  · refine ⟨h1, h2, h3, h4, h5, h6, ?_, ?_⟩
    · exact List.nodup_append.mpr ⟨h7, List.nodup_singleton p, by
        intro a ha hb
        exact hm ((List.mem_singleton.mp hb) ▸ ha)⟩
    · intro q hq
      rcases List.mem_append.mp hq with h | h
      · exact h8 q h
      · exact (List.mem_singleton.mp h) ▸ hp

/-! ## Deferred deletion -/

/-- One round of the cleanup loop on a marked session that is not held back. -/
theorem cleanupOne_removes (env : Env) (s : TServer) (p : Nat) (hinv : RegInv s)
    (hp : p ∈ s.deletedPlayers) (hh : heldBack env s p = false) :
    ∃ s1, cleanupOne env s p = some s1 ∧ RegInv s1
      ∧ s1.playerList = s.playerList.filter (fun q => q != p)
      ∧ s1.deletedPlayers = s.deletedPlayers.filter (fun q => q != p)
      ∧ s1.playerIds = s.playerIds.set (s.idOf p).toNat none
      ∧ s1.idOf = s.idOf ∧ s1.scriptReferenced = s.scriptReferenced
      ∧ s1.listNotified = s.listNotified := by
  obtain ⟨h1, h2, h3, h4, h5, h6, h7, h8⟩ := hinv
  obtain ⟨hid0, hslot⟩ := h5 p (h8 p hp)
  have hlt : (s.idOf p).toNat < s.playerIds.length := getD_some_lt _ _ _ hslot
  have hrun : cleanupOne env s p = some { s with
      playerIds := s.playerIds.set (s.idOf p).toNat none
      unregistered := s.unregistered ++ s.playerList.filter (fun q => q == p)
      playerList := s.playerList.filter (fun q => q != p)
      deletedPlayers := s.deletedPlayers.filter (fun q => q != p) } := by
    unfold cleanupOne
    have hh2 : (env.v8npcserver && s.scriptReferenced p) = false := hh
    rw [hh2]
    simp only [Bool.false_eq_true, if_false]
    rw [if_pos ⟨hid0, hlt⟩]
  refine ⟨_, hrun, ?_, rfl, rfl, rfl, rfl, rfl, rfl⟩
  refine ⟨?_, ?_, ?_, ?_, ?_, ?_, ?_, ?_⟩
  · show 2 ≤ (s.playerIds.set _ _).length
    rw [List.length_set]
    exact h1
  · show (s.playerIds.set _ _).getD 0 none = none
    rw [getD_set_ids]
    split_ifs
    · rfl
    · exact h2
  · show (s.playerIds.set _ _).getD 1 none = none
    rw [getD_set_ids]
    split_ifs
    · rfl
    · exact h3
  · intro i q hq
    have hq1 : (s.playerIds.set (s.idOf p).toNat none).getD i none = some q := hq
    rw [getD_set_ids] at hq1
    by_cases hc : (s.idOf p).toNat = i ∧ (s.idOf p).toNat < s.playerIds.length
    · rw [if_pos hc] at hq1
      exact absurd hq1 (by simp)
    · rw [if_neg hc] at hq1
      obtain ⟨e1, e2⟩ := h4 i q hq1
      refine ⟨e1, ?_⟩
      show q ∈ s.playerList.filter (fun q => q != p)
      rw [List.mem_filter]
      refine ⟨e2, ?_⟩
      simp only [bne_iff_ne, ne_eq]
      intro hqp
      subst hqp
      exact hc ⟨by omega, hlt⟩
  · intro q hq
    have hq1 : q ∈ s.playerList.filter (fun q => q != p) := hq
    rw [List.mem_filter] at hq1
    obtain ⟨hql, hqp⟩ := hq1
    simp only [bne_iff_ne, ne_eq] at hqp
    obtain ⟨e1, e2⟩ := h5 q hql
    refine ⟨e1, ?_⟩
    show (s.playerIds.set (s.idOf p).toNat none).getD (s.idOf q).toNat none = some q
    rw [getD_set_ids]
    have hne : ¬ ((s.idOf p).toNat = (s.idOf q).toNat ∧ (s.idOf p).toNat < s.playerIds.length) := by
      intro hc
      rw [← hc.1, hslot] at e2
      exact hqp (Option.some.inj e2).symm
    rw [if_neg hne]
    exact e2
  · exact h6.filter _
  · exact h7.filter _
  · intro q hq
    have hq1 : q ∈ s.deletedPlayers.filter (fun q => q != p) := hq
    rw [List.mem_filter] at hq1
    show q ∈ s.playerList.filter (fun q => q != p)
    rw [List.mem_filter]
    exact ⟨h8 q hq1.1, hq1.2⟩

/-- The cleanup loop over marked sessions `l`: it returns and keeps the invariant; it
erases from the player list and from the marks exactly the sessions of `l` that are not
held back, empties exactly their id slots, and touches nothing else. -/
theorem cleanupLoop_spec (env : Env) (l : List Nat) :
    ∀ s, RegInv s → (∀ p ∈ l, p ∈ s.deletedPlayers) → l.Nodup →
      ∃ s1, cleanupLoop env l s = some s1 ∧ RegInv s1
        ∧ s1.playerList
            = s.playerList.filter (fun q => !(decide (q ∈ l) && !heldBack env s q))
        ∧ s1.deletedPlayers
            = s.deletedPlayers.filter (fun q => !(decide (q ∈ l) && !heldBack env s q))
        ∧ s1.playerIds.length = s.playerIds.length
        ∧ (∀ i : Nat, (∃ q ∈ l, heldBack env s q = false ∧ s.idOf q = (i : Int)) →
            s1.playerIds.getD i none = none)
        ∧ (∀ i : Nat, (¬ ∃ q ∈ l, heldBack env s q = false ∧ s.idOf q = (i : Int)) →
            s1.playerIds.getD i none = s.playerIds.getD i none)
        ∧ s1.idOf = s.idOf ∧ s1.scriptReferenced = s.scriptReferenced
        ∧ s1.listNotified = s.listNotified := by
  induction l with
  | nil =>
    intro s hinv _ _
    refine ⟨s, rfl, hinv, ?_, ?_, rfl, ?_, fun _ _ => rfl, rfl, rfl, rfl⟩
    · simp
    · simp
    · rintro i ⟨q, hq, _⟩
      exact absurd hq (List.not_mem_nil q)
  | cons p rest ih =>
    intro s hinv hsub hnd
    have hp : p ∈ s.deletedPlayers := hsub p (List.mem_cons_self p rest)
    have hprest : p ∉ rest := (List.nodup_cons.mp hnd).1
    have hndr : rest.Nodup := (List.nodup_cons.mp hnd).2
    cases hh : heldBack env s p with
    | true =>
      have hone : cleanupOne env s p = some s := by
        unfold cleanupOne
        have hh2 : (env.v8npcserver && s.scriptReferenced p) = true := hh
        rw [hh2]
        simp
      obtain ⟨s1, hrun, hinv1, e1, e2, e3, e4, e5, e6, e7, e8⟩ := ih s hinv
        (fun q hq => hsub q (List.mem_cons_of_mem p hq)) hndr
      have hpred : (fun q => !(decide (q ∈ p :: rest) && !heldBack env s q))
          = (fun q => !(decide (q ∈ rest) && !heldBack env s q)) := by
        funext q
        by_cases hqp : q = p
        · subst hqp
          simp [hh]
        · simp [hqp]
      refine ⟨s1, ?_, hinv1, ?_, ?_, e3, ?_, ?_, e6, e7, e8⟩
      · unfold cleanupLoop
        rw [hone]
        exact hrun
      · rw [hpred]; exact e1
      · rw [hpred]; exact e2
      · rintro i ⟨q, hq, hq1, hq2⟩
        rcases List.mem_cons.mp hq with hqp | hqr
        · subst hqp
          rw [hh] at hq1
          exact absurd hq1 (by simp)
        · exact e4 i ⟨q, hqr, hq1, hq2⟩
      · intro i hno
        exact e5 i (fun ⟨q, hq, hq1, hq2⟩ => hno ⟨q, List.mem_cons_of_mem p hq, hq1, hq2⟩)
    | false =>
      obtain ⟨s0, hone, hinv0, f1, f2, f3, f4, f5, f6⟩ := cleanupOne_removes env s p hinv hp hh
      have hheld : ∀ q, heldBack env s0 q = heldBack env s q := by
        intro q
        unfold heldBack
        rw [f5]
      have hsub0 : ∀ q ∈ rest, q ∈ s0.deletedPlayers := by
        intro q hq
        rw [f2, List.mem_filter]
        refine ⟨hsub q (List.mem_cons_of_mem p hq), ?_⟩
        simp only [bne_iff_ne, ne_eq]
        intro hc
        exact hprest (hc ▸ hq)
      obtain ⟨s1, hrun, hinv1, e1, e2, e3, e4, e5, e6, e7, e8⟩ := ih s0 hinv0 hsub0 hndr
      have hpred : ∀ q, ((q != p) && !(decide (q ∈ rest) && !heldBack env s0 q))
          = !(decide (q ∈ p :: rest) && !heldBack env s q) := by
        intro q
        rw [hheld]
        by_cases hqp : q = p
        · subst hqp
          simp [hh]
        · simp [hqp]
      obtain ⟨_, _, _, _, h5, _, _, h8⟩ := hinv
      obtain ⟨hid0, hslot⟩ := h5 p (h8 p hp)
      have hlt : (s.idOf p).toNat < s.playerIds.length := getD_some_lt _ _ _ hslot
      refine ⟨s1, ?_, hinv1, ?_, ?_, ?_, ?_, ?_, by rw [e6, f4], by rw [e7, f5],
        by rw [e8, f6]⟩
      · unfold cleanupLoop
        rw [hone]
        exact hrun
      · rw [e1, f1, List.filter_filter]
        congr 1
        funext q
        rw [← hpred q, Bool.and_comm]
      · rw [e2, f2, List.filter_filter]
        congr 1
        funext q
        rw [← hpred q, Bool.and_comm]
      · rw [e3, f3, List.length_set]
      · rintro i ⟨q, hq, hq1, hq2⟩
        rcases List.mem_cons.mp hq with hqp | hqr
        · subst hqp
          by_cases hex : ∃ q ∈ rest, heldBack env s0 q = false ∧ s0.idOf q = (i : Int)
          · exact e4 i hex
          · rw [e5 i hex, f3, getD_set_ids, if_pos ⟨by omega, hlt⟩]
        · exact e4 i ⟨q, hqr, by rw [hheld]; exact hq1, by rw [f4]; exact hq2⟩
      · intro i hno
        have hno0 : ¬ ∃ q ∈ rest, heldBack env s0 q = false ∧ s0.idOf q = (i : Int) := by
          rintro ⟨q, hq, hq1, hq2⟩
          exact hno ⟨q, List.mem_cons_of_mem p hq, by rw [← hheld]; exact hq1,
            by rw [← f4]; exact hq2⟩
        rw [e5 i hno0, f3, getD_set_ids]
        have hne : ¬ ((s.idOf p).toNat = i ∧ (s.idOf p).toNat < s.playerIds.length) := by
          intro hc
          exact hno ⟨p, List.mem_cons_self p rest, hh, by omega⟩
        rw [if_neg hne]

theorem regInv_run (env : Env) (ops : List ServerOp) :
    ∀ s, RegInv s → OpsOk env s ops → ∃ s1, runOps env s ops = some s1 ∧ RegInv s1 := by
  induction ops with
  | nil =>
    intro s hinv _
    exact ⟨s, rfl, hinv⟩
  | cons op rest ih =>
    intro s hinv hok
    have hstep : ∃ s0, applyOp env s op = some s0 ∧ RegInv s0 := by
      cases op with
      | add p => exact ⟨_, rfl, (regInv_add s p hinv hok.1).2.1⟩
      | del p => exact ⟨_, rfl, regInv_del s p hinv hok.1⟩
      | tick =>
        obtain ⟨s1, h1, h2, _⟩ := cleanupLoop_spec env s.deletedPlayers s hinv (fun _ h => h)
          hinv.2.2.2.2.2.2.1
        exact ⟨s1, h1, h2⟩
    obtain ⟨s0, h0, hinv0⟩ := hstep
    have hok0 : OpsOk env s0 rest := by
      have h := hok.2
      rw [h0] at h
      exact h
    obtain ⟨s1, h1, hinv1⟩ := ih s0 hinv0 hok0
    refine ⟨s1, ?_, hinv1⟩
    unfold runOps
    rw [h0]
    exact h1

theorem regInv_ids (s : TServer) (hinv : RegInv s) :
    (∀ p ∈ s.playerList, ∀ q ∈ s.playerList, s.idOf p = s.idOf q → p = q)
      ∧ (∀ p ∈ s.playerList, 2 ≤ s.idOf p) := by
  obtain ⟨h1, h2, h3, h4, h5, h6, h7, h8⟩ := hinv
  constructor
  · intro p hp q hq heq
    have e1 := (h5 p hp).2
    have e2 := (h5 q hq).2
    rw [heq, e2] at e1
    exact (Option.some.inj e1).symm
  · intro p hp
    obtain ⟨e0, e1⟩ := h5 p hp
    by_contra hc
    have hcase : (s.idOf p).toNat = 0 ∨ (s.idOf p).toNat = 1 := by omega
    rcases hcase with h | h
    · rw [h, h2] at e1
      exact absurd e1 (by simp)
    · rw [h, h3] at e1
      exact absurd e1 (by simp)

/-- C13. Session ids are unique and never reserved. Start from the registry `init` leaves
(two reserved slots; with the script engine also the NPC-server session) and apply any
sequence of events: a new session object added with the default id, a listed session
asking for its deletion, a cleanup. The run is defined and its last state keeps the
invariant: the id table has at least 2 slots, a slot `i` that holds session `p` implies
that the id of `p` is `i`, no two sessions of the player list share an id, every listed
session has an id of at least 2, and the id `getFreePlayerId` would hand out next is at
least 2 and names an empty slot, which is the id the next added session gets. -/
theorem session_ids_unique (env : Env) (npc : Nat) (ops : List ServerOp)
    (hok : OpsOk env (TServer.init env TServer.fresh npc) ops) :
    ∃ s, runOps env (TServer.init env TServer.fresh npc) ops = some s
      ∧ RegInv s
      ∧ 2 ≤ s.playerIds.length
      ∧ (∀ i p, s.playerIds.getD i none = some p → s.idOf p = (i : Int))
      ∧ (∀ p ∈ s.playerList, ∀ q ∈ s.playerList, s.idOf p = s.idOf q → p = q)
      ∧ (∀ p ∈ s.playerList, 2 ≤ s.idOf p)
      ∧ 2 ≤ (getFreePlayerId s).1
      ∧ s.playerIds.getD (getFreePlayerId s).1 none = none
      ∧ (∀ p, p ∉ s.playerList → (addPlayer s p none).1 = true
          ∧ (addPlayer s p none).2.idOf p = ((getFreePlayerId s).1 : Int)) := by
  obtain ⟨s, hrun, hinv⟩ := regInv_run env ops _ (regInv_init env npc) hok
  obtain ⟨g1, _, _, g4, _, _⟩ := getFreePlayerId_ok s hinv.1
  refine ⟨s, hrun, hinv, hinv.1, fun i p h => (hinv.2.2.2.1 i p h).1, (regInv_ids s hinv).1,
    (regInv_ids s hinv).2, g1, g4, fun p hp => ?_⟩
  exact ⟨(regInv_add s p hinv hp).1, (regInv_add s p hinv hp).2.2.1⟩

/-- C13 on a short run: three sessions join, the second asks twice for its deletion, the
cleanup runs and a fourth session joins: it gets the released id 3. -/
theorem session_ids_unique_witness :
    ∃ s, runOps sampleEnv (TServer.init sampleEnv TServer.fresh 99)
          [ServerOp.add 7, ServerOp.add 8, ServerOp.add 9, ServerOp.del 8, ServerOp.del 8,
            ServerOp.tick, ServerOp.add 10] = some s
      ∧ s.playerList = [7, 9, 10] ∧ s.idOf 7 = 2 ∧ s.idOf 9 = 4 ∧ s.idOf 10 = 3
      ∧ ∀ p ∈ s.playerList, ∀ q ∈ s.playerList, s.idOf p = s.idOf q → p = q := by
  have hok : OpsOk sampleEnv (TServer.init sampleEnv TServer.fresh 99)
      [ServerOp.add 7, ServerOp.add 8, ServerOp.add 9, ServerOp.del 8, ServerOp.del 8,
        ServerOp.tick, ServerOp.add 10] := by
    refine ⟨?_, ?_, ?_, ?_, ?_, trivial, ?_, trivial⟩ <;> simp [ServerOp.ok] <;> decide
  obtain ⟨s, hrun, _, _, _, huniq, _⟩ := session_ids_unique sampleEnv 99 _ hok
  obtain ⟨s0, h0, e1, e2, e3, e4⟩ : ∃ s0, runOps sampleEnv (TServer.init sampleEnv TServer.fresh 99)
      [ServerOp.add 7, ServerOp.add 8, ServerOp.add 9, ServerOp.del 8, ServerOp.del 8,
        ServerOp.tick, ServerOp.add 10] = some s0
      ∧ s0.playerList = [7, 9, 10] ∧ s0.idOf 7 = 2 ∧ s0.idOf 9 = 4 ∧ s0.idOf 10 = 3 :=
    ⟨_, rfl, rfl, rfl, rfl, rfl⟩
  have hs : s = s0 := Option.some.inj (hrun.symm.trans h0)
  subst hs
  exact ⟨s, hrun, e1, e2, e3, e4, huniq⟩

theorem regInv_sampleServer : RegInv sampleServer := by
  refine ⟨by decide, rfl, rfl, ?_, ?_, by decide, by decide, by decide⟩
  · intro i p h
    rcases i with _ | _ | _ | _ | i
    · have h2 : (none : Option Nat) = some p := h
      exact absurd h2 (by simp)
    · have h2 : (none : Option Nat) = some p := h
      exact absurd h2 (by simp)
    · have hp : p = 7 := (Option.some.inj h).symm
      subst hp
      exact ⟨rfl, by decide⟩
    · have hp : p = 8 := (Option.some.inj h).symm
      subst hp
      exact ⟨rfl, by decide⟩
    · have h2 : (none : Option Nat) = some p := h
      exact absurd h2 (by simp)
  · intro p hp
    have hp2 : p = 7 ∨ p = 8 := by simpa [sampleServer] using hp
    rcases hp2 with rfl | rfl
    · exact ⟨by decide, rfl⟩
    · exact ⟨by decide, rfl⟩

/-- C15 (the claim as stated fails). On a server built with the script engine, session 7
of the sample registry is marked for deletion while its script object is referenced: the
cleanup returns, and session 7 is still in the player list, in its id slot and among
the marks. -/
theorem marked_session_survives_cleanup :
    ∃ s1, cleanupDeletedPlayers sampleScriptEnv sampleServer = some s1
      ∧ 7 ∈ sampleServer.deletedPlayers ∧ 7 ∈ s1.playerList
      ∧ s1.playerIds.getD 2 none = some 7 ∧ 7 ∈ s1.deletedPlayers :=
  ⟨_, rfl, by decide, by decide, rfl, by decide⟩

/-- C15 (amended). Deferred deletion. `deletePlayer` only marks: player list, id table
and ids are unchanged, the session is marked afterwards, the server list is notified
exactly when the session was not marked before, and a second call changes nothing. On a
registry that meets the invariant the cleanup returns; it erases from the player list
and from the marks exactly the marked sessions that are not held back, empties exactly
the id slots of those sessions, and leaves every other session, slot and id unchanged.
A marked session is held back only on a server built with the script engine while its
script object is referenced; without the script engine every marked session goes. -/
theorem deferred_deletion (env : Env) (s : TServer) (p : Nat) (hinv : RegInv s) :
    ((deletePlayer s (some p)).2.playerList = s.playerList
      ∧ (deletePlayer s (some p)).2.playerIds = s.playerIds
      ∧ (deletePlayer s (some p)).2.idOf = s.idOf
      ∧ p ∈ (deletePlayer s (some p)).2.deletedPlayers
      ∧ (deletePlayer s (some p)).2.listNotified
          = (if p ∈ s.deletedPlayers then s.listNotified else s.listNotified ++ [p])
      ∧ deletePlayer (deletePlayer s (some p)).2 (some p) = (true, (deletePlayer s (some p)).2))
    ∧ (∃ s1, cleanupDeletedPlayers env s = some s1
      ∧ s1.playerList = s.playerList.filter
          (fun q => !(decide (q ∈ s.deletedPlayers) && !heldBack env s q))
      ∧ s1.deletedPlayers = s.deletedPlayers.filter (fun q => heldBack env s q)
      ∧ s1.playerIds.length = s.playerIds.length
      ∧ (∀ i : Nat, (∃ q ∈ s.deletedPlayers, heldBack env s q = false ∧ s.idOf q = (i : Int)) →
          s1.playerIds.getD i none = none)
      ∧ (∀ i : Nat, (¬ ∃ q ∈ s.deletedPlayers, heldBack env s q = false ∧ s.idOf q = (i : Int)) →
          s1.playerIds.getD i none = s.playerIds.getD i none)
      ∧ s1.idOf = s.idOf
      ∧ (env.v8npcserver = false → s1.deletedPlayers = []
          ∧ s1.playerList = s.playerList.filter (fun q => !decide (q ∈ s.deletedPlayers)))) := by
  constructor
  · by_cases hm : p ∈ s.deletedPlayers
    · have hd : deletePlayer s (some p) = (true, s) := by
        show (if p ∈ s.deletedPlayers then (true, s) else _) = _
        rw [if_pos hm]
      rw [hd, if_pos hm]
      exact ⟨rfl, rfl, rfl, hm, rfl, hd⟩
    · have hd : deletePlayer s (some p) = (true, { s with
          deletedPlayers := s.deletedPlayers ++ [p]
          listNotified := s.listNotified ++ [p] }) := by
        show (if p ∈ s.deletedPlayers then (true, s) else _) = _
        rw [if_neg hm]
      have hin : p ∈ s.deletedPlayers ++ [p] := List.mem_append_right _ (List.mem_singleton.mpr rfl)
      rw [hd, if_neg hm]
      refine ⟨rfl, rfl, rfl, hin, rfl, ?_⟩
      show (if p ∈ s.deletedPlayers ++ [p] then _ else _) = _
      rw [if_pos hin]
  · obtain ⟨s1, hrun, _, e1, e2, e3, e4, e5, e6, _, _⟩ := cleanupLoop_spec env s.deletedPlayers s
      hinv (fun _ h => h) hinv.2.2.2.2.2.2.1
    have hdel : s1.deletedPlayers = s.deletedPlayers.filter (fun q => heldBack env s q) := by
      rw [e2]
      apply List.filter_congr
      intro q hq
      simp [hq]
    refine ⟨s1, hrun, e1, hdel, e3, e4, e5, e6, fun hv => ?_⟩
    have hnone : ∀ q, heldBack env s q = false := by
      intro q
      unfold heldBack
      rw [hv]
      rfl
    constructor
    · rw [hdel]
      simp [hnone]
    · rw [e1]
      apply List.filter_congr
      intro q _
      simp [hnone]

/-- C15 (amended) at the sample registry without the script engine: the marked session 7
goes, session 8 and its slot stay. -/
theorem deferred_deletion_witness :
    ∃ s1, cleanupDeletedPlayers sampleEnv sampleServer = some s1
      ∧ s1.playerList = [8] ∧ s1.deletedPlayers = []
      ∧ s1.playerIds.getD 3 none = some 8 := by
  obtain ⟨_, s1, hrun, e1, _, _, _, e5, _, e7⟩ := deferred_deletion sampleEnv sampleServer 7
    regInv_sampleServer
  refine ⟨s1, hrun, ?_, (e7 rfl).1, ?_⟩
  · rw [(e7 rfl).2]
    decide
  · rw [e5 3 (by
      rintro ⟨q, hq, _, hq2⟩
      have hq7 : q = 7 := by simpa [sampleServer] using hq
      subst hq7
      exact absurd hq2 (by decide))]
    rfl

/-! ## The login handler and the fatal paths -/

theorem sendPacket_disc (ptr : Nat) (text : Bytes) :
    sendPacket ptr (writeGChar PLO_DISCMESSAGE ++ text) true
        = [Event.queued ptr (writeGChar PLO_DISCMESSAGE ++ text)]
      ∨ sendPacket ptr (writeGChar PLO_DISCMESSAGE ++ text) true
        = [Event.queued ptr (writeGChar PLO_DISCMESSAGE ++ text ++ [10])] := by
  have hw : writeGChar PLO_DISCMESSAGE = [48] := by decide
  rw [hw]
  unfold sendPacket
  by_cases h : (true && (([48] : Bytes) ++ text).getLast? != some 10) = true
  · right
    simp only [List.cons_append, List.nil_append, List.isEmpty_cons] at h ⊢
    simp [h]
  · left
    simp only [List.cons_append, List.nil_append, List.isEmpty_cons] at h ⊢
    simp [h]

theorem discMessage_queued (c : Conn) (text : Bytes) (ht : text ≠ []) :
    DiscQueued c.w (discMessage c text).w := by
  refine ⟨sendPacket c.w.self.ptr (writeGChar PLO_DISCMESSAGE ++ text) true, text, rfl, ht, ?_⟩
  rcases sendPacket_disc c.w.self.ptr text with h | h
  · left
    rw [h]
    exact List.mem_singleton.mpr rfl
  · right
    rw [h]
    exact List.mem_singleton.mpr rfl

theorem discQueued_of_out (w0 w w1 : World) (es : List Event) (hout : w.out = w0.out ++ es)
    (hptr : w.self.ptr = w0.self.ptr) (h : DiscQueued w w1) : DiscQueued w0 w1 := by
  obtain ⟨es1, reason, ho, hr, hq⟩ := h
  refine ⟨es ++ es1, reason, ?_, hr, ?_⟩
  · rw [ho, hout, List.append_assoc]
  · rw [hptr] at hq
    rcases hq with hq | hq
    · exact Or.inl (List.mem_append_right _ hq)
    · exact Or.inr (List.mem_append_right _ hq)

theorem str_ne_nil_of_length (s : String) (h : 0 < s.length) : str s ≠ [] := by
  intro he
  have hl : (str s).length = s.length := by simp [str]
  rw [he] at hl
  simp at hl
  omega

theorem discMessage_fields (c : Conn) (text : Bytes) :
    (discMessage c text).toServerList = c.toServerList
    ∧ (discMessage c text).in_codec = c.in_codec
    ∧ (discMessage c text).w.self = c.w.self := ⟨rfl, rfl, rfl⟩

/-- The checks behind the account name: a failure queues a disconnect message and sends
nothing to the server list; the session data and the codec stay. -/
theorem loginChecks_spec (net : NetEnv) (c : Conn) (password : Bytes) :
    ((loginChecks net c password).1 = false →
        DiscQueued c.w (loginChecks net c password).2.w
        ∧ (loginChecks net c password).2.toServerList = c.toServerList)
    ∧ (loginChecks net c password).2.w.self = c.w.self
    ∧ (loginChecks net c password).2.in_codec = c.in_codec := by
  unfold loginChecks
  split
  · exact ⟨fun _ => ⟨discMessage_queued c _ (str_ne_nil_of_length _ (by decide)), rfl⟩, rfl, rfl⟩
  · split
    · exact ⟨fun _ => ⟨discMessage_queued c _ (str_ne_nil_of_length _ (by decide)), rfl⟩,
        rfl, rfl⟩
    · split
      · refine ⟨fun _ => ⟨discMessage_queued c _ ?_, rfl⟩, rfl, rfl⟩
        intro he
        exact str_ne_nil_of_length _ (by decide) (List.append_eq_nil.mp he).1
      · split
        · exact ⟨fun _ => ⟨discMessage_queued c _ (str_ne_nil_of_length _ (by decide)), rfl⟩,
            rfl, rfl⟩
        · exact ⟨fun h => absurd h (by simp), rfl, rfl⟩

theorem loginRole_some {type gen : Nat} {text : Bytes} {getKey : Bool}
    (h : loginRole type = some (gen, text, getKey)) :
    type ∈ concreteRoles
    ∧ gen = (if type = PLTYPE_CLIENT ∨ type = PLTYPE_RC ∨ type = PLTYPE_NPCSERVER
        ∨ type = PLTYPE_NC then 3 else if type = PLTYPE_CLIENT2 then 4 else 5) := by
  unfold loginRole at h
  repeat' split at h
  all_goals simp only [Option.some.injEq, Prod.mk.injEq, reduceCtorEq] at h
  all_goals
    obtain ⟨hg, -, -⟩ := h
    subst hg
    rename_i ht
    subst ht
    exact ⟨by decide, by decide⟩

theorem loginRole_none {type : Nat} (h : loginRole type = none) : type ∉ concreteRoles := by
  unfold loginRole at h
  repeat' split at h
  all_goals first
    | (simp only [reduceCtorEq] at h; done)
    | simp_all [concreteRoles]

/-- The shape of every run of `msgPLI_LOGIN`: an unknown role ends in a disconnect message,
a known role in the checks on a connection that carries the role and its generation. -/
theorem login_cases (env : Env) (net : NetEnv) (c : Conn) (pPacket : Bytes)
    (r : Bool × Conn) (h : msgPLI_LOGIN env net c pPacket = some r) :
    ∃ type, shl1 (readGChar pPacket).1 = some type ∧
      ((loginRole type = none ∧ r.1 = false ∧ DiscQueued c.w r.2.w
          ∧ r.2.toServerList = c.toServerList ∧ r.2.w.self.type = type)
      ∨ (∃ gen text getKey c3 password, loginRole type = some (gen, text, getKey)
          ∧ r = loginChecks net c3 password
          ∧ c3.w.self.type = type ∧ c3.in_codec.gen = gen
          ∧ c3.toServerList = c.toServerList
          ∧ c3.w.self.ptr = c.w.self.ptr
          ∧ ∃ es, c3.w.out = c.w.out ++ es)) := by
  unfold msgPLI_LOGIN at h
  simp only [] at h
  split at h
  · exact absurd h (by simp)
  · rename_i type htype
    refine ⟨type, htype, ?_⟩
    split at h
    · rename_i hrole
      left
      have hr := (Option.some.inj h).symm
      subst hr
      refine ⟨hrole, rfl, ?_, rfl, rfl⟩
      refine discQueued_of_out c.w _ _
        [Event.serverlog (str "[" ++ env.serverName ++ str "] :: New login:\t"),
          Event.serverlog (str "Unknown (" ++ intText (toS32 type) ++ str ")\n")]
        ?_ ?_ (discMessage_queued _ _ ?_)
      · simp [Conn.emit, World.emit]
      · rfl
      · intro he
        have h1 := (List.append_eq_nil.mp he).1
        have h2 := (List.append_eq_nil.mp h1).1
        exact str_ne_nil_of_length _ (by decide) h2
    · rename_i gen text getKey hrole
      right
      have hr := (Option.some.inj h).symm
      refine ⟨gen, text, getKey, _, _, hrole, hr, ?_, ?_, ?_, ?_, ?_⟩
      · split <;> rfl
      · split <;> rfl
      · split <;> rfl
      · split <;> rfl
      · split
        · exact ⟨_, by simp [Conn.emit, World.emit]; rfl⟩
        · exact ⟨_, by simp [Conn.emit, World.emit]; rfl⟩

theorem login_defined (env : Env) (net : NetEnv) (c : Conn) (pPacket : Bytes)
    (hshift : 0 ≤ (readGChar pPacket).1 ∧ (readGChar pPacket).1 < 31) :
    ∃ r, msgPLI_LOGIN env net c pPacket = some r := by
  cases hm : msgPLI_LOGIN env net c pPacket with
  | some r => exact ⟨r, rfl⟩
  | none =>
    exfalso
    unfold msgPLI_LOGIN at hm
    simp only [] at hm
    split at hm
    · rename_i hs
      unfold shl1 at hs
      rw [if_pos hshift] at hs
      exact absurd hs (by simp)
    · split at hm <;> exact absurd hm (by simp)

theorem shl1_some {n : Int} {type : Nat} (h : shl1 n = some type) : type = 2 ^ n.toNat := by
  unfold shl1 at h
  split at h
  · exact (Option.some.inj h).symm
  · exact absurd h (by simp)

/-- C18. Login promotes the session. For every login record whose role byte is a defined
shift count (0 to 30), `msgPLI_LOGIN` returns, and the role of the session is then the
shifted bit. If it returns true, the role is one of the seven concrete roles and not the
awaiting-login role, and the inbound generation is 3 for client, RC, NPC-server and NC, 4
for the 2.19 client and 5 for the 2.22 client and the new RC. If the role is none of the
seven, it returns false and nothing is sent to the server list; and `parsePacket` on a
session awaiting login returns false when the login handler does. -/
theorem login_promotes (env : Env) (net : NetEnv) (c : Conn) (pPacket : Bytes)
    (hshift : 0 ≤ (readGChar pPacket).1 ∧ (readGChar pPacket).1 < 31) :
    (∃ r, msgPLI_LOGIN env net c pPacket = some r
      ∧ r.2.w.self.type = 2 ^ (readGChar pPacket).1.toNat
      ∧ (r.1 = true →
          r.2.w.self.type ∈ concreteRoles ∧ r.2.w.self.type ≠ PLTYPE_AWAIT
          ∧ r.2.in_codec.gen
            = (if r.2.w.self.type = PLTYPE_CLIENT ∨ r.2.w.self.type = PLTYPE_RC
                  ∨ r.2.w.self.type = PLTYPE_NPCSERVER ∨ r.2.w.self.type = PLTYPE_NC then 3
                else if r.2.w.self.type = PLTYPE_CLIENT2 then 4 else 5))
      ∧ (r.2.w.self.type ∉ concreteRoles → r.1 = false ∧ r.2.toServerList = c.toServerList))
    ∧ (∀ (tbl : Nat → Handler) (frame : Bytes) (c1 : Conn), c.w.self.type = PLTYPE_AWAIT →
        msgPLI_LOGIN env net { c with packetCount := c.packetCount + 1 }
          (readString [10] frame).1 = some (false, c1) →
        parsePacket env net tbl c frame = some (false, c1)) := by
  constructor
  · obtain ⟨r, hr⟩ := login_defined env net c pPacket hshift
    obtain ⟨type, hs, hcase⟩ := login_cases env net c pPacket r hr
    have ht := shl1_some hs
    refine ⟨r, hr, ?_⟩
    rcases hcase with ⟨hnone, hfalse, -, hlist, htype⟩
      | ⟨gen, text, getKey, c3, password, hrole, hrc, htype, hgen, -, -, -⟩
    · refine ⟨by rw [htype, ht], ?_, fun _ => ⟨hfalse, hlist⟩⟩
      intro htrue
      rw [hfalse] at htrue
      exact absurd htrue (by simp)
    · have hspec := loginChecks_spec net c3 password
      rw [← hrc] at hspec
      have hself : r.2.w.self.type = type := by rw [hspec.2.1, htype]
      have hsome := loginRole_some hrole
      refine ⟨by rw [hself, ht], fun _ => ⟨?_, ?_, ?_⟩, fun hnot => ?_⟩
      · rw [hself]
        exact hsome.1
      · rw [hself]
        intro he
        have hm := hsome.1
        rw [he] at hm
        exact absurd hm (by decide)
      · rw [hspec.2.2, hgen, hself]
        exact hsome.2
      · rw [hself] at hnot
        exact absurd hsome.1 hnot
  · intro tbl frame c1 hawait hlogin
    unfold parsePacket
    rw [if_pos hawait, hlogin]

/-- Witness of C18: the sample login record of a client is accepted on the sample
server. -/
theorem login_promotes_witness :
    (0 ≤ (readGChar sampleLogin).1 ∧ (readGChar sampleLogin).1 < 31)
    ∧ ∃ r, msgPLI_LOGIN sampleEnv sampleNet sampleAwait sampleLogin = some r
      ∧ r.1 = true ∧ r.2.w.self.type = PLTYPE_CLIENT ∧ r.2.in_codec.gen = 3 := by
  have hshift : 0 ≤ (readGChar sampleLogin).1 ∧ (readGChar sampleLogin).1 < 31 := by decide
  refine ⟨hshift, ?_⟩
  obtain ⟨r, hr, htype, hroles, -⟩ :=
    (login_promotes sampleEnv sampleNet sampleAwait sampleLogin hshift).1
  obtain ⟨r0, hr0, htrue⟩ :
      ∃ r0, msgPLI_LOGIN sampleEnv sampleNet sampleAwait sampleLogin = some r0 ∧ r0.1 = true :=
    ⟨_, rfl, rfl⟩
  have he : r0 = r := Option.some.inj (hr0.symm.trans hr)
  subst he
  have hty : r0.2.w.self.type = PLTYPE_CLIENT := by
    rw [htype]
    decide
  refine ⟨r0, hr, htrue, hty, ?_⟩
  rw [(hroles htrue).2.2, hty]
  decide

theorem discMessage_text (c : Conn) (text : Bytes) :
    DiscText c.w (discMessage c text).w text := by
  refine ⟨sendPacket c.w.self.ptr (writeGChar PLO_DISCMESSAGE ++ text) true, rfl, ?_⟩
  rcases sendPacket_disc c.w.self.ptr text with h | h
  · left
    rw [h]
    exact List.mem_singleton.mpr rfl
  · right
    rw [h]
    exact List.mem_singleton.mpr rfl

theorem discText_of_out (w0 w w1 : World) (es : List Event) (text : Bytes)
    (hout : w.out = w0.out ++ es) (hptr : w.self.ptr = w0.self.ptr)
    (h : DiscText w w1 text) : DiscText w0 w1 text := by
  obtain ⟨es1, ho, hq⟩ := h
  refine ⟨es ++ es1, ?_, ?_⟩
  · rw [ho, hout, List.append_assoc]
  · rw [hptr] at hq
    rcases hq with hq | hq
    · exact Or.inl (List.mem_append_right _ hq)
    · exact Or.inr (List.mem_append_right _ hq)

/-- A failure of the checks behind the account name queues the disconnect message with
the reason text of its path. -/
theorem loginChecks_text (net : NetEnv) (c : Conn) (password : Bytes) (type : Nat) :
    (loginChecks net c password).1 = false →
      ∃ text, text ∈ (loginReasons net type).tail
        ∧ DiscText c.w (loginChecks net c password).2.w text := by
  unfold loginChecks
  split
  · exact fun _ => ⟨_, List.Mem.head _, discMessage_text c _⟩
  · split
    · exact fun _ => ⟨_, List.Mem.tail _ (List.Mem.head _), discMessage_text c _⟩
    · split
      · exact fun _ => ⟨_, List.Mem.tail _ (List.Mem.tail _ (List.Mem.head _)),
          discMessage_text c _⟩
      · split
        · exact fun _ => ⟨_, List.Mem.tail _ (List.Mem.tail _ (List.Mem.tail _
            (List.Mem.head _))), discMessage_text c _⟩
        · exact fun h => absurd h (by simp)

/-- The record of an unknown role ends in the disconnect message that names the role. -/
theorem login_unknown_text (env : Env) (net : NetEnv) (c : Conn) (pPacket : Bytes)
    (r : Bool × Conn) (type : Nat) (h : msgPLI_LOGIN env net c pPacket = some r)
    (ht : shl1 (readGChar pPacket).1 = some type) (hrole : loginRole type = none) :
    DiscText c.w r.2.w
      (str "Your client type is unknown.  Please inform the Graal Reborn staff.  Type: "
        ++ intText (toS32 type) ++ str ".") := by
  unfold msgPLI_LOGIN at h
  simp only [ht, hrole] at h
  have hr := (Option.some.inj h).symm
  subst hr
  refine discText_of_out c.w _ _
    [Event.serverlog (str "[" ++ env.serverName ++ str "] :: New login:\t"),
      Event.serverlog (str "Unknown (" ++ intText (toS32 type) ++ str ")\n")]
    _ ?_ ?_ (discMessage_text _ _)
  · simp [Conn.emit, World.emit]
  · rfl

/-- C19. Fatal login and invalid-packet paths are never silent: whenever `msgPLI_LOGIN`
returns false, the handler has queued to the session a disconnect-message packet that
carries one of the five reason texts of the login paths (unknown client type with the
role, server full, IP banned, client version not allowed with the allowed versions, login
server offline), and whenever `msgPLI_NULL` returns false it has queued the
disconnect-message packet with the text "Disconnected for sending invalid packets.".
Every one of these texts begins with a letter, so none of the packets is a bare opcode. -/
theorem fatal_paths_not_silent (env : Env) (net : NetEnv) (c : Conn) (pPacket : Bytes)
    (w : World) (pk : Bytes) :
    (∀ r, msgPLI_LOGIN env net c pPacket = some r → r.1 = false →
      ∃ type text, shl1 (readGChar pPacket).1 = some type
        ∧ text ∈ loginReasons net type ∧ DiscText c.w r.2.w text)
    ∧ ((msgPLI_NULL env w pk).1 = false → DiscText w (msgPLI_NULL env w pk).2 nullReason)
    ∧ (∀ type text, text ∈ loginReasons net type → ∃ t, text = 89 :: t ∨ text = 84 :: t)
    ∧ (∃ t, nullReason = 68 :: t) := by
  refine ⟨?_, ?_, ?_, ⟨_, rfl⟩⟩
  · intro r hr hfalse
    obtain ⟨type, htype, hcase⟩ := login_cases env net c pPacket r hr
    rcases hcase with ⟨hrole, -, -, -, -⟩
      | ⟨gen, text, getKey, c3, password, -, hrc, -, -, -, hptr, es, hout⟩
    · exact ⟨type, _, htype, List.Mem.head _,
        login_unknown_text env net c pPacket r type hr htype hrole⟩
    · obtain ⟨text, hmem, hd⟩ := loginChecks_text net c3 password type
        (by rw [← hrc]; exact hfalse)
      rw [← hrc] at hd
      exact ⟨type, text, htype, List.Mem.tail _ hmem,
        discText_of_out c.w c3.w r.2.w es text hout hptr hd⟩
  · intro hfalse
    unfold msgPLI_NULL at hfalse ⊢
    simp only [] at hfalse ⊢
    split
    · refine ⟨_, rfl, ?_⟩
      rcases sendPacket_disc w.self.ptr (str "Disconnected for sending invalid packets.")
        with h | h
      · left
        exact List.mem_append_right _ (by rw [h]; exact List.mem_singleton.mpr rfl)
      · right
        exact List.mem_append_right _ (by rw [h]; exact List.mem_singleton.mpr rfl)
    · rename_i hc
      rw [if_neg hc] at hfalse
      exact absurd hfalse (by simp)
  · intro type text hmem
    simp only [loginReasons, List.mem_cons, List.mem_singleton, List.not_mem_nil,
      or_false] at hmem
    rcases hmem with h | h | h | h | h <;> subst h
    · exact ⟨_, Or.inl rfl⟩
    · exact ⟨_, Or.inr rfl⟩
    · exact ⟨_, Or.inl rfl⟩
    · exact ⟨_, Or.inl rfl⟩
    · exact ⟨_, Or.inr rfl⟩

/-- Witness of C19: a login record with the unknown role byte 10 ends with the queued
disconnect message that names the role 1024, and the sixth invalid packet with the one
about invalid packets. -/
theorem fatal_paths_not_silent_witness :
    (∃ r, msgPLI_LOGIN sampleEnv sampleNet sampleAwait [42] = some r ∧ r.1 = false
      ∧ DiscText sampleAwait.w r.2.w
          (str "Your client type is unknown.  Please inform the Graal Reborn staff.  Type: "
            ++ str "1024" ++ str "."))
    ∧ (msgPLI_NULL sampleEnv sampleNoisyWorld [32]).1 = false
    ∧ DiscText sampleNoisyWorld (msgPLI_NULL sampleEnv sampleNoisyWorld [32]).2
        (str "Disconnected for sending invalid packets.") := by
  obtain ⟨r, hr, hf⟩ :
      ∃ r, msgPLI_LOGIN sampleEnv sampleNet sampleAwait [42] = some r ∧ r.1 = false :=
    ⟨_, rfl, rfl⟩
  have h := fatal_paths_not_silent sampleEnv sampleNet sampleAwait [42] sampleNoisyWorld [32]
  exact ⟨⟨r, hr, hf, login_unknown_text sampleEnv sampleNet sampleAwait [42] r 1024 hr rfl rfl⟩,
    rfl, h.2.1 rfl⟩

/-- C20 (code evaluated at the failing input). The level-warp handler is `warp` with the
result replaced by true: it never returns false. On the sample server where no level can be
entered, `warp` goes through the whole fallback chain and returns false, and the handler
on the same packet returns true, so the connection is kept. -/
theorem levelwarp_ignores_warp_result :
    (∀ (env : Env) (w : World) (pPacket : Bytes),
      (∃ lvl x y t, msgPLI_LEVELWARP env w pPacket
          = (warp env w lvl x y t).map (fun r => (true, r.2)))
      ∧ (msgPLI_LEVELWARP env w pPacket).map Prod.fst ≠ some false)
    ∧ (warp sampleStuckEnv sampleWorld (str "x.nw") 30 30 0).map Prod.fst = some false
    ∧ (msgPLI_LEVELWARP sampleStuckEnv sampleWorld ([32, 92, 92] ++ str "x.nw")).map Prod.fst
        = some true := by
  refine ⟨fun env w pPacket => ?_, ?_, ?_⟩
  · have hgen : ∀ lvl x y t,
        (match warp env w lvl x y t with
          | none => (none : Option (Bool × World))
          | some (_, w1) => some (true, w1))
          = (warp env w lvl x y t).map (fun r => (true, r.2)) := by
      intro lvl x y t
      cases warp env w lvl x y t with
      | none => rfl
      | some r => rfl
    constructor
    · exact ⟨_, _, _, _, hgen _ _ _ _⟩
    · unfold msgPLI_LEVELWARP
      simp only []
      split <;> simp
  · rfl
  · rfl

/-! ## Length-prefixed framing of `doMain` -/

theorem readShort_frame (hdr rest : Bytes) (h : hdr.length = 2) :
    readShort (hdr ++ rest) = ((readShort hdr).1, rest) ∧ (readShort hdr).1 < 65536 := by
  match hdr, h with
  | [a, b], _ =>
    constructor
    · rfl
    · show a % 256 * 256 + b % 256 < 65536
      have ha := Nat.mod_lt a (by decide : 256 > 0)
      have hb := Nat.mod_lt b (by decide : 256 > 0)
      omega

/-- One round of the loop of `doMain` on a buffer that starts with a complete frame: the
payload is decoded and parsed, the frame is removed. -/
theorem doMainLoop_frame (env : Env) (net : NetEnv)
    (parse : Conn → Bytes → Option (Bool × Conn)) (fuel : Nat) (f : Bytes × Bytes)
    (rest : Bytes) (c : Conn) (hf : IsFrame f) :
    doMainLoop env net parse (fuel + 1) (f.1 ++ f.2 ++ rest) c
      = match parse (decodeFrame env net { c with lastData := env.now } f.2).2
          (decodeFrame env net { c with lastData := env.now } f.2).1 with
        | none => none
        | some (false, c1) => some (false, rest, c1)
        | some (true, c1) => doMainLoop env net parse fuel rest c1 := by
  obtain ⟨h2, hlen⟩ := hf
  have hrs := readShort_frame f.1 (f.2 ++ rest) h2
  have hbuf : f.1 ++ f.2 ++ rest = f.1 ++ (f.2 ++ rest) := List.append_assoc _ _ _
  have hl : (f.1 ++ f.2 ++ rest).length = f.2.length + rest.length + 2 := by
    simp [h2]
    omega
  have hmod : (readShort f.1).1 % 65536 = f.2.length := by
    rw [Nat.mod_eq_of_lt hrs.2, hlen]
  rw [doMainLoop]
  have hgt : (f.1 ++ f.2 ++ rest).length > 1 := by omega
  rw [if_pos hgt]
  simp only []
  have hsh : (readShort (f.1 ++ f.2 ++ rest)) = ((readShort f.1).1, f.2 ++ rest) := by
    rw [hbuf]
    exact hrs.1
  rw [hsh]
  simp only []
  rw [hmod]
  have hnot : ¬ f.2.length > (f.1 ++ f.2 ++ rest).length - 2 := by omega
  rw [if_neg hnot]
  have hun : (readChars f.2.length (f.2 ++ rest)).1 = f.2 := by
    simp [readChars]
  have hdrop : List.drop (f.2.length + 2) (f.1 ++ f.2 ++ rest) = rest := by
    rw [hbuf, List.drop_append_eq_append_drop]
    have h1 : List.drop (f.2.length + 2) f.1 = [] := List.drop_of_length_le (by omega)
    rw [h1, h2]
    simp
  rw [hun, hdrop]

/-- The loop of `doMain` on an incomplete frame: nothing is parsed and the bytes stay. -/
theorem doMainLoop_incomplete (env : Env) (net : NetEnv)
    (parse : Conn → Bytes → Option (Bool × Conn)) (fuel : Nat) (inc : Bytes) (c : Conn)
    (hinc : Incomplete inc) (hfuel : inc.length ≤ fuel) :
    doMainLoop env net parse fuel inc c
      = some (true, inc, if inc.length > 1 then { c with lastData := env.now } else c) := by
  by_cases hgt : inc.length > 1
  · cases fuel with
    | zero => omega
    | succ fuel1 =>
      rw [doMainLoop, if_pos hgt, if_pos hgt]
      simp only []
      have hlt : (readShort inc).1 < 65536 := by
        show (readChar inc).1 * 256 + (readChar (readChar inc).2).1 < 65536
        have ha : (readChar inc).1 < 256 := Nat.mod_lt _ (by decide)
        have hb : (readChar (readChar inc).2).1 < 256 := Nat.mod_lt _ (by decide)
        omega
      rw [Nat.mod_eq_of_lt hlt]
      have hbig : (readShort inc).1 > inc.length - 2 := by
        rcases hinc with h | h
        · omega
        · exact h
      rw [if_pos hbig]
  · rw [if_neg hgt]
    cases fuel <;> rw [doMainLoop, if_neg hgt]

/-- The loop of `doMain` against the feeding of the payloads. -/
theorem doMainLoop_frames (env : Env) (net : NetEnv)
    (parse : Conn → Bytes → Option (Bool × Conn)) (inc : Bytes) (hinc : Incomplete inc) :
    ∀ (frames : List (Bytes × Bytes)) (c : Conn) (fuel : Nat),
      (∀ f ∈ frames, IsFrame f) → (wire frames ++ inc).length ≤ fuel →
      doMainLoop env net parse fuel (wire frames ++ inc) c
        = match feedFrames env net parse (frames.map Prod.snd) c with
          | none => none
          | some (false, j, c1) => some (false, wire (frames.drop j) ++ inc, c1)
          | some (true, _, c1) =>
            some (true, inc, if inc.length > 1 then { c1 with lastData := env.now } else c1) := by
  intro frames
  induction frames with
  | nil =>
    intro c fuel _ hfuel
    exact doMainLoop_incomplete env net parse fuel inc c hinc hfuel
  | cons f fs ih =>
    intro c fuel hall hfuel
    have hf : IsFrame f := hall f (List.mem_cons_self _ _)
    have hfs : ∀ g ∈ fs, IsFrame g := fun g hg => hall g (List.mem_cons_of_mem _ hg)
    have hw : wire (f :: fs) ++ inc = f.1 ++ f.2 ++ (wire fs ++ inc) := by
      simp [wire]
    have hl : (wire (f :: fs) ++ inc).length = f.2.length + (wire fs ++ inc).length + 2 := by
      rw [hw]
      simp [hf.1]
      omega
    cases fuel with
    | zero => omega
    | succ fuel1 =>
      rw [hw, doMainLoop_frame env net parse fuel1 f _ c hf]
      have hfeed : feedFrames env net parse ((f :: fs).map Prod.snd) c
          = match parse (decodeFrame env net { c with lastData := env.now } f.2).2
              (decodeFrame env net { c with lastData := env.now } f.2).1 with
            | none => none
            | some (false, c1) => some (false, 1, c1)
            | some (true, c1) =>
              match feedFrames env net parse (fs.map Prod.snd) c1 with
              | none => none
              | some (b, j, c2) => some (b, j + 1, c2) := by
        rw [List.map_cons, feedFrames]
      rw [hfeed]
      cases hp : parse (decodeFrame env net { c with lastData := env.now } f.2).2
          (decodeFrame env net { c with lastData := env.now } f.2).1 with
      | none => rfl
      | some r =>
        obtain ⟨b, c1⟩ := r
        cases b with
        | false => rfl
        | true =>
          simp only []
          rw [ih c1 fuel1 hfs (by omega)]
          cases hfd : feedFrames env net parse (fs.map Prod.snd) c1 with
          | none => rfl
          | some r2 =>
            obtain ⟨b2, j, c2⟩ := r2
            cases b2 with
            | false => rfl
            | true => rfl

/-- The number of frames used up by the feeding: all of them when no parse step fails. -/
theorem feedFrames_count (env : Env) (net : NetEnv)
    (parse : Conn → Bytes → Option (Bool × Conn)) :
    ∀ (payloads : List Bytes) (c : Conn) (b : Bool) (j : Nat) (c1 : Conn),
      feedFrames env net parse payloads c = some (b, j, c1) →
      j ≤ payloads.length ∧ (b = true → j = payloads.length) ∧ (b = false → 1 ≤ j) := by
  intro payloads
  induction payloads with
  | nil =>
    intro c b j c1 h
    rw [feedFrames] at h
    simp only [Option.some.injEq, Prod.mk.injEq] at h
    obtain ⟨hb, hj, -⟩ := h
    subst hb
    subst hj
    exact ⟨Nat.le_refl _, fun _ => rfl, fun h => absurd h (by simp)⟩
  | cons p ps ih =>
    intro c b j c1 h
    rw [feedFrames] at h
    split at h
    · exact absurd h (by simp)
    · have hh := Option.some.inj h
      have hb := (Prod.mk.inj hh).1
      have hj := (Prod.mk.inj (Prod.mk.inj hh).2).1
      subst hb
      subst hj
      exact ⟨by simp, fun h => absurd h (by simp), fun _ => Nat.le_refl _⟩
    · split at h
      · exact absurd h (by simp)
      · rename_i b2 j2 c3 hfd
        have hh := Option.some.inj h
        have hb := (Prod.mk.inj hh).1
        have hj := (Prod.mk.inj (Prod.mk.inj hh).2).1
        subst hb
        subst hj
        have hi := ih _ _ _ _ hfd
        refine ⟨by simp; omega, fun hb => ?_, fun _ => by omega⟩
        have := hi.2.1 hb
        simp
        omega

/-- C16. Length-prefixed framing. For every receive buffer made of complete frames (each a
2-byte length followed by that many bytes) followed by an incomplete frame, `doMain` is
the feeding of the payloads, in order, to the decode and parse steps: if a parse step
returns false, `doMain` returns false at once, with the frames behind the failing one and
the incomplete frame still in the buffer; otherwise every payload was handed over, the
complete frames are removed, and the bytes of the incomplete frame (prefix included)
stay in the buffer. -/
theorem length_prefixed_framing (env : Env) (net : NetEnv)
    (parse : Conn → Bytes → Option (Bool × Conn)) (frames : List (Bytes × Bytes))
    (inc : Bytes) (c : Conn) (hframes : ∀ f ∈ frames, IsFrame f) (hinc : Incomplete inc) :
    doMainWith env net parse (wire frames ++ inc) c
      = (match feedFrames env net parse (frames.map Prod.snd) c with
        | none => none
        | some (false, j, c1) => some (false, wire (frames.drop j) ++ inc, c1)
        | some (true, _, c1) =>
          (grMovementFlush env net
            (if inc.length > 1 then { c1 with lastData := env.now } else c1)).map
            (fun c2 => (true, inc, c2)))
    ∧ ∀ b j c1, feedFrames env net parse (frames.map Prod.snd) c = some (b, j, c1) →
        j ≤ frames.length ∧ (b = true → j = frames.length) ∧ (b = false → 1 ≤ j) := by
  constructor
  · unfold doMainWith
    rw [doMainLoop_frames env net parse inc hinc frames c _ hframes (Nat.le_refl _)]
    cases hfd : feedFrames env net parse (frames.map Prod.snd) c with
    | none => rfl
    | some r =>
      obtain ⟨b, j, c1⟩ := r
      cases b with
      | false => rfl
      | true =>
        simp only []
        cases grMovementFlush env net
          (if inc.length > 1 then { c1 with lastData := env.now } else c1) with
        | none => rfl
        | some c2 => rfl
  · intro b j c1 h
    have := feedFrames_count env net parse (frames.map Prod.snd) c b j c1 h
    rw [List.length_map] at this
    exact this

/-- Witness of C16: two sample frames (a raw-data record, then its 3 bytes) followed by
an incomplete frame: `doMain` returns true and leaves the incomplete frame. -/
theorem length_prefixed_framing_witness :
    (∀ f ∈ sampleFrames, IsFrame f) ∧ Incomplete [0, 9, 1]
    ∧ (doMain sampleEnv sampleNet (wire sampleFrames ++ [0, 9, 1]) sampleConn).map
        (fun r => (r.1, r.2.1, r.2.2.packetCount)) = some (true, [0, 9, 1], 2) := by
  have hframes : ∀ f ∈ sampleFrames, IsFrame f := by
    intro f hf
    simp only [sampleFrames, List.mem_cons, List.mem_singleton, List.not_mem_nil, or_false] at hf
    rcases hf with h | h <;> (subst h; exact ⟨rfl, rfl⟩)
  have hinc : Incomplete [0, 9, 1] := Or.inr (by decide)
  refine ⟨hframes, hinc, ?_⟩
  have h := (length_prefixed_framing sampleEnv sampleNet
    (fun c1 frame => parsePacket sampleEnv sampleNet (TPLFunc sampleEnv sampleNet) c1 frame)
    sampleFrames [0, 9, 1] sampleConn hframes hinc).1
  unfold doMain
  rw [h]
  rfl

/-! ## Raw-block framing of `parsePacket` -/

theorem decryptPacket_keeps (env : Env) (net : NetEnv) (c : Conn) (pk : Bytes) :
    (decryptPacket env net c pk).2.w.self = c.w.self
    ∧ (decryptPacket env net c pk).2.nextIsRaw = c.nextIsRaw := by
  unfold decryptPacket
  simp only []
  repeat' split
  all_goals exact ⟨rfl, rfl⟩

theorem decryptRecord_keeps (env : Env) (net : NetEnv) (c : Conn) (pk : Bytes) :
    (decryptRecord env net c pk).2.w.self = c.w.self
    ∧ (decryptRecord env net c pk).2.nextIsRaw = c.nextIsRaw := by
  unfold decryptRecord
  split
  · exact decryptPacket_keeps env net c pk
  · exact ⟨rfl, rfl⟩

theorem takeWhile_line (line rest : Bytes) (h : 10 ∉ line) :
    (line ++ 10 :: rest).takeWhile (fun b => b != 10) = line
    ∧ (line ++ 10 :: rest).dropWhile (fun b => b != 10) = 10 :: rest := by
  induction line with
  | nil => exact ⟨rfl, rfl⟩
  | cons a l ih =>
    have ha : a ≠ 10 := fun he => h (by rw [he]; exact List.mem_cons_self _ _)
    have hl : 10 ∉ l := fun hm => h (List.mem_cons_of_mem _ hm)
    have hb : (a != 10) = true := by simpa using ha
    constructor
    · rw [List.cons_append, List.takeWhile_cons, hb]
      simp only [if_true]
      rw [(ih hl).1]
    · rw [List.cons_append, List.dropWhile_cons, hb]
      simp only [if_true]
      exact (ih hl).2

theorem readString_line (line rest : Bytes) (h : 10 ∉ line) :
    readString [10] (line ++ 10 :: rest) = (line, rest) := by
  unfold readString
  simp only []
  rw [(takeWhile_line line rest h).1, (takeWhile_line line rest h).2]
  rfl

/-- A raw block is cut out by its size alone. -/
theorem parseOne_raw (env : Env) (net : NetEnv) (tbl : Nat → Handler) (c : Conn)
    (raw more : Bytes) (hraw : c.nextIsRaw = true) (hN : 1 ≤ c.rawPacketSize)
    (hlen : raw.length = c.rawPacketSize) :
    parseOne env net tbl c (raw ++ more)
      = dispatch env net tbl { c with nextIsRaw := false } (rawRecord net c.w.self raw) more := by
  have hrc : readChars c.rawPacketSize (raw ++ more) = (raw, more) := by
    rw [← hlen]
    simp [readChars]
  have hne : raw ≠ [] := by
    intro he
    rw [he] at hlen
    simp at hlen
    omega
  obtain ⟨last, hlast⟩ : ∃ last, raw.getLast? = some last := by
    cases hg : raw.getLast? with
    | none => exact absurd (List.getLast?_eq_none_iff.mp hg) hne
    | some l => exact ⟨l, rfl⟩
  unfold parseOne rawRecord
  rw [if_pos hraw]
  simp only [hrc]
  by_cases hs : (c.w.self.isClient
      || (c.w.self.isRC && decide (c.w.self.versionID > net.RCVER_1_1))) = true
  · rw [if_pos hs, hlast]
    simp only [hs, Bool.true_and]
    by_cases h10 : last = 10
    · subst h10
      simp
    · have : ¬ ((some last == some 10) = true) := by simpa using h10
      rw [if_neg h10, if_neg this]
  · rw [if_neg hs]
    have hf : (c.w.self.isClient
      || (c.w.self.isRC && decide (c.w.self.versionID > net.RCVER_1_1))) = false := by
      simpa using hs
    simp only [hf, Bool.false_and]
    rfl

/-- Outside the raw mode a record ends at the first newline. -/
theorem parseOne_line (env : Env) (net : NetEnv) (tbl : Nat → Handler) (c : Conn)
    (line rest : Bytes) (hraw : c.nextIsRaw = false) (h : 10 ∉ line) :
    parseOne env net tbl c (line ++ 10 :: rest) = dispatch env net tbl c line rest := by
  unfold parseOne
  rw [hraw, readString_line line rest h]
  rfl

/-- What the handler is given by `dispatch`. -/
theorem dispatch_plain (env : Env) (net : NetEnv) (tbl : Nat → Handler) (c : Conn)
    (cur rest : Bytes) (hgen : c.in_codec.gen ≠ 3) :
    dispatch env net tbl c cur rest
      = match tbl (readGUChar cur).1
          (if uploadRC11 net c.w.self (readGUChar cur).1 then cur.dropLast else cur)
          { c with packetCount := c.packetCount + 1 } with
        | none => none
        | some (b, c3) =>
          some (b, c3, if uploadRC11 net c.w.self (readGUChar cur).1 then rest.tail else rest) := by
  have hd : decryptRecord env net c cur = (cur, c) := by
    unfold decryptRecord
    rw [if_neg hgen]
  unfold dispatch
  simp only [hd]
  cases tbl (readGUChar cur).1
      (if uploadRC11 net c.w.self (readGUChar cur).1 then cur.dropLast else cur)
      { c with packetCount := c.packetCount + 1 } with
  | none => rfl
  | some r => rfl

/-- C17 (as stated, evaluated). An RC 1.1 session sends a raw-data record that announces 3
bytes, then the 3 bytes `[125, 65, 66]` whose opcode is the file-upload opcode, then the
record `[67]`: the handler is given the 2 bytes `[125, 65]`, not the 3 bytes, and the
next record it is given is empty, not `[67]`. A client that sends the same frame has its
3 bytes handed over unsplit. -/
theorem raw_block_upload_truncated :
    sampleRC11.w.self.isRC = true ∧ sampleRC11.w.self.isClient = false
    ∧ sampleRC11.w.self.versionID = sampleNet.RCVER_1_1
    ∧ sampleUploadFrame = [82, 32, 32, 35, 10] ++ [125, 65, 66] ++ [67, 10]
    ∧ (readGUInt [32, 32, 35]).1 = 3
    ∧ (parsePacket sampleEnv sampleNet recordingTable sampleRC11 sampleUploadFrame).map
        (fun r => r.2.toServerList) = some [[125, 65], []]
    ∧ (parsePacket sampleEnv sampleNet recordingTable sampleConn sampleUploadFrame).map
        (fun r => r.2.toServerList) = some [[125, 65, 66], [67]] := by
  refine ⟨rfl, rfl, rfl, rfl, rfl, ?_, ?_⟩
  · rfl
  · rfl

/-- C17 (amended). Raw-block framing. The raw-data handler announces a block of the size
it reads. For every N >= 1, when a block of N bytes is announced and at least N bytes
follow in the decoded frame, the next record is cut out as exactly those N bytes,
however many newline bytes occur among them (only a newline in the last position is
stripped, and only for client senders and RC senders newer than 1.1), and it is
dispatched like every record, with the raw mode switched off: decrypted on its own under
generation 3, and for an RC 1.1 sender a record with the file-upload opcode is handed
over without its last byte while one more byte of the frame is skipped. Without the
per-record cipher and outside that file-upload rule the handler is given exactly the
record. The raw mode is one-shot: with the raw mode off a record ends at the first
newline. -/
theorem raw_block_framing (env : Env) (net : NetEnv) (tbl : Nat → Handler) (c : Conn)
    (raw more : Bytes) (hraw : c.nextIsRaw = true) (hN : 1 ≤ c.rawPacketSize)
    (hlen : raw.length = c.rawPacketSize) :
    (∀ (curPacket : Bytes) (c0 : Conn), TPLFunc env net PLI_RAWDATA curPacket c0
        = some (true, { c0 with nextIsRaw := true
                                rawPacketSize := (readGUInt curPacket.tail).1 }))
    ∧ parseOne env net tbl c (raw ++ more)
        = dispatch env net tbl { c with nextIsRaw := false } (rawRecord net c.w.self raw) more
    ∧ (c.in_codec.gen ≠ 3 →
        uploadRC11 net c.w.self (readGUChar (rawRecord net c.w.self raw)).1 = false →
        parseOne env net tbl c (raw ++ more)
          = match tbl (readGUChar (rawRecord net c.w.self raw)).1 (rawRecord net c.w.self raw)
              { c with nextIsRaw := false, packetCount := c.packetCount + 1 } with
            | none => none
            | some (b, c3) => some (b, c3, more))
    ∧ (c.in_codec.gen ≠ 3 →
        uploadRC11 net c.w.self (readGUChar (rawRecord net c.w.self raw)).1 = true →
        parseOne env net tbl c (raw ++ more)
          = match tbl (readGUChar (rawRecord net c.w.self raw)).1
              (rawRecord net c.w.self raw).dropLast
              { c with nextIsRaw := false, packetCount := c.packetCount + 1 } with
            | none => none
            | some (b, c3) => some (b, c3, more.tail))
    ∧ (∀ cur : Bytes,
        (decryptRecord env net { c with nextIsRaw := false } cur).2.nextIsRaw = false)
    ∧ (∀ (c2 : Conn) (line rest : Bytes), c2.nextIsRaw = false → 10 ∉ line →
        parseOne env net tbl c2 (line ++ 10 :: rest) = dispatch env net tbl c2 line rest) := by
  have hcut := parseOne_raw env net tbl c raw more hraw hN hlen
  refine ⟨fun curPacket c0 => ?_, hcut, fun hgen hup => ?_, fun hgen hup => ?_,
    fun cur => (decryptRecord_keeps env net _ cur).2,
    fun c2 line rest h2 hl => parseOne_line env net tbl c2 line rest h2 hl⟩
  · unfold TPLFunc
    rw [if_pos rfl]
    rfl
  · have hgen2 : ({ c with nextIsRaw := false } : Conn).in_codec.gen ≠ 3 := hgen
    have hup2 : uploadRC11 net ({ c with nextIsRaw := false } : Conn).w.self
        (readGUChar (rawRecord net c.w.self raw)).1 = false := hup
    rw [hcut, dispatch_plain env net tbl _ _ _ hgen2, hup2]
    simp only [Bool.false_eq_true, if_false]
  · have hgen2 : ({ c with nextIsRaw := false } : Conn).in_codec.gen ≠ 3 := hgen
    have hup2 : uploadRC11 net ({ c with nextIsRaw := false } : Conn).w.self
        (readGUChar (rawRecord net c.w.self raw)).1 = true := hup
    rw [hcut, dispatch_plain env net tbl _ _ _ hgen2, hup2]
    simp only [if_true]

/-- Witness of C17: on the sample client connection the 3 announced bytes with a newline
in the middle are one record, and the bytes behind them stay unread. -/
theorem raw_block_framing_witness :
    sampleRawConn.nextIsRaw = true ∧ 1 ≤ sampleRawConn.rawPacketSize
    ∧ ([65, 10, 66] : Bytes).length = sampleRawConn.rawPacketSize
    ∧ (parseOne sampleEnv sampleNet recordingTable sampleRawConn ([65, 10, 66] ++ [67, 10])).map
        (fun r => (r.1, r.2.1.toServerList, r.2.1.nextIsRaw, r.2.2))
        = some (true, [[65, 10, 66]], false, [67, 10]) := by
  refine ⟨rfl, by decide, rfl, ?_⟩
  rw [(raw_block_framing sampleEnv sampleNet recordingTable sampleRawConn [65, 10, 66]
    [67, 10] rfl (by decide) rfl).2.2.1 (by decide) rfl]
  rfl

/-! ## The status write: what it adds to the log -/

theorem dropOne_out (env : Env) (item : Nat) (w w1 : World) (h : dropOne env item w = some w1) :
    ∃ es, w1.out = w.out ++ es := by
  unfold dropOne msgPLI_ITEMADD at h
  simp only [] at h
  cases hl : w.self.level with
  | none =>
    simp only [hl] at h
    exact absurd h (by simp)
  | some l =>
    simp only [hl] at h
    rw [← Option.some.inj h]
    exact ⟨_, List.append_assoc _ _ _⟩

theorem dropGralats_out (env : Env) :
    ∀ (fuel : Nat) (drop : Int) (w w1 : World), dropGralats env fuel drop w = some w1 →
      ∃ es, w1.out = w.out ++ es := by
  intro fuel
  induction fuel with
  | zero =>
    intro drop w w1 h
    unfold dropGralats at h
    split at h
    · rw [← Option.some.inj h]
      exact ⟨[], (List.append_nil _).symm⟩
    · exact absurd h (by simp)
  | succ n ih =>
    intro drop w w1 h
    unfold dropGralats at h
    split at h
    · rw [← Option.some.inj h]
      exact ⟨[], (List.append_nil _).symm⟩
    · simp only [] at h
      split at h
      · exact absurd h (by simp)
      · rename_i w2 h2
        obtain ⟨es1, e1⟩ := dropOne_out env _ w w2 h2
        obtain ⟨es2, e2⟩ := ih _ w2 w1 h
        exact ⟨es1 ++ es2, by rw [e2, e1, List.append_assoc]⟩

theorem dropMany_out (env : Env) (item : Nat) :
    ∀ (n : Nat) (w w1 : World), dropMany env item n w = some w1 →
      ∃ es, w1.out = w.out ++ es := by
  intro n
  induction n with
  | zero =>
    intro w w1 h
    unfold dropMany at h
    rw [← Option.some.inj h]
    exact ⟨[], (List.append_nil _).symm⟩
  | succ k ih =>
    intro w w1 h
    unfold dropMany at h
    split at h
    · exact absurd h (by simp)
    · rename_i w2 h2
      obtain ⟨es1, e1⟩ := dropOne_out env _ w w2 h2
      obtain ⟨es2, e2⟩ := ih w2 w1 h
      exact ⟨es1 ++ es2, by rw [e2, e1, List.append_assoc]⟩

theorem dropToLevel_out (env : Env) (D A B : Int) (w w1 : World)
    (h : dropToLevel env D A B w = some w1) : ∃ es, w1.out = w.out ++ es := by
  unfold dropToLevel at h
  split at h
  · exact absurd h (by simp)
  · rename_i w3 h3
    split at h
    · exact absurd h (by simp)
    · rename_i w4 h4
      obtain ⟨es1, e1⟩ := dropGralats_out env _ _ w w3 h3
      obtain ⟨es2, e2⟩ := dropMany_out env 4 _ w3 w4 h4
      obtain ⟨es3, e3⟩ := dropMany_out env 3 _ w4 w1 h
      exact ⟨es1 ++ es2 ++ es3, by rw [e3, e2, e1, List.append_assoc, List.append_assoc,
        List.append_assoc]⟩

/-- The item drop only appends to the log. -/
theorem dropItemsOnDeath_out (env : Env) (w w1 : World)
    (h : dropItemsOnDeath env w = some w1) : ∃ es, w1.out = w.out ++ es := by
  unfold dropItemsOnDeath at h
  split at h
  · rw [← Option.some.inj h]
    exact ⟨[], (List.append_nil _).symm⟩
  · simp only [] at h
    obtain ⟨es, e⟩ := dropToLevel_out env _ _ _ _ w1 h
    rw [e]
    split
    · exact ⟨_, List.append_assoc _ _ _⟩
    · exact ⟨_, List.append_assoc _ _ _⟩

/-- The leader demotion: what it leaves and what it adds to the log. -/
theorem demoteLeader_trace (s : Locals) (pk : Bytes) (l : Nat) (hl : s.w.self.level = some l) :
    ∃ s1 o, demoteLeader s pk = some ((), s1, pk, o)
      ∧ s1.w.self = s.w.self
      ∧ s1.doSignCheck = s.doSignCheck ∧ s1.doTouchTest = s.doTouchTest
      ∧ s1.sentInvalid = s.sentInvalid
      ∧ (((s.w.levels l).getPlayer 0 = some s.w.self.ptr ∧ (s.w.levels l).getPlayer 1 ≠ none) →
          (s1.w.levels l).levelPlayerList
            = (s.w.levels l).levelPlayerList.filter (fun q => q != s.w.self.ptr) ++ [s.w.self.ptr]
          ∧ ∃ q, ((s.w.levels l).levelPlayerList.filter (fun q => q != s.w.self.ptr)
                ++ [s.w.self.ptr]).get? 0 = some q
            ∧ s1.w.out = s.w.out ++ sendPacket q (writeGChar PLO_ISLEADER) true)
      ∧ (¬ ((s.w.levels l).getPlayer 0 = some s.w.self.ptr ∧ (s.w.levels l).getPlayer 1 ≠ none) →
          s1.w.levels = s.w.levels ∧ s1.w.out = s.w.out) := by
  unfold demoteLeader
  simp only [run_bind, getSelf, PM.get, run_pure, run_derefLevel s pk l hl, Bufs.empty_append,
    Bufs.append_empty, run_ite]
  by_cases c : (s.w.levels l).getPlayer 0 = some s.w.self.ptr ∧ (s.w.levels l).getPlayer 1 ≠ none
  · simp only [c, and_self, if_true, modWorld, PM.modify, ne_eq, not_false_eq_true]
    have hne : ∃ q, (((s.w.levels l).removePlayer s.w.self.ptr).addPlayer s.w.self.ptr).getPlayer 0
        = some q := by
      simp only [TLevel.getPlayer, TLevel.addPlayer, TLevel.removePlayer]
      cases hf : (s.w.levels l).levelPlayerList.filter (fun q => q != s.w.self.ptr) with
      | nil => exact ⟨_, rfl⟩
      | cons x xs => exact ⟨x, rfl⟩
    obtain ⟨q, hq⟩ := hne
    simp only [hq, emit, modWorld, PM.modify, Bufs.empty_append, Bufs.append_empty]
    refine ⟨_, _, rfl, rfl, rfl, rfl, rfl, fun _ => ⟨?_, q, ?_, rfl⟩, fun hn => absurd trivial hn⟩
    · simp [World.emit, TLevel.addPlayer, TLevel.removePlayer]
    · simpa [TLevel.getPlayer, TLevel.addPlayer, TLevel.removePlayer] using hq
  · simp only [c, if_false]
    exact ⟨_, _, rfl, rfl, rfl, rfl, rfl, fun hc => absurd hc (by simp), fun _ => ⟨rfl, rfl⟩⟩

/-- The death block on a placed session whose gralat count is not negative: it returns,
keeps the power, and is the leader demotion on a state that differs from the entry state
in the death count, the three item counters, the random position and the log only. -/
theorem statusDeath_trace (env : Env) (s : Locals) (pk : Bytes) (l : Nat)
    (hl : s.w.self.level = some l) (hg : 0 ≤ s.w.self.gralatc) :
    ∃ (smid s1 : Locals) (es : List Event) (o : Bufs),
      statusDeath env s pk = some ((), s1, pk, o)
      ∧ (∃ o1, demoteLeader smid pk = some ((), s1, pk, o1))
      ∧ smid.w.out = s.w.out ++ es ∧ smid.w.levels = s.w.levels
      ∧ smid.w.self.ptr = s.w.self.ptr ∧ smid.w.self.level = some l
      ∧ smid.w.self.power = s.w.self.power
      ∧ smid.doSignCheck = s.doSignCheck ∧ smid.doTouchTest = s.doTouchTest
      ∧ smid.sentInvalid = s.sentInvalid := by
  by_cases hspar : (s.w.levels l).sparringZone = false
  · obtain ⟨wd, hdrop, hds, hdl, -⟩ := dropItemsOnDeath_ok env
      { s.w with self := { s.w.self with deaths := s.w.self.deaths + 1 } } l hl hg
    obtain ⟨es, hes⟩ := dropItemsOnDeath_out env _ wd hdrop
    have hwl : ({ s with w := wd } : Locals).w.self.level = some l := by
      show wd.self.level = some l
      rw [hds]; exact hl
    obtain ⟨s1, o, hD, -⟩ := demoteLeader_trace { s with w := wd } pk l hwl
    apply Exists.intro ({ s with w := wd } : Locals)
    apply Exists.intro s1
    apply Exists.intro es
    apply Exists.intro
    refine ⟨?_, ⟨o, hD⟩, hes, hdl, ?_, hwl, ?_, rfl, rfl, rfl⟩
    · unfold statusDeath
      apply bind_ok (run_derefLevel s pk l hl)
      simp only [hspar, if_true]
      apply bind_ok
      · exact rfl
      exact bind_ok (run_liftW _ _ _ _ hdrop) hD
    · show wd.self.ptr = _
      rw [hds]
    · show wd.self.power = _
      rw [hds]
  · obtain ⟨s1, o, hD, -⟩ := demoteLeader_trace s pk l hl
    apply Exists.intro s
    apply Exists.intro s1
    apply Exists.intro ([] : List Event)
    apply Exists.intro
    refine ⟨?_, ⟨o, hD⟩, (List.append_nil _).symm, rfl, rfl, hl, rfl, rfl, rfl, rfl⟩
    unfold statusDeath
    apply bind_ok (run_derefLevel s pk l hl)
    simp only [hspar, if_false]
    apply bind_ok
    · exact rfl
    exact hD

/-- Case `PLPROP_STATUS` on a live session told dead. -/
theorem case_status_die_trace (env : Env) (s : Locals) (pk : Bytes) (l : Nat)
    (hid : s.w.self.id ≠ -1)
    (halive : s.w.self.status &&& PLSTATUS_DEAD = 0)
    (hdead : (readGUChar pk).1 &&& PLSTATUS_DEAD ≠ 0)
    (hl : s.w.self.level = some l) (hg : 0 ≤ s.w.self.gralatc) :
    ∃ (smid s1 : Locals) (es : List Event) (o : Bufs),
      casePLPROP_STATUS env s pk = some (Flow.brk, s1, (readGUChar pk).2, o)
      ∧ (∃ o1, demoteLeader smid (readGUChar pk).2 = some ((), s1, (readGUChar pk).2, o1))
      ∧ smid.w.out = s.w.out ++ es ∧ smid.w.levels = s.w.levels
      ∧ smid.w.self.ptr = s.w.self.ptr ∧ smid.w.self.level = some l
      ∧ smid.w.self.power = s.w.self.power
      ∧ smid.doSignCheck = s.doSignCheck ∧ smid.doTouchTest = s.doTouchTest
      ∧ smid.sentInvalid = s.sentInvalid := by
  have h3 : (readGUChar pk).1 &&& PLSTATUS_DEAD > 0 := Nat.pos_of_ne_zero hdead
  obtain ⟨smid, s1, es, o, hD, hdem, h1, h2, h4, h5, h6, h7, h8, h9⟩ := statusDeath_trace env
    { s with w := { s.w with self := { s.w.self with status := (readGUChar pk).1 } } }
    (readGUChar pk).2 l hl hg
  apply Exists.intro smid
  apply Exists.intro s1
  apply Exists.intro es
  apply Exists.intro
  refine ⟨?_, hdem, h1, h2, h4, h5, h6, h7, h8, h9⟩
  unfold casePLPROP_STATUS
  apply bind_ok
  · exact rfl
  apply bind_ok
  · exact rfl
  apply bind_ok
  · exact rfl
  simp only [hid, if_false, halive, lt_irrefl, gt_iff_lt, false_and, h3, and_self, if_true]
  apply bind_ok
  · exact rfl
  exact bind_ok hD rfl

theorem status_packet_case (env : Env) (w : World) (b : Nat) (fts : Bool) (rc : Option TPlayer) :
    propCase env fts rc PLPROP_STATUS (Locals.start w) [b]
      = casePLPROP_STATUS env (Locals.start w) [b] := rfl

/-- C28. Leader demotion on death. A status write that takes a session with a real id
from alive to dead, on a level `l` and with a gralat count that is not negative, returns.
If the occupant list of the level is `s :: p1 :: ps` without duplicates, it becomes
`p1 :: ps ++ [s]`: the same occupants, still without duplicates, `p1` first, and the
is-leader notice is queued to `p1` by this call. If the session is not first in the list,
or is the only occupant, the list is unchanged. -/
theorem leader_demotion (env : Env) (w : World) (l b : Nat) (fwd fts : Bool)
    (rc : Option TPlayer) (hid : w.self.id ≠ -1)
    (halive : w.self.status &&& PLSTATUS_DEAD = 0)
    (hdead : (readGUChar [b]).1 &&& PLSTATUS_DEAD ≠ 0)
    (hl : w.self.level = some l) (hg : 0 ≤ w.self.gralatc) :
    ∃ w1, setProps env w (writeGChar PLPROP_STATUS ++ [b]) fwd fts rc = some w1
      ∧ (∀ p1 ps, (w.levels l).levelPlayerList = w.self.ptr :: p1 :: ps →
          (w.self.ptr :: p1 :: ps).Nodup →
          (w1.levels l).levelPlayerList = p1 :: ps ++ [w.self.ptr]
          ∧ (w1.levels l).levelPlayerList.Nodup
          ∧ (w1.levels l).levelPlayerList.Perm (w.levels l).levelPlayerList
          ∧ (w1.levels l).getPlayer 0 = some p1
          ∧ ∃ pre post, w1.out
              = w.out ++ pre ++ [Event.queued p1 (writeGChar PLO_ISLEADER ++ [10])] ++ post)
      ∧ ((w.levels l).getPlayer 0 ≠ some w.self.ptr ∨ (w.levels l).levelPlayerList = [w.self.ptr] →
          (w1.levels l).levelPlayerList = (w.levels l).levelPlayerList) := by
  obtain ⟨smid, s1, es, o, hc, ⟨o1, hdem⟩, hout, hlevels, hptr, hlv, -, f1, f2, f3⟩ :=
    case_status_die_trace env (Locals.start w) [b] l hid halive hdead hl hg
  obtain ⟨s1', o', hdem', hself, g1, g2, g3, hyes, hno⟩ := demoteLeader_trace smid [] l hlv
  have hs : s1 = s1' := by
    have := hdem.symm.trans hdem'
    simp only [Option.some.injEq, Prod.mk.injEq, true_and] at this
    exact this.1
  subst hs
  obtain ⟨es2, h⟩ := setProps_prop_quiet env w PLPROP_STATUS [b] (by decide) fwd fts rc s1 o
    ((status_packet_case env w b fts rc).trans hc) (g1.trans f1) (g2.trans f2) (g3.trans f3)
  have hlev : smid.w.levels l = w.levels l := by rw [hlevels]; rfl
  have hp : smid.w.self.ptr = w.self.ptr := hptr
  refine ⟨_, h, fun p1 ps hlist hnd => ?_, fun hnot => ?_⟩
  · have hnotin : w.self.ptr ∉ p1 :: ps := (List.nodup_cons.mp hnd).1
    have hfilter : (w.self.ptr :: p1 :: ps).filter (fun q => q != w.self.ptr) = p1 :: ps := by
      rw [List.filter_cons_of_neg (by simp)]
      apply List.filter_eq_self.mpr
      intro a ha
      have : a ≠ w.self.ptr := fun e => hnotin (e ▸ ha)
      simpa using this
    have hcond : (smid.w.levels l).getPlayer 0 = some smid.w.self.ptr
        ∧ (smid.w.levels l).getPlayer 1 ≠ none := by
      rw [hlev, hp]
      simp [TLevel.getPlayer, hlist]
    obtain ⟨hl1, q, hq, hq2⟩ := hyes hcond
    rw [hlev, hp, hlist, hfilter] at hl1 hq
    have hq1 : q = p1 := by
      simp only [List.cons_append, List.get?_cons_zero, Option.some.injEq] at hq
      exact hq.symm
    subst hq1
    have hnew : ((s1.w.emit es2).levels l).levelPlayerList = q :: ps ++ [w.self.ptr] := hl1
    have hperm : (q :: ps ++ [w.self.ptr]).Perm (w.self.ptr :: q :: ps) := by
      have := @List.perm_append_comm _ (q :: ps) [w.self.ptr]
      simpa using this
    refine ⟨hnew, ?_, ?_, ?_, es, es2, ?_⟩
    · rw [hnew]
      exact hperm.nodup_iff.mpr hnd
    · rw [hnew, hlist]
      exact hperm
    · show ((s1.w.emit es2).levels l).levelPlayerList.get? 0 = some q
      rw [hnew]
      rfl
    · show s1.w.out ++ es2 = _
      rw [hq2, hout]
      have hsp : sendPacket q (writeGChar PLO_ISLEADER) true
          = [Event.queued q (writeGChar PLO_ISLEADER ++ [10])] := by
        simp [sendPacket, writeGChar, toU8]
      rw [hsp]
      rfl
  · have hncond : ¬ ((smid.w.levels l).getPlayer 0 = some smid.w.self.ptr
        ∧ (smid.w.levels l).getPlayer 1 ≠ none) := by
      rw [hlev, hp]
      rintro ⟨h0, h1⟩
      rcases hnot with hn | hn
      · exact hn h0
      · apply h1
        unfold TLevel.getPlayer
        rw [hn]
        rfl
    obtain ⟨hsame, -⟩ := hno hncond
    show (s1.w.levels l).levelPlayerList = _
    rw [hsame, hlev]

/-- Witness of C28: the sample session leads the sample level with session 8 behind it; on
its death session 8 leads and is told so. -/
theorem leader_demotion_witness :
    ∃ w1, setProps sampleEnv sampleWorld (writeGChar PLPROP_STATUS ++ [40]) true false none
        = some w1
      ∧ (w1.levels 1).levelPlayerList = [8, 7]
      ∧ ∃ pre post, w1.out
          = sampleWorld.out ++ pre ++ [Event.queued 8 (writeGChar PLO_ISLEADER ++ [10])] ++ post := by
  obtain ⟨w1, h, hyes, -⟩ := leader_demotion sampleEnv sampleWorld 1 40 true false none
    (by decide) (by decide) (by decide) rfl (by decide)
  obtain ⟨hl, -, -, -, hout⟩ := hyes 8 [] rfl (by decide)
  exact ⟨w1, h, hl, hout⟩

/-! ## The nickname write -/

theorem readChars_append (a b : Bytes) : readChars a.length (a ++ b) = (a, b) := by
  simp [readChars]

/-- Case `PLPROP_NICKNAME` on a text the word filter warns about: the text is not stored. -/
theorem case_nickname_warn (env : Env) (fts : Bool) (rc : Option TPlayer) (s : Locals)
    (nick : Bytes) (hlen : nick.length ≤ 223)
    (hwarn : (env.wordFilterNick s.w.self nick).warn = true) :
    ∃ o, casePLPROP_NICKNAME env fts rc s ((nick.length + 32) :: nick)
      = some (Flow.brk,
          { s with w := if s.w.self.nickName.isEmpty then env.setNick (str "unknown") false s.w
                        else s.w },
          [], o) := by
  have h1 : readGUChar ((nick.length + 32) :: nick) = (nick.length, nick) :=
    readGUChar_biased nick.length nick hlen
  have h2 : readChars nick.length nick = (nick, []) := by
    have := readChars_append nick []
    rwa [List.append_nil] at this
  unfold casePLPROP_NICKNAME
  simp only [run_bind, PM.read, getSelf, PM.get, run_pure, run_ite, modWorld, PM.modify,
    Bufs.empty_append, Bufs.append_empty, h1, h2, hwarn, if_true, toGlobalBuff, toSelfBuff,
    propBytes, getWorld, PM.write]
  by_cases he : s.w.self.nickName.isEmpty = true
  · simp only [he, if_true]
    cases fts <;> exact ⟨_, rfl⟩
  · simp only [he, if_false, Bool.false_eq_true, run_pure]
    cases fts <;> exact ⟨_, rfl⟩

/-- C23. Rejected nickname is dropped. For every nickname write (the text up to 223
bytes, as its length byte can tell) about which the word filter reports a warning,
`setProps` returns: when the session's current nickname is not empty, the whole session
(nickname and guild included) and the world stay as they were, and only events are added
to the log; when the current nickname is empty, the session is what
`setNick("unknown")` makes of it, whatever the submitted text was. -/
theorem rejected_nickname (env : Env) (w : World) (nick : Bytes) (fwd fts : Bool)
    (rc : Option TPlayer) (hlen : nick.length ≤ 223)
    (hwarn : (env.wordFilterNick w.self nick).warn = true) :
    (w.self.nickName ≠ [] →
      ∃ es, setProps env w (writeGChar PLPROP_NICKNAME ++ writeGChar nick.length ++ nick)
          fwd fts rc = some (w.emit es))
    ∧ (w.self.nickName = [] →
      ∃ es, setProps env w (writeGChar PLPROP_NICKNAME ++ writeGChar nick.length ++ nick)
          fwd fts rc = some ((env.setNick (str "unknown") false w).emit es)) := by
  obtain ⟨o, hc⟩ := case_nickname_warn env fts rc (Locals.start w) nick hlen hwarn
  have hpk : writeGChar PLPROP_NICKNAME ++ writeGChar nick.length ++ nick
      = writeGChar PLPROP_NICKNAME ++ ((nick.length + 32) :: nick) := by
    rw [writeGChar_small nick.length hlen]
    simp
  have hcase : propCase env fts rc PLPROP_NICKNAME (Locals.start w) ((nick.length + 32) :: nick)
      = casePLPROP_NICKNAME env fts rc (Locals.start w) ((nick.length + 32) :: nick) := rfl
  obtain ⟨es, h⟩ := setProps_prop_quiet env w PLPROP_NICKNAME ((nick.length + 32) :: nick)
    (by decide) fwd fts rc _ o (hcase.trans hc) rfl rfl rfl
  rw [hpk]
  constructor
  · intro hne
    have he : (Locals.start w).w.self.nickName.isEmpty = false := by
      show w.self.nickName.isEmpty = false
      cases hn : w.self.nickName with
      | nil => exact absurd hn hne
      | cons a l => rfl
    rw [he] at h
    exact ⟨es, h⟩
  · intro hnil
    have he : (Locals.start w).w.self.nickName.isEmpty = true := by
      show w.self.nickName.isEmpty = true
      rw [hnil]
      rfl
    rw [he] at h
    exact ⟨es, h⟩

/-- Witness of C23: under a word filter that warns about everything the sample session
keeps its nickname "nick" when it submits "bad". -/
theorem rejected_nickname_witness :
    ∃ w1, setProps sampleStrictEnv sampleWorld
        (writeGChar PLPROP_NICKNAME ++ writeGChar (str "bad").length ++ str "bad")
        true false none = some w1
      ∧ w1.self.nickName = str "nick" ∧ w1.self.guild = [] := by
  obtain ⟨es, h⟩ := (rejected_nickname sampleStrictEnv sampleWorld (str "bad") true false none
    (by decide) rfl).1 (by decide)
  exact ⟨_, h, rfl, rfl⟩

/-! ## The flush behind the decode loop -/

/-- A decode loop that runs to the end of the packet leaves the flag `sentInvalid` as it
found it. -/
theorem loop_exhausted_flag (env : Env) (fwd fts : Bool) (rc : Option TPlayer) :
    ∀ (fuel : Nat) (s : Locals) (o : Bufs) (pk : Bytes) (s2 : Locals) (o2 : Bufs),
      setPropsLoop env fwd fts rc fuel s o pk = some (LoopEnd.exhausted s2 o2) →
      s2.sentInvalid = s.sentInvalid := by
  intro fuel
  induction fuel with
  | zero =>
    intro s o pk s2 o2 h
    unfold setPropsLoop at h
    split at h
    · exact absurd h (by simp)
    · simp only [Option.some.injEq, LoopEnd.exhausted.injEq] at h
      rw [h.1]
  | succ n ih =>
    intro s o pk s2 o2 h
    unfold setPropsLoop at h
    split at h
    · rename_i hlen
      have hpk : pk ≠ [] := by
        intro e
        rw [e] at hlen
        exact absurd hlen (by simp)
      simp only [] at h
      split at h
      · exact absurd h (by simp)
      · exact absurd h (by simp)
      · rename_i f s1 pk1 o1 hnr hi
        have hf : f ≠ Flow.ret := fun e => hnr e
        have h1 : decodeN env fwd fts rc 1 s pk = some (s1, pk1) := by
          rw [decodeN_step env fwd fts rc 0 s s1 pk pk1 f o1 hpk hf hi]
          rfl
        rw [ih s1 _ pk1 s2 o2 h]
        exact decodeN_flag env fwd fts rc 1 s s1 pk pk1 h1
    · simp only [Option.some.injEq, LoopEnd.exhausted.injEq] at h
      rw [h.1]

/-- The three sends of the flush, as events. -/
theorem flushBuffers_events (env : Env) (s : Locals) (o : Bufs) :
    flushBuffers env s o = s.w.emit
      ((if o.globalBuff.length > 0 then
          [Event.toAll (writeGChar PLO_OTHERPLPROPS ++ writeGShort s.w.self.id ++ o.globalBuff)
            (some s.w.self.ptr)]
        else [])
      ++ (if o.levelBuff.length > 0 then
          [Event.toLevelOf
            (writeGChar PLO_OTHERPLPROPS ++ writeGShort s.w.self.id
              ++ (if !decide (s.w.self.versionID ≥ env.CLVER_2_3) then o.levelBuff else o.levelBuff2)
              ++ (if !decide (s.w.self.versionID ≥ env.CLVER_2_3) then o.levelBuff2 else o.levelBuff))
            s.w.self.pmap s.w.self.ptr false false]
        else [])
      ++ (if o.selfBuff.length > 0 then
          sendPacket s.w.self.ptr (writeGChar PLO_PLAYERPROPS ++ o.selfBuff) true
        else [])) := by
  unfold flushBuffers
  simp only []
  by_cases h1 : o.globalBuff.length > 0 <;> by_cases h2 : o.levelBuff.length > 0 <;>
    by_cases h3 : o.selfBuff.length > 0 <;>
    simp only [h1, h2, h3, if_true, if_false, World.emit_emit, List.append_nil, List.nil_append,
      World.emit_nil]

/-- A decode loop that runs to the end of the packet hands its locals and buffers to the
block "Send Buffers Out", whose result is the result of `setProps`. -/
theorem setProps_exhausted (env : Env) (w : World) (pk : Bytes) (fwd fts : Bool)
    (rc : Option TPlayer) (s : Locals) (o : Bufs)
    (hloop : setPropsLoop env fwd fts rc pk.length (Locals.start w) Bufs.empty pk
      = some (LoopEnd.exhausted s o)) :
    setProps env w pk fwd fts rc = sendBuffersOut env rc s o := by
  have hflag : s.sentInvalid = false := loop_exhausted_flag env fwd fts rc _ _ _ _ s o hloop
  unfold setProps
  rw [hloop]
  simp only [hflag]
  cases sendBuffersOut env rc s o with
  | none => rfl
  | some w1 => simp only [countInvalid_false]

/-- The sign check on a level with one sign, the session standing on it. -/
theorem testSign_one (env : Env) (w : World) (l : Nat) (sign : TLevelSign)
    (hs : env.serverside = true) (hsp : Int.tmod w.self.sprite 4 = 0)
    (hl : w.self.level = some l) (hsigns : (w.levels l).levelSigns = [sign])
    (hy : w.self.y = (sign.y : ℚ)) (hx1 : (sign.x : ℚ) - 3 / 2 ≤ w.self.x)
    (hx2 : w.self.x ≤ (sign.x : ℚ) + 1 / 2) :
    testSign env w = some (w.emit
      (sendPacket w.self.ptr (writeGChar PLO_SAY2 ++ replaceNewlines sign.uText) true)) := by
  unfold testSign
  rw [hs, hl]
  simp only [Bool.not_true, Bool.false_eq_true, if_false, hsp, if_true, hsigns,
    List.flatMap_cons, List.flatMap_nil, List.append_nil, inrange, hy, hx1, hx2, decide_True,
    Bool.and_self, and_self]

/-- C29 (as stated, evaluated). On a server that checks signs itself, the logged-in and
loaded sample session stands on a sign and receives the one-property packet of the
sprite (id 17, value 0), not forwarded: the decode loop ends with all buffers empty and
nothing sent, and yet `setProps` queues a packet to the session behind the loop, the text
of the sign. -/
theorem sign_text_behind_flush :
    sampleSignEnv.isLoggedIn sampleSignWorld.self = true ∧ sampleSignWorld.self.isLoaded = true
    ∧ unhandled 17 = false
    ∧ (∃ s o, setPropsLoop sampleSignEnv false false none 2 (Locals.start sampleSignWorld)
          Bufs.empty [49, 32] = some (LoopEnd.exhausted s o)
        ∧ o.globalBuff = [] ∧ o.levelBuff = [] ∧ o.selfBuff = [] ∧ s.w.out = [])
    ∧ (setProps sampleSignEnv sampleSignWorld [49, 32] false false none).map World.out
        = some [Event.queued 7 (writeGChar PLO_SAY2 ++ str "hi" ++ [10])] := by
  refine ⟨rfl, rfl, rfl, ⟨_, _, rfl, rfl, rfl, rfl, rfl⟩, ?_⟩
  have hloop : setPropsLoop sampleSignEnv false false none ([49, 32] : Bytes).length
      (Locals.start sampleSignWorld) Bufs.empty [49, 32]
      = some (LoopEnd.exhausted
          { w := { sampleSignWorld with self := { samplePlayer with sprite := 0 } },
            doSignCheck := true, doTouchTest := false, sentInvalid := false }
          Bufs.empty) := rfl
  have h1 : sendBuffersOut sampleSignEnv none
      { w := { sampleSignWorld with self := { samplePlayer with sprite := 0 } },
        doSignCheck := true, doTouchTest := false, sentInvalid := false } Bufs.empty
      = testSign sampleSignEnv { sampleSignWorld with self := { samplePlayer with sprite := 0 } } :=
    rfl
  have h2 := testSign_one sampleSignEnv
    { sampleSignWorld with self := { samplePlayer with sprite := 0 } } 1
    { x := 30, y := 30, uText := str "hi" } rfl rfl rfl rfl
    (by norm_num [samplePlayer]) (by norm_num [samplePlayer]) (by norm_num [samplePlayer])
  rw [setProps_exhausted _ _ _ _ _ _ _ _ hloop, h1, h2]
  rfl

/-- C29 (amended). One packet per buffer, in order. When the decode loop of `setProps`
runs to the end of the packet (no unknown id), with the locals `s` and the buffers `o`:
for a session that is logged in and loaded the flush emits, in this order, one
other-player-props packet to all other sessions iff the global buffer is not empty, one
other-player-props packet to the level audience iff the level buffer is not empty, and
one player-props packet to the session itself iff the self buffer is not empty; behind
them comes only what the movement check sends, which runs when no `rc` is given and is
silent unless a sign or touch check was asked for. For a session that is not logged in or
not loaded `setProps` emits nothing behind the loop. -/
theorem one_packet_per_buffer (env : Env) (w : World) (pk : Bytes) (fwd fts : Bool)
    (rc : Option TPlayer) (s : Locals) (o : Bufs)
    (hloop : setPropsLoop env fwd fts rc pk.length (Locals.start w) Bufs.empty pk
      = some (LoopEnd.exhausted s o)) :
    (env.isLoggedIn s.w.self = true → s.w.self.isLoaded = true →
      setProps env w pk fwd fts rc
          = (if rc.isNone then movementCheck env s (flushBuffers env s o)
              else some (flushBuffers env s o))
      ∧ flushBuffers env s o = s.w.emit
          ((if o.globalBuff.length > 0 then
              [Event.toAll (writeGChar PLO_OTHERPLPROPS ++ writeGShort s.w.self.id ++ o.globalBuff)
                (some s.w.self.ptr)]
            else [])
          ++ (if o.levelBuff.length > 0 then
              [Event.toLevelOf
                (writeGChar PLO_OTHERPLPROPS ++ writeGShort s.w.self.id
                  ++ (if !decide (s.w.self.versionID ≥ env.CLVER_2_3)
                      then o.levelBuff else o.levelBuff2)
                  ++ (if !decide (s.w.self.versionID ≥ env.CLVER_2_3)
                      then o.levelBuff2 else o.levelBuff))
                s.w.self.pmap s.w.self.ptr false false]
            else [])
          ++ (if o.selfBuff.length > 0 then
              sendPacket s.w.self.ptr (writeGChar PLO_PLAYERPROPS ++ o.selfBuff) true
            else []))
      ∧ (∃ pkt, sendPacket s.w.self.ptr (writeGChar PLO_PLAYERPROPS ++ o.selfBuff) true
          = [Event.queued s.w.self.ptr pkt])
      ∧ ((s.doSignCheck = false ∧ s.doTouchTest = false) ∨ rc.isNone = false →
          setProps env w pk fwd fts rc = some (flushBuffers env s o)))
    ∧ ((env.isLoggedIn s.w.self && s.w.self.isLoaded) = false →
        setProps env w pk fwd fts rc = some s.w) := by
  have hmap : setProps env w pk fwd fts rc = sendBuffersOut env rc s o :=
    setProps_exhausted env w pk fwd fts rc s o hloop
  constructor
  · intro hlog hload
    have hboth : (env.isLoggedIn s.w.self && s.w.self.isLoaded) = true := by
      rw [hlog, hload]
      rfl
    have hrun : setProps env w pk fwd fts rc
        = (if rc.isNone then movementCheck env s (flushBuffers env s o)
            else some (flushBuffers env s o)) := by
      rw [hmap]
      unfold sendBuffersOut
      rw [if_pos hboth]
    refine ⟨hrun, flushBuffers_events env s o, ?_, ?_⟩
    · unfold sendPacket
      have hw : writeGChar PLO_PLAYERPROPS = [41] := by decide
      rw [hw]
      simp only [List.cons_append, List.nil_append, List.isEmpty_cons, Bool.false_eq_true,
        if_false]
      split
      · exact ⟨_, rfl⟩
      · exact ⟨_, rfl⟩
    · intro hq
      rw [hrun]
      rcases hq with ⟨h1, h2⟩ | h3
      · rw [movementCheck_quiet env s _ h1 h2]
        split <;> rfl
      · rw [h3]
        rfl
  · intro hnot
    rw [hmap]
    unfold sendBuffersOut
    rw [hnot]
    rfl

/-- Witness of C29 (amended): the alignment write 50 on the sample session, forwarded to
the level and to the session itself, gives one level packet and then one packet to the
session. -/
theorem one_packet_per_buffer_witness :
    ∃ s o, setPropsLoop sampleEnv true true none 2 (Locals.start sampleWorld) Bufs.empty [64, 82]
        = some (LoopEnd.exhausted s o)
      ∧ (setProps sampleEnv sampleWorld [64, 82] true true none).map World.out
        = some [Event.toLevelOf [40, 32, 34, 64, 82] none 7 false false,
                Event.queued 7 [41, 64, 82, 10]] := by
  obtain ⟨s, o, hs, ho⟩ : ∃ s o, setPropsLoop sampleEnv true true none ([64, 82] : Bytes).length
      (Locals.start sampleWorld) Bufs.empty [64, 82] = some (LoopEnd.exhausted s o)
      ∧ (flushBuffers sampleEnv s o).out
        = [Event.toLevelOf [40, 32, 34, 64, 82] none 7 false false,
           Event.queued 7 [41, 64, 82, 10]] := ⟨_, _, rfl, rfl⟩
  refine ⟨s, o, hs, ?_⟩
  have h := ((one_packet_per_buffer sampleEnv sampleWorld [64, 82] true true none s o hs).1
    (by
      have : s = _ := (LoopEnd.exhausted.inj (Option.some.inj (hs.symm.trans
        (rfl : setPropsLoop sampleEnv true true none ([64, 82] : Bytes).length
          (Locals.start sampleWorld) Bufs.empty [64, 82] = some (LoopEnd.exhausted _ _))))).1
      rw [this]
      rfl)
    (by
      have : s = _ := (LoopEnd.exhausted.inj (Option.some.inj (hs.symm.trans
        (rfl : setPropsLoop sampleEnv true true none ([64, 82] : Bytes).length
          (Locals.start sampleWorld) Bufs.empty [64, 82] = some (LoopEnd.exhausted _ _))))).1
      rw [this]
      rfl)).2.2.2 (Or.inl (by
      have : s = _ := (LoopEnd.exhausted.inj (Option.some.inj (hs.symm.trans
        (rfl : setPropsLoop sampleEnv true true none ([64, 82] : Bytes).length
          (Locals.start sampleWorld) Bufs.empty [64, 82] = some (LoopEnd.exhausted _ _))))).1
      rw [this]
      exact ⟨rfl, rfl⟩))
  rw [h]
  show some (flushBuffers sampleEnv s o).out = _
  rw [ho]

/-! ## The level-visit cache -/

theorem touchCache_found (level : Nat) (t : Int) (c : List (Nat × Int)) :
    (touchCache level t c).2 = true ↔ level ∈ c.map Prod.fst := by
  induction c with
  | nil => simp [touchCache]
  | cons cl rest ih =>
    unfold touchCache
    by_cases h : cl.1 = level
    · simp [h]
    · simp only [h, if_false, List.map_cons, List.mem_cons]
      rw [ih]
      constructor
      · intro hm
        exact Or.inr hm
      · intro hm
        rcases hm with hm | hm
        · exact absurd hm.symm h
        · exact hm

theorem touchCache_keys (level : Nat) (t : Int) (c : List (Nat × Int)) :
    (touchCache level t c).1.map Prod.fst = c.map Prod.fst := by
  induction c with
  | nil => simp [touchCache]
  | cons cl rest ih =>
    unfold touchCache
    by_cases h : cl.1 = level
    · simp [h]
    · simp only [h, if_false, List.map_cons, ih]

theorem touchCache_find (level : Nat) (t : Int) (c : List (Nat × Int))
    (h : level ∈ c.map Prod.fst) :
    (touchCache level t c).1.find? (fun cl => cl.1 == level) = some (level, t) := by
  induction c with
  | nil => simp at h
  | cons cl rest ih =>
    unfold touchCache
    by_cases hc : cl.1 = level
    · simp [hc]
    · have hb : (cl.1 == level) = false := by simpa using hc
      simp only [hc, if_false, List.find?_cons, hb]
      apply ih
      simp only [List.map_cons, List.mem_cons] at h
      rcases h with h | h
      · exact absurd h.symm hc
      · exact h

theorem touchCache_find_other (level L : Nat) (t : Int) (c : List (Nat × Int)) (hL : L ≠ level) :
    (touchCache level t c).1.find? (fun cl => cl.1 == L) = c.find? (fun cl => cl.1 == L) := by
  induction c with
  | nil => simp [touchCache]
  | cons cl rest ih =>
    unfold touchCache
    by_cases hc : cl.1 = level
    · have hb : (cl.1 == L) = false := by
        simp only [beq_eq_false_iff_ne, ne_eq]
        omega
      simp only [hc, if_true, List.find?_cons]
      rw [← hc, hb]
    · simp only [hc, if_false, List.find?_cons, ih]

theorem touchCache_filter_other (level L : Nat) (t : Int) (c : List (Nat × Int)) (hL : L ≠ level) :
    (touchCache level t c).1.filter (fun cl => cl.1 == L) = c.filter (fun cl => cl.1 == L) := by
  induction c with
  | nil => simp [touchCache]
  | cons cl rest ih =>
    unfold touchCache
    by_cases hc : cl.1 = level
    · have hb : (cl.1 == L) = false := by
        simp only [beq_eq_false_iff_ne, ne_eq]
        omega
      simp only [hc, if_true, List.filter_cons]
      rw [← hc, hb]
      rfl
    · simp only [hc, if_false, List.filter_cons, ih]

/-- The cache behind `leaveLevel` from level `l`. -/
theorem leaveLevel_cache (env : Env) (resetCache : Bool) (w : World) (l : Nat)
    (hl : w.self.level = some l) :
    (leaveLevel env resetCache w).2.self.cachedLevels
      = (if (touchCache l (if resetCache then 0 else env.now) w.self.cachedLevels).2
          then (touchCache l (if resetCache then 0 else env.now) w.self.cachedLevels).1
          else w.self.cachedLevels ++ [(l, env.now)]) := by
  unfold leaveLevel
  rw [hl]
  rfl

theorem getCached_eq (p : TPlayer) (level : Nat) :
    getCachedLevelModTime p level
      = ((p.cachedLevels.find? (fun cl => cl.1 == level)).map Prod.snd).getD 0 := by
  unfold getCachedLevelModTime
  cases p.cachedLevels.find? (fun cl => cl.1 == level) <;> rfl

theorem getCached_absent (p : TPlayer) (level : Nat) (h : level ∉ cacheKeys p) :
    getCachedLevelModTime p level = 0 := by
  rw [getCached_eq]
  have : p.cachedLevels.find? (fun cl => cl.1 == level) = none := by
    rw [List.find?_eq_none]
    intro cl hcl hk
    apply h
    unfold cacheKeys
    rw [List.mem_map]
    exact ⟨cl, hcl, by simpa using hk⟩
  rw [this]
  rfl

/-- The keys of the cache behind `leaveLevel` from level `l`: one more, `l`, on the first
leave. -/
theorem leaveLevel_keys (env : Env) (resetCache : Bool) (w : World) (l : Nat)
    (hl : w.self.level = some l) :
    cacheKeys (leaveLevel env resetCache w).2.self
      = (if l ∈ cacheKeys w.self then cacheKeys w.self else cacheKeys w.self ++ [l]) := by
  unfold cacheKeys
  rw [leaveLevel_cache env resetCache w l hl]
  by_cases h : l ∈ w.self.cachedLevels.map Prod.fst
  · rw [if_pos ((touchCache_found l _ _).2 h), if_pos h, touchCache_keys]
  · have hf : ¬ (touchCache l (if resetCache then 0 else env.now) w.self.cachedLevels).2 = true :=
      fun e => h ((touchCache_found l _ _).1 e)
    rw [if_neg hf, if_neg h]
    simp

theorem visits_keys_subset (run : List (Env × Bool × Nat)) :
    ∀ (w : World) (L : Nat), L ∈ cacheKeys (visits run w).self →
      L ∈ cacheKeys w.self ∨ ∃ v ∈ run, v.2.2 = L := by
  induction run with
  | nil =>
    intro w L h
    exact Or.inl h
  | cons v rest ih =>
    intro w L h
    have h1 := ih (visit v.1 v.2.1 v.2.2 w) L h
    rcases h1 with h1 | ⟨u, hu, hL⟩
    · unfold visit at h1
      rw [leaveLevel_keys _ _ _ v.2.2 rfl] at h1
      split at h1
      · exact Or.inl h1
      · rw [List.mem_append, List.mem_singleton] at h1
        rcases h1 with h1 | h1
        · exact Or.inl h1
        · exact Or.inr ⟨v, List.mem_cons_self _ _, h1.symm⟩
    · exact Or.inr ⟨u, List.mem_cons_of_mem _ hu, hL⟩

theorem leaveLevel_nodup (env : Env) (resetCache : Bool) (w : World)
    (h : (cacheKeys w.self).Nodup) : (cacheKeys (leaveLevel env resetCache w).2.self).Nodup := by
  cases hl : w.self.level with
  | none =>
    unfold leaveLevel
    rw [hl]
    exact h
  | some l =>
    rw [leaveLevel_keys env resetCache w l hl]
    split
    · exact h
    · rename_i hn
      rw [List.nodup_append]
      refine ⟨h, List.nodup_singleton l, ?_⟩
      intro a ha hb
      rw [List.mem_singleton] at hb
      subst hb
      exact hn ha

theorem visits_nodup (run : List (Env × Bool × Nat)) :
    ∀ (w : World), (cacheKeys w.self).Nodup → (cacheKeys (visits run w).self).Nodup := by
  induction run with
  | nil =>
    intro w h
    exact h
  | cons v rest ih =>
    intro w h
    apply ih
    unfold visit
    apply leaveLevel_nodup
    exact h

/-- C21. Level-visit cache. `leaveLevel` returns true; without a level it changes nothing.
From level `l`: with `resetCache` false the cached time of `l` is afterwards the time of
the call; the cached times and the entries of all other levels are unchanged; on the first
leave of `l` one entry, `(l, now)`, is added at the end, on a later leave no entry is
added and the keys stay as they are (the time of the first entry of `l` is overwritten);
a cache with at most one entry per level stays so. And in every run of visits that starts
with the empty cache of a new session, a level that was never left has the cached time 0,
and the cache never holds two entries of one level. -/
theorem level_visit_cache (env : Env) (resetCache : Bool) (w : World) :
    (leaveLevel env resetCache w).1 = true
    ∧ (w.self.level = none → leaveLevel env resetCache w = (true, w))
    ∧ (∀ l, w.self.level = some l →
        (resetCache = false →
          getCachedLevelModTime (leaveLevel env resetCache w).2.self l = env.now)
        ∧ (∀ L, L ≠ l →
            getCachedLevelModTime (leaveLevel env resetCache w).2.self L
              = getCachedLevelModTime w.self L
            ∧ (leaveLevel env resetCache w).2.self.cachedLevels.filter (fun cl => cl.1 == L)
              = w.self.cachedLevels.filter (fun cl => cl.1 == L))
        ∧ (l ∉ cacheKeys w.self →
            (leaveLevel env resetCache w).2.self.cachedLevels
              = w.self.cachedLevels ++ [(l, env.now)])
        ∧ (l ∈ cacheKeys w.self →
            cacheKeys (leaveLevel env resetCache w).2.self = cacheKeys w.self
            ∧ (leaveLevel env resetCache w).2.self.cachedLevels.find? (fun cl => cl.1 == l)
              = some (l, if resetCache then 0 else env.now)))
    ∧ ((cacheKeys w.self).Nodup → (cacheKeys (leaveLevel env resetCache w).2.self).Nodup)
    ∧ (∀ (run : List (Env × Bool × Nat)) (L : Nat), w.self.cachedLevels = [] →
        (∀ v ∈ run, v.2.2 ≠ L) → getCachedLevelModTime (visits run w).self L = 0)
    ∧ (∀ (run : List (Env × Bool × Nat)), w.self.cachedLevels = [] →
        (cacheKeys (visits run w).self).Nodup) := by
  refine ⟨?_, ?_, ?_, leaveLevel_nodup env resetCache w, ?_, ?_⟩
  · unfold leaveLevel
    split <;> rfl
  · intro h
    unfold leaveLevel
    rw [h]
  · intro l hl
    refine ⟨?_, ?_, ?_, ?_⟩
    · intro hrc
      subst hrc
      rw [getCached_eq, leaveLevel_cache env false w l hl]
      by_cases h : l ∈ w.self.cachedLevels.map Prod.fst
      · rw [if_pos ((touchCache_found l _ _).2 h), touchCache_find l _ _ h]
        rfl
      · have hf : ¬ (touchCache l (if false = true then 0 else env.now) w.self.cachedLevels).2
            = true := fun e => h ((touchCache_found l _ _).1 e)
        rw [if_neg hf, List.find?_append]
        have hnone : w.self.cachedLevels.find? (fun cl => cl.1 == l) = none := by
          rw [List.find?_eq_none]
          intro cl hcl hk
          apply h
          rw [List.mem_map]
          exact ⟨cl, hcl, by simpa using hk⟩
        rw [hnone]
        simp
    · intro L hL
      rw [getCached_eq, getCached_eq, leaveLevel_cache env resetCache w l hl]
      by_cases h : l ∈ w.self.cachedLevels.map Prod.fst
      · rw [if_pos ((touchCache_found l _ _).2 h), touchCache_find_other l L _ _ hL,
          touchCache_filter_other l L _ _ hL]
        exact ⟨rfl, rfl⟩
      · have hf : ¬ (touchCache l (if resetCache then 0 else env.now) w.self.cachedLevels).2
            = true := fun e => h ((touchCache_found l _ _).1 e)
        have hb : (l == L) = false := by
          simp only [beq_eq_false_iff_ne, ne_eq]
          omega
        rw [if_neg hf, List.find?_append, List.filter_append]
        simp only [List.find?_cons, hb, List.find?_nil, Option.or_none, List.filter_cons,
          List.filter_nil, List.append_nil, Bool.false_eq_true, if_false, and_self]
    · intro hn
      rw [leaveLevel_cache env resetCache w l hl]
      have hf : ¬ (touchCache l (if resetCache then 0 else env.now) w.self.cachedLevels).2
          = true := fun e => hn ((touchCache_found l _ _).1 e)
      rw [if_neg hf]
    · intro hm
      constructor
      · rw [leaveLevel_keys env resetCache w l hl, if_pos hm]
      · rw [leaveLevel_cache env resetCache w l hl, if_pos ((touchCache_found l _ _).2 hm)]
        exact touchCache_find l _ _ hm
  · intro run L hempty hrun
    apply getCached_absent
    intro hmem
    rcases visits_keys_subset run w L hmem with h | ⟨v, hv, hL⟩
    · unfold cacheKeys at h
      rw [hempty] at h
      simp at h
    · exact hrun v hv hL
  · intro run hempty
    apply visits_nodup
    unfold cacheKeys
    rw [hempty]
    exact List.nodup_nil

/-! ## Timed maintenance -/

theorem writeGChar_norm (x : Int) :
    writeGChar x = writeGChar ((min (toU8 x) 223 : Nat) : Int) := by
  unfold writeGChar
  rw [toU8_natCast _ (by omega)]
  simp

theorem alignment_case (env : Env) (w : World) (v : Nat) (hv : v ≤ 223) (fts : Bool)
    (rc : Option TPlayer) (pk : Bytes) :
    propCase env fts rc PLPROP_ALIGNMENT (Locals.start w) ((v + 32) :: pk)
      = some (Flow.brk,
          { Locals.start w with
            w := { w with self := { w.self with ap := ((min v 100 : Nat) : Int) } } },
          pk, Bufs.empty.append (Bufs.empty.append Bufs.empty)) := by
  have e : propCase env fts rc PLPROP_ALIGNMENT (Locals.start w) ((v + 32) :: pk)
      = some (Flow.brk, { Locals.start w with w := { w with self :=
          { w.self with ap := clip (((readGUChar ((v + 32) :: pk)).1 : Nat) : Int) 0 100 } } },
        pk, Bufs.empty.append (Bufs.empty.append Bufs.empty)) := rfl
  rw [e, readGUChar_biased v pk hv]
  simp only []
  rw [show (100 : Int) = ((100 : Nat) : Int) from rfl, clip_natCast]

/-- The alignment write of `doTimedEvents` and of `setLevel` returns. -/
theorem setProps_alignment_defined (env : Env) (w : World) (x : Int) (fwd fts : Bool)
    (rc : Option TPlayer) :
    setProps env w (writeGChar PLPROP_ALIGNMENT ++ writeGChar x) fwd fts rc ≠ none := by
  rw [writeGChar_norm x]
  have hv : min (toU8 x) 223 ≤ 223 := by omega
  obtain ⟨es, h⟩ := setProps_byte_case env w PLPROP_ALIGNMENT (min (toU8 x) 223) (by decide) hv
    fwd fts rc (fun p => { p with ap := ((min (min (toU8 x) 223) 100 : Nat) : Int) })
    (fun pk => alignment_case env w _ hv fts rc pk)
  rw [h]
  exact Option.some_ne_none _

/-- The block "Increase player AP" always returns. -/
theorem apTick_defined (env : Env) (tenv : TimedEnv) (w : World) :
    ∃ w2, apTick env tenv w = some w2 := by
  unfold apTick
  simp only []
  repeat' split
  all_goals first
    | exact ⟨_, rfl⟩
    | (rename_i heq
       split at heq
       · exact absurd heq (setProps_alignment_defined env _ _ _ _ _)
       · exact absurd heq (by simp))

/-- C22 (as stated, evaluated). The sample RC session has a live socket, three invalid
packets counted and its minute mark at time 0; the maintenance call at time 1000 returns
true and changes nothing: the counter is still 3 and the minute mark still 0. -/
theorem rc_window_not_reset :
    sampleTimers.sockAlive = true ∧ sampleNoisyRC.w.self.isClient = false
    ∧ sampleEnv.now - sampleTimers.last1m > 60
    ∧ sampleNoisyRC.w.self.invalidPackets = 3
    ∧ doTimedEvents sampleEnv sampleTimedEnv sampleNoisyRC sampleTimers
        = some (true, sampleNoisyRC, sampleTimers) :=
  ⟨rfl, rfl, by decide, rfl, rfl⟩

/-- C22 (amended). Invalid-packet window reset of client sessions. For a session with a
live socket and a maintenance call made more than 60 seconds after the minute mark: a
session that is not a client is left as it is, with its counter and its minute mark, and
the call returns true; for a client session every call that returns true has set the
counter to 0 and the minute mark to the current time, and the call does return true
unless the session is disconnected for inactivity or for the timeout. -/
theorem minute_reset (env : Env) (tenv : TimedEnv) (c : Conn) (t : Timers)
    (hsock : t.sockAlive = true) (hmin : env.now - t.last1m > 60) :
    (c.w.self.isClient = false → doTimedEvents env tenv c t = some (true, c, t))
    ∧ (c.w.self.isClient = true →
        (∀ r, doTimedEvents env tenv c t = some r → r.1 = true →
          r.2.1.w.self.invalidPackets = 0 ∧ r.2.2.last1m = env.now)
        ∧ (¬ (tenv.disconnectifnotmoved = true
              ∧ env.now - c.w.self.lastMovement > tenv.maxnomovement
              ∧ env.now - c.w.self.lastChat > tenv.maxnomovement) →
            ¬ env.now - c.lastData > 300 →
            ∃ c2 t2, doTimedEvents env tenv c t = some (true, c2, t2)
              ∧ c2.w.self.invalidPackets = 0 ∧ t2.last1m = env.now)) := by
  constructor
  · intro hc
    unfold doTimedEvents
    simp only [hsock, hc, Bool.not_true, Bool.false_eq_true, if_false, Bool.not_false, if_true]
  · intro hc
    have hmain : ∀ r, doTimedEvents env tenv c t = some r → r.1 = true →
        r.2.1.w.self.invalidPackets = 0 ∧ r.2.2.last1m = env.now := by
      intro r hr htrue
      unfold doTimedEvents at hr
      simp only [hsock, hc, Bool.not_true, Bool.false_eq_true, if_false] at hr
      split at hr
      · simp only [Option.some.injEq] at hr
        rw [← hr] at htrue
        exact absurd htrue (by simp)
      · split at hr
        · simp only [Option.some.injEq] at hr
          rw [← hr] at htrue
          exact absurd htrue (by simp)
        · split at hr
          · exact absurd hr (by simp)
          · simp only [Option.some.injEq] at hr
            rw [← hr]
            simp [hmin]
    refine ⟨hmain, ?_⟩
    intro hact htime
    obtain ⟨w2, h2⟩ := apTick_defined env tenv
      { c.w with self := { c.w.self with onlineTime := c.w.self.onlineTime + 1 } }
    have hret : ∃ c2 t2, doTimedEvents env tenv c t = some (true, c2, t2) := by
      unfold doTimedEvents
      simp only [hsock, hc, Bool.not_true, Bool.false_eq_true, if_false]
      rw [if_neg hact, if_neg htime, h2]
      exact ⟨_, _, rfl⟩
    obtain ⟨c2, t2, hr⟩ := hret
    exact ⟨c2, t2, hr, hmain _ hr rfl⟩

/-- Witness of C22 (amended): the sample client with five invalid packets counted, at time
1000 with the minute mark at 0, comes out with the counter 0 and the mark 1000. -/
theorem minute_reset_witness :
    sampleTimers.sockAlive = true ∧ sampleEnv.now - sampleTimers.last1m > 60
    ∧ sampleNoisyConn.w.self.isClient = true ∧ sampleNoisyConn.w.self.invalidPackets = 5
    ∧ ∃ c2 t2, doTimedEvents sampleEnv sampleTimedEnv sampleNoisyConn sampleTimers
          = some (true, c2, t2)
        ∧ c2.w.self.invalidPackets = 0 ∧ t2.last1m = 1000 :=
  ⟨rfl, by decide, rfl, rfl,
    ((minute_reset sampleEnv sampleTimedEnv sampleNoisyConn sampleTimers rfl (by decide)).2
      rfl).2 (by decide) (by decide)⟩

/-- C30. The timeout path of `doTimedEvents` is silent. For a client session with a live
socket that is not disconnected for inactivity and from which no data came for more than
300 seconds, the call returns false after one line in the server log and nothing else: no
disconnect message is queued. The inactivity path next to it does queue one. -/
theorem timeout_teardown_silent (env : Env) (tenv : TimedEnv) (c : Conn) (t : Timers)
    (hsock : t.sockAlive = true) (hclient : c.w.self.isClient = true)
    (htime : env.now - c.lastData > 300) :
    (¬ (tenv.disconnectifnotmoved = true
          ∧ env.now - c.w.self.lastMovement > tenv.maxnomovement
          ∧ env.now - c.w.self.lastChat > tenv.maxnomovement) →
      ∃ c2, doTimedEvents env tenv c t = some (false, c2, t)
        ∧ c2.w.out = c.w.out ++ [Event.serverlog (str "[" ++ env.serverName ++ str "] Client "
            ++ c.w.self.accountName ++ str " has timed out.\n")]
        ∧ ¬ DiscQueued c.w c2.w)
    ∧ ((tenv.disconnectifnotmoved = true
          ∧ env.now - c.w.self.lastMovement > tenv.maxnomovement
          ∧ env.now - c.w.self.lastChat > tenv.maxnomovement) →
      ∃ c2, doTimedEvents env tenv c t = some (false, c2, t) ∧ DiscQueued c.w c2.w) := by
  constructor
  · intro hact
    apply Exists.intro
    constructor
    · unfold doTimedEvents
      simp only [hsock, hclient, Bool.not_true, Bool.false_eq_true, if_false]
      rw [if_neg hact, if_pos htime]
    constructor
    · rfl
    · rintro ⟨es, reason, hout, -, hq⟩
      have hes : es = [Event.serverlog (str "[" ++ env.serverName ++ str "] Client "
          ++ c.w.self.accountName ++ str " has timed out.\n")] :=
        (List.append_cancel_left hout).symm
      rw [hes] at hq
      simp at hq
  · intro hact
    apply Exists.intro
    constructor
    · unfold doTimedEvents
      simp only [hsock, hclient, Bool.not_true, Bool.false_eq_true, if_false]
      rw [if_pos hact]
    · refine ⟨_, str "You have been disconnected due to inactivity.",
        List.append_assoc _ _ _, str_ne_nil_of_length _ (by decide), ?_⟩
      rcases sendPacket_disc c.w.self.ptr (str "You have been disconnected due to inactivity.")
        with h | h
      · left
        exact List.mem_append_right _ (by
          show _ ∈ sendPacket c.w.self.ptr _ true
          rw [h]
          exact List.mem_singleton.mpr rfl)
      · right
        exact List.mem_append_right _ (by
          show _ ∈ sendPacket c.w.self.ptr _ true
          rw [h]
          exact List.mem_singleton.mpr rfl)

/-- Witness of C30: the sample client, silent since time 0, at time 1000: the call returns
false with the one log line and no disconnect message. -/
theorem timeout_teardown_silent_witness :
    sampleTimers.sockAlive = true ∧ sampleConn.w.self.isClient = true
    ∧ sampleEnv.now - sampleConn.lastData > 300
    ∧ ∃ c2, doTimedEvents sampleEnv sampleTimedEnv sampleConn sampleTimers
          = some (false, c2, sampleTimers)
        ∧ c2.w.out = [Event.serverlog (str "[srv] Client acc has timed out.\n")]
        ∧ ¬ DiscQueued sampleConn.w c2.w := by
  refine ⟨rfl, rfl, by decide, ?_⟩
  obtain ⟨c2, h1, h2, h3⟩ :=
    (timeout_teardown_silent sampleEnv sampleTimedEnv sampleConn sampleTimers rfl rfl
      (by decide)).1 (by decide)
  refine ⟨c2, h1, ?_, h3⟩
  rw [h2]
  rfl

/-! ## Unrecognized compression tag -/

/-- C24 (as stated, evaluated). The sample client of generation 5 receives the frame
`[9, 65, 66, 10]`, whose compression tag 9 is none of the three known ones: the payload
`decryptPacket` leaves is `[65, 66, 10]`, not empty, and the parse step of `doMain`
dispatches the record `[65, 66]` from it. -/
theorem unknown_tag_payload_parsed :
    sampleGen5.in_codec.gen ≥ 5
    ∧ toS8 (readChar [9, 65, 66, 10]).1 ≠ sampleNet.COMPRESS_UNCOMPRESSED
    ∧ toS8 (readChar [9, 65, 66, 10]).1 ≠ sampleNet.COMPRESS_ZLIB
    ∧ toS8 (readChar [9, 65, 66, 10]).1 ≠ sampleNet.COMPRESS_BZ2
    ∧ (decryptPacket sampleEnv sampleNet sampleGen5 [9, 65, 66, 10]).1 = [65, 66, 10]
    ∧ (doMainWith sampleEnv sampleNet
          (fun c1 frame => parsePacket sampleEnv sampleNet recordingTable c1 frame)
          [0, 4, 9, 65, 66, 10] sampleGen5).map
        (fun r => (r.1, r.2.1, r.2.2.toServerList, r.2.2.packetCount))
        = some (true, [], [[65, 66]], 1) :=
  ⟨by decide, by decide, by decide, by decide, rfl, rfl⟩

/-- C24 (amended). An unrecognized compression tag is only logged. For a session of
generation 5 or higher and a frame whose tag byte is none of uncompressed, zlib, bzip2:
the frame `doMain` hands to the parse step is that of `decryptPacket`; its payload is the
decrypted bytes behind the tag byte, not decompressed; the session gets one line in the
server log and is otherwise as it was; and when that payload is empty, `parsePacket`
dispatches nothing from it and returns true. -/
theorem unknown_tag_logged (env : Env) (net : NetEnv) (c : Conn) (pPacket : Bytes)
    (hgen : c.in_codec.gen ≥ 5)
    (hu : toS8 (readChar pPacket).1 ≠ net.COMPRESS_UNCOMPRESSED)
    (hz : toS8 (readChar pPacket).1 ≠ net.COMPRESS_ZLIB)
    (hb : toS8 (readChar pPacket).1 ≠ net.COMPRESS_BZ2) :
    decodeFrame env net c pPacket = decryptPacket env net c pPacket
    ∧ (decryptPacket env net c pPacket).1
        = (net.decrypt (c.limitFromType net (toS8 (readChar pPacket).1)).in_codec
            (pPacket.drop 1)).1
    ∧ (decryptPacket env net c pPacket).2.w.out
        = c.w.out ++ [Event.serverlog (str "[" ++ env.serverName
            ++ str "] ** [ERROR] Client gave incorrect packet compression type! ["
            ++ intText (toS8 (readChar pPacket).1) ++ str "]\n")]
    ∧ (decryptPacket env net c pPacket).2.w.self = c.w.self
    ∧ (∀ tbl, c.w.self.type ≠ PLTYPE_AWAIT → (decryptPacket env net c pPacket).1 = [] →
        parsePacket env net tbl (decryptPacket env net c pPacket).2
            (decryptPacket env net c pPacket).1
          = some (true, (decryptPacket env net c pPacket).2)) := by
  have h3 : ¬ c.in_codec.gen = 3 := by omega
  have h4 : ¬ c.in_codec.gen = 4 := by omega
  have hd : decryptPacket env net c pPacket
      = (((c.limitFromType net (toS8 (readChar pPacket).1)).decrypt net (pPacket.drop 1)).1,
          ((c.limitFromType net (toS8 (readChar pPacket).1)).decrypt net (pPacket.drop 1)).2.emit
            [Event.serverlog (str "[" ++ env.serverName
              ++ str "] ** [ERROR] Client gave incorrect packet compression type! ["
              ++ intText (toS8 (readChar pPacket).1) ++ str "]\n")]) := by
    unfold decryptPacket
    simp only [h3, h4, if_false, hgen, if_true, hz, hb, ne_eq, hu, not_false_eq_true]
  refine ⟨?_, ?_, ?_, ?_, ?_⟩
  · unfold decodeFrame
    have h1 : ¬ c.in_codec.gen = 1 := by omega
    have h2 : ¬ (c.in_codec.gen = 2 ∨ c.in_codec.gen = 3) := by omega
    rw [if_neg h1, if_neg h2]
  · rw [hd]
    rfl
  · rw [hd]
    rfl
  · rw [hd]
    rfl
  · intro tbl hty hempty
    have hty2 : ¬ (decryptPacket env net c pPacket).2.w.self.type = PLTYPE_AWAIT := by
      rw [hd]
      exact hty
    rw [hempty]
    unfold parsePacket
    rw [if_neg hty2]
    unfold parseLoop
    simp

/-- Witness of C24 (amended): the frame `[9, 65, 66, 10]` on the sample client of
generation 5 leaves the payload `[65, 66, 10]` and one log line. -/
theorem unknown_tag_logged_witness :
    sampleGen5.in_codec.gen ≥ 5
    ∧ toS8 (readChar [9, 65, 66, 10]).1 ≠ sampleNet.COMPRESS_UNCOMPRESSED
    ∧ toS8 (readChar [9, 65, 66, 10]).1 ≠ sampleNet.COMPRESS_ZLIB
    ∧ toS8 (readChar [9, 65, 66, 10]).1 ≠ sampleNet.COMPRESS_BZ2
    ∧ (decryptPacket sampleEnv sampleNet sampleGen5 [9, 65, 66, 10]).1 = [65, 66, 10]
    ∧ (decryptPacket sampleEnv sampleNet sampleGen5 [9, 65, 66, 10]).2.w.out
        = [Event.serverlog
            (str "[srv] ** [ERROR] Client gave incorrect packet compression type! [9]\n")] := by
  have h := unknown_tag_logged sampleEnv sampleNet sampleGen5 [9, 65, 66, 10] (by decide)
    (by decide) (by decide) (by decide)
  refine ⟨by decide, by decide, by decide, by decide, ?_, ?_⟩
  · rw [h.2.1]
    rfl
  · rw [h.2.2.1]
    rfl

/-! ## Full and incremental level sync -/

theorem send_out (st : Placement) (pkts : List Bytes) :
    (st.send pkts).w.out
      = st.w.out ++ pkts.flatMap (fun pkt => sendPacket st.w.self.ptr pkt true) := rfl

/-- The end of `sendLevel`, the exchange of the login props, only adds to the log. -/
theorem sendLevel_tail (env : Env) (st1 : Placement) (lvl : Option Nat) (pm : Option Nat)
    (pl : Nat) (r : Bool × Placement)
    (h : (match lvl with
      | none => none
      | some l =>
        if !(st1.w.levels l).singleplayer then
          match pm with
          | some m => some (true, { st1 with w := st1.w.emit (mapProps env st1.w m pl) })
          | none =>
            match levelProps env st1.w l with
            | none => none
            | some es => some (true, { st1 with w := st1.w.emit es })
        else some (true, st1)) = some r) :
    r.1 = true ∧ ∃ post, r.2.w.out = st1.w.out ++ post := by
  split at h
  · exact absurd h (by simp)
  · split at h
    · split at h
      · simp only [Option.some.injEq] at h
        subst h
        exact ⟨rfl, _, rfl⟩
      · split at h
        · exact absurd h (by simp)
        · simp only [Option.some.injEq] at h
          subst h
          exact ⟨rfl, _, rfl⟩
    · simp only [Option.some.injEq] at h
      subst h
      exact ⟨rfl, [], (List.append_nil _).symm⟩

/-- The log behind `sendLevel`: the level name, the full-sync items when the cached time
is 0, the board changes since the cached time (unless called for an adjacent level), and
what follows. -/
theorem sendLevel_out (env : Env) (lenv : LevelEnv) (st : Placement) (pl : Nat)
    (modTime : Int) (adj : Bool) (r : Bool × Placement)
    (h : sendLevel env lenv st (some pl) modTime adj = some r) :
    r.1 = true ∧ ∃ post, r.2.w.out = st.w.out
      ++ ([writeGChar PLO_LEVELNAME ++ (st.w.levels pl).levelName]
          ++ (if getCachedLevelModTime st.w.self pl = 0
              then fullSync lenv st.w.self pl
                (if modTime = -1 then lenv.getModTime pl else modTime)
              else [])
          ++ (if !adj then
              [lenv.getBoardChangesPacket pl (getCachedLevelModTime st.w.self pl),
                lenv.getChestPacket pl st.w.self, lenv.getHorsePacket pl,
                lenv.getBaddyPacket pl st.w.self.versionID]
            else [])).flatMap (fun pkt => sendPacket st.w.self.ptr pkt true)
      ++ post := by
  obtain ⟨hb, post, hp⟩ := sendLevel_tail env _ _ _ pl r h
  refine ⟨hb, ?_⟩
  rw [send_out] at hp
  simp only [List.flatMap_append, List.append_assoc] at hp ⊢
  exact ⟨_, hp⟩

theorem append_split5 {α : Type} (a p1 p2 x q post : List α) :
    a ++ (p1 ++ (p2 ++ (x ++ (q ++ post)))) = a ++ (p1 ++ p2) ++ x ++ (q ++ post) := by
  simp only [List.append_assoc]

theorem append_split3 {α : Type} (a x y post : List α) :
    a ++ (x ++ y) ++ post = a ++ x ++ (y ++ post) := by
  simp only [List.append_assoc]

theorem send_out141 (st : Placement) (fl : Bool) (pkts : List Bytes) :
    (({ st with firstLevel := fl } : Placement).send pkts).w.out
      = st.w.out ++ pkts.flatMap (fun pkt => sendPacket st.w.self.ptr pkt true) := rfl

/-- The end of `sendLevel141` only adds to the log. -/
theorem sendLevel141_tail (env : Env) (st1 : Placement) (lvl : Option Nat) (adj : Bool)
    (r : Bool × Placement)
    (h : (match lvl with
      | none => none
      | some l =>
        if !(st1.w.levels l).singleplayer && !adj then
          match levelProps env st1.w l with
          | none => none
          | some es => some (true, { st1 with w := st1.w.emit es })
        else some (true, st1)) = some r) :
    r.1 = true ∧ ∃ post, r.2.w.out = st1.w.out ++ post := by
  split at h
  · exact absurd h (by simp)
  · split at h
    · split at h
      · exact absurd h (by simp)
      · simp only [Option.some.injEq] at h
        subst h
        exact ⟨rfl, _, rfl⟩
    · simp only [Option.some.injEq] at h
      subst h
      exact ⟨rfl, [], (List.append_nil _).symm⟩

/-- The log behind `sendLevel141`: first the board changes since the cached time when
there is one, else the board with links, signs and modification time, or the opcode
`PLO_LEVELBOARD` alone when the client's time is the level's. -/
theorem sendLevel141_out (env : Env) (lenv : LevelEnv) (st : Placement) (pl : Nat)
    (modTime : Int) (adj : Bool) (r : Bool × Placement)
    (h : sendLevel141 env lenv st (some pl) modTime adj = some r) :
    r.1 = true ∧ ∃ post, r.2.w.out = st.w.out
      ++ (if getCachedLevelModTime st.w.self pl ≠ 0
          then [lenv.getBoardChangesPacket pl (getCachedLevelModTime st.w.self pl)]
          else
            (if (if modTime = -1 then lenv.getModTime pl else modTime) ≠ lenv.getModTime pl then
              [writeGChar PLO_RAWDATA ++ writeGInt 8194, lenv.getBoardPacket pl]
              ++ (if st.firstLevel
                  then [writeGChar PLO_LEVELNAME ++ (st.w.levels pl).levelName] else [])
              ++ (if !env.serverside
                  then [lenv.getLinksPacket pl, lenv.getSignsPacket pl st.w.self] else [])
              ++ [writeGChar PLO_LEVELMODTIME ++ writeGInt5 (lenv.getModTime pl)]
            else [writeGChar PLO_LEVELBOARD])
            ++ (if !adj
                then [lenv.getBoardChangesPacket2 pl (getCachedLevelModTime st.w.self pl),
                  lenv.getChestPacket pl st.w.self]
                else [])).flatMap (fun pkt => sendPacket st.w.self.ptr pkt true)
      ++ post := by
  obtain ⟨hb, post, hp⟩ := sendLevel141_tail env _ _ _ r h
  refine ⟨hb, ?_⟩
  rw [send_out141] at hp
  simp only [List.flatMap_append, List.append_assoc] at hp ⊢
  exact ⟨_, hp⟩

/-- With a cached time, `sendLevel` does not read the board, the links, the signs or the
modification time of the level. -/
theorem sendLevel_indep (env : Env) (lenv : LevelEnv) (st : Placement) (pl : Nat)
    (modTime : Int) (adj : Bool) (h : getCachedLevelModTime st.w.self pl ≠ 0)
    (g : Nat → Int) (b lk : Nat → Bytes) (sg : Nat → TPlayer → Bytes) :
    sendLevel env
        { lenv with getModTime := g, getBoardPacket := b, getLinksPacket := lk, getSignsPacket := sg }
        st (some pl) modTime adj
      = sendLevel env lenv st (some pl) modTime adj := by
  unfold sendLevel
  simp only [h, if_false]

/-- With a cached time, `sendLevel141` does not read them either. -/
theorem sendLevel141_indep (env : Env) (lenv : LevelEnv) (st : Placement) (pl : Nat)
    (modTime : Int) (adj : Bool) (h : getCachedLevelModTime st.w.self pl ≠ 0)
    (g : Nat → Int) (b lk : Nat → Bytes) (sg : Nat → TPlayer → Bytes) :
    sendLevel141 env
        { lenv with getModTime := g, getBoardPacket := b, getLinksPacket := lk, getSignsPacket := sg }
        st (some pl) modTime adj
      = sendLevel141 env lenv st (some pl) modTime adj := by
  unfold sendLevel141
  simp only [h, ne_eq, not_false_eq_true, if_true, false_and, if_false]

/-- The login props of the occupants are defined when every occupant has a session. -/
theorem levelProps_defined (env : Env) (w : World) (l : Nat)
    (h : ∀ q ∈ (w.levels l).levelPlayerList, (w.player q).isSome = true) :
    ∃ es, levelProps env w l = some es := by
  unfold levelProps
  simp only []
  rw [if_pos]
  · exact ⟨_, rfl⟩
  · rw [List.all_eq_true]
    intro o ho
    rw [List.mem_map] at ho
    obtain ⟨q, hq, rfl⟩ := ho
    split
    · rfl
    · have hq2 := h q hq
      cases hp : w.player q with
      | none =>
        rw [hp] at hq2
        exact absurd hq2 (by simp)
      | some p => rfl

theorem sendLevel_tail_defined (env : Env) (st1 : Placement) (lvl : Option Nat)
    (pm : Option Nat) (pl l : Nat) (hl : lvl = some l)
    (h : ∀ q ∈ (st1.w.levels l).levelPlayerList, (st1.w.player q).isSome = true) :
    ∃ r, (match lvl with
      | none => none
      | some l =>
        if !(st1.w.levels l).singleplayer then
          match pm with
          | some m => some (true, { st1 with w := st1.w.emit (mapProps env st1.w m pl) })
          | none =>
            match levelProps env st1.w l with
            | none => none
            | some es => some (true, { st1 with w := st1.w.emit es })
        else some (true, st1)) = some r := by
  subst hl
  obtain ⟨es, hes⟩ := levelProps_defined env st1.w l h
  simp only [hes]
  split
  · split
    · exact ⟨_, rfl⟩
    · exact ⟨_, rfl⟩
  · exact ⟨_, rfl⟩

theorem sendLevel141_tail_defined (env : Env) (st1 : Placement) (lvl : Option Nat)
    (adj : Bool) (l : Nat) (hl : lvl = some l)
    (h : ∀ q ∈ (st1.w.levels l).levelPlayerList, (st1.w.player q).isSome = true) :
    ∃ r, (match lvl with
      | none => none
      | some l =>
        if !(st1.w.levels l).singleplayer && !adj then
          match levelProps env st1.w l with
          | none => none
          | some es => some (true, { st1 with w := st1.w.emit es })
        else some (true, st1)) = some r := by
  subst hl
  obtain ⟨es, hes⟩ := levelProps_defined env st1.w l h
  simp only [hes]
  split
  · exact ⟨_, rfl⟩
  · exact ⟨_, rfl⟩

/-- Both level syncs return when the session is on a level whose occupants all have a
session. -/
theorem sendLevel_defined (env : Env) (lenv : LevelEnv) (st : Placement) (pl : Nat)
    (modTime : Int) (adj : Bool) (l : Nat) (hl : st.w.self.level = some l)
    (h : ∀ q ∈ (st.w.levels l).levelPlayerList, (st.w.player q).isSome = true) :
    (∃ r, sendLevel env lenv st (some pl) modTime adj = some r)
    ∧ (∃ r, sendLevel141 env lenv st (some pl) modTime adj = some r) :=
  ⟨sendLevel_tail_defined env _ _ _ pl l hl h, sendLevel141_tail_defined env _ _ adj l hl h⟩

/-- C25 (as stated, evaluated). The sample session left its level at time 500 and the
level was modified at time 900, later than the cached time; `sendLevel` sends the session
ten packets, none of them the modification time, the links or the signs: behind the level
name come the board changes since the cached time. -/
theorem stale_cache_no_full_sync :
    getCachedLevelModTime sampleVisited.w.self 1 = 500 ∧ sampleLevelEnv.getModTime 1 = 900
    ∧ (sendLevel sampleEnv sampleLevelEnv sampleVisited (some 1) 0 false).map
        (fun r => (r.1, queuedTo 7 r.2.w.out))
      = some (true,
          [writeGChar PLO_LEVELNAME ++ str "a.nw" ++ [10], str "changes" ++ [10],
            str "chests" ++ [10], str "horses" ++ [10], str "baddies" ++ [10],
            writeGChar PLO_GHOSTICON ++ writeGChar 0 ++ [10], writeGChar PLO_ISLEADER ++ [10],
            writeGChar PLO_NEWWORLDTIME ++ writeGInt4 0 ++ [10],
            writeGChar PLO_SETACTIVELEVEL ++ str "a.nw" ++ [10], str "npcs" ++ [10]])
    ∧ (sendLevel sampleEnv sampleLevelEnv sampleVisited (some 1) 0 false).map
        (fun r => r.2.w.out.length) = some 10 :=
  ⟨rfl, rfl, rfl, rfl⟩

/-- C25 (amended). Full versus incremental sync goes by the cached time alone. When the
cached time of the level is 0 (no record, or a record reset to 0), `sendLevel` queues to
the session the modification time, the links and the signs of the level, one behind the
other, and `sendLevel141` starts with the board, links (unless the server is serverside),
signs and modification time when the client's time is not the level's, else with the
opcode `PLO_LEVELBOARD`. When the cached time is not 0, neither of them reads the board,
the links, the signs or the modification time of the level (changing them changes
nothing, so it does not matter whether the level was modified after the cached time);
`sendLevel`, unless called for an adjacent level, sends the board changes since the
cached time right behind the level name, and `sendLevel141` starts with them. Both return
when the session is on a level whose occupants all have a session. -/
theorem sync_by_cached_time (env : Env) (lenv : LevelEnv) (st : Placement) (pl : Nat)
    (modTime : Int) (adj : Bool) :
    (getCachedLevelModTime st.w.self pl = 0 →
      (∀ r, sendLevel env lenv st (some pl) modTime adj = some r →
        ∃ pre post, r.2.w.out = st.w.out ++ pre
          ++ [writeGChar PLO_LEVELMODTIME ++ writeGInt5 (lenv.getModTime pl),
              lenv.getLinksPacket pl, lenv.getSignsPacket pl st.w.self].flatMap
                (fun pkt => sendPacket st.w.self.ptr pkt true)
          ++ post)
      ∧ (∀ r, sendLevel141 env lenv st (some pl) modTime adj = some r →
        ∃ post, r.2.w.out = st.w.out
          ++ (if (if modTime = -1 then lenv.getModTime pl else modTime) ≠ lenv.getModTime pl then
              [writeGChar PLO_RAWDATA ++ writeGInt 8194, lenv.getBoardPacket pl]
              ++ (if st.firstLevel
                  then [writeGChar PLO_LEVELNAME ++ (st.w.levels pl).levelName] else [])
              ++ (if !env.serverside
                  then [lenv.getLinksPacket pl, lenv.getSignsPacket pl st.w.self] else [])
              ++ [writeGChar PLO_LEVELMODTIME ++ writeGInt5 (lenv.getModTime pl)]
            else [writeGChar PLO_LEVELBOARD]).flatMap
                (fun pkt => sendPacket st.w.self.ptr pkt true)
          ++ post))
    ∧ (getCachedLevelModTime st.w.self pl ≠ 0 →
      (∀ (g : Nat → Int) (b lk : Nat → Bytes) (sg : Nat → TPlayer → Bytes),
        sendLevel env
            { lenv with getModTime := g, getBoardPacket := b, getLinksPacket := lk, getSignsPacket := sg }
            st (some pl) modTime adj
          = sendLevel env lenv st (some pl) modTime adj
        ∧ sendLevel141 env
            { lenv with getModTime := g, getBoardPacket := b, getLinksPacket := lk, getSignsPacket := sg }
            st (some pl) modTime adj
          = sendLevel141 env lenv st (some pl) modTime adj)
      ∧ (adj = false → ∀ r, sendLevel env lenv st (some pl) modTime adj = some r →
        ∃ post, r.2.w.out = st.w.out
          ++ [writeGChar PLO_LEVELNAME ++ (st.w.levels pl).levelName,
              lenv.getBoardChangesPacket pl (getCachedLevelModTime st.w.self pl)].flatMap
                (fun pkt => sendPacket st.w.self.ptr pkt true)
          ++ post)
      ∧ (∀ r, sendLevel141 env lenv st (some pl) modTime adj = some r →
        ∃ post, r.2.w.out = st.w.out
          ++ [lenv.getBoardChangesPacket pl (getCachedLevelModTime st.w.self pl)].flatMap
                (fun pkt => sendPacket st.w.self.ptr pkt true)
          ++ post))
    ∧ (∀ l, st.w.self.level = some l →
        (∀ q ∈ (st.w.levels l).levelPlayerList, (st.w.player q).isSome = true) →
        (∃ r, sendLevel env lenv st (some pl) modTime adj = some r)
        ∧ (∃ r, sendLevel141 env lenv st (some pl) modTime adj = some r)) := by
  refine ⟨fun h0 => ⟨?_, ?_⟩, fun hne => ⟨?_, ?_, ?_⟩, ?_⟩
  · intro r hr
    obtain ⟨-, post, hp⟩ := sendLevel_out env lenv st pl modTime adj r hr
    rw [if_pos h0] at hp
    unfold fullSync at hp
    simp only [List.flatMap_append, List.append_assoc] at hp
    exact ⟨_, _, hp.trans (append_split5 _ _ _ _ _ _)⟩
  · intro r hr
    obtain ⟨-, post, hp⟩ := sendLevel141_out env lenv st pl modTime adj r hr
    rw [if_neg (by simpa using h0), List.flatMap_append] at hp
    exact ⟨_, hp.trans (append_split3 _ _ _ _)⟩
  · intro g b lk sg
    exact ⟨sendLevel_indep env lenv st pl modTime adj hne g b lk sg,
      sendLevel141_indep env lenv st pl modTime adj hne g b lk sg⟩
  · intro hadj r hr
    subst hadj
    obtain ⟨-, post, hp⟩ := sendLevel_out env lenv st pl modTime false r hr
    rw [if_neg hne] at hp
    refine ⟨[lenv.getChestPacket pl st.w.self, lenv.getHorsePacket pl,
      lenv.getBaddyPacket pl st.w.self.versionID].flatMap
        (fun pkt => sendPacket st.w.self.ptr pkt true) ++ post, ?_⟩
    rw [hp]
    simp only [Bool.not_false, if_true, List.append_nil, List.flatMap_append,
      List.flatMap_cons, List.flatMap_nil, List.append_assoc]
  · intro r hr
    obtain ⟨-, post, hp⟩ := sendLevel141_out env lenv st pl modTime adj r hr
    rw [if_pos hne] at hp
    exact ⟨_, hp⟩
  · intro l hl hocc
    exact sendLevel_defined env lenv st pl modTime adj l hl hocc

/-- Witness of C25 (amended): the sample session with an empty cache gets the
modification time, the links and the signs of its level. -/
theorem sync_by_cached_time_witness :
    getCachedLevelModTime sampleUnvisited.w.self 1 = 0
    ∧ ∃ r pre post, sendLevel sampleEnv sampleLevelEnv sampleUnvisited (some 1) 0 false = some r
      ∧ r.2.w.out = sampleUnvisited.w.out ++ pre
          ++ [Event.queued 7 (writeGChar PLO_LEVELMODTIME ++ writeGInt5 900 ++ [10]),
              Event.queued 7 (str "links" ++ [10]), Event.queued 7 (str "signs" ++ [10])]
          ++ post := by
  refine ⟨rfl, ?_⟩
  have h := sync_by_cached_time sampleEnv sampleLevelEnv sampleUnvisited 1 0 false
  obtain ⟨r, hr⟩ := (h.2.2 1 rfl (by decide)).1
  obtain ⟨pre, post, hp⟩ := (h.1 rfl).1 r hr
  exact ⟨r, pre, post, hr, hp⟩

/-! ## The same-level test of `warp` -/

/-- C26. The same-level test of `warp` looks at the level found by name, not at the
resolved clone. For a session on level `l` and a name that the server-wide lookup
resolves to another level object `found` (as for the session's own clone of a
singleplayer level): `warp` does not take the short-circuit; it leaves the level and
enters again through `setLevel`, whose result it returns when that succeeds. And the
resolution of `setLevel`, for a singleplayer level of which the session holds the clone
`l` and outside a group map, is that same clone `l`: the session re-enters the level it
was on. -/
theorem warp_reenters_own_clone (env : Env) (w : World) (pLevelName : Bytes) (pX pY : ℚ)
    (modTime : Int) (l found : Nat) (hcur : w.self.level = some l)
    (hfind : env.findLevel pLevelName w = some found) (hne : found ≠ l) :
    ((env.setLevel pLevelName modTime (placed env w (some found) pX pY)).1 = true →
      warp env w pLevelName pX pY modTime
        = some (true, (env.setLevel pLevelName modTime (placed env w (some found) pX pY)).2))
    ∧ (∀ (lenv : LevelEnv) (st : Placement),
        (st.w.levels found).singleplayer = true →
        mapFind st.spLevels (st.w.levels found).levelName = some l →
        st.w.self.pmap = none →
        resolveLevel env lenv st found = some (l, st)) := by
  constructor
  · intro hset
    have hset2 : (env.setLevel pLevelName modTime
        { env.leaveLevel w with
          self := { (env.leaveLevel w).self with
            pmap := env.getMap (some found), x := pX, y := pY } }).1 = true := hset
    unfold warp
    simp only [hcur, hfind, ne_eq, reduceCtorEq, not_false_eq_true, Option.some.injEq, hne,
      and_false, if_false, hset2, Bool.not_true, Bool.false_eq_true]
    rfl
  · intro lenv st hsp hmap hpm
    unfold resolveLevel
    simp only [hsp, if_true, hmap, hpm, Bool.false_and, Bool.false_eq_true, if_false]

/-- Witness of C26: the sample session stands on its own clone (object 5) of the
singleplayer level "a.nw" (object 1) and warps to "a.nw": it leaves the clone (the leave
notice to the level), enters it again and is sent the level anew. -/
theorem warp_reenters_own_clone_witness :
    sampleCloneWorld.self.level = some 5
    ∧ sampleCloneEnv.findLevel (str "a.nw") sampleCloneWorld = some 1
    ∧ resolveLevel sampleEnv sampleLevelEnv (sampleClonePlacement sampleCloneWorld) 1
        = some (5, sampleClonePlacement sampleCloneWorld)
    ∧ (warp sampleCloneEnv sampleCloneWorld (str "a.nw") 30 30 5).map
        (fun r => (r.1, r.2.self.level, r.2.out))
      = some (true, some 5,
          [Event.toLevel (writeGChar PLO_OTHERPLPROPS ++ writeGShort 2
              ++ writeGChar PLPROP_JOINLEAVELVL ++ writeGChar 0) none (some 5) (some 7) false,
            Event.queued 7 (writeGChar PLO_LEVELNAME ++ str "a.nw" ++ [10]),
            Event.queued 7 (str "changes" ++ [10]), Event.queued 7 (str "chests" ++ [10]),
            Event.queued 7 (str "horses" ++ [10]), Event.queued 7 (str "baddies" ++ [10]),
            Event.queued 7 (writeGChar PLO_GHOSTICON ++ writeGChar 0 ++ [10]),
            Event.queued 7 (writeGChar PLO_ISLEADER ++ [10]),
            Event.queued 7 (writeGChar PLO_NEWWORLDTIME ++ writeGInt4 0 ++ [10]),
            Event.queued 7 (writeGChar PLO_SETACTIVELEVEL ++ str "a.nw" ++ [10]),
            Event.queued 7 (str "npcs" ++ [10])]) := by
  have h := warp_reenters_own_clone sampleCloneEnv sampleCloneWorld (str "a.nw") 30 30 5 5 1
    rfl rfl (by decide)
  refine ⟨rfl, rfl, h.2 sampleLevelEnv (sampleClonePlacement sampleCloneWorld) rfl rfl rfl, ?_⟩
  rw [h.1 rfl]
  rfl

/-! ## Round trips of the AP counter and of the precise coordinates -/

/-- The wire short carries every value up to 28767. -/
theorem readGUShort_writeGShort (v : Nat) (hv : v ≤ 28767) :
    readGUShort (writeGShort (v : Int)) = (v, []) := by
  unfold writeGShort readGUShort readChar toU16
  simp only [List.headD_cons, List.tail_cons]
  have h1 : ((v : Int) % 65536).toNat = v := by omega
  rw [h1]
  have h2 : min v 28767 = v := by omega
  rw [h2]
  refine Prod.ext ?_ rfl
  simp only []
  omega

theorem even_or_one (k : Nat) : (2 * k) ||| 1 = 2 * k + 1 := by
  apply Nat.eq_of_testBit_eq
  intro i
  cases i with
  | zero =>
    rw [Nat.testBit_or]
    simp only [Nat.testBit_zero]
    have h1 : (2 * k) % 2 = 0 := by omega
    have h2 : (2 * k + 1) % 2 = 1 := by omega
    rw [h1, h2]
    rfl
  | succ j =>
    rw [Nat.testBit_or, Nat.testBit_succ, Nat.testBit_succ, Nat.testBit_succ]
    have h1 : (2 * k) / 2 = k := by omega
    have h2 : (2 * k + 1) / 2 = k := by omega
    have h3 : 1 / 2 = 0 := by decide
    rw [h1, h2, h3]
    simp

/-- The sign-magnitude short of a coordinate whose magnitude fits 15 bits: twice the
magnitude, plus 1 when the coordinate is negative. -/
theorem encodeCoord2_eq (c : Int) (h : 2 * c.natAbs ≤ 65535) :
    encodeCoord2 c = 2 * c.natAbs + (if c < 0 then 1 else 0) := by
  unfold encodeCoord2 toU16
  have h1 : (((c.natAbs : Int) * 2) % 65536).toNat = 2 * c.natAbs := by omega
  simp only [h1]
  split
  · exact even_or_one _
  · rfl

/-- Decoding undoes the sign-magnitude encoding. -/
theorem decodeCoord2_encodeCoord2 (c : Int) (h : 2 * c.natAbs ≤ 65535) :
    decodeCoord2 (encodeCoord2 c) = c := by
  rw [decodeCoord2_eq, encodeCoord2_eq c h]
  by_cases hc : c < 0
  · simp only [hc, if_true]
    have h1 : (2 * c.natAbs + 1) % 2 = 1 := by omega
    have h2 : (2 * c.natAbs + 1) / 2 = c.natAbs := by omega
    rw [if_pos h1, h2]
    omega
  · simp only [hc, if_false, Nat.add_zero]
    have h1 : ¬ (2 * c.natAbs) % 2 = 1 := by omega
    have h2 : (2 * c.natAbs) / 2 = c.natAbs := by omega
    rw [if_neg h1, h2]
    omega

theorem case_Z2 (env : Env) (s : Locals) (pk : Bytes) :
    ∃ o, casePLPROP_Z2 env s pk = some (Flow.brk,
      { s with
        w := { s.w with self := { s.w.self with
          z2 := decodeCoord2 (readGUShort pk).1
          status := clearBits s.w.self.status PLSTATUS_PAUSED
          lastMovement := env.now
          grMovementUpdated := true
          z := ((ftoi ((decodeCoord2 (readGUShort pk).1 : ℚ) / 16 + 1 / 2) : Int) : ℚ) } }
        doTouchTest := true }, (readGUShort pk).2, o) := ⟨_, rfl⟩

theorem case_apcounter (s : Locals) (pk : Bytes) :
    casePLPROP_APCOUNTER s pk = some (Flow.brk,
      { s with w := { s.w with self := { s.w.self with apCounter := ((readGUShort pk).1 : Int) } } },
      (readGUShort pk).2, Bufs.empty.append (Bufs.empty.append Bufs.empty)) := rfl

/-- C31. The AP counter comes back one higher. For every value `v` up to 28766 written
through `setProps` as the AP-counter property, the call returns with the counter `v`, and
a following `getProp` for the AP-counter property is the wire short of `v + 1`, which
decodes to `v + 1`, not to `v`. -/
theorem apcounter_off_by_one (env : Env) (w : World) (v : Nat) (hv : v ≤ 28766)
    (fwd fts : Bool) (rc : Option TPlayer) :
    ∃ w1, setProps env w (writeGChar PLPROP_APCOUNTER ++ writeGShort v) fwd fts rc = some w1
      ∧ w1.self.apCounter = v
      ∧ getProp env w1.levels w1.self PLPROP_APCOUNTER = writeGShort ((v : Int) + 1)
      ∧ (readGUShort (getProp env w1.levels w1.self PLPROP_APCOUNTER)).1 = v + 1
      ∧ (readGUShort (getProp env w1.levels w1.self PLPROP_APCOUNTER)).1 ≠ v := by
  have hc := case_apcounter (Locals.start w) (writeGShort (v : Int))
  rw [readGUShort_writeGShort v (by omega)] at hc
  obtain ⟨es, he⟩ := setProps_prop_quiet env w PLPROP_APCOUNTER (writeGShort (v : Int))
    (by decide) fwd fts rc _ _ hc rfl rfl rfl
  have hg : getProp env w.levels
      ({ w.self with apCounter := ((v, ([] : Bytes)).1 : Int) } : TPlayer) PLPROP_APCOUNTER
      = writeGShort ((v : Int) + 1) := rfl
  have hr : (readGUShort (writeGShort ((v : Int) + 1))).1 = v + 1 := by
    have := readGUShort_writeGShort (v + 1) (by omega)
    rw [Nat.cast_add, Nat.cast_one] at this
    rw [this]
  have hr2 : (readGUShort (getProp env w.levels
      ({ w.self with apCounter := ((v, ([] : Bytes)).1 : Int) } : TPlayer) PLPROP_APCOUNTER)).1
      = v + 1 := (congrArg (fun b => (readGUShort b).1) hg).trans hr
  refine ⟨_, he, rfl, hg, hr2, ?_⟩
  intro hv2
  have := hr2.symm.trans hv2
  omega

/-- Witness of C31: the AP counter 10 written on the sample session is encoded as 11. -/
theorem apcounter_off_by_one_witness :
    (10 : Nat) ≤ 28766
    ∧ ∃ w1, setProps sampleEnv sampleWorld (writeGChar PLPROP_APCOUNTER ++ writeGShort 10)
          true false none = some w1
      ∧ w1.self.apCounter = 10
      ∧ (readGUShort (getProp sampleEnv w1.levels w1.self PLPROP_APCOUNTER)).1 = 11 := by
  obtain ⟨w1, h1, h2, -, h4, -⟩ :=
    apcounter_off_by_one sampleEnv sampleWorld 10 (by decide) true false none
  exact ⟨by decide, w1, h1, h2, h4⟩

/-- C32. Sign-magnitude round trip of the precise coordinates. For every integer pixel
coordinate `c` whose encoded value fits the wire short (at most 28767), the encoded value
is twice the magnitude plus the sign bit, the encoder `getProp` of X2, Y2 and Z2 writes
it as a wire short, and decoding these bytes with `setProps`, on a session placed in a
level with a sprite that is not negative, returns and leaves `x2 = c`, `y2 = c` and
`z2 = c`; the coordinate 0 is encoded as 0, with sign bit 0. -/
theorem precise_coord_roundtrip (env : Env) (w : World) (hl : w.self.level ≠ none)
    (hs : 0 ≤ w.self.sprite) (fwd fts : Bool) (rc : Option TPlayer) (p : TPlayer)
    (lv : Nat → TLevel) (c : Int)
    (hfit : 2 * c.natAbs + (if c < 0 then 1 else 0) ≤ 28767) :
    encodeCoord2 c = 2 * c.natAbs + (if c < 0 then 1 else 0)
    ∧ encodeCoord2 0 = 0
    ∧ (readGUShort (getProp env lv { p with x2 := c } PLPROP_X2)).1 = encodeCoord2 c
    ∧ (∃ w1, setProps env w (writeGChar PLPROP_X2 ++ getProp env lv { p with x2 := c } PLPROP_X2)
          fwd fts rc = some w1 ∧ w1.self.x2 = c)
    ∧ (∃ w1, setProps env w (writeGChar PLPROP_Y2 ++ getProp env lv { p with y2 := c } PLPROP_Y2)
          fwd fts rc = some w1 ∧ w1.self.y2 = c)
    ∧ (∃ w1, setProps env w (writeGChar PLPROP_Z2 ++ getProp env lv { p with z2 := c } PLPROP_Z2)
          fwd fts rc = some w1 ∧ w1.self.z2 = c) := by
  have h16 : 2 * c.natAbs ≤ 65535 := by
    split at hfit <;> omega
  have henc := encodeCoord2_eq c h16
  have hle : encodeCoord2 c ≤ 28767 := by
    rw [henc]
    exact hfit
  have hrt := readGUShort_writeGShort (encodeCoord2 c) hle
  have hdec := decodeCoord2_encodeCoord2 c h16
  refine ⟨henc, by decide, ?_, ?_, ?_, ?_⟩
  · show (readGUShort (writeGShort (encodeCoord2 c : Int))).1 = _
    rw [hrt]
  · obtain ⟨o, ho⟩ := case_X2 env (Locals.start w) (writeGShort (encodeCoord2 c : Int))
    rw [hrt] at ho
    obtain ⟨es, he⟩ := setProps_prop_placed env w PLPROP_X2 (writeGShort (encodeCoord2 c : Int))
      (by decide) fwd fts rc _ _ ho rfl hl hs
    exact ⟨_, he, hdec⟩
  · obtain ⟨o, ho⟩ := case_Y2 env (Locals.start w) (writeGShort (encodeCoord2 c : Int))
    rw [hrt] at ho
    obtain ⟨es, he⟩ := setProps_prop_placed env w PLPROP_Y2 (writeGShort (encodeCoord2 c : Int))
      (by decide) fwd fts rc _ _ ho rfl hl hs
    exact ⟨_, he, hdec⟩
  · obtain ⟨o, ho⟩ := case_Z2 env (Locals.start w) (writeGShort (encodeCoord2 c : Int))
    rw [hrt] at ho
    obtain ⟨es, he⟩ := setProps_prop_placed env w PLPROP_Z2 (writeGShort (encodeCoord2 c : Int))
      (by decide) fwd fts rc _ _ ho rfl hl hs
    exact ⟨_, he, hdec⟩

/-- Witness of C32: the coordinate -100 is encoded as 201 and decoded as -100 again on
the sample session. -/
theorem precise_coord_roundtrip_witness :
    sampleWorld.self.level ≠ none ∧ 0 ≤ sampleWorld.self.sprite
    ∧ encodeCoord2 (-100) = 201
    ∧ ∃ w1, setProps sampleEnv sampleWorld
          (writeGChar PLPROP_X2
            ++ getProp sampleEnv sampleWorld.levels { samplePlayer with x2 := -100 } PLPROP_X2)
          true false none = some w1
        ∧ w1.self.x2 = -100 := by
  have h := precise_coord_roundtrip sampleEnv sampleWorld (by decide) (by decide) true false
    none samplePlayer sampleWorld.levels (-100) (by decide)
  exact ⟨by decide, by decide, by decide, h.2.2.2.1⟩

/-! ## The aborted property packet -/

/-- A packet that runs into an unknown id behind `n` decoded properties: `setProps`
returns the world of the locals at that point. -/
theorem setProps_aborted (env : Env) (w : World) (fwd fts : Bool) (rc : Option TPlayer)
    (pre rest : Bytes) (b n : Nat) (s : Locals)
    (hu : unhandled (readGUChar [b]).1 = true)
    (hpre : decodeN env fwd fts rc n (Locals.start w) (pre ++ b :: rest) = some (s, b :: rest)) :
    setProps env w (pre ++ b :: rest) fwd fts rc = some s.w
    ∧ ∃ o, setPropsLoop env fwd fts rc pre.length (Locals.start w) Bufs.empty pre
        = some (LoopEnd.exhausted s o) := by
  obtain ⟨used, e, hlen, k⟩ := decodeN_local env fwd fts rc n _ _ _ _ hpre (by simp)
  have hused : pre = used := List.append_cancel_right e
  subst hused
  constructor
  · obtain ⟨o2, h2⟩ := setPropsLoop_decodeN env fwd fts rc n _ _ _ _ Bufs.empty
      (pre.length - n + rest.length + 1) (k (b :: rest))
    obtain ⟨o3, h3⟩ := setPropsIter_unhandled env fwd fts rc s b rest hu
    have hfuel : (pre ++ b :: rest).length = pre.length - n + rest.length + 1 + n := by
      simp only [List.length_append, List.length_cons]
      omega
    unfold setProps
    rw [hfuel, h2, setPropsLoop_ret env fwd fts rc _ s _ o2 o3 (b :: rest) rest (by simp) h3]
  · have k0 := k []
    rw [List.append_nil] at k0
    obtain ⟨o2, h2⟩ := setPropsLoop_decodeN env fwd fts rc n _ _ _ _ Bufs.empty
      (pre.length - n) k0
    refine ⟨o2, ?_⟩
    rw [show pre.length = pre.length - n + n by omega, h2, setPropsLoop_nil]

/-- C33 (as stated, evaluated). The logged-in, loaded sample session receives the packet
of the status-message property (id 53, value 1) followed by the unknown id 100: the call
returns with the status message stored, and it has sent an other-player-props packet with
that status message to all other sessions. -/
theorem aborted_packet_still_sends :
    sampleEnv.isLoggedIn sampleWorld.self = true ∧ sampleWorld.self.isLoaded = true
    ∧ unhandled (readGUChar [132]).1 = true
    ∧ (setProps sampleEnv sampleWorld ([85, 33] ++ 132 :: []) true true none).map
        (fun w1 => (w1.self.statusMsg, w1.out))
      = some (1, [Event.toAll (writeGChar PLO_OTHERPLPROPS ++ writeGShort 2
          ++ writeGChar PLPROP_PSTATUSMSG ++ writeGChar 1) (some 7)]) :=
  ⟨rfl, rfl, rfl, rfl⟩

/-- C33 (amended). An aborted property packet is not flushed. The packet is
`pre ++ [b] ++ rest`, where the first `n` iterations of the decode loop consume exactly
`pre` and leave the locals `s`, and `b` decodes to an id the switch has no case for.
Then `setProps` returns the world of `s` as it is: the properties of `pre` are applied,
and the log holds what the decode cases of `pre` sent themselves and nothing else. The
decode loop on `pre` alone ends with the same locals and with buffers `o`, which the
packet `pre` alone would hand to the block "Send Buffers Out"; here they are dropped, so
when the cases of `pre` sent nothing themselves the call sends nothing at all. -/
theorem aborted_packet_not_flushed (env : Env) (w : World) (fwd fts : Bool)
    (rc : Option TPlayer) (pre rest : Bytes) (b n : Nat) (s : Locals)
    (hu : unhandled (readGUChar [b]).1 = true)
    (hpre : decodeN env fwd fts rc n (Locals.start w) (pre ++ b :: rest) = some (s, b :: rest)) :
    setProps env w (pre ++ b :: rest) fwd fts rc = some s.w
    ∧ (∃ o, setPropsLoop env fwd fts rc pre.length (Locals.start w) Bufs.empty pre
          = some (LoopEnd.exhausted s o)
        ∧ setProps env w pre fwd fts rc = sendBuffersOut env rc s o)
    ∧ (s.w.out = w.out →
        (setProps env w (pre ++ b :: rest) fwd fts rc).map World.out = some w.out) := by
  obtain ⟨h1, o, h2⟩ := setProps_aborted env w fwd fts rc pre rest b n s hu hpre
  refine ⟨h1, ⟨o, h2, setProps_exhausted env w pre fwd fts rc s o h2⟩, ?_⟩
  intro hout
  rw [h1]
  show some s.w.out = _
  rw [hout]

/-- Witness of C33 (amended): arrows set to 5, then the unknown id 100, on the sample
session: the arrows are stored and nothing is sent, although both forward flags are set. -/
theorem aborted_packet_not_flushed_witness :
    unhandled (readGUChar [132]).1 = true
    ∧ (setProps sampleEnv sampleWorld ([36, 37] ++ 132 :: [36, 131]) true true none).map
        (fun w1 => (w1.self.arrowc, w1.out)) = some (5, [])
    ∧ (setProps sampleEnv sampleWorld [36, 37] true true none).map World.out
        = some [Event.queued 7 (writeGChar PLO_PLAYERPROPS ++ [36, 37, 10])] := by
  have h := aborted_packet_not_flushed sampleEnv sampleWorld true true none [36, 37]
    [36, 131] 132 1
    { Locals.start sampleWorld with
      w := { sampleWorld with self := { samplePlayer with arrowc := 5 } } }
    (by decide) rfl
  refine ⟨by decide, ?_, rfl⟩
  rw [h.1]
  rfl

/-! ## The newline check on a raw record -/

/-- C34. The newline check on an empty raw record reads index -1. For a client (or an RC
newer than 1.1) in raw mode: with the announced size 0 the record cut out is empty
whatever the frame holds, the check reads index -1 and the step is undefined; with an
announced size of at least 1 and unread bytes in the frame the index read lies inside the
record. -/
theorem raw_check_index (env : Env) (net : NetEnv) (tbl : Nat → Handler) (c : Conn)
    (pPacket : Bytes) (hraw : c.nextIsRaw = true)
    (hs : (c.w.self.isClient
      || (c.w.self.isRC && decide (c.w.self.versionID > net.RCVER_1_1))) = true) :
    (c.rawPacketSize = 0 →
      rawCheckIndex c.rawPacketSize pPacket = -1 ∧ parseOne env net tbl c pPacket = none)
    ∧ (1 ≤ c.rawPacketSize → pPacket ≠ [] →
      0 ≤ rawCheckIndex c.rawPacketSize pPacket
      ∧ rawCheckIndex c.rawPacketSize pPacket
          < ((readChars c.rawPacketSize pPacket).1.length : Int)) := by
  constructor
  · intro h0
    constructor
    · unfold rawCheckIndex readChars
      rw [h0]
      rfl
    · unfold parseOne
      rw [if_pos hraw]
      simp only [hs, if_true, h0, readChars, List.take_zero, List.getLast?_nil]
  · intro hN hne
    unfold rawCheckIndex readChars
    simp only [List.length_take]
    have hlen : 1 ≤ pPacket.length := by
      cases pPacket with
      | nil => exact absurd rfl hne
      | cons a l => simp
    omega

/-- Witness of C34: the sample client announces a raw block of 0 bytes and sends another
record in the same frame; the parse step on the bytes behind the announcement is
undefined, and so is `parsePacket` on the whole frame content. -/
theorem raw_check_index_witness :
    sampleEmptyRaw.nextIsRaw = true ∧ sampleEmptyRaw.rawPacketSize = 0
    ∧ sampleEmptyRaw.w.self.isClient = true
    ∧ rawCheckIndex 0 [65, 10] = -1
    ∧ parseOne sampleEnv sampleNet (TPLFunc sampleEnv sampleNet) sampleEmptyRaw [65, 10] = none
    ∧ (parsePacket sampleEnv sampleNet (TPLFunc sampleEnv sampleNet) sampleConn
        [82, 32, 32, 32, 10, 65, 10]) = none := by
  have h := (raw_check_index sampleEnv sampleNet (TPLFunc sampleEnv sampleNet) sampleEmptyRaw
    [65, 10] rfl rfl).1 rfl
  exact ⟨rfl, rfl, rfl, h.1, h.2, rfl⟩

/-! ## The split of the death drop -/

theorem itemsAdded_append (a b : List Event) :
    itemsAdded (a ++ b) = itemsAdded a ++ itemsAdded b := by
  unfold itemsAdded
  rw [List.filterMap_append]

theorem itemsAdded_sendPacket (p : Nat) (pk : Bytes) (nl : Bool) :
    itemsAdded (sendPacket p pk nl) = [] := by
  unfold sendPacket
  split
  · rfl
  · split <;> rfl

/-- One dropped item: the level gets the item, the session and the levels stay. -/
theorem dropOne_item (env : Env) (item : Nat) (hi : item ≤ 223) (w : World) (l : Nat)
    (h : w.self.level = some l) :
    ∃ w1 es, dropOne env item w = some w1 ∧ w1.out = w.out ++ es ∧ itemsAdded es = [item]
      ∧ w1.self = w.self := by
  have hw : writeGChar (item : Int) = [item + 32] := writeGChar_small item hi
  unfold dropOne msgPLI_ITEMADD
  simp only [h]
  refine ⟨_, _, rfl, List.append_assoc _ _ _, ?_, rfl⟩
  rw [itemsAdded_append, itemsAdded_sendPacket, List.append_nil, hw]
  unfold writeGChar
  simp only [List.singleton_append, List.cons_append, List.nil_append, List.tail_cons,
    readGUChar_cons, itemsAdded, List.filterMap_cons, List.filterMap_nil]
  congr 1
  omega

theorem dropGralats_items (env : Env) (l : Nat) :
    ∀ (fuel : Nat) (drop : Int) (w : World), 0 ≤ drop → drop.toNat ≤ fuel →
      w.self.level = some l →
      ∃ w1 es, dropGralats env fuel drop w = some w1 ∧ w1.out = w.out ++ es
        ∧ itemsAdded es = greedyItems fuel drop.toNat ∧ w1.self = w.self := by
  intro fuel
  induction fuel with
  | zero =>
    intro drop w h0 hf _
    have : drop = 0 := by omega
    subst this
    exact ⟨w, [], by simp [dropGralats], (List.append_nil _).symm, rfl, rfl⟩
  | succ n ih =>
    intro drop w h0 hf hl
    unfold dropGralats
    by_cases hz : drop = 0
    · subst hz
      simp only [if_true]
      exact ⟨w, [], rfl, (List.append_nil _).symm, rfl, rfl⟩
    · simp only [hz, if_false]
      have e100 : Int.tmod drop 100 = drop % 100 := Int.tmod_eq_emod h0 (by decide)
      have e30 : Int.tmod drop 30 = drop % 30 := Int.tmod_eq_emod h0 (by decide)
      have e5 : Int.tmod drop 5 = drop % 5 := Int.tmod_eq_emod h0 (by decide)
      have hnz : ¬ drop.toNat = 0 := by omega
      have step : ∀ (d : Int) (it : Nat), it ≤ 223 → 0 ≤ d → d.toNat ≤ n →
          ∃ w1 es, (match dropOne env it w with
              | none => none
              | some w1 => dropGralats env n d w1) = some w1
            ∧ w1.out = w.out ++ es ∧ itemsAdded es = it :: greedyItems n d.toNat
            ∧ w1.self = w.self := by
        intro d it hit hd hdn
        obtain ⟨w1, es1, h1, ho1, hi1, hs1⟩ := dropOne_item env it hit w l hl
        obtain ⟨w2, es2, h2, ho2, hi2, hs2⟩ := ih d w1 hd hdn (by rw [hs1]; exact hl)
        refine ⟨w2, es1 ++ es2, ?_, ?_, ?_, ?_⟩
        · simp only [h1, h2]
        · rw [ho2, ho1, List.append_assoc]
        · rw [itemsAdded_append, hi1, hi2]
          rfl
        · rw [hs2, hs1]
      unfold greedyItems
      rw [if_neg hnz]
      by_cases h100 : 100 ≤ drop
      · have c1 : Int.tmod drop 100 ≠ drop := by omega
        have c2 : 100 ≤ drop.toNat := by omega
        simp only [c1, ne_eq, not_false_eq_true, if_true, c2]
        have := step (drop - 100) 19 (by decide) (by omega) (by omega)
        rw [show (drop - 100).toNat = drop.toNat - 100 by omega] at this
        exact this
      · have c1 : ¬ Int.tmod drop 100 ≠ drop := by omega
        have c2 : ¬ 100 ≤ drop.toNat := by omega
        simp only [c1, if_false, c2]
        by_cases h30 : 30 ≤ drop
        · have d1 : Int.tmod drop 30 ≠ drop := by omega
          have d2 : 30 ≤ drop.toNat := by omega
          simp only [d1, ne_eq, not_false_eq_true, if_true, d2]
          have := step (drop - 30) 2 (by decide) (by omega) (by omega)
          rw [show (drop - 30).toNat = drop.toNat - 30 by omega] at this
          exact this
        · have d1 : ¬ Int.tmod drop 30 ≠ drop := by omega
          have d2 : ¬ 30 ≤ drop.toNat := by omega
          simp only [d1, if_false, d2]
          by_cases h5 : 5 ≤ drop
          · have f1 : Int.tmod drop 5 ≠ drop := by omega
            have f2 : 5 ≤ drop.toNat := by omega
            simp only [f1, ne_eq, not_false_eq_true, if_true, f2]
            have := step (drop - 5) 1 (by decide) (by omega) (by omega)
            rw [show (drop - 5).toNat = drop.toNat - 5 by omega] at this
            exact this
          · have f1 : ¬ Int.tmod drop 5 ≠ drop := by omega
            have f2 : ¬ 5 ≤ drop.toNat := by omega
            simp only [f1, if_false, f2]
            have := step (drop - 1) 0 (by decide) (by omega) (by omega)
            rw [show (drop - 1).toNat = drop.toNat - 1 by omega] at this
            exact this

theorem dropMany_items (env : Env) (item : Nat) (hi : item ≤ 223) (l : Nat) :
    ∀ (n : Nat) (w : World), w.self.level = some l →
      ∃ w1 es, dropMany env item n w = some w1 ∧ w1.out = w.out ++ es
        ∧ itemsAdded es = List.replicate n item ∧ w1.self = w.self := by
  intro n
  induction n with
  | zero =>
    intro w _
    exact ⟨w, [], by simp [dropMany], (List.append_nil _).symm, rfl, rfl⟩
  | succ k ih =>
    intro w hl
    unfold dropMany
    obtain ⟨w1, es1, h1, ho1, hi1, hs1⟩ := dropOne_item env item hi w l hl
    obtain ⟨w2, es2, h2, ho2, hi2, hs2⟩ := ih w1 (by rw [hs1]; exact hl)
    refine ⟨w2, es1 ++ es2, ?_, ?_, ?_, ?_⟩
    · simp only [h1, h2]
    · rw [ho2, ho1, List.append_assoc]
    · rw [itemsAdded_append, hi1, hi2]
      rfl
    · rw [hs2, hs1]

/-- The greedy split is worth the amount. -/
theorem greedyItems_sum :
    ∀ (fuel g : Nat), g ≤ fuel → ((greedyItems fuel g).map gralatValue).sum = g := by
  intro fuel
  induction fuel with
  | zero =>
    intro g hg
    have : g = 0 := by omega
    subst this
    rfl
  | succ n ih =>
    intro g hg
    unfold greedyItems
    by_cases h0 : g = 0
    · subst h0
      rfl
    · rw [if_neg h0]
      by_cases h100 : 100 ≤ g
      · rw [if_pos h100, List.map_cons, List.sum_cons, ih (g - 100) (by omega)]
        show 100 + (g - 100) = g
        omega
      · rw [if_neg h100]
        by_cases h30 : 30 ≤ g
        · rw [if_pos h30, List.map_cons, List.sum_cons, ih (g - 30) (by omega)]
          show 30 + (g - 30) = g
          omega
        · rw [if_neg h30]
          by_cases h5 : 5 ≤ g
          · rw [if_pos h5, List.map_cons, List.sum_cons, ih (g - 5) (by omega)]
            show 5 + (g - 5) = g
            omega
          · rw [if_neg h5, List.map_cons, List.sum_cons, ih (g - 1) (by omega)]
            show 1 + (g - 1) = g
            omega

/-- The three loops at the end of the death drop. -/
theorem dropToLevel_items (env : Env) (l : Nat) (w : World) (D A B : Int) (hD : 0 ≤ D)
    (hl : w.self.level = some l) :
    ∃ w1 es, dropToLevel env D A B w = some w1 ∧ w1.out = w.out ++ es
      ∧ itemsAdded es = greedyItems D.toNat D.toNat ++ List.replicate A.toNat 4
          ++ List.replicate B.toNat 3
      ∧ w1.self = w.self := by
  unfold dropToLevel
  obtain ⟨w1, es1, h1, ho1, hi1, hs1⟩ := dropGralats_items env l D.toNat D w hD (le_refl _) hl
  obtain ⟨w2, es2, h2, ho2, hi2, hs2⟩ :=
    dropMany_items env 4 (by decide) l A.toNat w1 (by rw [hs1]; exact hl)
  obtain ⟨w3, es3, h3, ho3, hi3, hs3⟩ :=
    dropMany_items env 3 (by decide) l B.toNat w2 (by rw [hs2, hs1]; exact hl)
  simp only [h1, h2, h3]
  refine ⟨w3, es1 ++ es2 ++ es3, rfl, ?_, ?_, ?_⟩
  · rw [ho3, ho2, ho1, List.append_assoc, List.append_assoc, List.append_assoc]
  · rw [itemsAdded_append, itemsAdded_append, hi1, hi2, hi3]
  · rw [hs3, hs2, hs1]

/-- C38. The death drop split terminates and conserves the amount. For every number `g`
of gralats to drop that is not negative, the denomination loop returns on a session
placed in a level and adds to the level the items of the greedy split of `g` (the largest
of 100, 30, 5, 1 that fits, as items 19, 2, 1, 0, at each step), worth `g` together. And
`dropItemsOnDeath`, on a session in a level whose three counters are not negative,
returns: it removes `g` gralats, `5 * a` arrows and `5 * b` bombs, none more than the
session holds, so that no counter becomes negative, and adds to the level the greedy
split of `g`, then `a` arrow items and `b` bomb items. -/
theorem death_drop_split (env : Env) (w : World) (l : Nat) (hl : w.self.level = some l)
    (hg : 0 ≤ w.self.gralatc) (ha : 0 ≤ w.self.arrowc) (hb : 0 ≤ w.self.bombc) :
    (∀ (g : Nat) (w0 : World), w0.self.level = some l →
      ∃ w1 es, dropGralats env g (g : Int) w0 = some w1 ∧ w1.out = w0.out ++ es
        ∧ itemsAdded es = greedyItems g g ∧ ((itemsAdded es).map gralatValue).sum = g)
    ∧ ∃ w1 es, ∃ g a b : Nat, dropItemsOnDeath env w = some w1
        ∧ (g : Int) ≤ w.self.gralatc ∧ 5 * (a : Int) ≤ w.self.arrowc
        ∧ 5 * (b : Int) ≤ w.self.bombc
        ∧ w1.self.gralatc = w.self.gralatc - g ∧ w1.self.arrowc = w.self.arrowc - 5 * a
        ∧ w1.self.bombc = w.self.bombc - 5 * b
        ∧ 0 ≤ w1.self.gralatc ∧ 0 ≤ w1.self.arrowc ∧ 0 ≤ w1.self.bombc
        ∧ w1.out = w.out ++ es
        ∧ itemsAdded es = greedyItems g g ++ List.replicate a 4 ++ List.replicate b 3 := by
  constructor
  · intro g w0 hl0
    obtain ⟨w1, es, h1, ho, hi, -⟩ :=
      dropGralats_items env l g (g : Int) w0 (Int.natCast_nonneg _) (by simp) hl0
    rw [Int.toNat_ofNat] at hi
    refine ⟨w1, es, h1, ho, hi, ?_⟩
    rw [hi]
    exact greedyItems_sum g g (le_refl _)
  · have key : ∀ (D A B : Int) (w2 : World) (pre : List Event), 0 ≤ D → D ≤ w.self.gralatc →
        0 ≤ A → 5 * A ≤ w.self.arrowc → 0 ≤ B → 5 * B ≤ w.self.bombc →
        w2.self.level = some l → w2.self.gralatc = w.self.gralatc - D →
        w2.self.arrowc = w.self.arrowc - A * 5 → w2.self.bombc = w.self.bombc - B * 5 →
        w2.out = w.out ++ pre → itemsAdded pre = [] →
        ∃ w1 es, ∃ g a b : Nat, dropToLevel env D A B w2 = some w1
          ∧ (g : Int) ≤ w.self.gralatc ∧ 5 * (a : Int) ≤ w.self.arrowc
          ∧ 5 * (b : Int) ≤ w.self.bombc
          ∧ w1.self.gralatc = w.self.gralatc - g ∧ w1.self.arrowc = w.self.arrowc - 5 * a
          ∧ w1.self.bombc = w.self.bombc - 5 * b
          ∧ 0 ≤ w1.self.gralatc ∧ 0 ≤ w1.self.arrowc ∧ 0 ≤ w1.self.bombc
          ∧ w1.out = w.out ++ es
          ∧ itemsAdded es = greedyItems g g ++ List.replicate a 4 ++ List.replicate b 3 := by
      intro D A B w2 pre hD hDg hA hAa hB hBb hl2 hg2 ha2 hb2 ho2 hp2
      obtain ⟨w3, es, h3, ho3, hi3, hs3⟩ := dropToLevel_items env l w2 D A B hD hl2
      refine ⟨w3, pre ++ es, D.toNat, A.toNat, B.toNat, h3, ?_, ?_, ?_, ?_, ?_, ?_, ?_, ?_,
        ?_, ?_, ?_⟩
      · omega
      · omega
      · omega
      · rw [hs3, hg2]
        omega
      · rw [hs3, ha2]
        omega
      · rw [hs3, hb2]
        omega
      · rw [hs3, hg2]
        omega
      · rw [hs3, ha2]
        omega
      · rw [hs3, hb2]
        omega
      · rw [ho3, ho2, List.append_assoc]
      · rw [itemsAdded_append, hp2, hi3]
        rfl
    unfold dropItemsOnDeath
    by_cases hd : env.dropitemsdead = true
    · simp only [hd, Bool.not_true, Bool.false_eq_true, if_false]
      have hr : 0 ≤ Int.tmod (env.rand w.randc : Int) env.maxdeathgralats :=
        Int.tmod_nonneg _ (Int.natCast_nonneg _)
      by_cases hm : env.maxdeathgralats > 0
      · simp only [hm, if_true]
        apply key
        · split_ifs <;> omega
        · split_ifs <;> omega
        · split_ifs
          · exact Int.tdiv_nonneg ha (by decide)
          · omega
        · split_ifs
          · have := Int.tdiv_eq_ediv ha (show (0 : Int) ≤ 5 by decide)
            omega
          · omega
        · split_ifs
          · exact Int.tdiv_nonneg hb (by decide)
          · omega
        · split_ifs
          · have := Int.tdiv_eq_ediv hb (show (0 : Int) ≤ 5 by decide)
            omega
          · omega
        · exact hl
        · rfl
        · rfl
        · rfl
        · rfl
        · exact itemsAdded_sendPacket _ _ _
      · simp only [hm, if_false]
        apply key
        · exact le_refl _
        · exact hg
        · split_ifs
          · exact Int.tdiv_nonneg ha (by decide)
          · omega
        · split_ifs
          · have := Int.tdiv_eq_ediv ha (show (0 : Int) ≤ 5 by decide)
            omega
          · omega
        · split_ifs
          · exact Int.tdiv_nonneg hb (by decide)
          · omega
        · split_ifs
          · have := Int.tdiv_eq_ediv hb (show (0 : Int) ≤ 5 by decide)
            omega
          · omega
        · exact hl
        · show w.self.gralatc - 0 = w.self.gralatc - 0
          rfl
        · rfl
        · rfl
        · rfl
        · exact itemsAdded_sendPacket _ _ _
    · simp only [Bool.not_eq_true] at hd
      simp only [hd, Bool.not_false, if_true]
      refine ⟨w, [], 0, 0, 0, rfl, ?_, ?_, ?_, ?_, ?_, ?_, hg, ha, hb,
        (List.append_nil _).symm, rfl⟩
      · simpa using hg
      · simpa using ha
      · simpa using hb
      · simp
      · simp
      · simp

/-- Witness of C38: the sample session (10 gralats, 5 arrows, 5 bombs) dies in its level:
the drop returns and no counter is negative afterwards. -/
theorem death_drop_split_witness :
    sampleWorld.self.level = some 1 ∧ 0 ≤ sampleWorld.self.gralatc
    ∧ 0 ≤ sampleWorld.self.arrowc ∧ 0 ≤ sampleWorld.self.bombc
    ∧ (greedyItems 137 137 = [19, 2, 1, 0, 0])
    ∧ ∃ w1, dropItemsOnDeath sampleEnv sampleWorld = some w1
        ∧ 0 ≤ w1.self.gralatc ∧ 0 ≤ w1.self.arrowc ∧ 0 ≤ w1.self.bombc
        ∧ w1.self.gralatc ≤ 10 := by
  obtain ⟨-, w1, es, g, a, b, h1, -, -, -, h5, -, -, h8, h9, h10, -, -⟩ :=
    death_drop_split sampleEnv sampleWorld 1 rfl (by decide) (by decide) (by decide)
  refine ⟨rfl, by decide, by decide, by decide, by decide, w1, h1, h8, h9, h10, ?_⟩
  rw [h5]
  show (10 : Int) - g ≤ 10
  omega

/-! ## The raw-data announcements of `sendFile` -/

theorem writeGChar_length (v : Int) : (writeGChar v).length = 1 := rfl

theorem writeGInt_length (v : Int) : (writeGInt v).length = 3 := rfl

theorem writeGInt5_length (v : Int) : (writeGInt5 v).length = 5 := rfl

/-- The wire int carries every value up to 3682399. -/
theorem readGUInt_writeGInt (n : Nat) (hn : n ≤ 3682399) :
    (readGUInt (writeGInt (n : Int))).1 = n := by
  unfold writeGInt readGUInt readGInt readChar toU32
  simp only [List.headD_cons, List.tail_cons]
  have h1 : ((n : Int) % 4294967296).toNat = n := by omega
  rw [h1]
  have h2 : min n 3682399 = n := by omega
  rw [h2]
  omega

/-- A raw-data announcement gets its newline. -/
theorem sendPacket_rawdata (p : Nat) (n : Int) :
    sendPacket p (writeGChar PLO_RAWDATA ++ writeGInt n) true
      = [Event.queued p (writeGChar PLO_RAWDATA ++ writeGInt n ++ [10])] := by
  have hw : writeGChar PLO_RAWDATA = [132] := by decide
  rw [hw]
  unfold writeGInt sendPacket
  simp only [List.cons_append, List.nil_append, List.isEmpty_cons, Bool.false_eq_true, if_false,
    List.getLast?_cons_cons, List.getLast?_singleton, Bool.true_and]
  rw [if_pos]
  simp only [bne_iff_ne, ne_eq, Option.some.injEq]
  omega

/-- A packet sent without newline is queued as it is. -/
theorem sendPacket_plain (p : Nat) (pk : Bytes) (h : pk ≠ []) :
    sendPacket p pk false = [Event.queued p pk] := by
  unfold sendPacket
  cases pk with
  | nil => exact absurd rfl h
  | cons a l => simp

theorem filePacket_ne_nil (env : Env) (self : TPlayer) (modTime : Int) (pFile chunk : Bytes) :
    filePacket env self modTime pFile chunk ≠ [] := by
  unfold filePacket writeGChar
  simp

/-- The length of the file packet, as the claim counts it. -/
theorem filePacket_length (env : Env) (self : TPlayer) (modTime : Int) (pFile chunk : Bytes) :
    ((filePacket env self modTime pFile chunk).length : Int)
      = 1 + (if (self.isClient && decide (self.versionID < env.CLVER_2_1)) = true then 0 else 5)
        + 1 + pFile.length + chunk.length
        + (if (self.isClient && decide (self.versionID < env.CLVER_2_1)) = true then 0 else 1) := by
  unfold filePacket
  simp only []
  split <;> simp [writeGChar_length, writeGInt5_length] <;> omega

/-- The sending loop: chunk by chunk an announcement of the length of the file packet and
the file packet. -/
theorem sendFileLoop_chunks (env : Env) (fenv : FileEnv) (self : TPlayer) (pFile : Bytes)
    (modTime packetLength : Int)
    (hpl : packetLength = 8 + (pFile.length : Int)
      - (if (self.isClient && decide (self.versionID < env.CLVER_2_1)) = true then 5 else 0)) :
    ∀ (fuel : Nat) (fileData : Bytes), fileData.length ≤ fuel →
      ∃ chunks : List Bytes,
        sendFileLoop env fenv self pFile modTime packetLength fuel fileData
          = some (chunks.flatMap (announced env self modTime pFile))
        ∧ chunks.flatten = fileData
        ∧ (∀ ch ∈ chunks, ch ≠ [])
        ∧ ((self.isClient && decide (self.versionID < fenv.CLVER_2_14)) = false →
            ∀ ch ∈ chunks, ch.length ≤ 32000)
        ∧ ((self.isClient && decide (self.versionID < fenv.CLVER_2_14)) = true →
            fileData ≠ [] → chunks = [fileData]) := by
  intro fuel
  induction fuel with
  | zero =>
    intro fileData hlen
    have hnil : fileData = [] := List.length_eq_zero.mp (by omega)
    subst hnil
    refine ⟨[], ?_, rfl, ?_, ?_, ?_⟩
    · unfold sendFileLoop
      simp
    · intro ch hch
      exact absurd hch (List.not_mem_nil _)
    · intro _ ch hch
      exact absurd hch (List.not_mem_nil _)
    · intro _ h
      exact absurd rfl h
  | succ n ih =>
    intro fileData hlen
    by_cases hnil : fileData = []
    · subst hnil
      refine ⟨[], ?_, rfl, ?_, ?_, ?_⟩
      · unfold sendFileLoop
        simp
      · intro ch hch
        exact absurd hch (List.not_mem_nil _)
      · intro _ ch hch
        exact absurd hch (List.not_mem_nil _)
      · intro _ h
        exact absurd rfl h
    · have hpos : 0 < fileData.length := List.length_pos.mpr hnil
      have hne : fileData.length ≠ 0 := by omega
      -- the size of the chunk
      obtain ⟨size, hsize, h1, h2, h3, h4⟩ :
          ∃ size : Nat,
            (if (self.isClient && decide (self.versionID < fenv.CLVER_2_14)) = true
              then (fileData.length : Int) else clip 32000 0 (fileData.length : Int))
              = (size : Int)
            ∧ 1 ≤ size ∧ size ≤ fileData.length
            ∧ ((self.isClient && decide (self.versionID < fenv.CLVER_2_14)) = false →
                size ≤ 32000)
            ∧ ((self.isClient && decide (self.versionID < fenv.CLVER_2_14)) = true →
                size = fileData.length) := by
        by_cases hold : (self.isClient && decide (self.versionID < fenv.CLVER_2_14)) = true
        · exact ⟨fileData.length, by rw [if_pos hold], by omega, le_refl _,
            fun h => absurd hold (by rw [h]; simp), fun _ => rfl⟩
        · refine ⟨min 32000 fileData.length, ?_, by omega, by omega, fun _ => by omega,
            fun h => absurd h hold⟩
          rw [if_neg hold]
          unfold clip
          split_ifs <;> omega
      obtain ⟨chunks, hc1, hc2, hc3, hc4, hc5⟩ := ih (fileData.drop size) (by
        rw [List.length_drop]
        omega)
      have htake : (fileData.take size).length = size := by
        rw [List.length_take]
        omega
      refine ⟨fileData.take size :: chunks, ?_, ?_, ?_, ?_, ?_⟩
      · unfold sendFileLoop
        rw [if_pos hne]
        simp only [hsize, Int.toNat_ofNat, hc1, List.flatMap_cons]
        congr 1
        congr 1
        have hlenp := filePacket_length env self modTime pFile (fileData.take size)
        rw [htake] at hlenp
        by_cases holder : (self.isClient && decide (self.versionID < env.CLVER_2_1)) = true
        · simp only [holder, if_true] at hpl hlenp
          have hann : packetLength - 1 + (size : Int)
              = ((filePacket env self modTime pFile (fileData.take size)).length : Int) := by
            rw [hlenp, hpl]
            omega
          have hfp : writeGChar PLO_FILE ++ writeGChar pFile.length ++ pFile ++ fileData.take size
              = filePacket env self modTime pFile (fileData.take size) := by
            unfold filePacket
            simp only [holder, if_true, List.append_nil]
          rw [if_pos holder, sendPacket_rawdata, hann, hfp,
            sendPacket_plain _ _ (filePacket_ne_nil _ _ _ _ _)]
          rfl
        · simp only [holder, Bool.false_eq_true, if_false] at hpl hlenp
          have hann : packetLength + (size : Int)
              = ((filePacket env self modTime pFile (fileData.take size)).length : Int) := by
            rw [hlenp, hpl]
            omega
          have hfp : writeGChar PLO_FILE ++ writeGInt5 modTime ++ writeGChar pFile.length ++ pFile
                ++ fileData.take size ++ str "\n"
              = filePacket env self modTime pFile (fileData.take size) := by
            unfold filePacket
            simp only [holder, Bool.false_eq_true, if_false]
            rfl
          rw [if_neg holder, sendPacket_rawdata, hann, hfp,
            sendPacket_plain _ _ (filePacket_ne_nil _ _ _ _ _)]
          rfl
      · rw [List.flatten_cons, hc2, List.take_append_drop]
      · intro ch hch
        rcases List.mem_cons.mp hch with h | h
        · subst h
          intro he
          rw [he] at htake
          simp at htake
          omega
        · exact hc3 ch h
      · intro hold ch hch
        rcases List.mem_cons.mp hch with h | h
        · subst h
          rw [htake]
          exact h3 hold
        · exact hc4 hold ch h
      · intro hold _
        have hs := h4 hold
        have hd : fileData.drop size = [] := by
          rw [hs]
          exact List.drop_length _
        have hcn : chunks = [] := by
          cases chunks with
          | nil => rfl
          | cons c cs =>
            have hcne := hc3 c (List.mem_cons_self _ _)
            rw [hd] at hc2
            rw [List.flatten_cons] at hc2
            have := List.append_eq_nil.mp hc2
            exact absurd this.1 hcne
        rw [hcn, hs, List.take_length]

/-- C35. The announced raw size matches the file packet. For a file that is there (its
content is not empty) and is accepted (at most 64000 bytes for a client older than 2.14),
with the version constants in the order of their enumeration (2.1 not behind 2.14),
`sendFile(pPath, pFile)` returns true. The content is cut into chunks, none empty, which
concatenate to the content in order, each of at most 32000 bytes unless the session is a
client older than 2.14; what the call queues is, behind the log warning and the
large-file start packets when they apply, per chunk the raw-data announcement of the
length of the file packet and that file packet right behind it, and then the large-file
end packet when it applies. An announced length up to 3682399 is read back exactly. -/
theorem announced_size_matches (env : Env) (fenv : FileEnv) (w : World) (pPath pFile : Bytes)
    (horder : env.CLVER_2_1 ≤ fenv.CLVER_2_14)
    (hfile : (fenv.load (fenv.serverPath ++ pPath ++ pFile)).length ≠ 0)
    (hacc : (w.self.isClient && decide (w.self.versionID < fenv.CLVER_2_14)) = true →
      (fenv.load (fenv.serverPath ++ pPath ++ pFile)).length ≤ 64000) :
    ∃ (chunks : List Bytes) (w1 : World),
      sendFile env fenv w pPath pFile = some (true, w1)
      ∧ chunks.flatten = fenv.load (fenv.serverPath ++ pPath ++ pFile)
      ∧ (∀ ch ∈ chunks, ch ≠ [])
      ∧ ((w.self.isClient && decide (w.self.versionID < fenv.CLVER_2_14)) = false →
          ∀ ch ∈ chunks, ch.length ≤ 32000)
      ∧ w1.out = w.out
          ++ (if (fenv.load (fenv.serverPath ++ pPath ++ pFile)).length > 3145728 then
              [Event.serverlog (str "[" ++ env.serverName
                ++ str "] [WARNING] Sending a large file (over 3MB): " ++ pFile ++ str "\n")]
            else [])
          ++ (if (!(w.self.isClient && decide (w.self.versionID < fenv.CLVER_2_14))
                && decide ((fenv.load (fenv.serverPath ++ pPath ++ pFile)).length > 32000))
                = true then
              sendPacket w.self.ptr (writeGChar PLO_LARGEFILESTART ++ pFile) true
              ++ sendPacket w.self.ptr (writeGChar PLO_LARGEFILESIZE ++ writeGInt5
                  ((fenv.load (fenv.serverPath ++ pPath ++ pFile)).length : Int)) true
            else [])
          ++ chunks.flatMap (announced env w.self
              ((fenv.mtime (fenv.serverPath ++ pPath ++ pFile)).getD 0) pFile)
          ++ (if (!(w.self.isClient && decide (w.self.versionID < fenv.CLVER_2_14))
                && decide ((fenv.load (fenv.serverPath ++ pPath ++ pFile)).length > 32000))
                = true then
              sendPacket w.self.ptr (writeGChar PLO_LARGEFILEEND ++ pFile) true
            else [])
      ∧ (∀ ch ∈ chunks,
          (filePacket env w.self ((fenv.mtime (fenv.serverPath ++ pPath ++ pFile)).getD 0)
              pFile ch).length ≤ 3682399 →
          (readGUInt (writeGInt ((filePacket env w.self
              ((fenv.mtime (fenv.serverPath ++ pPath ++ pFile)).getD 0) pFile ch).length
                : Int))).1
            = (filePacket env w.self ((fenv.mtime (fenv.serverPath ++ pPath ++ pFile)).getD 0)
                pFile ch).length) := by
  have hpl : (1 + 5 + 1 + (pFile.length : Int) + 1
      - (if ((w.self.isClient && decide (w.self.versionID < fenv.CLVER_2_14))
            && decide (w.self.versionID < env.CLVER_2_1)) = true then 5 else 0))
      = 8 + (pFile.length : Int)
        - (if (w.self.isClient && decide (w.self.versionID < env.CLVER_2_1)) = true
            then 5 else 0) := by
    by_cases hc : w.self.isClient = true
    · by_cases hv : w.self.versionID < env.CLVER_2_1
      · have hv2 : w.self.versionID < fenv.CLVER_2_14 := by omega
        simp only [hc, hv, hv2, decide_True, Bool.and_self, if_true]
        omega
      · simp only [hv, decide_False, Bool.and_false, Bool.false_eq_true, if_false]
        omega
    · simp only [Bool.not_eq_true] at hc
      simp only [hc, Bool.false_and, Bool.false_eq_true, if_false]
      omega
  obtain ⟨chunks, hc1, hc2, hc3, hc4, -⟩ := sendFileLoop_chunks env fenv w.self pFile
    ((fenv.mtime (fenv.serverPath ++ pPath ++ pFile)).getD 0) _ hpl
    (fenv.load (fenv.serverPath ++ pPath ++ pFile)).length
    (fenv.load (fenv.serverPath ++ pPath ++ pFile)) (le_refl _)
  have hnotbig : ¬ ((w.self.isClient && decide (w.self.versionID < fenv.CLVER_2_14))
      && decide ((fenv.load (fenv.serverPath ++ pPath ++ pFile)).length > 64000)) = true := by
    intro h
    rw [Bool.and_eq_true] at h
    have := hacc h.1
    have h2 := of_decide_eq_true h.2
    omega
  refine ⟨chunks, ?_⟩
  apply Exists.intro
  constructor
  · unfold sendFile
    simp only [hfile, if_false]
    rw [if_neg hnotbig, hc1]
  refine ⟨hc2, hc3, hc4, ?_, ?_⟩
  · simp only [World.emit]
    split <;> simp only [List.append_assoc, List.append_nil, List.nil_append]
  · intro ch _ hle
    exact readGUInt_writeGInt _ hle

/-- Witness of C35: the sample session (a client from 2.3 on) is sent the sample file
"a.txt" of five bytes: one announcement of the length 18 and the file packet of 18 bytes. -/
theorem announced_size_matches_witness :
    sampleEnv.CLVER_2_1 ≤ sampleFileEnv.CLVER_2_14
    ∧ (sampleFileEnv.load (sampleFileEnv.serverPath ++ str "files/" ++ str "a.txt")).length ≠ 0
    ∧ (sendFile sampleEnv sampleFileEnv sampleWorld (str "files/") (str "a.txt")).map
        (fun r => (r.1, r.2.out))
      = some (true,
          [Event.queued 7 (writeGChar PLO_RAWDATA ++ writeGInt 18 ++ [10]),
            Event.queued 7 (writeGChar PLO_FILE ++ writeGInt5 77 ++ writeGChar 5 ++ str "a.txt"
              ++ str "hello" ++ [10])])
    ∧ (writeGChar PLO_FILE ++ writeGInt5 77 ++ writeGChar 5 ++ str "a.txt" ++ str "hello"
        ++ [10]).length = 18
    ∧ (readGUInt (writeGInt 18)).1 = 18 := by
  obtain ⟨chunks, w1, h1, -, -, -, -, -⟩ :=
    announced_size_matches sampleEnv sampleFileEnv sampleWorld (str "files/") (str "a.txt")
      (by decide) (by decide) (fun _ => by decide)
  exact ⟨by decide, by decide, rfl, rfl, rfl⟩

/-! ## The nickname star -/

theorem take_indexOf (a : Nat) (l : Bytes) :
    l.take (l.indexOf a) = l.takeWhile (fun b => b != a) := by
  induction l with
  | nil => rfl
  | cons x xs ih =>
    rw [List.indexOf_cons, List.takeWhile_cons]
    by_cases h : x = a
    · subst h
      simp
    · have h1 : (x == a) = false := by simpa using h
      have h2 : (x != a) = true := by simpa using h
      rw [h1, h2]
      simp only [cond_false, List.take_succ_cons, ih, if_true]

theorem takeWhile_no_index (a : Nat) (l : Bytes) (h : ¬ l.indexOf a < l.length) :
    l.takeWhile (fun b => b != a) = l := by
  have h1 : l.indexOf a = l.length := by
    have := @List.indexOf_le_length _ _ a l
    omega
  rw [← take_indexOf, h1, List.take_length]

theorem splitNick_nick (s nick0 guild : Bytes) (h : splitNick s = some (nick0, guild)) :
    nick0 = trim (s.takeWhile (fun b => b != 40)) := by
  unfold splitNick findChar at h
  simp only [List.drop_zero, Nat.zero_add] at h
  by_cases hi : s.indexOf 40 < s.length
  · simp only [hi, if_true] at h
    have hne : ¬ ((s.indexOf 40 : Nat) : Int) = -1 := by omega
    simp only [hne, if_false] at h
    split at h
    · exact absurd h (by simp)
    · simp only [Option.some.injEq, Prod.mk.injEq] at h
      rw [← h.1]
      unfold subString
      have hlt : ¬ ((s.indexOf 40 : Nat) : Int) < 0 := by omega
      simp only [hlt, if_false, Int.toNat_zero, List.drop_zero, Int.toNat_ofNat]
      rw [take_indexOf]
  · simp only [hi, if_false, if_true, Option.some.injEq, Prod.mk.injEq] at h
    rw [← h.1, takeWhile_no_index 40 s hi]

theorem cut_take (s : Bytes) :
    (if s.length > 223 then subString s 0 223 else s) = s.take 223 := by
  split
  · rfl
  · rw [List.take_of_length_le (by omega)]

theorem dropWhile_head (p : Nat → Bool) (l : Bytes) (a : Nat)
    (h : (l.dropWhile p).head? = some a) : p a = false := by
  induction l with
  | nil => simp at h
  | cons x xs ih =>
    rw [List.dropWhile_cons] at h
    by_cases hp : p x = true
    · rw [if_pos hp] at h
      exact ih h
    · rw [if_neg hp] at h
      simp only [List.head?_cons, Option.some.injEq] at h
      rw [← h]
      simpa using hp

theorem nickPart_head (s : Bytes) : ∃ a t, nickPart s = a :: t ∧ a ≠ 42 := by
  unfold nickPart
  simp only []
  split
  · exact ⟨117, _, rfl, by decide⟩
  · rename_i hne
    cases hd : List.dropWhile (fun b => b == 42) (trim (List.takeWhile (fun b => b != 40) (List.take 223 s))) with
    | nil => rw [hd] at hne; exact absurd rfl hne
    | cons a t =>
      refine ⟨a, t, rfl, ?_⟩
      have := dropWhile_head (fun b => b == 42) _ a (by rw [hd]; rfl)
      simpa using this

/-- The nickname `setNick` composes: the star for the owner of the account, then the
nick part. -/
theorem newNick_star (s acct : Bytes) :
    (((if nickPart s = acct then str "*" else []) ++ nickPart s).head? = some 42
      ↔ nickPart s = acct) := by
  obtain ⟨a, t, hn, ha⟩ := nickPart_head s
  constructor
  · intro h
    by_contra hne
    rw [if_neg hne, List.nil_append, hn] at h
    simp only [List.head?_cons, Option.some.injEq] at h
    exact ha h
  · intro h
    rw [if_pos h]
    rfl

theorem newNick_guild_star (s acct g : Bytes) :
    ((((if nickPart s = acct then str "*" else []) ++ nickPart s) ++ str " (" ++ g
        ++ str ")").head? = some 42
      ↔ nickPart s = acct) := by
  obtain ⟨a, t, hn, ha⟩ := nickPart_head s
  constructor
  · intro h
    by_contra hne
    rw [if_neg hne, List.nil_append, hn] at h
    simp only [List.cons_append, List.head?_cons, Option.some.injEq] at h
    exact ha h
  · intro h
    rw [if_pos h]
    rfl

theorem splitNick_plain (s : Bytes) (h : 40 ∉ s) : splitNick s = some (trim s, []) := by
  unfold splitNick findChar
  simp only [List.drop_zero, Nat.zero_add]
  have hi : ¬ s.indexOf 40 < s.length := by
    intro hlt
    exact h (List.indexOf_lt_length.mp hlt)
  simp only [hi, if_false, if_true]

/-- Claim C36: for a call `setNick(pNickName, false)` on a session that is not external
and is not an RC naming the guild "RC", every result either leaves the session as it was
(the guild list names another nick for the account) or stores a nickname that starts with
the star exactly when the nick part equals the account name of the session, the stored
text being the nick part behind the optional star, alone or followed by the guild in
parentheses. A submitted nickname without an opening parenthesis always stores such a
nickname. -/
theorem nick_star_owner_only (genv : GuildEnv) (p : TPlayer) (pNickName : Bytes)
    (hext : p.isExternal = false)
    (hrc : p.isRC = false
      ∨ ∀ nick0, splitNick (pNickName.take 223) ≠ some (nick0, str "RC")) :
    (∀ p1 out, setNick genv p pNickName false = some (p1, out) →
      p1 = p ∨
      ((p1.nickName.head? = some 42 ↔ nickPart pNickName = p.accountName) ∧
        ∃ g, p1.nickName = (if nickPart pNickName = p.accountName then str "*" else [])
                ++ nickPart pNickName
          ∨ p1.nickName = (if nickPart pNickName = p.accountName then str "*" else [])
                ++ nickPart pNickName ++ str " (" ++ g ++ str ")"))
    ∧ (40 ∉ pNickName.take 223 →
        setNick genv p pNickName false
          = some ({ p with
              nickName := (if nickPart pNickName = p.accountName then str "*" else [])
                ++ nickPart pNickName, guild := [] }, [])) := by
  constructor
  · intro p1 out h
    unfold setNick at h
    simp only [cut_take] at h
    cases hs : splitNick (pNickName.take 223) with
    | none => rw [hs] at h; exact absurd h (by simp)
    | some ng =>
      obtain ⟨nick0, guild⟩ := ng
      have hn := splitNick_nick _ _ _ hs
      have hnp : (if (nick0.dropWhile (fun b => b == 42)).isEmpty then str "unknown"
          else nick0.dropWhile (fun b => b == 42)) = nickPart pNickName := by
        rw [hn]; rfl
      have hrc2 : (guild == str "RC" && p.isRC) = false := by
        rcases hrc with h1 | h1
        · rw [h1, Bool.and_false]
        · have : guild ≠ str "RC" := fun hg => h1 nick0 (hg ▸ hs)
          have : (guild == str "RC") = false := by simpa using this
          rw [this, Bool.false_and]
      rw [hs] at h
      simp only [Bool.false_or, hrc2, hnp, Bool.false_eq_true, if_false] at h
      generalize hnew : (if nickPart pNickName = p.accountName then str "*" else []) ++ nickPart pNickName = newNick at h
      have hstar : (newNick.head? = some 42 ↔ nickPart pNickName = p.accountName) := by
        rw [← hnew]; exact newNick_star _ _
      have hstar2 : ∀ g, ((newNick ++ str " (" ++ g ++ str ")").head? = some 42
          ↔ nickPart pNickName = p.accountName) := by
        intro g; rw [← hnew]; exact newNick_guild_star _ _ g
      split at h
      · split at h
        · exact absurd h (by simp)
        · rename_i p1q hl
          have hq : p1q.nickName = newNick ++ str " (" ++ guild ++ str ")" := by
            repeat' split at hl
            all_goals simp only [Option.some.injEq, Prod.mk.injEq, reduceCtorEq,
              Bool.true_eq_false, Bool.false_eq_true, false_and] at hl
            all_goals rw [← hl.2]
          simp only [Option.some.injEq, Prod.mk.injEq] at h
          rw [← h.1, hq]
          exact Or.inr ⟨hstar2 guild, guild, Or.inr rfl⟩
        · rename_i p1q hl
          have hq : p1q = p ∨ (p1q.isExternal = false ∧ p1q.nickName = newNick) := by
            repeat' split at hl
            all_goals simp only [Option.some.injEq, Prod.mk.injEq, reduceCtorEq,
              Bool.true_eq_false, Bool.false_eq_true, false_and] at hl
            all_goals first
              | exact Or.inl hl.2.symm
              | (rw [← hl.2]; exact Or.inr ⟨hext, rfl⟩)
          simp only [Option.some.injEq, Prod.mk.injEq] at h
          rw [← h.1]
          rcases hq with hq | ⟨hq1, hq2⟩
          · rw [hq, hext]
            exact Or.inl rfl
          · rw [hq1]
            simp only [Bool.false_eq_true, if_false]
            rw [hq2]
            exact Or.inr ⟨hstar, [], Or.inl rfl⟩
      · simp only [hext, Bool.false_eq_true, if_false, Option.some.injEq, Prod.mk.injEq] at h
        rw [← h.1]
        exact Or.inr ⟨hstar, [], Or.inl rfl⟩
  · intro h40
    have hs := splitNick_plain _ h40
    have hn := splitNick_nick _ _ _ hs
    have hnp : (if ((trim (pNickName.take 223)).dropWhile (fun b => b == 42)).isEmpty
        then str "unknown"
        else (trim (pNickName.take 223)).dropWhile (fun b => b == 42))
          = nickPart pNickName := by
      rw [hn]; rfl
    unfold setNick
    simp only [cut_take]
    rw [hs]
    have hg : ((([] : Bytes) == str "RC") && p.isRC) = false := rfl
    simp only [Bool.false_or, hg, hnp, Bool.false_eq_true, if_false, List.length_nil, ne_eq,
      not_true_eq_false, hext]

/-- Sample evaluation for C36: leading stars do not give the account "acc" owner's star
to the nick "bob", and the owner gets exactly one star. -/
theorem nick_star_owner_only_witness :
    samplePlayer.isExternal = false ∧ samplePlayer.isRC = false
    ∧ setNick sampleGuildEnv samplePlayer (str "**bob") false
        = some ({ samplePlayer with nickName := str "bob", guild := [] }, [])
    ∧ setNick sampleGuildEnv samplePlayer (str " **acc ") false
        = some ({ samplePlayer with nickName := str "*acc", guild := [] }, []) :=
  ⟨rfl, rfl,
   (nick_star_owner_only sampleGuildEnv samplePlayer (str "**bob") rfl (Or.inl rfl)).2
     (by decide),
   (nick_star_owner_only sampleGuildEnv samplePlayer (str " **acc ") rfl (Or.inl rfl)).2
     (by decide)⟩

/-! ## Read-only flags -/

theorem startsWith_iff (m s : Bytes) : startsWith m s = true ↔ m <+: s := by
  induction m generalizing s with
  | nil => simp [startsWith]
  | cons a t ih =>
    cases s with
    | nil => simp [startsWith]
    | cons b bs =>
      simp only [startsWith, Bool.and_eq_true, beq_iff_eq, ih, List.cons_prefix_cons]

theorem hasSub_iff (m s : Bytes) : hasSub m s = true ↔ m <:+: s := by
  induction s with
  | nil =>
    cases m with
    | nil => simp [hasSub]
    | cons a t => simp [hasSub]
  | cons b rest ih =>
    simp only [hasSub, Bool.or_eq_true, startsWith_iff, ih, List.infix_cons_iff]

theorem infix_dropWhile (p : Nat → Bool) (a : Nat) (t s : Bytes) (ha : p a = false)
    (h : (a :: t) <:+: s) : (a :: t) <:+: s.dropWhile p := by
  induction s with
  | nil => exact h
  | cons x xs ih =>
    rw [List.dropWhile_cons]
    by_cases hp : p x = true
    · rw [if_pos hp]
      rcases List.infix_cons_iff.mp h with h1 | h1
      · obtain ⟨r, hr⟩ := h1
        simp only [List.cons_append, List.cons.injEq] at hr
        rw [hr.1, hp] at ha
        exact absurd ha (by decide)
      · exact ih h1
    · rw [if_neg hp]
      exact h

/-- Trimming keeps an occurrence of a text whose first and last bytes are not blanks. -/
theorem infix_trim (m s : Bytes) (a b : Nat) (t u : Bytes) (hm : m = a :: t)
    (hr : m.reverse = b :: u) (ha : isBlank a = false) (hb : isBlank b = false)
    (h : m <:+: s) : m <:+: trim s := by
  unfold trim
  have h1 : m <:+: s.dropWhile isBlank := by
    rw [hm] at h ⊢
    exact infix_dropWhile _ _ _ _ ha h
  have h2 : m.reverse <:+: (s.dropWhile isBlank).reverse := List.reverse_infix.mpr h1
  rw [hr] at h2
  have h3 := infix_dropWhile isBlank b u _ hb h2
  rw [← hr] at h3
  have h4 := List.reverse_infix.mpr h3
  rwa [List.reverse_reverse] at h4

theorem hasSub_trim (m s : Bytes)
    (hm : m = str "this." ∨ m = str "clientr." ∨ m = str "serverr.")
    (h : hasSub m s = true) : hasSub m (trim s) = true := by
  rw [hasSub_iff] at h ⊢
  rcases hm with hm | hm | hm <;> subst hm
  · exact infix_trim _ s 116 46 _ _ rfl rfl rfl rfl h
  · exact infix_trim _ s 99 46 _ _ rfl rfl rfl rfl h
  · exact infix_trim _ s 115 46 _ _ rfl rfl rfl rfl h

theorem cstr_of_no_nul (s : Bytes) (h : 0 ∉ s) : cstr s = s := by
  unfold cstr
  rw [List.takeWhile_eq_self_iff]
  intro x hx
  have : x ≠ 0 := fun h0 => h (h0 ▸ hx)
  simpa using this

theorem trim_subset (s : Bytes) (x : Nat) (h : x ∈ trim s) : x ∈ s := by
  unfold trim at h
  rw [List.mem_reverse] at h
  have h1 := (List.dropWhile_sublist _).subset h
  rw [List.mem_reverse] at h1
  exact (List.dropWhile_sublist _).subset h1

theorem grHack_keeps (env : Env) (fenv : FlagEnv) (n v : Bytes) (st : Flagged)
    (r : Bool × Flagged) (h : grHack env fenv n v st = some r) :
    r.1 = true ∧ r.2.flags = st.flags ∧ r.2.serverFlags = st.serverFlags := by
  unfold grHack at h
  simp only [] at h
  repeat' split at h
  all_goals simp only [Option.some.injEq, reduceCtorEq] at h
  all_goals rw [← h]
  all_goals exact ⟨rfl, rfl, rfl⟩

theorem flagdel_marker (fenv : FlagEnv) (pPacket : Bytes) (st : Flagged) (m : Bytes)
    (hm : m = str "this." ∨ m = str "clientr." ∨ m = str "serverr.")
    (h : hasSub m (flagNameDel pPacket.tail) = true) :
    msgPLI_FLAGDEL fenv pPacket st = (true, st) := by
  unfold msgPLI_FLAGDEL
  simp only []
  rcases hm with hm | hm | hm <;> subst hm
  · rw [if_pos h]
  · rw [if_pos h]
    split <;> rfl
  · rw [if_pos h]
    split
    · rfl
    · split <;> rfl

theorem flagNameDel_eq (pk : Bytes) (h : hasSub (str "=") pk = true) :
    flagNameDel pk = cstr (trim (flagNameSet pk).1) := by
  unfold flagNameDel flagNameSet
  rw [if_pos h, if_pos h]

theorem takeWhile_append_stop (name : Bytes) (d : Nat) (rest : Bytes) (h : d ∉ name) :
    (name ++ d :: rest).takeWhile (fun b => b != d) = name
    ∧ (name ++ d :: rest).dropWhile (fun b => b != d) = d :: rest := by
  induction name with
  | nil => simp
  | cons x xs ih =>
    have hx : (x != d) = true := by
      have : x ≠ d := fun e => h (e ▸ List.mem_cons_self _ _)
      simpa using this
    have := ih (fun hmem => h (List.mem_cons_of_mem _ hmem))
    simp only [List.cons_append, List.takeWhile_cons, List.dropWhile_cons, hx, if_true,
      this, and_self]

theorem flagset_delegates (env : Env) (fenv : FlagEnv) (pPacket : Bytes) (st : Flagged)
    (he : hasSub (str "=") pPacket.tail = true) (hv : (flagNameSet pPacket.tail).2 = []) :
    msgPLI_FLAGSET env fenv pPacket st = msgPLI_FLAGDEL fenv pPacket st := by
  unfold msgPLI_FLAGSET
  simp only []
  rw [if_pos ⟨he, by rw [hv]; rfl⟩]

theorem flagset_marker (env : Env) (fenv : FlagEnv) (pPacket : Bytes) (st : Flagged)
    (m : Bytes) (hm : m = str "this." ∨ m = str "clientr." ∨ m = str "serverr.")
    (hd : ¬ (hasSub (str "=") pPacket.tail = true
      ∧ (flagNameSet pPacket.tail).2.isEmpty = true))
    (h : hasSub m (flagNameSet pPacket.tail).1 = true) :
    (msgPLI_FLAGSET env fenv pPacket st).1 = true
      ∧ (msgPLI_FLAGSET env fenv pPacket st).2.flags = st.flags
      ∧ (msgPLI_FLAGSET env fenv pPacket st).2.serverFlags = st.serverFlags := by
  unfold msgPLI_FLAGSET
  simp only []
  rw [if_neg hd]
  split
  · rename_i r hr
    exact grHack_keeps _ _ _ _ _ _ hr
  · rcases hm with hm | hm | hm <;> subst hm <;> repeat' split
    all_goals exact ⟨rfl, rfl, rfl⟩

theorem flagNameSet_sub (pk : Bytes) (x : Nat) (h : x ∈ (flagNameSet pk).1) : x ∈ pk := by
  unfold flagNameSet at h
  split at h
  · exact (List.takeWhile_sublist _).subset h
  · exact h

theorem flagNames_of_name (name : Bytes) (h61 : 61 ∉ name) (h0 : 0 ∉ name) :
    hasSub (str "=") (name ++ str "=") = true
    ∧ flagNameSet (name ++ str "=") = (name, [])
    ∧ flagNameDel (name ++ str "=") = trim name
    ∧ flagNameDel name = name := by
  have he : hasSub (str "=") (name ++ str "=") = true := by
    rw [hasSub_iff]
    exact ⟨name, [], by simp⟩
  have hne : ¬ hasSub (str "=") name = true := by
    rw [hasSub_iff]
    rintro ⟨a, b, hab⟩
    apply h61
    rw [← hab]
    simp [str]
  have htw := takeWhile_append_stop name 61 [] h61
  have hset : flagNameSet (name ++ str "=") = (name, []) := by
    unfold flagNameSet
    rw [if_pos he]
    show (((name ++ 61 :: []).takeWhile (fun b => b != 61)),
      (readString [] (readString (str "=") (name ++ 61 :: [])).2).1) = (name, [])
    rw [htw.1]
    show (name, ((name ++ 61 :: []).dropWhile (fun b => b != 61)).tail) = (name, [])
    rw [htw.2]
    rfl
  refine ⟨he, hset, ?_, ?_⟩
  · rw [flagNameDel_eq _ he, hset]
    exact cstr_of_no_nul _ (fun hm => h0 (trim_subset _ _ hm))
  · unfold flagNameDel
    rw [if_neg hne]
    exact cstr_of_no_nul _ h0

/-- C37 (as stated, evaluated). With the flag "a" in the table of the account: the
flag-set packet " a=" deletes the flag "a", while the flag-delete packet " a" names the
flag " a" and leaves the table as it was; and the flag-set packet whose text in front of
the "=" is "a", a NUL byte and "this." deletes the flag "a", although that text contains
"this.". -/
theorem flagset_handover_name :
    (msgPLI_FLAGSET sampleEnv sampleFlagEnv (50 :: str " a=") sampleFlagged).2.flags = []
    ∧ (msgPLI_FLAGDEL sampleFlagEnv (51 :: str " a") sampleFlagged).2.flags
        = [(str "a", str "1")]
    ∧ flagNameDel (str " a=") = str "a" ∧ flagNameDel (str " a") = str " a"
    ∧ hasSub (str "this.") (flagNameSet (str "a" ++ 0 :: str "this.=")).1 = true
    ∧ flagNameDel (str "a" ++ 0 :: str "this.=") = str "a"
    ∧ (msgPLI_FLAGSET sampleEnv sampleFlagEnv (50 :: (str "a" ++ 0 :: str "this.="))
        sampleFlagged).2.flags = [] := by
  refine ⟨?_, ?_, ?_, ?_, ?_, ?_, ?_⟩ <;> rfl

/-- C37 (amended). For each of the markers "this.", "clientr." and "serverr.": a
flag-delete packet whose flag name, as `msgPLI_FLAGDEL` takes it (the text in front of
the "=" without the blanks at its two ends, or the whole text without a "=", up to the
first NUL byte), contains the marker is answered with true and changes nothing. A
flag-set packet that is not handed over (no "=", or a value that is not empty) and whose
flag name (the text in front of the "=", or the whole text without one) contains the
marker is answered with true and leaves the flag table of the session and the flag table
of the server as they were. A
flag-set packet with "=" and an empty value is handled as `msgPLI_FLAGDEL` handles the
same packet, so it changes nothing when the name `msgPLI_FLAGDEL` takes contains the
marker; for a packet without a NUL byte that is so whenever the text in front of the "="
contains the marker. For a name without "=" and NUL the flag such a packet deletes is the
name without the blanks at its two ends, while the flag-delete packet of the bare name
takes the name as it is, so the two agree when the name has no blanks at its ends. -/
theorem readonly_flags_kept (env : Env) (fenv : FlagEnv) (pPacket : Bytes) (st : Flagged)
    (m : Bytes) (hm : m = str "this." ∨ m = str "clientr." ∨ m = str "serverr.") :
    (hasSub m (flagNameDel pPacket.tail) = true →
      msgPLI_FLAGDEL fenv pPacket st = (true, st))
    ∧ (¬ (hasSub (str "=") pPacket.tail = true ∧ (flagNameSet pPacket.tail).2 = []) →
        hasSub m (flagNameSet pPacket.tail).1 = true →
        (msgPLI_FLAGSET env fenv pPacket st).1 = true
        ∧ (msgPLI_FLAGSET env fenv pPacket st).2.flags = st.flags
        ∧ (msgPLI_FLAGSET env fenv pPacket st).2.serverFlags = st.serverFlags)
    ∧ (hasSub (str "=") pPacket.tail = true → (flagNameSet pPacket.tail).2 = [] →
        msgPLI_FLAGSET env fenv pPacket st = msgPLI_FLAGDEL fenv pPacket st
        ∧ (hasSub m (flagNameDel pPacket.tail) = true →
            msgPLI_FLAGSET env fenv pPacket st = (true, st))
        ∧ (0 ∉ pPacket.tail → hasSub m (flagNameSet pPacket.tail).1 = true →
            msgPLI_FLAGSET env fenv pPacket st = (true, st)))
    ∧ (∀ (op op2 : Nat) (name : Bytes), 61 ∉ name → 0 ∉ name →
        flagNameSet (name ++ str "=") = (name, [])
        ∧ flagNameDel (name ++ str "=") = trim name
        ∧ flagNameDel name = name
        ∧ msgPLI_FLAGSET env fenv (op :: (name ++ str "=")) st
            = msgPLI_FLAGDEL fenv (op2 :: (name ++ str "=")) st
        ∧ (trim name = name →
            msgPLI_FLAGSET env fenv (op :: (name ++ str "=")) st
              = msgPLI_FLAGDEL fenv (op2 :: name) st)) := by
  refine ⟨flagdel_marker fenv pPacket st m hm, ?_, ?_, ?_⟩
  · intro hd h
    apply flagset_marker env fenv pPacket st m hm _ h
    intro hc
    exact hd ⟨hc.1, by simpa using hc.2⟩
  · intro he hv
    have hdeleg := flagset_delegates env fenv pPacket st he hv
    refine ⟨hdeleg, ?_, ?_⟩
    · intro hdel
      rw [hdeleg]
      exact flagdel_marker fenv pPacket st m hm hdel
    · intro h0 h
      have hn0 : 0 ∉ trim (flagNameSet pPacket.tail).1 :=
        fun hmem => h0 (flagNameSet_sub _ _ (trim_subset _ _ hmem))
      have hdel : hasSub m (flagNameDel pPacket.tail) = true := by
        rw [flagNameDel_eq _ he, cstr_of_no_nul _ hn0]
        exact hasSub_trim m _ hm h
      rw [hdeleg]
      exact flagdel_marker fenv pPacket st m hm hdel
  · intro op op2 name h61 h0
    obtain ⟨he, hset, hdel, hbare⟩ := flagNames_of_name name h61 h0
    have hdeleg : msgPLI_FLAGSET env fenv (op :: (name ++ str "=")) st
        = msgPLI_FLAGDEL fenv (op2 :: (name ++ str "=")) st := by
      rw [flagset_delegates env fenv (op :: (name ++ str "=")) st he (by
        show (flagNameSet (name ++ str "=")).2 = []
        rw [hset])]
      rfl
    refine ⟨hset, hdel, hbare, hdeleg, ?_⟩
    intro ht
    rw [hdeleg]
    unfold msgPLI_FLAGDEL
    simp only [List.tail_cons]
    rw [hdel, hbare, ht]

/-- Sample evaluation for C37: the flag-delete packet "this.x" and the flag-set packet
"this.x=1" change nothing, the flag-set packet "this.x=" changes nothing either, and the
flag-set packet "a=" deletes the flag "a" as the flag-delete packet "a" does. -/
theorem readonly_flags_kept_witness :
    msgPLI_FLAGDEL sampleFlagEnv (51 :: str "this.x") sampleFlagged = (true, sampleFlagged)
    ∧ (msgPLI_FLAGSET sampleEnv sampleFlagEnv (50 :: str "this.x=1") sampleFlagged).2.flags
        = [(str "a", str "1")]
    ∧ msgPLI_FLAGSET sampleEnv sampleFlagEnv (50 :: str "this.x=") sampleFlagged
        = (true, sampleFlagged)
    ∧ msgPLI_FLAGSET sampleEnv sampleFlagEnv (50 :: str "a=") sampleFlagged
        = msgPLI_FLAGDEL sampleFlagEnv (51 :: str "a") sampleFlagged
    ∧ (msgPLI_FLAGDEL sampleFlagEnv (51 :: str "a") sampleFlagged).2.flags = [] :=
  ⟨(readonly_flags_kept sampleEnv sampleFlagEnv (51 :: str "this.x") sampleFlagged
      (str "this.") (Or.inl rfl)).1 rfl,
   ((readonly_flags_kept sampleEnv sampleFlagEnv (50 :: str "this.x=1") sampleFlagged
      (str "this.") (Or.inl rfl)).2.1 (by decide) rfl).2.1,
   ((readonly_flags_kept sampleEnv sampleFlagEnv (50 :: str "this.x=") sampleFlagged
      (str "this.") (Or.inl rfl)).2.2.1 rfl rfl).2.2 (by decide) rfl,
   ((readonly_flags_kept sampleEnv sampleFlagEnv [] sampleFlagged
      (str "this.") (Or.inl rfl)).2.2.2 50 51 (str "a") (by decide) (by decide)).2.2.2.2 rfl,
   rfl⟩

end GServer
